import Mathlib

/-! # secp256k1 `modinv64`: a shallow embedding of `src/secp256k1/src/modinv64_impl.h`

Machine words are modelled by `Nat` (unsigned, reduced modulo `2^64`) and `Int`
(signed, wrapped into the two's-complement range after every operation).
Every C statement of the source becomes one `let` of the corresponding Lean
definition, in the order of the source.

The constant-time driver and the four functions it calls are embedded a second time as
program terms with a semantics that records branches and array indices (section "A deep
embedding of the constant-time driver, with leakage"); the two embeddings are proved to
compute the same result.
-/

namespace Modinv64

/-! ## Machine arithmetic -/

/-- The C conversion `(uint64_t)x` of a signed value. -/
def toU64 (x : Int) : Nat := (x % 18446744073709551616).toNat

/-- The C conversion `(int64_t)w` of an unsigned word (two's complement). -/
def toI64 (w : Nat) : Int :=
  if w % 18446744073709551616 < 9223372036854775808 then ((w % 18446744073709551616 : Nat) : Int)
  else ((w % 18446744073709551616 : Nat) : Int) - 18446744073709551616

/-- Wrap a mathematical integer into the range of `int64_t`. -/
def wrapI64 (x : Int) : Int := toI64 (toU64 x)

/-- Wrap a mathematical integer into the range of `int128_t`. -/
def wrapI128 (x : Int) : Int :=
  (x + 170141183460469231731687303715884105728) % 340282366920938463463374607431768211456
    - 170141183460469231731687303715884105728

/-- Wrap a mathematical integer into the range of `int` (32 bits). -/
def wrapI32 (x : Int) : Int := (x + 2147483648) % 4294967296 - 2147483648

/-- Unsigned 64-bit addition. -/
def add64 (a b : Nat) : Nat := (a + b) % 18446744073709551616

/-- Unsigned 64-bit subtraction. -/
def sub64 (a b : Nat) : Nat :=
  (a % 18446744073709551616 + (18446744073709551616 - b % 18446744073709551616)) % 18446744073709551616

/-- Unsigned 64-bit negation. -/
def neg64 (a : Nat) : Nat := (18446744073709551616 - a % 18446744073709551616) % 18446744073709551616

/-- Unsigned 64-bit multiplication. -/
def mul64 (a b : Nat) : Nat := (a * b) % 18446744073709551616

/-- Unsigned 64-bit left shift. -/
def shl64 (a k : Nat) : Nat := (a <<< k) % 18446744073709551616

/-- Signed 64-bit addition. -/
def addI64 (a b : Int) : Int := wrapI64 (a + b)

/-- Signed 64-bit subtraction. -/
def subI64 (a b : Int) : Int := wrapI64 (a - b)

/-- Signed 64-bit bitwise and. -/
def andI64 (a b : Int) : Int := toI64 (toU64 a &&& toU64 b)

/-- Signed 64-bit bitwise exclusive or. -/
def xorI64 (a b : Int) : Int := toI64 (toU64 a ^^^ toU64 b)

/-- Signed 64-bit bitwise or. -/
def orI64 (a b : Int) : Int := toI64 (toU64 a ||| toU64 b)

/-- The C expression `x >> k` on a signed value: the sign-extending right shift. -/
def sar (x : Int) (k : Nat) : Int := Int.shiftRight x k

/-- The constant `M62 = (int64_t)(UINT64_MAX >> 2)`. -/
def M62 : Int := 4611686018427387903

/-- The constant `UINT64_MAX`. -/
def UINT64_MAX : Nat := 18446744073709551615

/-! ## Data model -/

/-- The type `secp256k1_modinv64_signed62`: five signed limbs, little endian. -/
structure Signed62 where
  v0 : Int
  v1 : Int
  v2 : Int
  v3 : Int
  v4 : Int
deriving DecidableEq, Repr

/-- The integer a `Signed62` stands for: the sum of `v[i] * 2^(62*i)`. -/
def Signed62.value (a : Signed62) : Int :=
  a.v0 + a.v1 * 4611686018427387904 + a.v2 * 21267647932558653966460912964485513216
    + a.v3 * 98079714615416886934934209737619787751599303819750539264
    + a.v4 * 452312848583266388373324160190187140051835877600158453279131187530910662656

/-- The type `secp256k1_modinv64_modinfo`. -/
structure ModInfo where
  modulus : Signed62
  modulus_inv62 : Nat
deriving DecidableEq, Repr

/-- The type `secp256k1_modinv64_trans2x2`. -/
structure Trans2x2 where
  u : Int
  v : Int
  q : Int
  r : Int
deriving DecidableEq, Repr

/-! ## `secp256k1_modinv64_normalize_62` -/

/-- The function `secp256k1_modinv64_normalize_62` (release build). -/
def secp256k1_modinv64_normalize_62 (r : Signed62) (sign : Int) (modinfo : ModInfo) : Signed62 :=
  let r0 := r.v0
  let r1 := r.v1
  let r2 := r.v2
  let r3 := r.v3
  let r4 := r.v4
  let cond_add := sar r4 63
  let r0 := addI64 r0 (andI64 modinfo.modulus.v0 cond_add)
  let r1 := addI64 r1 (andI64 modinfo.modulus.v1 cond_add)
  let r2 := addI64 r2 (andI64 modinfo.modulus.v2 cond_add)
  let r3 := addI64 r3 (andI64 modinfo.modulus.v3 cond_add)
  let r4 := addI64 r4 (andI64 modinfo.modulus.v4 cond_add)
  let cond_negate := sar sign 63
  let r0 := subI64 (xorI64 r0 cond_negate) cond_negate
  let r1 := subI64 (xorI64 r1 cond_negate) cond_negate
  let r2 := subI64 (xorI64 r2 cond_negate) cond_negate
  let r3 := subI64 (xorI64 r3 cond_negate) cond_negate
  let r4 := subI64 (xorI64 r4 cond_negate) cond_negate
  let r1 := addI64 r1 (sar r0 62)
  let r0 := andI64 r0 M62
  let r2 := addI64 r2 (sar r1 62)
  let r1 := andI64 r1 M62
  let r3 := addI64 r3 (sar r2 62)
  let r2 := andI64 r2 M62
  let r4 := addI64 r4 (sar r3 62)
  let r3 := andI64 r3 M62
  let cond_add := sar r4 63
  let r0 := addI64 r0 (andI64 modinfo.modulus.v0 cond_add)
  let r1 := addI64 r1 (andI64 modinfo.modulus.v1 cond_add)
  let r2 := addI64 r2 (andI64 modinfo.modulus.v2 cond_add)
  let r3 := addI64 r3 (andI64 modinfo.modulus.v3 cond_add)
  let r4 := addI64 r4 (andI64 modinfo.modulus.v4 cond_add)
  let r1 := addI64 r1 (sar r0 62)
  let r0 := andI64 r0 M62
  let r2 := addI64 r2 (sar r1 62)
  let r1 := andI64 r1 M62
  let r3 := addI64 r3 (sar r2 62)
  let r2 := andI64 r2 M62
  let r4 := addI64 r4 (sar r3 62)
  let r3 := andI64 r3 M62
  { v0 := r0, v1 := r1, v2 := r2, v3 := r3, v4 := r4 }

/-! ## `secp256k1_modinv64_divsteps_62` -/

/-- The local variables of the divsteps loops that live across iterations. -/
structure DivState where
  eta : Int
  f : Nat
  g : Nat
  u : Nat
  v : Nat
  q : Nat
  r : Nat
deriving DecidableEq, Repr

/-- One pass of the `for` loop of `secp256k1_modinv64_divsteps_62` (release build). -/
def divsteps_62_body (s : DivState) : DivState :=
  let c1 := toU64 (sar s.eta 63)
  let c2 := neg64 (s.g &&& 1)
  let x := sub64 (s.f ^^^ c1) c1
  let y := sub64 (s.u ^^^ c1) c1
  let z := sub64 (s.v ^^^ c1) c1
  let g := add64 s.g (x &&& c2)
  let q := add64 s.q (y &&& c2)
  let r := add64 s.r (z &&& c2)
  let c1 := c1 &&& c2
  let eta := toI64 (sub64 (toU64 s.eta ^^^ c1) (add64 c1 1))
  let f := add64 s.f (g &&& c1)
  let u := add64 s.u (q &&& c1)
  let v := add64 s.v (r &&& c1)
  let g := g >>> 1
  let u := shl64 u 1
  let v := shl64 v 1
  { eta := eta, f := f, g := g, u := u, v := v, q := q, r := r }

/-- The loop `for (i = 0; i < 62; ++i)` run for `n` passes. -/
def divsteps_62_loop : Nat → DivState → DivState
  | 0, s => s
  | n + 1, s => divsteps_62_loop n (divsteps_62_body s)

/-- The initial values `u = 1, v = 0, q = 0, r = 1, f = f0, g = g0`. -/
def divsteps_init (eta : Int) (f0 g0 : Nat) : DivState :=
  { eta := eta, f := f0, g := g0, u := 1, v := 0, q := 0, r := 1 }

/-- The matrix written to `t` on return: the four accumulators cast to `int64_t`. -/
def DivState.trans (s : DivState) : Trans2x2 :=
  { u := toI64 s.u, v := toI64 s.v, q := toI64 s.q, r := toI64 s.r }

/-- The function `secp256k1_modinv64_divsteps_62`: the returned eta and the matrix `t`. -/
def secp256k1_modinv64_divsteps_62 (eta : Int) (f0 g0 : Nat) : Int × Trans2x2 :=
  let s := divsteps_62_loop 62 (divsteps_init eta f0 g0)
  (s.eta, s.trans)

/-! ## `secp256k1_modinv64_divsteps_62_var` -/

/-- Count of trailing zero bits among the lowest `n` bits of `x` (`n` when they are all zero). -/
def ctz_go : Nat → Nat → Nat
  | 0, _ => 0
  | n + 1, x => if x % 2 = 1 then 0 else ctz_go n (x / 2) + 1

/-- Modelled from the spec: `secp256k1_ctz64_var` is declared in `util.h`, which is not among
the sources; the spec calls it a count-trailing-zeros primitive on a 64-bit word, used on a
nonzero argument. -/
def secp256k1_ctz64_var (x : Nat) : Nat := ctz_go 64 (x % 18446744073709551616)

/-- The loop state of `secp256k1_modinv64_divsteps_62_var`: the remaining step count `i`
together with the word variables. -/
structure VarState where
  i : Int
  s : DivState
deriving DecidableEq, Repr

/-- The first half of a pass of the `for (;;)` loop: the statements before `if (i == 0) break`. -/
def divsteps_62_var_shift (st : VarState) : VarState :=
  let zeros : Int := secp256k1_ctz64_var (st.s.g ||| shl64 UINT64_MAX st.i.toNat)
  let g := st.s.g >>> zeros.toNat
  let u := shl64 st.s.u zeros.toNat
  let v := shl64 st.s.v zeros.toNat
  let eta := subI64 st.s.eta zeros
  let i := wrapI32 (st.i - zeros)
  { i := i, s := { eta := eta, f := st.s.f, g := g, u := u, v := v, q := st.s.q, r := st.s.r } }

/-- The second half of a pass of the `for (;;)` loop: the statements after the `break`. -/
def divsteps_62_var_cancel (st : VarState) : VarState :=
  let i := st.i
  let s := st.s
  if s.eta < 0 then
    let eta := subI64 0 s.eta
    let tmp := s.f
    let f := s.g
    let g := neg64 tmp
    let tmp := s.u
    let u := s.q
    let q := neg64 tmp
    let tmp := s.v
    let v := s.r
    let r := neg64 tmp
    let limit := if wrapI32 (wrapI32 eta + 1) > i then i else wrapI32 (wrapI32 eta + 1)
    let m := (UINT64_MAX >>> (64 - limit).toNat) &&& 63
    let w := (mul64 (mul64 f g) (sub64 (mul64 f f) 2) &&& m) % 4294967296
    let g := add64 g (mul64 f w)
    let q := add64 q (mul64 u w)
    let r := add64 r (mul64 v w)
    { i := i, s := { eta := eta, f := f, g := g, u := u, v := v, q := q, r := r } }
  else
    let eta := s.eta
    let limit := if wrapI32 (wrapI32 eta + 1) > i then i else wrapI32 (wrapI32 eta + 1)
    let m := (UINT64_MAX >>> (64 - limit).toNat) &&& 15
    let w := (add64 s.f (shl64 (add64 s.f 1 &&& 4) 1)) % 4294967296
    let w := (mul64 ((4294967296 - w) % 4294967296) s.g &&& m) % 4294967296
    let g := add64 s.g (mul64 s.f w)
    let q := add64 s.q (mul64 s.u w)
    let r := add64 s.r (mul64 s.v w)
    { i := i, s := { eta := eta, f := s.f, g := g, u := s.u, v := s.v, q := q, r := r } }

/-- The loop `for (;;)` of `secp256k1_modinv64_divsteps_62_var`, with a bound on the number
of passes; `none` when the bound is reached before the `break`. -/
def divsteps_62_var_loop : Nat → VarState → Option VarState
  | 0, _ => none
  | n + 1, st =>
    let st := divsteps_62_var_shift st
    if st.i = 0 then some st else divsteps_62_var_loop n (divsteps_62_var_cancel st)

/-- The function `secp256k1_modinv64_divsteps_62_var`: the returned eta and the matrix `t`,
for a given bound on the number of loop passes. -/
def secp256k1_modinv64_divsteps_62_var (fuel : Nat) (eta : Int) (f0 g0 : Nat) :
    Option (Int × Trans2x2) :=
  match divsteps_62_var_loop fuel { i := 62, s := divsteps_init eta f0 g0 } with
  | none => none
  | some st => some (st.s.eta, st.s.trans)

/-! ## `secp256k1_modinv64_update_de_62` -/

/-- One accumulator column of `secp256k1_modinv64_update_de_62`: the statements that
compute `md` and `cd` and the five output limbs of `d` from the row `(u, v)` of the matrix;
the same statements with `(q, r)` compute `me`, `ce` and `e`. -/
def update_de_62_row (u v : Int) (d e : Signed62) (modinfo : ModInfo) : Signed62 :=
  let sd := sar d.v4 63
  let se := sar e.v4 63
  let md := addI64 (andI64 u sd) (andI64 v se)
  let cd := wrapI128 (wrapI128 (u * d.v0) + wrapI128 (v * e.v0))
  let md := toI64 (sub64 (toU64 md)
    (add64 (mul64 modinfo.modulus_inv62 (toU64 cd)) (toU64 md) &&& toU64 M62))
  let cd := wrapI128 (cd + wrapI128 (modinfo.modulus.v0 * md))
  let cd := sar cd 62
  let cd := wrapI128 (cd + wrapI128 (wrapI128 (u * d.v1) + wrapI128 (v * e.v1)))
  let cd := if modinfo.modulus.v1 ≠ 0 then wrapI128 (cd + wrapI128 (modinfo.modulus.v1 * md)) else cd
  let o0 := andI64 (wrapI64 cd) M62
  let cd := sar cd 62
  let cd := wrapI128 (cd + wrapI128 (wrapI128 (u * d.v2) + wrapI128 (v * e.v2)))
  let cd := if modinfo.modulus.v2 ≠ 0 then wrapI128 (cd + wrapI128 (modinfo.modulus.v2 * md)) else cd
  let o1 := andI64 (wrapI64 cd) M62
  let cd := sar cd 62
  let cd := wrapI128 (cd + wrapI128 (wrapI128 (u * d.v3) + wrapI128 (v * e.v3)))
  let cd := if modinfo.modulus.v3 ≠ 0 then wrapI128 (cd + wrapI128 (modinfo.modulus.v3 * md)) else cd
  let o2 := andI64 (wrapI64 cd) M62
  let cd := sar cd 62
  let cd := wrapI128 (cd + wrapI128 (wrapI128 (u * d.v4) + wrapI128 (v * e.v4)))
  let cd := wrapI128 (cd + wrapI128 (modinfo.modulus.v4 * md))
  let o3 := andI64 (wrapI64 cd) M62
  let cd := sar cd 62
  { v0 := o0, v1 := o1, v2 := o2, v3 := o3, v4 := wrapI64 cd }

/-- The function `secp256k1_modinv64_update_de_62` (release build): the new `d` and `e`. -/
def secp256k1_modinv64_update_de_62 (d e : Signed62) (t : Trans2x2) (modinfo : ModInfo) :
    Signed62 × Signed62 :=
  (update_de_62_row t.u t.v d e modinfo, update_de_62_row t.q t.r d e modinfo)

/-! ## `secp256k1_modinv64_update_fg_62` -/

/-- One accumulator column of `secp256k1_modinv64_update_fg_62`: the statements that compute
`cf` and the five output limbs of `f` from the row `(u, v)`; with `(q, r)` they compute `g`. -/
def update_fg_62_row (u v : Int) (f g : Signed62) : Signed62 :=
  let cf := wrapI128 (wrapI128 (u * f.v0) + wrapI128 (v * g.v0))
  let cf := sar cf 62
  let cf := wrapI128 (cf + wrapI128 (wrapI128 (u * f.v1) + wrapI128 (v * g.v1)))
  let o0 := andI64 (wrapI64 cf) M62
  let cf := sar cf 62
  let cf := wrapI128 (cf + wrapI128 (wrapI128 (u * f.v2) + wrapI128 (v * g.v2)))
  let o1 := andI64 (wrapI64 cf) M62
  let cf := sar cf 62
  let cf := wrapI128 (cf + wrapI128 (wrapI128 (u * f.v3) + wrapI128 (v * g.v3)))
  let o2 := andI64 (wrapI64 cf) M62
  let cf := sar cf 62
  let cf := wrapI128 (cf + wrapI128 (wrapI128 (u * f.v4) + wrapI128 (v * g.v4)))
  let o3 := andI64 (wrapI64 cf) M62
  let cf := sar cf 62
  { v0 := o0, v1 := o1, v2 := o2, v3 := o3, v4 := wrapI64 cf }

/-- The function `secp256k1_modinv64_update_fg_62`: the new `f` and `g`. -/
def secp256k1_modinv64_update_fg_62 (f g : Signed62) (t : Trans2x2) : Signed62 × Signed62 :=
  (update_fg_62_row t.u t.v f g, update_fg_62_row t.q t.r f g)

/-! ## The drivers `secp256k1_modinv64` and `secp256k1_modinv64_var` -/

/-- The variables `d, e, f, g, eta` of the two drivers. -/
structure InvState where
  d : Signed62
  e : Signed62
  f : Signed62
  g : Signed62
  eta : Int
deriving DecidableEq, Repr

/-- The initial values `d = 0, e = 1, f = modulus, g = x, eta = -1`. -/
def modinv_init (x : Signed62) (modinfo : ModInfo) : InvState :=
  { d := { v0 := 0, v1 := 0, v2 := 0, v3 := 0, v4 := 0 },
    e := { v0 := 1, v1 := 0, v2 := 0, v3 := 0, v4 := 0 },
    f := modinfo.modulus, g := x, eta := -1 }

/-- One pass of the `for` loop of `secp256k1_modinv64` (release build). -/
def modinv_body (modinfo : ModInfo) (s : InvState) : InvState :=
  let r := secp256k1_modinv64_divsteps_62 s.eta (toU64 s.f.v0) (toU64 s.g.v0)
  let de := secp256k1_modinv64_update_de_62 s.d s.e r.2 modinfo
  let fg := secp256k1_modinv64_update_fg_62 s.f s.g r.2
  { d := de.1, e := de.2, f := fg.1, g := fg.2, eta := r.1 }

/-- The loop `for (i = 0; i < 12; ++i)` run for `n` passes. -/
def modinv_loop (modinfo : ModInfo) : Nat → InvState → InvState
  | 0, s => s
  | n + 1, s => modinv_loop modinfo n (modinv_body modinfo s)

/-- The function `secp256k1_modinv64` (release build): the value written back to `x`. -/
def secp256k1_modinv64 (x : Signed62) (modinfo : ModInfo) : Signed62 :=
  let s := modinv_loop modinfo 12 (modinv_init x modinfo)
  secp256k1_modinv64_normalize_62 s.d s.f.v4 modinfo

/-- The test `g.v[0] == 0` followed by `cond |= g.v[j]` for `j = 1..4` and `cond == 0`. -/
def modinv_var_done (g : Signed62) : Bool :=
  if g.v0 = 0 then
    let cond := 0
    let cond := orI64 cond g.v1
    let cond := orI64 cond g.v2
    let cond := orI64 cond g.v3
    let cond := orI64 cond g.v4
    decide (cond = 0)
  else false

/-- The loop `while (1)` of `secp256k1_modinv64_var` (release build), with a bound `n` on
the number of passes and a bound `k` on the passes of each inner divsteps loop; `none` when a
bound is reached before the `break`. -/
def modinv_var_loop (modinfo : ModInfo) (k : Nat) : Nat → InvState → Option InvState
  | 0, _ => none
  | n + 1, s =>
    match secp256k1_modinv64_divsteps_62_var k s.eta (toU64 s.f.v0) (toU64 s.g.v0) with
    | none => none
    | some r =>
      let de := secp256k1_modinv64_update_de_62 s.d s.e r.2 modinfo
      let fg := secp256k1_modinv64_update_fg_62 s.f s.g r.2
      let s := { d := de.1, e := de.2, f := fg.1, g := fg.2, eta := r.1 : InvState }
      if modinv_var_done s.g then some s else modinv_var_loop modinfo k n s

/-- The function `secp256k1_modinv64_var` (release build): the value written back to `x`,
for given bounds on the passes of its loops. -/
def secp256k1_modinv64_var (n k : Nat) (x : Signed62) (modinfo : ModInfo) : Option Signed62 :=
  match modinv_var_loop modinfo k n (modinv_init x modinfo) with
  | none => none
  | some s => some (secp256k1_modinv64_normalize_62 s.d s.f.v4 modinfo)

/-! ## Auxiliary notions for the proofs -/

/-- The word invariant of the divsteps loops: every word variable is below `2^64`. -/
structure DivState.WF (s : DivState) : Prop where
  f : s.f < 18446744073709551616
  g : s.g < 18446744073709551616
  u : s.u < 18446744073709551616
  v : s.v < 18446744073709551616
  q : s.q < 18446744073709551616
  r : s.r < 18446744073709551616

/-- One divstep on `(eta, F, G)`, in the words of the specification: if `eta < 0` and `G` is
odd then `(-eta - 1, G, (G - F)/2)`, else if `G` is odd then `(eta - 1, F, (G + F)/2)`, else
`(eta - 1, F, G/2)`. -/
def divstep (s : Int × Int × Int) : Int × Int × Int :=
  if s.1 < 0 ∧ s.2.2 % 2 = 1 then (-s.1 - 1, s.2.2, (s.2.2 - s.2.1) / 2)
  else if s.2.2 % 2 = 1 then (s.1 - 1, s.2.1, (s.2.2 + s.2.1) / 2)
  else (s.1 - 1, s.2.1, s.2.2 / 2)

/-- The divstep map applied `n` times. -/
def divsteps : Nat → Int × Int × Int → Int × Int × Int
  | 0, s => s
  | n + 1, s => divsteps n (divstep s)

/-- A divstep state over the integers together with the transition matrix accumulated so
far, scaled as in the source: `U` and `V` are doubled at every step. -/
structure MatState where
  eta : Int
  F : Int
  G : Int
  U : Int
  V : Int
  Q : Int
  R : Int

/-- One divstep together with the update of the accumulated matrix. -/
def matstep (S : MatState) : MatState :=
  if S.eta < 0 ∧ S.G % 2 = 1 then
    { eta := -S.eta - 1, F := S.G, G := (S.G - S.F) / 2,
      U := 2 * S.Q, V := 2 * S.R, Q := S.Q - S.U, R := S.R - S.V }
  else if S.G % 2 = 1 then
    { eta := S.eta - 1, F := S.F, G := (S.G + S.F) / 2,
      U := 2 * S.U, V := 2 * S.V, Q := S.Q + S.U, R := S.R + S.V }
  else
    { eta := S.eta - 1, F := S.F, G := S.G / 2,
      U := 2 * S.U, V := 2 * S.V, Q := S.Q, R := S.R }

/-- The map `matstep` applied `n` times. -/
def matsteps : Nat → MatState → MatState
  | 0, S => S
  | n + 1, S => matsteps n (matstep S)

/-- The initial integer state: `(eta, F, G)` with the identity matrix. -/
def matinit (eta F G : Int) : MatState :=
  { eta := eta, F := F, G := G, U := 1, V := 0, Q := 0, R := 1 }

/-- The simulation relation between the word state of the divsteps loops and the integer
state: `f` and `g` agree with `F` and `G` on their `k` low bits, the matrix entries agree
modulo `2^64`. -/
structure Sim (k : Nat) (s : DivState) (S : MatState) : Prop where
  wf : s.WF
  eta : s.eta = S.eta
  f : (s.f : Int) ≡ S.F [ZMOD 2 ^ k]
  g : (s.g : Int) ≡ S.G [ZMOD 2 ^ k]
  u : (s.u : Int) = S.U % 18446744073709551616
  v : (s.v : Int) = S.V % 18446744073709551616
  q : (s.q : Int) = S.Q % 18446744073709551616
  r : (s.r : Int) = S.R % 18446744073709551616

/-- The invariant of the accumulated matrix after some divsteps from `(A, B)`: with `c` the
power of two reached, `U*A + V*B = c*F`, `Q*A + R*B = c*G`, `|U|+|V| ≤ c`, `|Q|+|R| ≤ c` (as
four linear inequalities each), and the determinant is `c`. -/
structure MatInv (A B c : Int) (S : MatState) : Prop where
  Fodd : S.F % 2 = 1
  linF : S.U * A + S.V * B = c * S.F
  linG : S.Q * A + S.R * B = c * S.G
  bU : S.U + S.V ≤ c ∧ S.U - S.V ≤ c ∧ -S.U + S.V ≤ c ∧ -S.U - S.V ≤ c
  bQ : S.Q + S.R ≤ c ∧ S.Q - S.R ≤ c ∧ -S.Q + S.R ≤ c ∧ -S.Q - S.R ≤ c
  det : S.U * S.R - S.V * S.Q = c

/-- The integer counterpart of `g += f * w; q += u * w; r += v * w`. -/
def addw (w : Int) (S : MatState) : MatState :=
  { eta := S.eta, F := S.F, G := S.G + w * S.F, U := S.U, V := S.V,
    Q := S.Q + w * S.U, R := S.R + w * S.V }

/-- The integer counterpart of the swap `eta = -eta; (f, g) = (g, -f); (u, q) = (q, -u);
(v, r) = (r, -v)` of the variable-time loop. -/
def swp (S : MatState) : MatState :=
  { eta := -S.eta, F := S.G, G := -S.F, U := S.Q, V := S.R, Q := -S.U, R := -S.V }

/-- The carry chain shared by `update_de_62` and `update_fg_62` over unbounded integers: the
accumulator starts at `a0`, drops its 62 low bits, and then for each further column adds the
column, emits its 62 low bits as a limb and shifts; the last carry is the top limb. -/
def carry_row (a0 a1 a2 a3 a4 : Int) : Signed62 :=
  let c := a0 / 4611686018427387904
  let c := c + a1
  let o0 := c % 4611686018427387904
  let c := c / 4611686018427387904
  let c := c + a2
  let o1 := c % 4611686018427387904
  let c := c / 4611686018427387904
  let c := c + a3
  let o2 := c % 4611686018427387904
  let c := c / 4611686018427387904
  let c := c + a4
  let o3 := c % 4611686018427387904
  let c := c / 4611686018427387904
  { v0 := o0, v1 := o1, v2 := o2, v3 := o3, v4 := c }

/-- Every limb lies in `(-2^62, 2^62)`. -/
structure Signed62.LimbsIn (a : Signed62) : Prop where
  l0 : -4611686018427387904 < a.v0 ∧ a.v0 < 4611686018427387904
  l1 : -4611686018427387904 < a.v1 ∧ a.v1 < 4611686018427387904
  l2 : -4611686018427387904 < a.v2 ∧ a.v2 < 4611686018427387904
  l3 : -4611686018427387904 < a.v3 ∧ a.v3 < 4611686018427387904
  l4 : -4611686018427387904 < a.v4 ∧ a.v4 < 4611686018427387904

/-- The four low limbs lie in `[0, 2^62)`. -/
structure Signed62.LowNorm (a : Signed62) : Prop where
  l0 : 0 ≤ a.v0 ∧ a.v0 < 4611686018427387904
  l1 : 0 ≤ a.v1 ∧ a.v1 < 4611686018427387904
  l2 : 0 ≤ a.v2 ∧ a.v2 < 4611686018427387904
  l3 : 0 ≤ a.v3 ∧ a.v3 < 4611686018427387904

/-- Every limb lies in `[0, 2^62)`. -/
structure Signed62.Normalized (a : Signed62) : Prop where
  low : a.LowNorm
  l4 : 0 ≤ a.v4 ∧ a.v4 < 4611686018427387904

/-- A small `Signed62` from its lowest limb, for concrete instances. -/
def ofLimb (x : Int) : Signed62 := { v0 := x, v1 := 0, v2 := 0, v3 := 0, v4 := 0 }

/-- The value of `md` (or `me`) in `update_de_62` after the correction step, as computed by
the source from the row `(u, v)` of the matrix. -/
def de_md (u v : Int) (d e : Signed62) (modinfo : ModInfo) : Int :=
  let sd := sar d.v4 63
  let se := sar e.v4 63
  let md := addI64 (andI64 u sd) (andI64 v se)
  let cd := wrapI128 (wrapI128 (u * d.v0) + wrapI128 (v * e.v0))
  toI64 (sub64 (toU64 md)
    (add64 (mul64 modinfo.modulus_inv62 (toU64 cd)) (toU64 md) &&& toU64 M62))

/-- The modulus 3 with the `modulus_inv62` that the specification's invariant
`modulus_inv62 * M[0] ≡ -1 (mod 2^62)` prescribes. -/
def modinfo3 : ModInfo := { modulus := ofLimb 3, modulus_inv62 := 1537228672809129301 }

/-- The matrix that `divsteps_62` returns for `eta = 5`, `f0 = 7`, `g0 = 14`. -/
def trans_5_7_14 : Trans2x2 :=
  (secp256k1_modinv64_divsteps_62 5 7 14).2

/-- The block `cond_add = r4 >> 63; r_i += modulus.v[i] & cond_add` of `normalize_62`. -/
def norm_cond_add (r : Signed62) (m : Signed62) : Signed62 :=
  let cond_add := sar r.v4 63
  { v0 := addI64 r.v0 (andI64 m.v0 cond_add), v1 := addI64 r.v1 (andI64 m.v1 cond_add),
    v2 := addI64 r.v2 (andI64 m.v2 cond_add), v3 := addI64 r.v3 (andI64 m.v3 cond_add),
    v4 := addI64 r.v4 (andI64 m.v4 cond_add) }

/-- The block `cond_negate = sign >> 63; r_i = (r_i ^ cond_negate) - cond_negate`. -/
def norm_negate (r : Signed62) (sign : Int) : Signed62 :=
  let cond_negate := sar sign 63
  { v0 := subI64 (xorI64 r.v0 cond_negate) cond_negate,
    v1 := subI64 (xorI64 r.v1 cond_negate) cond_negate,
    v2 := subI64 (xorI64 r.v2 cond_negate) cond_negate,
    v3 := subI64 (xorI64 r.v3 cond_negate) cond_negate,
    v4 := subI64 (xorI64 r.v4 cond_negate) cond_negate }

/-- The block `r1 += r0 >> 62; r0 &= M62; ...; r4 += r3 >> 62; r3 &= M62`. -/
def norm_propagate (r : Signed62) : Signed62 :=
  let r1 := addI64 r.v1 (sar r.v0 62)
  let r0 := andI64 r.v0 M62
  let r2 := addI64 r.v2 (sar r1 62)
  let r1 := andI64 r1 M62
  let r3 := addI64 r.v3 (sar r2 62)
  let r2 := andI64 r2 M62
  let r4 := addI64 r.v4 (sar r3 62)
  let r3 := andI64 r3 M62
  { v0 := r0, v1 := r1, v2 := r2, v3 := r3, v4 := r4 }

/-- The contract on a modulus descriptor that the code's callers guarantee, without the
condition on `modulus_inv62`: limbs in `[0, 2^62)`, `M` odd and `M < 2^256`. -/
structure ModInfo.Valid (modinfo : ModInfo) : Prop where
  norm : modinfo.modulus.Normalized
  odd : modinfo.modulus.value % 2 = 1
  lt : modinfo.modulus.value < 2 ^ 256

/-- The invariant of the driver loop after `n` passes: the ranges of `d, e, f, g` and `eta`
that the `VERIFY_CHECK`s of the source assert. -/
structure InvOK (modinfo : ModInfo) (n : Nat) (s : InvState) : Prop where
  d_low : s.d.LowNorm
  d_top : -4611686018427387904 < s.d.v4 ∧ s.d.v4 < 4611686018427387904
  d_val : -(2 * modinfo.modulus.value) < s.d.value ∧ s.d.value < modinfo.modulus.value
  e_low : s.e.LowNorm
  e_top : -4611686018427387904 < s.e.v4 ∧ s.e.v4 < 4611686018427387904
  e_val : -(2 * modinfo.modulus.value) < s.e.value ∧ s.e.value < modinfo.modulus.value
  f_low : s.f.LowNorm
  g_low : s.g.LowNorm
  f_odd : s.f.value % 2 = 1
  f_val : -modinfo.modulus.value ≤ s.f.value ∧ s.f.value ≤ modinfo.modulus.value
  g_val : -modinfo.modulus.value ≤ s.g.value ∧ s.g.value ≤ modinfo.modulus.value
  eta : -(1 + 62 * (n : Int)) ≤ s.eta ∧ s.eta ≤ 1 + 62 * (n : Int)

/-- The `Signed62` with all five limbs zero. -/
def zero62 : Signed62 := { v0 := 0, v1 := 0, v2 := 0, v3 := 0, v4 := 0 }

/-- The secp256k1 field prime `P = 2^256 - 2^32 - 977` in five normalized 62-bit limbs. -/
def secp256k1_P : Signed62 :=
  { v0 := 4611686014132419631, v1 := 4611686018427387903, v2 := 4611686018427387903,
    v3 := 4611686018427387903, v4 := 255 }

/-- The modulus descriptor of `P` with a given `modulus_inv62` word. -/
def modinfo_P (inv62 : Nat) : ModInfo :=
  { modulus := secp256k1_P, modulus_inv62 := inv62 }

/-- The arithmetic invariant of the driver loop for the input `x` after `n` passes:
`d * x ≡ f` and `e * x ≡ g` modulo `M`, `gcd (f, g) = gcd (M, x)`, and `(eta, f, g)` is the
result of `62 * n` divsteps from `(-1, M, x)`. -/
structure InvCong (modinfo : ModInfo) (x : Signed62) (n : Nat) (s : InvState) : Prop where
  d : s.d.value * x.value ≡ s.f.value [ZMOD modinfo.modulus.value]
  e : s.e.value * x.value ≡ s.g.value [ZMOD modinfo.modulus.value]
  gcd : Int.gcd s.f.value s.g.value = Int.gcd modinfo.modulus.value x.value
  steps : (s.eta, s.f.value, s.g.value) = divsteps (62 * n) (-1, modinfo.modulus.value, x.value)

/-- The modulus 9 with the `modulus_inv62` that the specification's invariant
`modulus_inv62 * M[0] ≡ -1 (mod 2^62)` prescribes. -/
def modinfo9 : ModInfo := { modulus := ofLimb 9, modulus_inv62 := 3586866903221301703 }

/-- The integer `-4` in the normalized-low-limb form that the carry chains produce:
`(2^62 - 4, 2^62 - 1, 2^62 - 1, 2^62 - 1, -1)`. -/
def minus_four : Signed62 :=
  { v0 := 4611686018427387900, v1 := 4611686018427387903, v2 := 4611686018427387903,
    v3 := 4611686018427387903, v4 := -1 }

/-- The exact results, over the integers, of the five `int64_t` additions of the block
`r_i += modulus.v[i] & cond_add` of `normalize_62`. -/
def norm_cond_add_ops (r m : Signed62) : List Int :=
  let cond_add := sar r.v4 63
  [r.v0 + andI64 m.v0 cond_add, r.v1 + andI64 m.v1 cond_add, r.v2 + andI64 m.v2 cond_add,
    r.v3 + andI64 m.v3 cond_add, r.v4 + andI64 m.v4 cond_add]

/-- The exact results of the five `int64_t` subtractions of the block
`r_i = (r_i ^ cond_negate) - cond_negate`. -/
def norm_negate_ops (r : Signed62) (sign : Int) : List Int :=
  let cond_negate := sar sign 63
  [xorI64 r.v0 cond_negate - cond_negate, xorI64 r.v1 cond_negate - cond_negate,
    xorI64 r.v2 cond_negate - cond_negate, xorI64 r.v3 cond_negate - cond_negate,
    xorI64 r.v4 cond_negate - cond_negate]

/-- The exact results of the four `int64_t` additions `r_{i+1} += r_i >> 62` of the carry
propagation, each computed from the limbs as the code has them at that point. -/
def norm_propagate_ops (r : Signed62) : List Int :=
  let a1 := r.v1 + sar r.v0 62
  let r1 := addI64 r.v1 (sar r.v0 62)
  let a2 := r.v2 + sar r1 62
  let r2 := addI64 r.v2 (sar r1 62)
  let a3 := r.v3 + sar r2 62
  let r3 := addI64 r.v3 (sar r2 62)
  let a4 := r.v4 + sar r3 62
  [a1, a2, a3, a4]

/-- The exact results of all 23 `int64_t` additions and subtractions of `normalize_62`, in
program order. -/
def normalize_62_ops (r : Signed62) (sign : Int) (modinfo : ModInfo) : List Int :=
  let a := norm_cond_add r modinfo.modulus
  let n := norm_negate a sign
  let p := norm_propagate n
  let b := norm_cond_add p modinfo.modulus
  norm_cond_add_ops r modinfo.modulus ++ norm_negate_ops a sign ++ norm_propagate_ops n ++
    norm_cond_add_ops p modinfo.modulus ++ norm_propagate_ops b

/-- The accumulator `cd` of `update_de_62` right after the statement
`cd += (int128_t)modinfo->modulus.v[0] * md`, for the row `(u, v)` of the matrix. -/
def de_cd (u v : Int) (d e : Signed62) (modinfo : ModInfo) : Int :=
  let cd := wrapI128 (wrapI128 (u * d.v0) + wrapI128 (v * e.v0))
  wrapI128 (cd + wrapI128 (modinfo.modulus.v0 * de_md u v d e modinfo))

/-- The matrix that `divsteps_62` returns for `eta = -1`, `f0 = 3`, `g0 = 1`: the first
matrix of `modinv` for the modulus 3 and `x = 1`. -/
def trans_m1_3_1 : Trans2x2 :=
  (secp256k1_modinv64_divsteps_62 (-1) 3 1).2

/-- The modulus 3 with the inverse of 3 modulo `2^62` as `modulus_inv62`. -/
def modinfo3_inv : ModInfo := { modulus := ofLimb 3, modulus_inv62 := 3074457345618258603 }

/-- The invariant of `f`, `g` and `eta` in the driver loop after `n` passes, with the strict
bounds that the `VERIFY_CHECK`s around `update_fg_62` assert: `-M < f ≤ M`, `-M < g < M`. -/
structure InvFG (modinfo : ModInfo) (n : Nat) (s : InvState) : Prop where
  f_low : s.f.LowNorm
  g_low : s.g.LowNorm
  f_odd : s.f.value % 2 = 1
  f_val : -modinfo.modulus.value < s.f.value ∧ s.f.value ≤ modinfo.modulus.value
  g_val : -modinfo.modulus.value < s.g.value ∧ s.g.value < modinfo.modulus.value
  eta : -(1 + 62 * (n : Int)) ≤ s.eta ∧ s.eta ≤ 1 + 62 * (n : Int)

/-- A state of the `divsteps_62_var` loop with `eta < 0` and odd `g`, for concrete
instances of the swapped branch. -/
def var_state_swap : DivState :=
  { eta := -3, f := 12, g := 7, u := 1, v := 0, q := 0, r := 1 }

/-- A state of the `divsteps_62_var` loop with `eta ≥ 0` and odd `f`, for concrete
instances of the straight branch. -/
def var_state_straight : DivState :=
  { eta := 2, f := 7, g := 12, u := 1, v := 0, q := 0, r := 1 }

/-- The value of `zeros` computed at the start of a pass of the `for (;;)` loop of
`divsteps_62_var`: `secp256k1_ctz64_var(g | (UINT64_MAX << i))`. -/
def var_zeros (st : VarState) : Nat :=
  secp256k1_ctz64_var (st.s.g ||| shl64 UINT64_MAX st.i.toNat)

/-- The state at the start of pass `n + 1` of the `for (;;)` loop of `divsteps_62_var`, when
the loop has not left through `break` during the first `n` passes; `none` otherwise. -/
def var_pass_start : Nat → VarState → Option VarState
  | 0, st => some st
  | n + 1, st =>
    if (divsteps_62_var_shift st).i = 0 then none
    else var_pass_start n (divsteps_62_var_cancel (divsteps_62_var_shift st))

/-- The invariant at the start of a pass of the `divsteps_62_var` loop: `1 ≤ i ≤ 62`, the
word variables are below `2^64`, `f` is odd, and `|eta| ≤ 745 + (62 - i)`. -/
structure VarOK (st : VarState) : Prop where
  i_lo : 1 ≤ st.i
  i_hi : st.i ≤ 62
  wf : st.s.WF
  f_odd : st.s.f % 2 = 1
  eta_lo : -(745 + (62 - st.i)) ≤ st.s.eta
  eta_hi : st.s.eta ≤ 745 + (62 - st.i)

/-- The exact results, over the integers, of the two `int64_t` operations that compute `md`
(or `me`) in `update_de_62`: the sum `(u & sd) + (v & se)` and the difference
`md - ((modulus_inv62 * (uint64_t)cd + md) & M62)`, whose subtrahend is an unsigned word. -/
def de_md_ops (u v : Int) (d e : Signed62) (modinfo : ModInfo) : List Int :=
  let sd := sar d.v4 63
  let se := sar e.v4 63
  let md := addI64 (andI64 u sd) (andI64 v se)
  let cd := wrapI128 (wrapI128 (u * d.v0) + wrapI128 (v * e.v0))
  [andI64 u sd + andI64 v se,
    md - ((add64 (mul64 modinfo.modulus_inv62 (toU64 cd)) (toU64 md) &&& toU64 M62 : Nat) : Int)]

/-- The statements `cd += (int128_t)u * d_i + (int128_t)v * e_i;` and, behind `guard`,
`cd += (int128_t)modulus.v[i] * md;` of `update_de_62`, with `p = u * d_i`, `q = v * e_i`
and `n = modulus.v[i] * md`: the new value of the accumulator. -/
def de_column (cd p q n : Int) (guard : Prop) [Decidable guard] : Int :=
  let cd := wrapI128 (cd + wrapI128 (wrapI128 p + wrapI128 q))
  if guard then wrapI128 (cd + wrapI128 n) else cd

/-- The exact results, over the integers, of the `int128_t` operations of `de_column`, each
computed from the values the code holds at that point: the products, their sum, the
accumulator after the first addition and, behind `guard`, the third product and the
accumulator after the second addition. -/
def de_column_ops (cd p q n : Int) (guard : Prop) [Decidable guard] : List Int :=
  [p, q, wrapI128 p + wrapI128 q, cd + wrapI128 (wrapI128 p + wrapI128 q)] ++
    (if guard then [n, wrapI128 (cd + wrapI128 (wrapI128 p + wrapI128 q)) + wrapI128 n]
      else [])

/-- The exact results of all `int128_t` multiplications and additions of one row of
`update_de_62`, in program order, each computed from the values the code holds. -/
def update_de_62_row_ops (u v : Int) (d e : Signed62) (modinfo : ModInfo) : List Int :=
  let md := de_md u v d e modinfo
  let c0 := wrapI128 (wrapI128 (wrapI128 (u * d.v0) + wrapI128 (v * e.v0))
    + wrapI128 (modinfo.modulus.v0 * md))
  let c1 := de_column (sar c0 62) (u * d.v1) (v * e.v1) (modinfo.modulus.v1 * md)
    (modinfo.modulus.v1 ≠ 0)
  let c2 := de_column (sar c1 62) (u * d.v2) (v * e.v2) (modinfo.modulus.v2 * md)
    (modinfo.modulus.v2 ≠ 0)
  let c3 := de_column (sar c2 62) (u * d.v3) (v * e.v3) (modinfo.modulus.v3 * md)
    (modinfo.modulus.v3 ≠ 0)
  [u * d.v0, v * e.v0, wrapI128 (u * d.v0) + wrapI128 (v * e.v0), modinfo.modulus.v0 * md,
    wrapI128 (wrapI128 (u * d.v0) + wrapI128 (v * e.v0)) + wrapI128 (modinfo.modulus.v0 * md)]
  ++ de_column_ops (sar c0 62) (u * d.v1) (v * e.v1) (modinfo.modulus.v1 * md)
    (modinfo.modulus.v1 ≠ 0)
  ++ de_column_ops (sar c1 62) (u * d.v2) (v * e.v2) (modinfo.modulus.v2 * md)
    (modinfo.modulus.v2 ≠ 0)
  ++ de_column_ops (sar c2 62) (u * d.v3) (v * e.v3) (modinfo.modulus.v3 * md)
    (modinfo.modulus.v3 ≠ 0)
  ++ de_column_ops (sar c3 62) (u * d.v4) (v * e.v4) (modinfo.modulus.v4 * md) True

/-- One row of `update_de_62` computed over unbounded integers, in the words of the
specification: `md` starts as `[d < 0] u + [e < 0] v` (signs read from the top limbs) and is
corrected by the low 62 bits of `modulus_inv62 * cd + md`; the accumulator adds the columns
of `t * [d, e] + M * md`, drops the low 62 bits of the first and emits 62 bits per further
column; the last carry is the top limb. -/
def update_de_62_row_int (u v : Int) (d e : Signed62) (modinfo : ModInfo) : Signed62 :=
  let md0 := (if d.v4 < 0 then u else 0) + (if e.v4 < 0 then v else 0)
  let cd := u * d.v0 + v * e.v0
  let md := md0 - ((modinfo.modulus_inv62 : Int) * cd + md0) % 4611686018427387904
  carry_row (cd + modinfo.modulus.v0 * md)
    (u * d.v1 + v * e.v1 + modinfo.modulus.v1 * md)
    (u * d.v2 + v * e.v2 + modinfo.modulus.v2 * md)
    (u * d.v3 + v * e.v3 + modinfo.modulus.v3 * md)
    (u * d.v4 + v * e.v4 + modinfo.modulus.v4 * md)

/-- The invariant of `d` and `e` in the driver loop after `n` passes, for any input `x`: the
ranges of `d` and `e`, the low word of `f` odd, and the range of `eta`. -/
structure InvDE (modinfo : ModInfo) (n : Nat) (s : InvState) : Prop where
  d_low : s.d.LowNorm
  d_top : -4611686018427387904 < s.d.v4 ∧ s.d.v4 < 4611686018427387904
  d_val : -(2 * modinfo.modulus.value) < s.d.value ∧ s.d.value < modinfo.modulus.value
  e_low : s.e.LowNorm
  e_top : -4611686018427387904 < s.e.v4 ∧ s.e.v4 < 4611686018427387904
  e_val : -(2 * modinfo.modulus.value) < s.e.value ∧ s.e.value < modinfo.modulus.value
  f_odd : toU64 s.f.v0 % 2 = 1
  eta : -(1 + 62 * (n : Int)) ≤ s.eta ∧ s.eta ≤ 1 + 62 * (n : Int)

/-- The scalar variables: the locals and by-value parameters of the five functions, the
fields of the matrix `t`, and the field `modinfo->modulus_inv62`. -/
inductive Var where
  | i | eta | t_u | t_v | t_q | t_r | modulus_inv62
  | ds_eta | ds_f0 | ds_g0 | ds_u | ds_v | ds_q | ds_r | ds_c1 | ds_c2 | ds_f | ds_g
  | ds_x | ds_y | ds_z | ds_i
  | de_d0 | de_d1 | de_d2 | de_d3 | de_d4 | de_e0 | de_e1 | de_e2 | de_e3 | de_e4
  | de_u | de_v | de_q | de_r | de_md | de_me | de_sd | de_se | de_cd | de_ce
  | fg_f0 | fg_f1 | fg_f2 | fg_f3 | fg_f4 | fg_g0 | fg_g1 | fg_g2 | fg_g3 | fg_g4
  | fg_u | fg_v | fg_q | fg_r | fg_cf | fg_cg
  | nm_sign | nm_r0 | nm_r1 | nm_r2 | nm_r3 | nm_r4 | nm_cond_add | nm_cond_negate
deriving DecidableEq, Repr

/-- The arrays `v[5]` of the `signed62` objects: the locals `d, e, f, g` of the driver, its
argument `*x`, and `modinfo->modulus`. -/
inductive Arr where
  | d | e | f | g | x | modulus
deriving DecidableEq, Repr

/-- What an observer of an execution sees: the outcome of every conditional (an `if` or a
loop test), which fixes the sequence of instructions executed, and the array and index of
every array access, which fixes the addresses accessed; in program order. -/
inductive Obs where
  | branch (taken : Bool)
  | index (a : Arr) (i : Int)
deriving DecidableEq, Repr

/-- The unary machine operations. `u64_of` is the conversion to `uint64_t` of a signed value,
`i64_of_u64` the conversion `(int64_t)w` of an unsigned word, `i64_of_i128` the conversion
`(int64_t)c` of an `int128_t`, `neg_u64` the unsigned negation. -/
inductive Op1 where
  | u64_of | i64_of_u64 | i64_of_i128 | neg_u64
deriving DecidableEq, Repr

/-- The binary machine operations, by operand type: on `int64_t` (`add_i64`, `sub_i64`,
`and_i64`, `xor_i64`, `sar_i64` the sign-extending `>>`), on `uint64_t` (`add_u64`,
`sub_u64`, `mul_u64`, `and_u64`, `xor_u64`, `shl_u64`, `shr_u64`), on `int128_t`
(`mul_i128` for `(int128_t)a * b`, `add_i128`, `sar_i128`), and on `int` (`lt_int` for
`a < b`, `add_int`). -/
inductive Op2 where
  | add_i64 | sub_i64 | and_i64 | xor_i64 | sar_i64
  | add_u64 | sub_u64 | mul_u64 | and_u64 | xor_u64 | shl_u64 | shr_u64
  | mul_i128 | add_i128 | sar_i128
  | lt_int | add_int
deriving DecidableEq, Repr

/-- Expressions: literals, variables, array reads `a->v[i]`, and machine operations. -/
inductive Expr where
  | lit (n : Int)
  | var (x : Var)
  | load (a : Arr) (i : Expr)
  | op1 (o : Op1) (a : Expr)
  | op2 (o : Op2) (a b : Expr)
deriving Repr

/-- Statements: assignment to a variable, array write `a->v[i] = e`, sequence, `if (c) s1
else s2`, and the loop `while (c) body`. -/
inductive Stmt where
  | skip
  | assign (x : Var) (e : Expr)
  | store (a : Arr) (i : Expr) (e : Expr)
  | seq (s1 s2 : Stmt)
  | cond (c : Expr) (s1 s2 : Stmt)
  | loop (c : Expr) (body : Stmt)
deriving Repr

/-- A machine state: the values of the scalar variables and of the array elements. Unsigned
words are held as their non-negative value. -/
structure State where
  var : Var → Int
  arr : Arr → Int → Int

/-- The state after `x = v`. -/
def State.setVar (st : State) (x : Var) (v : Int) : State :=
  { var := fun y => if y = x then v else st.var y, arr := st.arr }

/-- The state after `a->v[i] = v`. -/
def State.setArr (st : State) (a : Arr) (i : Int) (v : Int) : State :=
  { var := st.var, arr := fun b j => if b = a ∧ j = i then v else st.arr b j }

/-- The value of a unary operation, by the machine arithmetic of the shallow embedding. -/
def Op1.val : Op1 → Int → Int
  | .u64_of, a => Int.ofNat (toU64 a)
  | .i64_of_u64, a => toI64 a.toNat
  | .i64_of_i128, a => wrapI64 a
  | .neg_u64, a => Int.ofNat (neg64 a.toNat)

/-- The value of a binary operation, by the machine arithmetic of the shallow embedding. -/
def Op2.val : Op2 → Int → Int → Int
  | .add_i64, a, b => addI64 a b
  | .sub_i64, a, b => subI64 a b
  | .and_i64, a, b => andI64 a b
  | .xor_i64, a, b => xorI64 a b
  | .sar_i64, a, b => sar a b.toNat
  | .add_u64, a, b => Int.ofNat (add64 a.toNat b.toNat)
  | .sub_u64, a, b => Int.ofNat (sub64 a.toNat b.toNat)
  | .mul_u64, a, b => Int.ofNat (mul64 a.toNat b.toNat)
  | .and_u64, a, b => Int.ofNat (a.toNat &&& b.toNat)
  | .xor_u64, a, b => Int.ofNat (a.toNat ^^^ b.toNat)
  | .shl_u64, a, b => Int.ofNat (shl64 a.toNat b.toNat)
  | .shr_u64, a, b => Int.ofNat (a.toNat >>> b.toNat)
  | .mul_i128, a, b => wrapI128 (a * b)
  | .add_i128, a, b => wrapI128 (a + b)
  | .sar_i128, a, b => sar a b.toNat
  | .lt_int, a, b => if a < b then 1 else 0
  | .add_int, a, b => wrapI32 (a + b)

/-- The value of an expression in a state. -/
def Expr.val (st : State) : Expr → Int
  | .lit n => n
  | .var x => st.var x
  | .load a i => st.arr a (i.val st)
  | .op1 o a => o.val (a.val st)
  | .op2 o a b => o.val (a.val st) (b.val st)

/-- The leakage of evaluating an expression: every array read leaks its array and the value
of its index, operands left to right. Machine operations leak nothing. -/
def Expr.leak (st : State) : Expr → List Obs
  | .lit _ => []
  | .var _ => []
  | .load a i => i.leak st ++ [Obs.index a (i.val st)]
  | .op1 _ a => a.leak st
  | .op2 _ a b => a.leak st ++ b.leak st

/-- The loop `while (c) body` run with `fuel`: the state on exit (or when the fuel is spent). -/
def loopRun (c : Expr) (body : State → State) : Nat → State → State
  | 0, st => st
  | n + 1, st => if c.val st ≠ 0 then loopRun c body n (body st) else st

/-- The leakage of `while (c) body` run with `fuel`: every test leaks its outcome. -/
def loopLeak (c : Expr) (body : State → State) (bodyLeak : State → List Obs) :
    Nat → State → List Obs
  | 0, _ => []
  | n + 1, st =>
    c.leak st ++
      (if c.val st ≠ 0 then
        Obs.branch true :: (bodyLeak st ++ loopLeak c body bodyLeak n (body st))
      else [Obs.branch false])

/-- The state after a statement; every loop may make up to `fuel` passes. -/
def Stmt.run (fuel : Nat) : Stmt → State → State
  | .skip, st => st
  | .assign x e, st => st.setVar x (e.val st)
  | .store a i e, st => st.setArr a (i.val st) (e.val st)
  | .seq s1 s2, st => s2.run fuel (s1.run fuel st)
  | .cond c s1 s2, st => if c.val st ≠ 0 then s1.run fuel st else s2.run fuel st
  | .loop c body, st => loopRun c (body.run fuel) fuel st

/-- The leakage of a statement: the leakage of its expressions, the array and index of every
array write, and the outcome of every `if` and of every loop test, in program order. -/
def Stmt.leak (fuel : Nat) : Stmt → State → List Obs
  | .skip, _ => []
  | .assign _ e, st => e.leak st
  | .store a i e, st => i.leak st ++ e.leak st ++ [Obs.index a (i.val st)]
  | .seq s1 s2, st => s1.leak fuel st ++ s2.leak fuel (s1.run fuel st)
  | .cond c s1 s2, st =>
    c.leak st ++ Obs.branch (decide (c.val st ≠ 0)) ::
      (if c.val st ≠ 0 then s1.leak fuel st else s2.leak fuel st)
  | .loop c body, st => loopLeak c (body.run fuel) (body.leak fuel) fuel st

/-- A sequence of statements, in order. -/
def block : List Stmt → Stmt
  | [] => Stmt.skip
  | s :: ss => Stmt.seq s (block ss)

/-- The C statement `for (i = 0; i < n; ++i) body`. -/
def forLoop (cnt : Var) (n : Int) (body : Stmt) : Stmt :=
  Stmt.seq (Stmt.assign cnt (Expr.lit 0))
    (Stmt.loop (Expr.op2 Op2.lt_int (Expr.var cnt) (Expr.lit n))
      (Stmt.seq body (Stmt.assign cnt (Expr.op2 Op2.add_int (Expr.var cnt) (Expr.lit 1)))))

/-- The body of `secp256k1_modinv64_normalize_62` (release build) for the object `r`, with the
parameter `sign` in the variable `nm_sign`; one statement per C statement, in source order. -/
def normalize_62_stmt (r : Arr) : Stmt :=
  block [
    -- int64_t r0 = r->v[0], r1 = r->v[1], r2 = r->v[2], r3 = r->v[3], r4 = r->v[4];
    .assign .nm_r0 (.load r (.lit 0)),
    .assign .nm_r1 (.load r (.lit 1)),
    .assign .nm_r2 (.load r (.lit 2)),
    .assign .nm_r3 (.load r (.lit 3)),
    .assign .nm_r4 (.load r (.lit 4)),
    -- cond_add = r4 >> 63;
    .assign .nm_cond_add (.op2 .sar_i64 (.var .nm_r4) (.lit 63)),
    -- r0 += modinfo->modulus.v[0] & cond_add;
    .assign .nm_r0 (.op2 .add_i64 (.var .nm_r0) (.op2 .and_i64 (.load .modulus (.lit 0))
      (.var .nm_cond_add))),
    -- r1 += modinfo->modulus.v[1] & cond_add;
    .assign .nm_r1 (.op2 .add_i64 (.var .nm_r1) (.op2 .and_i64 (.load .modulus (.lit 1))
      (.var .nm_cond_add))),
    -- r2 += modinfo->modulus.v[2] & cond_add;
    .assign .nm_r2 (.op2 .add_i64 (.var .nm_r2) (.op2 .and_i64 (.load .modulus (.lit 2))
      (.var .nm_cond_add))),
    -- r3 += modinfo->modulus.v[3] & cond_add;
    .assign .nm_r3 (.op2 .add_i64 (.var .nm_r3) (.op2 .and_i64 (.load .modulus (.lit 3))
      (.var .nm_cond_add))),
    -- r4 += modinfo->modulus.v[4] & cond_add;
    .assign .nm_r4 (.op2 .add_i64 (.var .nm_r4) (.op2 .and_i64 (.load .modulus (.lit 4))
      (.var .nm_cond_add))),
    -- cond_negate = sign >> 63;
    .assign .nm_cond_negate (.op2 .sar_i64 (.var .nm_sign) (.lit 63)),
    -- r0 = (r0 ^ cond_negate) - cond_negate;
    .assign .nm_r0 (.op2 .sub_i64 (.op2 .xor_i64 (.var .nm_r0) (.var .nm_cond_negate))
      (.var .nm_cond_negate)),
    -- r1 = (r1 ^ cond_negate) - cond_negate;
    .assign .nm_r1 (.op2 .sub_i64 (.op2 .xor_i64 (.var .nm_r1) (.var .nm_cond_negate))
      (.var .nm_cond_negate)),
    -- r2 = (r2 ^ cond_negate) - cond_negate;
    .assign .nm_r2 (.op2 .sub_i64 (.op2 .xor_i64 (.var .nm_r2) (.var .nm_cond_negate))
      (.var .nm_cond_negate)),
    -- r3 = (r3 ^ cond_negate) - cond_negate;
    .assign .nm_r3 (.op2 .sub_i64 (.op2 .xor_i64 (.var .nm_r3) (.var .nm_cond_negate))
      (.var .nm_cond_negate)),
    -- r4 = (r4 ^ cond_negate) - cond_negate;
    .assign .nm_r4 (.op2 .sub_i64 (.op2 .xor_i64 (.var .nm_r4) (.var .nm_cond_negate))
      (.var .nm_cond_negate)),
    -- r1 += r0 >> 62; r0 &= M62;
    .assign .nm_r1 (.op2 .add_i64 (.var .nm_r1) (.op2 .sar_i64 (.var .nm_r0) (.lit 62))),
    .assign .nm_r0 (.op2 .and_i64 (.var .nm_r0) (.lit M62)),
    -- r2 += r1 >> 62; r1 &= M62;
    .assign .nm_r2 (.op2 .add_i64 (.var .nm_r2) (.op2 .sar_i64 (.var .nm_r1) (.lit 62))),
    .assign .nm_r1 (.op2 .and_i64 (.var .nm_r1) (.lit M62)),
    -- r3 += r2 >> 62; r2 &= M62;
    .assign .nm_r3 (.op2 .add_i64 (.var .nm_r3) (.op2 .sar_i64 (.var .nm_r2) (.lit 62))),
    .assign .nm_r2 (.op2 .and_i64 (.var .nm_r2) (.lit M62)),
    -- r4 += r3 >> 62; r3 &= M62;
    .assign .nm_r4 (.op2 .add_i64 (.var .nm_r4) (.op2 .sar_i64 (.var .nm_r3) (.lit 62))),
    .assign .nm_r3 (.op2 .and_i64 (.var .nm_r3) (.lit M62)),
    -- cond_add = r4 >> 63;
    .assign .nm_cond_add (.op2 .sar_i64 (.var .nm_r4) (.lit 63)),
    -- r0 += modinfo->modulus.v[0] & cond_add;
    .assign .nm_r0 (.op2 .add_i64 (.var .nm_r0) (.op2 .and_i64 (.load .modulus (.lit 0))
      (.var .nm_cond_add))),
    -- r1 += modinfo->modulus.v[1] & cond_add;
    .assign .nm_r1 (.op2 .add_i64 (.var .nm_r1) (.op2 .and_i64 (.load .modulus (.lit 1))
      (.var .nm_cond_add))),
    -- r2 += modinfo->modulus.v[2] & cond_add;
    .assign .nm_r2 (.op2 .add_i64 (.var .nm_r2) (.op2 .and_i64 (.load .modulus (.lit 2))
      (.var .nm_cond_add))),
    -- r3 += modinfo->modulus.v[3] & cond_add;
    .assign .nm_r3 (.op2 .add_i64 (.var .nm_r3) (.op2 .and_i64 (.load .modulus (.lit 3))
      (.var .nm_cond_add))),
    -- r4 += modinfo->modulus.v[4] & cond_add;
    .assign .nm_r4 (.op2 .add_i64 (.var .nm_r4) (.op2 .and_i64 (.load .modulus (.lit 4))
      (.var .nm_cond_add))),
    -- r1 += r0 >> 62; r0 &= M62;
    .assign .nm_r1 (.op2 .add_i64 (.var .nm_r1) (.op2 .sar_i64 (.var .nm_r0) (.lit 62))),
    .assign .nm_r0 (.op2 .and_i64 (.var .nm_r0) (.lit M62)),
    -- r2 += r1 >> 62; r1 &= M62;
    .assign .nm_r2 (.op2 .add_i64 (.var .nm_r2) (.op2 .sar_i64 (.var .nm_r1) (.lit 62))),
    .assign .nm_r1 (.op2 .and_i64 (.var .nm_r1) (.lit M62)),
    -- r3 += r2 >> 62; r2 &= M62;
    .assign .nm_r3 (.op2 .add_i64 (.var .nm_r3) (.op2 .sar_i64 (.var .nm_r2) (.lit 62))),
    .assign .nm_r2 (.op2 .and_i64 (.var .nm_r2) (.lit M62)),
    -- r4 += r3 >> 62; r3 &= M62;
    .assign .nm_r4 (.op2 .add_i64 (.var .nm_r4) (.op2 .sar_i64 (.var .nm_r3) (.lit 62))),
    .assign .nm_r3 (.op2 .and_i64 (.var .nm_r3) (.lit M62)),
    -- r->v[0] = r0;
    .store r (.lit 0) (.var .nm_r0),
    -- r->v[1] = r1;
    .store r (.lit 1) (.var .nm_r1),
    -- r->v[2] = r2;
    .store r (.lit 2) (.var .nm_r2),
    -- r->v[3] = r3;
    .store r (.lit 3) (.var .nm_r3),
    -- r->v[4] = r4;
    .store r (.lit 4) (.var .nm_r4)
  ]

/-- The body of the `for` loop of `secp256k1_modinv64_divsteps_62` (release build). -/
def divsteps_62_body_stmt : Stmt :=
  block [
    -- c1 = eta >> 63;
    .assign .ds_c1 (.op1 .u64_of (.op2 .sar_i64 (.var .ds_eta) (.lit 63))),
    -- c2 = -(g & 1);
    .assign .ds_c2 (.op1 .neg_u64 (.op2 .and_u64 (.var .ds_g) (.lit 1))),
    -- x = (f ^ c1) - c1;
    .assign .ds_x (.op2 .sub_u64 (.op2 .xor_u64 (.var .ds_f) (.var .ds_c1)) (.var .ds_c1)),
    -- y = (u ^ c1) - c1;
    .assign .ds_y (.op2 .sub_u64 (.op2 .xor_u64 (.var .ds_u) (.var .ds_c1)) (.var .ds_c1)),
    -- z = (v ^ c1) - c1;
    .assign .ds_z (.op2 .sub_u64 (.op2 .xor_u64 (.var .ds_v) (.var .ds_c1)) (.var .ds_c1)),
    -- g += x & c2;
    .assign .ds_g (.op2 .add_u64 (.var .ds_g) (.op2 .and_u64 (.var .ds_x) (.var .ds_c2))),
    -- q += y & c2;
    .assign .ds_q (.op2 .add_u64 (.var .ds_q) (.op2 .and_u64 (.var .ds_y) (.var .ds_c2))),
    -- r += z & c2;
    .assign .ds_r (.op2 .add_u64 (.var .ds_r) (.op2 .and_u64 (.var .ds_z) (.var .ds_c2))),
    -- c1 &= c2;
    .assign .ds_c1 (.op2 .and_u64 (.var .ds_c1) (.var .ds_c2)),
    -- eta = (eta ^ c1) - (c1 + 1);
    .assign .ds_eta (.op1 .i64_of_u64 (.op2 .sub_u64 (.op2 .xor_u64 (.op1 .u64_of (.var .ds_eta))
      (.var .ds_c1)) (.op2 .add_u64 (.var .ds_c1) (.lit 1)))),
    -- f += g & c1;
    .assign .ds_f (.op2 .add_u64 (.var .ds_f) (.op2 .and_u64 (.var .ds_g) (.var .ds_c1))),
    -- u += q & c1;
    .assign .ds_u (.op2 .add_u64 (.var .ds_u) (.op2 .and_u64 (.var .ds_q) (.var .ds_c1))),
    -- v += r & c1;
    .assign .ds_v (.op2 .add_u64 (.var .ds_v) (.op2 .and_u64 (.var .ds_r) (.var .ds_c1))),
    -- g >>= 1;
    .assign .ds_g (.op2 .shr_u64 (.var .ds_g) (.lit 1)),
    -- u <<= 1;
    .assign .ds_u (.op2 .shl_u64 (.var .ds_u) (.lit 1)),
    -- v <<= 1;
    .assign .ds_v (.op2 .shl_u64 (.var .ds_v) (.lit 1))
  ]

/-- The body of `secp256k1_modinv64_divsteps_62` (release build), with the parameters `eta`,
`f0`, `g0` in the variables `ds_eta`, `ds_f0`, `ds_g0`; the returned `eta` is left in
`ds_eta` and the matrix is written to the fields of `t`. -/
def divsteps_62_stmt : Stmt :=
  block [
    -- uint64_t u = 1, v = 0, q = 0, r = 1;
    .assign .ds_u (.lit 1),
    .assign .ds_v (.lit 0),
    .assign .ds_q (.lit 0),
    .assign .ds_r (.lit 1),
    -- uint64_t c1, c2, f = f0, g = g0, x, y, z;
    .assign .ds_f (.var .ds_f0),
    .assign .ds_g (.var .ds_g0),
    -- for (i = 0; i < 62; ++i) { ... }
    forLoop .ds_i 62 divsteps_62_body_stmt,
    -- t->u = (int64_t)u;
    .assign .t_u (.op1 .i64_of_u64 (.var .ds_u)),
    -- t->v = (int64_t)v;
    .assign .t_v (.op1 .i64_of_u64 (.var .ds_v)),
    -- t->q = (int64_t)q;
    .assign .t_q (.op1 .i64_of_u64 (.var .ds_q)),
    -- t->r = (int64_t)r;
    .assign .t_r (.op1 .i64_of_u64 (.var .ds_r))
  ]

/-- The body of `secp256k1_modinv64_update_de_62` (release build) on the objects `d`, `e`, the
matrix `t` and `modinfo`; one statement per C statement, in source order. -/
def update_de_62_stmt : Stmt :=
  block [
    -- const int64_t d0 = d->v[0], d1 = d->v[1], d2 = d->v[2], d3 = d->v[3], d4 = d->v[4];
    .assign .de_d0 (.load .d (.lit 0)),
    .assign .de_d1 (.load .d (.lit 1)),
    .assign .de_d2 (.load .d (.lit 2)),
    .assign .de_d3 (.load .d (.lit 3)),
    .assign .de_d4 (.load .d (.lit 4)),
    -- const int64_t e0 = e->v[0], e1 = e->v[1], e2 = e->v[2], e3 = e->v[3], e4 = e->v[4];
    .assign .de_e0 (.load .e (.lit 0)),
    .assign .de_e1 (.load .e (.lit 1)),
    .assign .de_e2 (.load .e (.lit 2)),
    .assign .de_e3 (.load .e (.lit 3)),
    .assign .de_e4 (.load .e (.lit 4)),
    -- const int64_t u = t->u, v = t->v, q = t->q, r = t->r;
    .assign .de_u (.var .t_u),
    .assign .de_v (.var .t_v),
    .assign .de_q (.var .t_q),
    .assign .de_r (.var .t_r),
    -- sd = d4 >> 63;
    .assign .de_sd (.op2 .sar_i64 (.var .de_d4) (.lit 63)),
    -- se = e4 >> 63;
    .assign .de_se (.op2 .sar_i64 (.var .de_e4) (.lit 63)),
    -- md = (u & sd) + (v & se);
    .assign .de_md (.op2 .add_i64 (.op2 .and_i64 (.var .de_u) (.var .de_sd)) (.op2 .and_i64
      (.var .de_v) (.var .de_se))),
    -- me = (q & sd) + (r & se);
    .assign .de_me (.op2 .add_i64 (.op2 .and_i64 (.var .de_q) (.var .de_sd)) (.op2 .and_i64
      (.var .de_r) (.var .de_se))),
    -- cd = (int128_t)u * d0 + (int128_t)v * e0;
    .assign .de_cd (.op2 .add_i128 (.op2 .mul_i128 (.var .de_u) (.var .de_d0)) (.op2 .mul_i128
      (.var .de_v) (.var .de_e0))),
    -- ce = (int128_t)q * d0 + (int128_t)r * e0;
    .assign .de_ce (.op2 .add_i128 (.op2 .mul_i128 (.var .de_q) (.var .de_d0)) (.op2 .mul_i128
      (.var .de_r) (.var .de_e0))),
    -- md -= (modinfo->modulus_inv62 * (uint64_t)cd + md) & M62;
    .assign .de_md (.op1 .i64_of_u64 (.op2 .sub_u64 (.op1 .u64_of (.var .de_md)) (.op2 .and_u64
      (.op2 .add_u64 (.op2 .mul_u64 (.var .modulus_inv62) (.op1 .u64_of (.var .de_cd)))
      (.op1 .u64_of (.var .de_md))) (.op1 .u64_of (.lit M62))))),
    -- me -= (modinfo->modulus_inv62 * (uint64_t)ce + me) & M62;
    .assign .de_me (.op1 .i64_of_u64 (.op2 .sub_u64 (.op1 .u64_of (.var .de_me)) (.op2 .and_u64
      (.op2 .add_u64 (.op2 .mul_u64 (.var .modulus_inv62) (.op1 .u64_of (.var .de_ce)))
      (.op1 .u64_of (.var .de_me))) (.op1 .u64_of (.lit M62))))),
    -- cd += (int128_t)modinfo->modulus.v[0] * md;
    .assign .de_cd (.op2 .add_i128 (.var .de_cd) (.op2 .mul_i128 (.load .modulus (.lit 0))
      (.var .de_md))),
    -- ce += (int128_t)modinfo->modulus.v[0] * me;
    .assign .de_ce (.op2 .add_i128 (.var .de_ce) (.op2 .mul_i128 (.load .modulus (.lit 0))
      (.var .de_me))),
    -- cd >>= 62;
    .assign .de_cd (.op2 .sar_i128 (.var .de_cd) (.lit 62)),
    -- ce >>= 62;
    .assign .de_ce (.op2 .sar_i128 (.var .de_ce) (.lit 62)),
    -- cd += (int128_t)u * d1 + (int128_t)v * e1;
    .assign .de_cd (.op2 .add_i128 (.var .de_cd) (.op2 .add_i128 (.op2 .mul_i128 (.var .de_u)
      (.var .de_d1)) (.op2 .mul_i128 (.var .de_v) (.var .de_e1)))),
    -- ce += (int128_t)q * d1 + (int128_t)r * e1;
    .assign .de_ce (.op2 .add_i128 (.var .de_ce) (.op2 .add_i128 (.op2 .mul_i128 (.var .de_q)
      (.var .de_d1)) (.op2 .mul_i128 (.var .de_r) (.var .de_e1)))),
    -- if (modinfo->modulus.v[1]) { cd += (int128_t)modinfo->modulus.v[1] * md;
    --   ce += (int128_t)modinfo->modulus.v[1] * me; }
    .cond (.load .modulus (.lit 1)) (block [.assign .de_cd (.op2 .add_i128 (.var .de_cd)
      (.op2 .mul_i128 (.load .modulus (.lit 1)) (.var .de_md))), .assign .de_ce (.op2 .add_i128
      (.var .de_ce) (.op2 .mul_i128 (.load .modulus (.lit 1)) (.var .de_me)))]) .skip,
    -- d->v[0] = (int64_t)cd & M62; cd >>= 62;
    .store .d (.lit 0) (.op2 .and_i64 (.op1 .i64_of_i128 (.var .de_cd)) (.lit M62)),
    .assign .de_cd (.op2 .sar_i128 (.var .de_cd) (.lit 62)),
    -- e->v[0] = (int64_t)ce & M62; ce >>= 62;
    .store .e (.lit 0) (.op2 .and_i64 (.op1 .i64_of_i128 (.var .de_ce)) (.lit M62)),
    .assign .de_ce (.op2 .sar_i128 (.var .de_ce) (.lit 62)),
    -- cd += (int128_t)u * d2 + (int128_t)v * e2;
    .assign .de_cd (.op2 .add_i128 (.var .de_cd) (.op2 .add_i128 (.op2 .mul_i128 (.var .de_u)
      (.var .de_d2)) (.op2 .mul_i128 (.var .de_v) (.var .de_e2)))),
    -- ce += (int128_t)q * d2 + (int128_t)r * e2;
    .assign .de_ce (.op2 .add_i128 (.var .de_ce) (.op2 .add_i128 (.op2 .mul_i128 (.var .de_q)
      (.var .de_d2)) (.op2 .mul_i128 (.var .de_r) (.var .de_e2)))),
    -- if (modinfo->modulus.v[2]) { cd += (int128_t)modinfo->modulus.v[2] * md;
    --   ce += (int128_t)modinfo->modulus.v[2] * me; }
    .cond (.load .modulus (.lit 2)) (block [.assign .de_cd (.op2 .add_i128 (.var .de_cd)
      (.op2 .mul_i128 (.load .modulus (.lit 2)) (.var .de_md))), .assign .de_ce (.op2 .add_i128
      (.var .de_ce) (.op2 .mul_i128 (.load .modulus (.lit 2)) (.var .de_me)))]) .skip,
    -- d->v[1] = (int64_t)cd & M62; cd >>= 62;
    .store .d (.lit 1) (.op2 .and_i64 (.op1 .i64_of_i128 (.var .de_cd)) (.lit M62)),
    .assign .de_cd (.op2 .sar_i128 (.var .de_cd) (.lit 62)),
    -- e->v[1] = (int64_t)ce & M62; ce >>= 62;
    .store .e (.lit 1) (.op2 .and_i64 (.op1 .i64_of_i128 (.var .de_ce)) (.lit M62)),
    .assign .de_ce (.op2 .sar_i128 (.var .de_ce) (.lit 62)),
    -- cd += (int128_t)u * d3 + (int128_t)v * e3;
    .assign .de_cd (.op2 .add_i128 (.var .de_cd) (.op2 .add_i128 (.op2 .mul_i128 (.var .de_u)
      (.var .de_d3)) (.op2 .mul_i128 (.var .de_v) (.var .de_e3)))),
    -- ce += (int128_t)q * d3 + (int128_t)r * e3;
    .assign .de_ce (.op2 .add_i128 (.var .de_ce) (.op2 .add_i128 (.op2 .mul_i128 (.var .de_q)
      (.var .de_d3)) (.op2 .mul_i128 (.var .de_r) (.var .de_e3)))),
    -- if (modinfo->modulus.v[3]) { cd += (int128_t)modinfo->modulus.v[3] * md;
    --   ce += (int128_t)modinfo->modulus.v[3] * me; }
    .cond (.load .modulus (.lit 3)) (block [.assign .de_cd (.op2 .add_i128 (.var .de_cd)
      (.op2 .mul_i128 (.load .modulus (.lit 3)) (.var .de_md))), .assign .de_ce (.op2 .add_i128
      (.var .de_ce) (.op2 .mul_i128 (.load .modulus (.lit 3)) (.var .de_me)))]) .skip,
    -- d->v[2] = (int64_t)cd & M62; cd >>= 62;
    .store .d (.lit 2) (.op2 .and_i64 (.op1 .i64_of_i128 (.var .de_cd)) (.lit M62)),
    .assign .de_cd (.op2 .sar_i128 (.var .de_cd) (.lit 62)),
    -- e->v[2] = (int64_t)ce & M62; ce >>= 62;
    .store .e (.lit 2) (.op2 .and_i64 (.op1 .i64_of_i128 (.var .de_ce)) (.lit M62)),
    .assign .de_ce (.op2 .sar_i128 (.var .de_ce) (.lit 62)),
    -- cd += (int128_t)u * d4 + (int128_t)v * e4;
    .assign .de_cd (.op2 .add_i128 (.var .de_cd) (.op2 .add_i128 (.op2 .mul_i128 (.var .de_u)
      (.var .de_d4)) (.op2 .mul_i128 (.var .de_v) (.var .de_e4)))),
    -- ce += (int128_t)q * d4 + (int128_t)r * e4;
    .assign .de_ce (.op2 .add_i128 (.var .de_ce) (.op2 .add_i128 (.op2 .mul_i128 (.var .de_q)
      (.var .de_d4)) (.op2 .mul_i128 (.var .de_r) (.var .de_e4)))),
    -- cd += (int128_t)modinfo->modulus.v[4] * md;
    .assign .de_cd (.op2 .add_i128 (.var .de_cd) (.op2 .mul_i128 (.load .modulus (.lit 4))
      (.var .de_md))),
    -- ce += (int128_t)modinfo->modulus.v[4] * me;
    .assign .de_ce (.op2 .add_i128 (.var .de_ce) (.op2 .mul_i128 (.load .modulus (.lit 4))
      (.var .de_me))),
    -- d->v[3] = (int64_t)cd & M62; cd >>= 62;
    .store .d (.lit 3) (.op2 .and_i64 (.op1 .i64_of_i128 (.var .de_cd)) (.lit M62)),
    .assign .de_cd (.op2 .sar_i128 (.var .de_cd) (.lit 62)),
    -- e->v[3] = (int64_t)ce & M62; ce >>= 62;
    .store .e (.lit 3) (.op2 .and_i64 (.op1 .i64_of_i128 (.var .de_ce)) (.lit M62)),
    .assign .de_ce (.op2 .sar_i128 (.var .de_ce) (.lit 62)),
    -- d->v[4] = (int64_t)cd;
    .store .d (.lit 4) (.op1 .i64_of_i128 (.var .de_cd)),
    -- e->v[4] = (int64_t)ce;
    .store .e (.lit 4) (.op1 .i64_of_i128 (.var .de_ce))
  ]

/-- The body of `secp256k1_modinv64_update_fg_62` on the objects `f`, `g` and the matrix `t`; one
statement per C statement, in source order. -/
def update_fg_62_stmt : Stmt :=
  block [
    -- const int64_t f0 = f->v[0], f1 = f->v[1], f2 = f->v[2], f3 = f->v[3], f4 = f->v[4];
    .assign .fg_f0 (.load .f (.lit 0)),
    .assign .fg_f1 (.load .f (.lit 1)),
    .assign .fg_f2 (.load .f (.lit 2)),
    .assign .fg_f3 (.load .f (.lit 3)),
    .assign .fg_f4 (.load .f (.lit 4)),
    -- const int64_t g0 = g->v[0], g1 = g->v[1], g2 = g->v[2], g3 = g->v[3], g4 = g->v[4];
    .assign .fg_g0 (.load .g (.lit 0)),
    .assign .fg_g1 (.load .g (.lit 1)),
    .assign .fg_g2 (.load .g (.lit 2)),
    .assign .fg_g3 (.load .g (.lit 3)),
    .assign .fg_g4 (.load .g (.lit 4)),
    -- const int64_t u = t->u, v = t->v, q = t->q, r = t->r;
    .assign .fg_u (.var .t_u),
    .assign .fg_v (.var .t_v),
    .assign .fg_q (.var .t_q),
    .assign .fg_r (.var .t_r),
    -- cf = (int128_t)u * f0 + (int128_t)v * g0;
    .assign .fg_cf (.op2 .add_i128 (.op2 .mul_i128 (.var .fg_u) (.var .fg_f0)) (.op2 .mul_i128
      (.var .fg_v) (.var .fg_g0))),
    -- cg = (int128_t)q * f0 + (int128_t)r * g0;
    .assign .fg_cg (.op2 .add_i128 (.op2 .mul_i128 (.var .fg_q) (.var .fg_f0)) (.op2 .mul_i128
      (.var .fg_r) (.var .fg_g0))),
    -- cf >>= 62;
    .assign .fg_cf (.op2 .sar_i128 (.var .fg_cf) (.lit 62)),
    -- cg >>= 62;
    .assign .fg_cg (.op2 .sar_i128 (.var .fg_cg) (.lit 62)),
    -- cf += (int128_t)u * f1 + (int128_t)v * g1;
    .assign .fg_cf (.op2 .add_i128 (.var .fg_cf) (.op2 .add_i128 (.op2 .mul_i128 (.var .fg_u)
      (.var .fg_f1)) (.op2 .mul_i128 (.var .fg_v) (.var .fg_g1)))),
    -- cg += (int128_t)q * f1 + (int128_t)r * g1;
    .assign .fg_cg (.op2 .add_i128 (.var .fg_cg) (.op2 .add_i128 (.op2 .mul_i128 (.var .fg_q)
      (.var .fg_f1)) (.op2 .mul_i128 (.var .fg_r) (.var .fg_g1)))),
    -- f->v[0] = (int64_t)cf & M62; cf >>= 62;
    .store .f (.lit 0) (.op2 .and_i64 (.op1 .i64_of_i128 (.var .fg_cf)) (.lit M62)),
    .assign .fg_cf (.op2 .sar_i128 (.var .fg_cf) (.lit 62)),
    -- g->v[0] = (int64_t)cg & M62; cg >>= 62;
    .store .g (.lit 0) (.op2 .and_i64 (.op1 .i64_of_i128 (.var .fg_cg)) (.lit M62)),
    .assign .fg_cg (.op2 .sar_i128 (.var .fg_cg) (.lit 62)),
    -- cf += (int128_t)u * f2 + (int128_t)v * g2;
    .assign .fg_cf (.op2 .add_i128 (.var .fg_cf) (.op2 .add_i128 (.op2 .mul_i128 (.var .fg_u)
      (.var .fg_f2)) (.op2 .mul_i128 (.var .fg_v) (.var .fg_g2)))),
    -- cg += (int128_t)q * f2 + (int128_t)r * g2;
    .assign .fg_cg (.op2 .add_i128 (.var .fg_cg) (.op2 .add_i128 (.op2 .mul_i128 (.var .fg_q)
      (.var .fg_f2)) (.op2 .mul_i128 (.var .fg_r) (.var .fg_g2)))),
    -- f->v[1] = (int64_t)cf & M62; cf >>= 62;
    .store .f (.lit 1) (.op2 .and_i64 (.op1 .i64_of_i128 (.var .fg_cf)) (.lit M62)),
    .assign .fg_cf (.op2 .sar_i128 (.var .fg_cf) (.lit 62)),
    -- g->v[1] = (int64_t)cg & M62; cg >>= 62;
    .store .g (.lit 1) (.op2 .and_i64 (.op1 .i64_of_i128 (.var .fg_cg)) (.lit M62)),
    .assign .fg_cg (.op2 .sar_i128 (.var .fg_cg) (.lit 62)),
    -- cf += (int128_t)u * f3 + (int128_t)v * g3;
    .assign .fg_cf (.op2 .add_i128 (.var .fg_cf) (.op2 .add_i128 (.op2 .mul_i128 (.var .fg_u)
      (.var .fg_f3)) (.op2 .mul_i128 (.var .fg_v) (.var .fg_g3)))),
    -- cg += (int128_t)q * f3 + (int128_t)r * g3;
    .assign .fg_cg (.op2 .add_i128 (.var .fg_cg) (.op2 .add_i128 (.op2 .mul_i128 (.var .fg_q)
      (.var .fg_f3)) (.op2 .mul_i128 (.var .fg_r) (.var .fg_g3)))),
    -- f->v[2] = (int64_t)cf & M62; cf >>= 62;
    .store .f (.lit 2) (.op2 .and_i64 (.op1 .i64_of_i128 (.var .fg_cf)) (.lit M62)),
    .assign .fg_cf (.op2 .sar_i128 (.var .fg_cf) (.lit 62)),
    -- g->v[2] = (int64_t)cg & M62; cg >>= 62;
    .store .g (.lit 2) (.op2 .and_i64 (.op1 .i64_of_i128 (.var .fg_cg)) (.lit M62)),
    .assign .fg_cg (.op2 .sar_i128 (.var .fg_cg) (.lit 62)),
    -- cf += (int128_t)u * f4 + (int128_t)v * g4;
    .assign .fg_cf (.op2 .add_i128 (.var .fg_cf) (.op2 .add_i128 (.op2 .mul_i128 (.var .fg_u)
      (.var .fg_f4)) (.op2 .mul_i128 (.var .fg_v) (.var .fg_g4)))),
    -- cg += (int128_t)q * f4 + (int128_t)r * g4;
    .assign .fg_cg (.op2 .add_i128 (.var .fg_cg) (.op2 .add_i128 (.op2 .mul_i128 (.var .fg_q)
      (.var .fg_f4)) (.op2 .mul_i128 (.var .fg_r) (.var .fg_g4)))),
    -- f->v[3] = (int64_t)cf & M62; cf >>= 62;
    .store .f (.lit 3) (.op2 .and_i64 (.op1 .i64_of_i128 (.var .fg_cf)) (.lit M62)),
    .assign .fg_cf (.op2 .sar_i128 (.var .fg_cf) (.lit 62)),
    -- g->v[3] = (int64_t)cg & M62; cg >>= 62;
    .store .g (.lit 3) (.op2 .and_i64 (.op1 .i64_of_i128 (.var .fg_cg)) (.lit M62)),
    .assign .fg_cg (.op2 .sar_i128 (.var .fg_cg) (.lit 62)),
    -- f->v[4] = (int64_t)cf;
    .store .f (.lit 4) (.op1 .i64_of_i128 (.var .fg_cf)),
    -- g->v[4] = (int64_t)cg;
    .store .g (.lit 4) (.op1 .i64_of_i128 (.var .fg_cg))
  ]

/-- The body of the `for` loop of `secp256k1_modinv64` (release build): the three calls, each
as the assignment of its by-value arguments followed by the body of the callee. -/
def modinv_pass_stmt : Stmt :=
  block [
    -- eta = secp256k1_modinv64_divsteps_62(eta, f.v[0], g.v[0], &t);
    .assign .ds_eta (.var .eta),
    .assign .ds_f0 (.op1 .u64_of (.load .f (.lit 0))),
    .assign .ds_g0 (.op1 .u64_of (.load .g (.lit 0))),
    divsteps_62_stmt,
    .assign .eta (.var .ds_eta),
    -- secp256k1_modinv64_update_de_62(&d, &e, &t, modinfo);
    update_de_62_stmt,
    -- secp256k1_modinv64_update_fg_62(&f, &g, &t);
    update_fg_62_stmt
  ]

/-- The declarations at the head of `secp256k1_modinv64`: `d = 0`, `e = 1`, `f = modulus`,
`g = x`, `eta = -1`. -/
def modinv_init_stmt : Stmt :=
  block [
    -- secp256k1_modinv64_signed62 d = {{0, 0, 0, 0, 0}};
    .store .d (.lit 0) (.lit 0),
    .store .d (.lit 1) (.lit 0),
    .store .d (.lit 2) (.lit 0),
    .store .d (.lit 3) (.lit 0),
    .store .d (.lit 4) (.lit 0),
    -- secp256k1_modinv64_signed62 e = {{1, 0, 0, 0, 0}};
    .store .e (.lit 0) (.lit 1),
    .store .e (.lit 1) (.lit 0),
    .store .e (.lit 2) (.lit 0),
    .store .e (.lit 3) (.lit 0),
    .store .e (.lit 4) (.lit 0),
    -- secp256k1_modinv64_signed62 f = modinfo->modulus;
    .store .f (.lit 0) (.load .modulus (.lit 0)),
    .store .f (.lit 1) (.load .modulus (.lit 1)),
    .store .f (.lit 2) (.load .modulus (.lit 2)),
    .store .f (.lit 3) (.load .modulus (.lit 3)),
    .store .f (.lit 4) (.load .modulus (.lit 4)),
    -- secp256k1_modinv64_signed62 g = *x;
    .store .g (.lit 0) (.load .x (.lit 0)),
    .store .g (.lit 1) (.load .x (.lit 1)),
    .store .g (.lit 2) (.load .x (.lit 2)),
    .store .g (.lit 3) (.load .x (.lit 3)),
    .store .g (.lit 4) (.load .x (.lit 4)),
    -- int64_t eta = -1;
    .assign .eta (.lit (-1))
  ]

/-- The statements after the loop of `secp256k1_modinv64` (release build): the call of
`normalize_62` on `d` with the sign word `f.v[4]`, and the copy of `d` to `*x`. -/
def modinv_final_stmt : Stmt :=
  block [
    -- secp256k1_modinv64_normalize_62(&d, f.v[4], modinfo);
    .assign .nm_sign (.load .f (.lit 4)),
    normalize_62_stmt .d,
    -- *x = d;
    .store .x (.lit 0) (.load .d (.lit 0)),
    .store .x (.lit 1) (.load .d (.lit 1)),
    .store .x (.lit 2) (.load .d (.lit 2)),
    .store .x (.lit 3) (.load .d (.lit 3)),
    .store .x (.lit 4) (.load .d (.lit 4))
  ]

/-- The body of `secp256k1_modinv64` (release build) on the argument `*x` and `modinfo`. -/
def secp256k1_modinv64_stmt : Stmt :=
  block [
    modinv_init_stmt,
    -- for (i = 0; i < 12; ++i) { ... }
    forLoop .i 12 modinv_pass_stmt,
    modinv_final_stmt
  ]

/-- The limb `a.v[k]` of a `Signed62`, and `0` for an index outside `0..4`. -/
def Signed62.limb (a : Signed62) (k : Int) : Int :=
  if k = 0 then a.v0 else if k = 1 then a.v1 else if k = 2 then a.v2
  else if k = 3 then a.v3 else if k = 4 then a.v4 else 0

/-- The `Signed62` held in the array `a` of a state. -/
def State.signed62 (st : State) (a : Arr) : Signed62 :=
  { v0 := st.arr a 0, v1 := st.arr a 1, v2 := st.arr a 2, v3 := st.arr a 3, v4 := st.arr a 4 }

/-- The modulus descriptor held in a state. -/
def State.modinfo (st : State) : ModInfo :=
  { modulus := st.signed62 Arr.modulus, modulus_inv62 := (st.var Var.modulus_inv62).toNat }

/-- The state on entry to `secp256k1_modinv64 (x, modinfo)`: the two arguments in place, every
other variable and array zero. -/
def modinv_state (x : Signed62) (modinfo : ModInfo) : State :=
  { var := fun y => if y = Var.modulus_inv62 then Int.ofNat modinfo.modulus_inv62 else 0,
    arr := fun a k =>
      if a = Arr.x then x.limb k else if a = Arr.modulus then modinfo.modulus.limb k else 0 }

/-- The variables a statement assigns. -/
def Stmt.assigns : Stmt → List Var
  | .skip => []
  | .assign x _ => [x]
  | .store _ _ _ => []
  | .seq s1 s2 => s1.assigns ++ s2.assigns
  | .cond _ s1 s2 => s1.assigns ++ s2.assigns
  | .loop _ body => body.assigns

/-- The arrays a statement writes. -/
def Stmt.stores : Stmt → List Arr
  | .skip => []
  | .assign _ _ => []
  | .store a _ _ => [a]
  | .seq s1 s2 => s1.stores ++ s2.stores
  | .cond _ s1 s2 => s1.stores ++ s2.stores
  | .loop _ body => body.stores

/-- The literal an expression is, if it is one. -/
def Expr.litVal : Expr → Option Int
  | .lit n => some n
  | _ => none

/-- The index `k` of an expression of the form `modinfo->modulus.v[k]` with a literal `k`. -/
def Expr.modulusLimb : Expr → Option Int
  | .load .modulus i => i.litVal
  | _ => none

/-- Every array read of the expression has a literal index. -/
def Expr.static : Expr → Bool
  | .lit _ => true
  | .var _ => true
  | .load _ i => i.litVal.isSome
  | .op1 _ a => a.static
  | .op2 _ a b => a.static && b.static

/-- The leakage of an expression whose array reads have literal indices. -/
def Expr.staticLeak : Expr → List Obs
  | .lit _ => []
  | .var _ => []
  | .load a i => match i.litVal with
    | some k => [Obs.index a k]
    | none => []
  | .op1 _ a => a.staticLeak
  | .op2 _ a b => a.staticLeak ++ b.staticLeak

/-- The statement is loop-free, every array access has a literal index, no array write is to
`modinfo->modulus`, and the condition of every `if` is a limb `modinfo->modulus.v[k]` with
a literal `k`. -/
def Stmt.pub : Stmt → Bool
  | .skip => true
  | .assign _ e => e.static
  | .store a i e => decide (a ≠ Arr.modulus) && i.litVal.isSome && e.static
  | .seq s1 s2 => s1.pub && s2.pub
  | .cond c s1 s2 => c.modulusLimb.isSome && s1.pub && s2.pub
  | .loop _ _ => false

/-- The leakage of a statement that satisfies `Stmt.pub`, from the limbs `m` of the
modulus alone. -/
def Stmt.pubLeak (m : Int → Int) : Stmt → List Obs
  | .skip => []
  | .assign _ e => e.staticLeak
  | .store a i e => match i.litVal with
    | some k => e.staticLeak ++ [Obs.index a k]
    | none => []
  | .seq s1 s2 => s1.pubLeak m ++ s2.pubLeak m
  | .cond c s1 s2 => match c.modulusLimb with
    | some k =>
      Obs.index Arr.modulus k :: Obs.branch (decide (m k ≠ 0)) ::
        (if m k ≠ 0 then s1.pubLeak m else s2.pubLeak m)
    | none => []
  | .loop _ _ => []

/-- The trace `t` repeated `n` times. -/
def repeat_trace : Nat → List Obs → List Obs
  | 0, _ => []
  | n + 1, t => t ++ repeat_trace n t

/-- The leakage of a call of `divsteps_62`: 62 loop tests that succeed, then the one that
fails. The loop body accesses no array and has no conditional. -/
def divsteps_62_trace : List Obs :=
  repeat_trace 62 [Obs.branch true] ++ [Obs.branch false]

/-- The leakage of a call of `update_de_62`, from the limbs `m` of the modulus: the reads of
`d` and `e`, and per output limb the reads of the modulus limb, the test `modulus.v[k] != 0`
for `k = 1, 2, 3` with the two further reads if it succeeds, and the two writes. -/
def update_de_62_trace (m : Int → Int) : List Obs :=
  [Obs.index Arr.d 0, Obs.index Arr.d 1, Obs.index Arr.d 2, Obs.index Arr.d 3,
    Obs.index Arr.d 4, Obs.index Arr.e 0, Obs.index Arr.e 1, Obs.index Arr.e 2,
    Obs.index Arr.e 3, Obs.index Arr.e 4, Obs.index Arr.modulus 0, Obs.index Arr.modulus 0,
    Obs.index Arr.modulus 1, Obs.branch (decide (m 1 ≠ 0))] ++
  (if m 1 ≠ 0 then [Obs.index Arr.modulus 1, Obs.index Arr.modulus 1] else []) ++
  [Obs.index Arr.d 0, Obs.index Arr.e 0,
    Obs.index Arr.modulus 2, Obs.branch (decide (m 2 ≠ 0))] ++
  (if m 2 ≠ 0 then [Obs.index Arr.modulus 2, Obs.index Arr.modulus 2] else []) ++
  [Obs.index Arr.d 1, Obs.index Arr.e 1,
    Obs.index Arr.modulus 3, Obs.branch (decide (m 3 ≠ 0))] ++
  (if m 3 ≠ 0 then [Obs.index Arr.modulus 3, Obs.index Arr.modulus 3] else []) ++
  [Obs.index Arr.d 2, Obs.index Arr.e 2, Obs.index Arr.modulus 4, Obs.index Arr.modulus 4,
    Obs.index Arr.d 3, Obs.index Arr.e 3, Obs.index Arr.d 4, Obs.index Arr.e 4]

/-- The leakage of a call of `update_fg_62`: the reads of `f` and `g` and the writes. -/
def update_fg_62_trace : List Obs :=
  [Obs.index Arr.f 0, Obs.index Arr.f 1, Obs.index Arr.f 2, Obs.index Arr.f 3,
    Obs.index Arr.f 4, Obs.index Arr.g 0, Obs.index Arr.g 1, Obs.index Arr.g 2,
    Obs.index Arr.g 3, Obs.index Arr.g 4, Obs.index Arr.f 0, Obs.index Arr.g 0,
    Obs.index Arr.f 1, Obs.index Arr.g 1, Obs.index Arr.f 2, Obs.index Arr.g 2,
    Obs.index Arr.f 3, Obs.index Arr.g 3, Obs.index Arr.f 4, Obs.index Arr.g 4]

/-- The leakage of a call of `normalize_62` on the object `r`: the reads of `r`, the reads
of the modulus in the two conditional additions, and the writes of `r`. -/
def normalize_62_trace (r : Arr) : List Obs :=
  [Obs.index r 0, Obs.index r 1, Obs.index r 2, Obs.index r 3, Obs.index r 4,
    Obs.index Arr.modulus 0, Obs.index Arr.modulus 1, Obs.index Arr.modulus 2,
    Obs.index Arr.modulus 3, Obs.index Arr.modulus 4,
    Obs.index Arr.modulus 0, Obs.index Arr.modulus 1, Obs.index Arr.modulus 2,
    Obs.index Arr.modulus 3, Obs.index Arr.modulus 4,
    Obs.index r 0, Obs.index r 1, Obs.index r 2, Obs.index r 3, Obs.index r 4]

/-- The leakage of one pass of the loop of `secp256k1_modinv64`, after its test: the reads of
`f.v[0]` and `g.v[0]` and the three calls. -/
def modinv_pass_trace (m : Int → Int) : List Obs :=
  [Obs.index Arr.f 0, Obs.index Arr.g 0] ++ divsteps_62_trace ++ update_de_62_trace m ++
    update_fg_62_trace

/-- The leakage of the declarations at the head of `secp256k1_modinv64`. -/
def modinv_init_trace : List Obs :=
  [Obs.index Arr.d 0, Obs.index Arr.d 1, Obs.index Arr.d 2, Obs.index Arr.d 3,
    Obs.index Arr.d 4, Obs.index Arr.e 0, Obs.index Arr.e 1, Obs.index Arr.e 2,
    Obs.index Arr.e 3, Obs.index Arr.e 4,
    Obs.index Arr.modulus 0, Obs.index Arr.f 0, Obs.index Arr.modulus 1, Obs.index Arr.f 1,
    Obs.index Arr.modulus 2, Obs.index Arr.f 2, Obs.index Arr.modulus 3, Obs.index Arr.f 3,
    Obs.index Arr.modulus 4, Obs.index Arr.f 4,
    Obs.index Arr.x 0, Obs.index Arr.g 0, Obs.index Arr.x 1, Obs.index Arr.g 1,
    Obs.index Arr.x 2, Obs.index Arr.g 2, Obs.index Arr.x 3, Obs.index Arr.g 3,
    Obs.index Arr.x 4, Obs.index Arr.g 4]

/-- The leakage of the statements after the loop of `secp256k1_modinv64`. -/
def modinv_final_trace : List Obs :=
  Obs.index Arr.f 4 :: normalize_62_trace Arr.d ++
  [Obs.index Arr.d 0, Obs.index Arr.x 0, Obs.index Arr.d 1, Obs.index Arr.x 1,
    Obs.index Arr.d 2, Obs.index Arr.x 2, Obs.index Arr.d 3, Obs.index Arr.x 3,
    Obs.index Arr.d 4, Obs.index Arr.x 4]

/-- The leakage of `secp256k1_modinv64`, from the limbs `m` of the modulus: the
declarations, 12 times a loop test that succeeds followed by the leakage of a pass, the loop
test that fails, and the statements after the loop. -/
def modinv_trace (m : Int → Int) : List Obs :=
  modinv_init_trace ++
    (repeat_trace 12 (Obs.branch true :: modinv_pass_trace m) ++ [Obs.branch false]) ++
    modinv_final_trace

/-- A statement leaks `T` from every state whose modulus limbs are `m`. -/
def LeaksOnly (fuel : Nat) (m : Int → Int) (s : Stmt) (T : List Obs) : Prop :=
  ∀ st : State, st.arr Arr.modulus = m → s.leak fuel st = T

/-- The variables of the `divsteps_62` loop held in a state. -/
def State.divState (st : State) : DivState :=
  { eta := st.var Var.ds_eta, f := (st.var Var.ds_f).toNat, g := (st.var Var.ds_g).toNat,
    u := (st.var Var.ds_u).toNat, v := (st.var Var.ds_v).toNat, q := (st.var Var.ds_q).toNat,
    r := (st.var Var.ds_r).toNat }

/-- The matrix `t` held in a state. -/
def State.trans (st : State) : Trans2x2 :=
  { u := st.var Var.t_u, v := st.var Var.t_v, q := st.var Var.t_q, r := st.var Var.t_r }

/-- The variables `d, e, f, g, eta` of the driver held in a state. -/
def State.invState (st : State) : InvState :=
  { d := st.signed62 Arr.d, e := st.signed62 Arr.e, f := st.signed62 Arr.f,
    g := st.signed62 Arr.g, eta := st.var Var.eta }

/-! # Theorems -/

/-! ## Machine arithmetic -/

theorem toU64_lt (x : Int) : toU64 x < 18446744073709551616 := by
  unfold toU64; omega

theorem toU64_cast (x : Int) : ((toU64 x : Nat) : Int) = x % 18446744073709551616 := by
  unfold toU64; omega

theorem toI64_lo (w : Nat) : -9223372036854775808 ≤ toI64 w := by
  unfold toI64; split <;> omega

theorem toI64_hi (w : Nat) : toI64 w < 9223372036854775808 := by
  unfold toI64; split <;> omega

theorem toI64_emod (w : Nat) :
    toI64 w % 18446744073709551616 = (w : Int) % 18446744073709551616 := by
  unfold toI64; split <;> omega

theorem wrapI64_eq (x : Int) (h0 : -9223372036854775808 ≤ x) (h1 : x < 9223372036854775808) :
    wrapI64 x = x := by
  unfold wrapI64 toI64 toU64; split <;> omega

theorem wrapI128_eq (x : Int) (h0 : -170141183460469231731687303715884105728 ≤ x)
    (h1 : x < 170141183460469231731687303715884105728) : wrapI128 x = x := by
  unfold wrapI128; omega

theorem sar_eq (x : Int) (k : Nat) : sar x k = x / 2 ^ k := by
  unfold sar
  have := Int.shiftRight_eq_div_pow x k
  simpa using this

theorem sar63 (x : Int) (h0 : -9223372036854775808 ≤ x) (h1 : x < 9223372036854775808) :
    sar x 63 = if x < 0 then -1 else 0 := by
  rw [sar_eq]
  split <;> norm_num <;> omega

theorem sar62 (x : Int) : sar x 62 = x / 4611686018427387904 := by
  rw [sar_eq]; norm_num

theorem and_mask (a : Nat) : a &&& 18446744073709551615 = a % 18446744073709551616 := by
  have := Nat.and_pow_two_sub_one_eq_mod a 64
  norm_num at this
  exact this

theorem xor_mask (a : Nat) (h : a < 18446744073709551616) :
    a ^^^ 18446744073709551615 = 18446744073709551615 - a := by
  have h1 : (BitVec.ofNat 64 a ^^^ BitVec.allOnes 64).toNat = (~~~ (BitVec.ofNat 64 a)).toNat := by
    rw [BitVec.xor_allOnes]
  rw [BitVec.toNat_xor, BitVec.toNat_not] at h1
  simp at h1
  rw [Nat.mod_eq_of_lt h] at h1
  exact h1

theorem and_M62 (a : Nat) : a &&& 4611686018427387903 = a % 4611686018427387904 := by
  have := Nat.and_pow_two_sub_one_eq_mod a 62
  norm_num at this
  exact this

theorem mask_eta_neg (eta : Int) (h0 : -9223372036854775808 ≤ eta) (h1 : eta < 0) :
    toU64 (sar eta 63) = 18446744073709551615 := by
  rw [sar63 eta h0 (by omega), if_pos h1]; rfl

theorem mask_eta_nonneg (eta : Int) (h0 : 0 ≤ eta) (h1 : eta < 9223372036854775808) :
    toU64 (sar eta 63) = 0 := by
  rw [sar63 eta (by omega) h1, if_neg (by omega)]; rfl

theorem mask_odd (g : Nat) (h : g % 2 = 1) : neg64 (g &&& 1) = 18446744073709551615 := by
  rw [Nat.and_one_is_mod, h]; rfl

theorem mask_even (g : Nat) (h : g % 2 = 0) : neg64 (g &&& 1) = 0 := by
  rw [Nat.and_one_is_mod, h]; rfl

theorem max_mod : 18446744073709551615 % 18446744073709551616 = 18446744073709551615 := by
  norm_num

theorem divState_ext {a b : DivState} (h1 : a.eta = b.eta) (h2 : a.f = b.f) (h3 : a.g = b.g)
    (h4 : a.u = b.u) (h5 : a.v = b.v) (h6 : a.q = b.q) (h7 : a.r = b.r) : a = b := by
  cases a; cases b; simp_all

theorem body_swap (s : DivState) (hs : s.WF) (h0 : -9223372036854775808 < s.eta) (h1 : s.eta < 0)
    (hg : s.g % 2 = 1) :
    divsteps_62_body s =
      { eta := -s.eta - 1, f := s.g,
        g := ((s.g + (18446744073709551616 - s.f)) % 18446744073709551616) / 2,
        u := (2 * s.q) % 18446744073709551616, v := (2 * s.r) % 18446744073709551616,
        q := (s.q + (18446744073709551616 - s.u)) % 18446744073709551616,
        r := (s.r + (18446744073709551616 - s.v)) % 18446744073709551616 } := by
  obtain ⟨hf, hg', hu, hv, hq, hr⟩ := hs
  have he := toU64_cast s.eta
  have he' := toU64_lt s.eta
  simp only [divsteps_62_body]
  rw [mask_eta_neg s.eta (by omega) h1, mask_odd s.g hg]
  simp only [and_mask, max_mod, xor_mask _ hf, xor_mask _ hu, xor_mask _ hv,
    xor_mask _ (toU64_lt _)]
  unfold add64 sub64 shl64 toI64
  simp only [Nat.shiftLeft_eq, Nat.shiftRight_eq_div_pow]
  apply divState_ext <;> dsimp only
  · split <;> omega
  · omega
  · omega
  · omega
  · omega
  · omega
  · omega

theorem body_add (s : DivState) (hs : s.WF) (h0 : 0 ≤ s.eta) (h1 : s.eta < 9223372036854775808)
    (hg : s.g % 2 = 1) :
    divsteps_62_body s =
      { eta := s.eta - 1, f := s.f,
        g := ((s.g + s.f) % 18446744073709551616) / 2,
        u := (2 * s.u) % 18446744073709551616, v := (2 * s.v) % 18446744073709551616,
        q := (s.q + s.u) % 18446744073709551616,
        r := (s.r + s.v) % 18446744073709551616 } := by
  obtain ⟨hf, hg', hu, hv, hq, hr⟩ := hs
  have he := toU64_cast s.eta
  have he' := toU64_lt s.eta
  simp only [divsteps_62_body]
  rw [mask_eta_nonneg s.eta h0 h1, mask_odd s.g hg]
  simp only [and_mask, max_mod, Nat.zero_mod, Nat.xor_zero, Nat.zero_and, Nat.and_zero]
  unfold add64 sub64 shl64 toI64
  simp only [Nat.shiftLeft_eq, Nat.shiftRight_eq_div_pow]
  apply divState_ext <;> dsimp only
  · split <;> omega
  · omega
  · omega
  · omega
  · omega
  · omega
  · omega

theorem body_even (s : DivState) (hs : s.WF) (h0 : -9223372036854775808 < s.eta)
    (h1 : s.eta < 9223372036854775808) (hg : s.g % 2 = 0) :
    divsteps_62_body s =
      { eta := s.eta - 1, f := s.f, g := s.g / 2,
        u := (2 * s.u) % 18446744073709551616, v := (2 * s.v) % 18446744073709551616,
        q := s.q, r := s.r } := by
  obtain ⟨hf, hg', hu, hv, hq, hr⟩ := hs
  have he := toU64_cast s.eta
  have he' := toU64_lt s.eta
  simp only [divsteps_62_body]
  rw [mask_even s.g hg]
  simp only [and_mask, max_mod, Nat.zero_mod, Nat.xor_zero, Nat.zero_and, Nat.and_zero]
  unfold add64 sub64 shl64 toI64
  simp only [Nat.shiftLeft_eq, Nat.shiftRight_eq_div_pow]
  apply divState_ext <;> dsimp only
  · split <;> omega
  · omega
  · omega
  · omega
  · omega
  · omega
  · omega

/-! ## The divsteps loop against the integer divstep -/

theorem modEq_of_le {a b : Int} {j k : Nat} (h : a ≡ b [ZMOD 2 ^ k]) (hjk : j ≤ k) :
    a ≡ b [ZMOD 2 ^ j] := by
  have hd : (2 : Int) ^ j ∣ 2 ^ k := pow_dvd_pow 2 hjk
  exact Int.ModEq.of_dvd hd h

theorem modEq_word {a b : Int} {k : Nat} (hk : k ≤ 64)
    (h : (a - b) % 18446744073709551616 = 0) : a ≡ b [ZMOD 2 ^ k] := by
  have h1 : a ≡ b [ZMOD 2 ^ 64] := by
    rw [Int.modEq_iff_dvd]
    norm_num
    omega
  exact modEq_of_le h1 hk

theorem modEq_parity {a b : Int} {k : Nat} (h : a ≡ b [ZMOD 2 ^ (k + 1)]) : a % 2 = b % 2 := by
  have := modEq_of_le h (Nat.le_add_left 1 k)
  simpa [Int.ModEq] using this

theorem modEq_half {a b : Int} {k : Nat} (h : a ≡ b [ZMOD 2 ^ (k + 1)]) (hb : b % 2 = 0) :
    a / 2 ≡ b / 2 [ZMOD 2 ^ k] := by
  have ha : a % 2 = 0 := by rw [modEq_parity h]; exact hb
  rw [Int.modEq_iff_dvd] at h ⊢
  obtain ⟨t, ht⟩ := h
  refine ⟨t, ?_⟩
  have ht2 : b - a = 2 * (2 ^ k * t) := by rw [ht]; ring
  generalize (2 : Int) ^ k * t = z at ht2 ⊢
  omega

theorem sim_half {k : Nat} (hk : k + 1 ≤ 64) (a : Nat) (x y : Int)
    (hxy : x ≡ y [ZMOD 2 ^ (k + 1)]) (hax : ((a : Int) - x) % 18446744073709551616 = 0)
    (hy : y % 2 = 0) : ((a / 2 : Nat) : Int) ≡ y / 2 [ZMOD 2 ^ k] := by
  have h1 : (a : Int) ≡ y [ZMOD 2 ^ (k + 1)] := (modEq_word hk hax).trans hxy
  have h2 := modEq_half h1 hy
  push_cast
  exact h2

theorem sim_step {k : Nat} {s : DivState} {S : MatState} (hk : k + 1 ≤ 64)
    (h : Sim (k + 1) s S) (hF : S.F % 2 = 1)
    (h0 : -4611686018427387904 < S.eta) (h1 : S.eta < 4611686018427387904) :
    Sim k (divsteps_62_body s) (matstep S) := by
  obtain ⟨wf, heta, hf, hg, hu, hv, hq, hr⟩ := h
  have hpar : (s.g : Int) % 2 = S.G % 2 := modEq_parity hg
  have hf' := modEq_of_le hf (Nat.le_add_right k 1)
  have hg' := modEq_of_le hg (Nat.le_add_right k 1)
  obtain ⟨wf1, wf2, wf3, wf4, wf5, wf6⟩ := id wf
  by_cases hodd : s.g % 2 = 1
  · have hGodd : S.G % 2 = 1 := by omega
    by_cases hneg : s.eta < 0
    · rw [body_swap s wf (by omega) hneg hodd]
      have hc : S.eta < 0 ∧ S.G % 2 = 1 := ⟨by omega, hGodd⟩
      simp only [matstep, if_pos hc]
      refine ⟨⟨?_, ?_, ?_, ?_, ?_, ?_⟩, ?_, ?_, ?_, ?_, ?_, ?_, ?_⟩ <;> dsimp only
      · omega
      · omega
      · omega
      · omega
      · omega
      · omega
      · omega
      · exact hg'
      · refine sim_half hk _ ((s.g : Int) - s.f) _ (hg.sub hf) ?_ ?_
        · push_cast; omega
        · omega
      · push_cast; omega
      · push_cast; omega
      · push_cast; omega
      · push_cast; omega
    · rw [body_add s wf (by omega) (by omega) hodd]
      have hc : ¬ (S.eta < 0 ∧ S.G % 2 = 1) := by omega
      simp only [matstep, if_neg hc, if_pos hGodd]
      refine ⟨⟨?_, ?_, ?_, ?_, ?_, ?_⟩, ?_, ?_, ?_, ?_, ?_, ?_, ?_⟩ <;> dsimp only
      · omega
      · omega
      · omega
      · omega
      · omega
      · omega
      · omega
      · exact hf'
      · refine sim_half hk _ ((s.g : Int) + s.f) _ (hg.add hf) ?_ ?_
        · push_cast; omega
        · omega
      · push_cast; omega
      · push_cast; omega
      · push_cast; omega
      · push_cast; omega
  · have hGev : S.G % 2 = 0 := by omega
    rw [body_even s wf (by omega) (by omega) (by omega)]
    have hc : ¬ (S.eta < 0 ∧ S.G % 2 = 1) := by omega
    have hc' : ¬ (S.G % 2 = 1) := by omega
    simp only [matstep, if_neg hc, if_neg hc']
    refine ⟨⟨?_, ?_, ?_, ?_, ?_, ?_⟩, ?_, ?_, ?_, ?_, ?_, ?_, ?_⟩ <;> dsimp only
    · omega
    · omega
    · omega
    · omega
    · omega
    · omega
    · omega
    · exact hf'
    · refine sim_half hk _ (s.g : Int) _ hg ?_ hGev
      omega
    · push_cast; omega
    · push_cast; omega
    · omega
    · omega

/-! ### Invariants of the integer divstep -/

theorem matstep_F_odd (S : MatState) (hF : S.F % 2 = 1) : (matstep S).F % 2 = 1 := by
  unfold matstep
  split
  · rename_i h; exact h.2
  · split <;> exact hF

theorem matstep_eta (S : MatState) (B : Int) (h0 : -B ≤ S.eta) (h1 : S.eta ≤ B) :
    -(B + 1) ≤ (matstep S).eta ∧ (matstep S).eta ≤ B + 1 := by
  unfold matstep
  split
  · dsimp only; omega
  · split <;> dsimp only <;> omega

theorem matstep_FG_bound (S : MatState) (B : Int)
    (h : -B ≤ S.F ∧ S.F ≤ B ∧ -B ≤ S.G ∧ S.G ≤ B) :
    -B ≤ (matstep S).F ∧ (matstep S).F ≤ B ∧ -B ≤ (matstep S).G ∧ (matstep S).G ≤ B := by
  unfold matstep
  split
  · dsimp only; omega
  · split <;> dsimp only <;> omega

theorem matstep_lin (S : MatState) (A B c : Int) (hF : S.F % 2 = 1)
    (h1 : S.U * A + S.V * B = c * S.F) (h2 : S.Q * A + S.R * B = c * S.G) :
    (matstep S).U * A + (matstep S).V * B = 2 * c * (matstep S).F ∧
    (matstep S).Q * A + (matstep S).R * B = 2 * c * (matstep S).G := by
  unfold matstep
  split
  · rename_i h
    dsimp only
    have hh : S.G - S.F = 2 * ((S.G - S.F) / 2) := by omega
    constructor
    · linear_combination 2 * h2
    · linear_combination h2 - h1 + c * hh
  · split
    · rename_i h
      dsimp only
      have hh : S.G + S.F = 2 * ((S.G + S.F) / 2) := by omega
      constructor
      · linear_combination 2 * h1
      · linear_combination h2 + h1 + c * hh
    · rename_i h
      dsimp only
      have hh : S.G = 2 * (S.G / 2) := by omega
      constructor
      · linear_combination 2 * h1
      · linear_combination h2 + c * hh

theorem matstep_mat_bound (S : MatState) (c : Int)
    (hU : S.U + S.V ≤ c ∧ S.U - S.V ≤ c ∧ -S.U + S.V ≤ c ∧ -S.U - S.V ≤ c)
    (hQ : S.Q + S.R ≤ c ∧ S.Q - S.R ≤ c ∧ -S.Q + S.R ≤ c ∧ -S.Q - S.R ≤ c) :
    ((matstep S).U + (matstep S).V ≤ 2 * c ∧ (matstep S).U - (matstep S).V ≤ 2 * c ∧
      -(matstep S).U + (matstep S).V ≤ 2 * c ∧ -(matstep S).U - (matstep S).V ≤ 2 * c) ∧
    ((matstep S).Q + (matstep S).R ≤ 2 * c ∧ (matstep S).Q - (matstep S).R ≤ 2 * c ∧
      -(matstep S).Q + (matstep S).R ≤ 2 * c ∧ -(matstep S).Q - (matstep S).R ≤ 2 * c) := by
  unfold matstep
  split
  · dsimp only; omega
  · split <;> dsimp only <;> omega

theorem matstep_det (S : MatState) (c : Int) (h : S.U * S.R - S.V * S.Q = c) :
    (matstep S).U * (matstep S).R - (matstep S).V * (matstep S).Q = 2 * c := by
  unfold matstep
  split
  · dsimp only; linear_combination 2 * h
  · split <;> dsimp only <;> linear_combination 2 * h

theorem matinit_inv (eta F G : Int) (hF : F % 2 = 1) : MatInv F G 1 (matinit eta F G) := by
  refine ⟨hF, ?_, ?_, ?_, ?_, ?_⟩ <;> simp [matinit]

theorem matstep_inv {A B c : Int} {S : MatState} (h : MatInv A B c S) :
    MatInv A B (2 * c) (matstep S) := by
  obtain ⟨h1, h2, h3, h4, h5, h6⟩ := h
  have hl := matstep_lin S A B c h1 h2 h3
  have hb := matstep_mat_bound S c h4 h5
  exact ⟨matstep_F_odd S h1, hl.1, hl.2, hb.1, hb.2, matstep_det S c h6⟩

theorem matsteps_inv {A B : Int} (n : Nat) : ∀ {c : Int} {S : MatState}, MatInv A B c S →
    MatInv A B (2 ^ n * c) (matsteps n S) := by
  induction n with
  | zero => intro c S h; simpa [matsteps] using h
  | succ n ih =>
    intro c S h
    have := ih (matstep_inv h)
    have e : (2 : Int) ^ (n + 1) * c = 2 ^ n * (2 * c) := by ring
    rw [e]
    exact this

theorem matsteps_eta (n : Nat) : ∀ (S : MatState) (B : Int), -B ≤ S.eta → S.eta ≤ B →
    -(B + n) ≤ (matsteps n S).eta ∧ (matsteps n S).eta ≤ B + n := by
  induction n with
  | zero => intro S B h0 h1; simp [matsteps]; omega
  | succ n ih =>
    intro S B h0 h1
    have h := matstep_eta S B h0 h1
    have := ih (matstep S) (B + 1) h.1 h.2
    simp only [matsteps]
    push_cast
    omega

theorem matsteps_FG_bound (n : Nat) : ∀ (S : MatState) (B : Int),
    (-B ≤ S.F ∧ S.F ≤ B ∧ -B ≤ S.G ∧ S.G ≤ B) →
    -B ≤ (matsteps n S).F ∧ (matsteps n S).F ≤ B ∧
      -B ≤ (matsteps n S).G ∧ (matsteps n S).G ≤ B := by
  induction n with
  | zero => intro S B h; simpa [matsteps] using h
  | succ n ih =>
    intro S B h
    exact ih (matstep S) B (matstep_FG_bound S B h)

theorem matsteps_add (m n : Nat) (S : MatState) :
    matsteps (m + n) S = matsteps n (matsteps m S) := by
  induction m generalizing S with
  | zero => simp [matsteps]
  | succ m ih => rw [Nat.succ_add]; simp only [matsteps]; exact ih _

theorem matsteps_proj (n : Nat) : ∀ (S : MatState),
    ((matsteps n S).eta, (matsteps n S).F, (matsteps n S).G) = divsteps n (S.eta, S.F, S.G) := by
  induction n with
  | zero => intro S; rfl
  | succ n ih =>
    intro S
    simp only [matsteps, divsteps]
    rw [ih (matstep S)]
    congr 1
    unfold matstep divstep
    dsimp only
    split
    · rfl
    · split <;> rfl

theorem loop_sim (n : Nat) : ∀ {k : Nat} {s : DivState} {S : MatState} (B : Int),
    k + n ≤ 64 → Sim (k + n) s S → S.F % 2 = 1 → -B ≤ S.eta → S.eta ≤ B →
    B + n < 4611686018427387904 →
    Sim k (divsteps_62_loop n s) (matsteps n S) := by
  induction n with
  | zero => intro k s S B _ h _ _ _ _; simpa [divsteps_62_loop, matsteps] using h
  | succ n ih =>
    intro k s S B hk h hF h0 h1 hB
    simp only [divsteps_62_loop, matsteps]
    have hs : Sim (k + n) (divsteps_62_body s) (matstep S) :=
      sim_step (by omega) (by rw [Nat.add_assoc]; exact h) hF (by omega) (by omega)
    have he := matstep_eta S B h0 h1
    exact ih (B + 1) (by omega) hs (matstep_F_odd S hF) he.1 he.2 (by push_cast at hB ⊢; omega)

theorem toI64_of_emod (w : Nat) (x : Int) (h : (w : Int) = x % 18446744073709551616)
    (h0 : -9223372036854775808 ≤ x) (h1 : x < 9223372036854775808) : toI64 w = x := by
  unfold toI64; split <;> omega

theorem sim_init (eta : Int) (f0 g0 : Nat) (F G : Int) (hf : f0 < 18446744073709551616)
    (hg : g0 < 18446744073709551616) (hF : F ≡ f0 [ZMOD 2 ^ 62]) (hG : G ≡ g0 [ZMOD 2 ^ 62]) :
    Sim 62 (divsteps_init eta f0 g0) (matinit eta F G) := by
  refine ⟨⟨hf, hg, ?_, ?_, ?_, ?_⟩, rfl, hF.symm, hG.symm, ?_, ?_, ?_, ?_⟩ <;>
    simp [divsteps_init, matinit]

theorem divsteps_62_eq (eta : Int) (f0 g0 : Nat) (F G : Int)
    (h0 : -745 ≤ eta) (h1 : eta ≤ 745) (hf : f0 < 18446744073709551616)
    (hg : g0 < 18446744073709551616) (hodd : f0 % 2 = 1)
    (hF : F ≡ f0 [ZMOD 2 ^ 62]) (hG : G ≡ g0 [ZMOD 2 ^ 62]) :
    secp256k1_modinv64_divsteps_62 eta f0 g0 =
      ((matsteps 62 (matinit eta F G)).eta,
        { u := (matsteps 62 (matinit eta F G)).U, v := (matsteps 62 (matinit eta F G)).V,
          q := (matsteps 62 (matinit eta F G)).Q, r := (matsteps 62 (matinit eta F G)).R }) := by
  have hFodd : F % 2 = 1 := by
    have := modEq_parity (k := 61) hF
    omega
  have hs := loop_sim 62 (k := 0) 745 (by norm_num) (sim_init eta f0 g0 F G hf hg hF hG)
    hFodd h0 h1 (by norm_num)
  have hi := matsteps_inv 62 (matinit_inv eta F G hFodd)
  obtain ⟨_, heta, _, _, hu, hv, hq, hr⟩ := hs
  obtain ⟨_, _, _, bU, bQ, _⟩ := hi
  norm_num at bU bQ
  unfold secp256k1_modinv64_divsteps_62 DivState.trans
  simp only [heta]
  rw [toI64_of_emod _ _ hu (by omega) (by omega), toI64_of_emod _ _ hv (by omega) (by omega),
    toI64_of_emod _ _ hq (by omega) (by omega), toI64_of_emod _ _ hr (by omega) (by omega)]

/-- **C7.** For `eta` in `[-745, 745]`, an odd 64-bit word `f0`, a 64-bit word `g0` and integers
`F ≡ f0`, `G ≡ g0` modulo `2^62`: `divsteps_62 (eta, f0, g0)` returns the eta reached by 62
divsteps from `(eta, F, G)`, and a matrix with `u*F + v*G = 2^62 * F'` and
`q*F + r*G = 2^62 * G'`, where `(eta', F', G')` is the result of those 62 divsteps. -/
theorem divsteps_62_matrix (eta : Int) (f0 g0 : Nat) (F G : Int)
    (h0 : -745 ≤ eta) (h1 : eta ≤ 745) (hf : f0 < 2 ^ 64) (hodd : f0 % 2 = 1) (hg : g0 < 2 ^ 64)
    (hF : F ≡ f0 [ZMOD 2 ^ 62]) (hG : G ≡ g0 [ZMOD 2 ^ 62]) :
    (secp256k1_modinv64_divsteps_62 eta f0 g0).1 = (divsteps 62 (eta, F, G)).1 ∧
    (secp256k1_modinv64_divsteps_62 eta f0 g0).2.u * F
        + (secp256k1_modinv64_divsteps_62 eta f0 g0).2.v * G
      = 2 ^ 62 * (divsteps 62 (eta, F, G)).2.1 ∧
    (secp256k1_modinv64_divsteps_62 eta f0 g0).2.q * F
        + (secp256k1_modinv64_divsteps_62 eta f0 g0).2.r * G
      = 2 ^ 62 * (divsteps 62 (eta, F, G)).2.2 := by
  have hFodd : F % 2 = 1 := by
    have := modEq_parity (k := 61) hF
    omega
  rw [divsteps_62_eq eta f0 g0 F G h0 h1 (by norm_num at hf; exact hf)
    (by norm_num at hg; exact hg) hodd hF hG]
  have hp := matsteps_proj 62 (matinit eta F G)
  have hi := matsteps_inv 62 (matinit_inv eta F G hFodd)
  have e : (matinit eta F G).eta = eta ∧ (matinit eta F G).F = F ∧ (matinit eta F G).G = G :=
    ⟨rfl, rfl, rfl⟩
  rw [e.1, e.2.1, e.2.2] at hp
  rw [← hp]
  dsimp only
  refine ⟨rfl, ?_, ?_⟩
  · have := hi.linF; rw [this]; ring
  · have := hi.linG; rw [this]; ring

theorem divsteps_62_matrix_witness :
    (-745 ≤ (-1 : Int) ∧ (-1 : Int) ≤ 745 ∧ 7 < 2 ^ 64 ∧ 7 % 2 = 1 ∧ 4 < 2 ^ 64 ∧
      (7 : Int) ≡ (7 : Nat) [ZMOD 2 ^ 62] ∧ (4 : Int) ≡ (4 : Nat) [ZMOD 2 ^ 62]) ∧
    (secp256k1_modinv64_divsteps_62 (-1) 7 4).1 = (divsteps 62 (-1, 7, 4)).1 ∧
    (secp256k1_modinv64_divsteps_62 (-1) 7 4).2.u * 7
        + (secp256k1_modinv64_divsteps_62 (-1) 7 4).2.v * 4
      = 2 ^ 62 * (divsteps 62 (-1, 7, 4)).2.1 ∧
    (secp256k1_modinv64_divsteps_62 (-1) 7 4).2.q * 7
        + (secp256k1_modinv64_divsteps_62 (-1) 7 4).2.r * 4
      = 2 ^ 62 * (divsteps 62 (-1, 7, 4)).2.2 :=
  ⟨⟨by decide, by decide, by norm_num, by decide, by norm_num, Int.ModEq.refl _,
      Int.ModEq.refl _⟩,
    divsteps_62_matrix (-1) 7 4 7 4 (by decide) (by decide) (by norm_num) (by decide)
      (by norm_num) (Int.ModEq.refl _) (Int.ModEq.refl _)⟩

/-! ## The variable-time divsteps loop -/

theorem matstep_swp (S : MatState) (hF : S.F % 2 = 1) (hG : S.G % 2 = 1) (he : S.eta < 0) :
    matstep (swp S) = matstep S := by
  have c1 : S.eta < 0 ∧ S.G % 2 = 1 := ⟨he, hG⟩
  have c2 : ¬ ((swp S).eta < 0 ∧ (swp S).G % 2 = 1) := by
    simp only [swp]; omega
  have c3 : (swp S).G % 2 = 1 := by simp only [swp]; omega
  rw [matstep, if_neg c2, if_pos c3, matstep, if_pos c1]
  simp only [swp, MatState.mk.injEq]
  refine ⟨trivial, trivial, ?_, trivial, trivial, by omega, by omega⟩
  have e : -S.F + S.G = S.G - S.F := by omega
  rw [e]

theorem matstep_addw (S : MatState) (w : Int) (hF : S.F % 2 = 1) (he : 0 ≤ S.eta)
    (hw : (S.G + w * S.F) % 2 = 0) :
    matstep (addw w S) = addw (w / 2) (matstep S) := by
  have c1 : ¬ (S.eta < 0 ∧ S.G % 2 = 1) := by omega
  have c2 : ¬ ((addw w S).eta < 0 ∧ (addw w S).G % 2 = 1) := by simp only [addw]; omega
  have c3 : ¬ ((addw w S).G % 2 = 1) := by simp only [addw]; omega
  have hmul : (w * S.F) % 2 = (w % 2) * (S.F % 2) % 2 := Int.mul_emod _ _ _
  rw [hF] at hmul
  rw [matstep, if_neg c2, if_neg c3]
  by_cases hG : S.G % 2 = 1
  · have hw1 : w % 2 = 1 := by omega
    have hw2 : w = 2 * (w / 2) + 1 := by omega
    rw [matstep, if_neg c1, if_pos hG]
    simp only [addw, MatState.mk.injEq]
    refine ⟨trivial, trivial, ?_, trivial, trivial, ?_, ?_⟩
    · generalize w / 2 = t at hw2 ⊢
      subst hw2
      have : (S.G + (2 * t + 1) * S.F) = (S.G + S.F) + 2 * (t * S.F) := by ring
      rw [this]
      generalize t * S.F = z
      omega
    · generalize w / 2 = t at hw2 ⊢
      subst hw2; ring
    · generalize w / 2 = t at hw2 ⊢
      subst hw2; ring
  · have hw1 : w % 2 = 0 := by omega
    have hw2 : w = 2 * (w / 2) := by omega
    rw [matstep, if_neg c1, if_neg hG]
    simp only [addw, MatState.mk.injEq]
    refine ⟨trivial, trivial, ?_, trivial, trivial, ?_, ?_⟩
    · generalize w / 2 = t at hw2 ⊢
      subst hw2
      have : (S.G + (2 * t) * S.F) = S.G + 2 * (t * S.F) := by ring
      rw [this]
      generalize t * S.F = z
      omega
    · generalize w / 2 = t at hw2 ⊢
      subst hw2; ring
    · generalize w / 2 = t at hw2 ⊢
      subst hw2; ring

theorem matstep_eta_nonneg (S : MatState) (he : 0 ≤ S.eta) : (matstep S).eta = S.eta - 1 := by
  have c1 : ¬ (S.eta < 0 ∧ S.G % 2 = 1) := by omega
  rw [matstep, if_neg c1]
  split <;> rfl

theorem matstep_F_nonneg (S : MatState) (he : 0 ≤ S.eta) : (matstep S).F = S.F := by
  have c1 : ¬ (S.eta < 0 ∧ S.G % 2 = 1) := by omega
  rw [matstep, if_neg c1]
  split <;> rfl

theorem matstep_G_even (S : MatState) (hG : S.G % 2 = 0) : (matstep S).G = S.G / 2 := by
  have c1 : ¬ (S.eta < 0 ∧ S.G % 2 = 1) := by omega
  have c2 : ¬ (S.G % 2 = 1) := by omega
  rw [matstep, if_neg c1, if_neg c2]

theorem matsteps_addw (k : Nat) : ∀ (S : MatState) (w : Int), S.F % 2 = 1 → 0 ≤ w → w < 2 ^ k →
    (2 : Int) ^ k ∣ S.G + w * S.F → (k : Int) ≤ S.eta + 1 →
    matsteps k (addw w S) = matsteps k S := by
  induction k with
  | zero =>
    intro S w _ h0 h1 _ _
    have : w = 0 := by norm_num at h1; omega
    subst this
    simp [matsteps, addw]
  | succ k ih =>
    intro S w hF h0 h1 hd he
    have he0 : 0 ≤ S.eta := by push_cast at he; omega
    have hev : (S.G + w * S.F) % 2 = 0 := by
      have h2 : (2 : Int) ∣ 2 ^ (k + 1) := Dvd.intro_left (2 ^ k) (by ring)
      have := Dvd.dvd.trans h2 hd
      omega
    have hstep := matstep_addw S w hF he0 hev
    simp only [matsteps]
    rw [hstep]
    apply ih (matstep S) (w / 2) (matstep_F_odd S hF)
    · omega
    · rw [pow_succ] at h1; omega
    · have hG : (addw (w / 2) (matstep S)).G = (S.G + w * S.F) / 2 := by
        rw [← hstep]
        exact matstep_G_even (addw w S) hev
      simp only [addw] at hG
      rw [hG]
      obtain ⟨t, ht⟩ := hd
      refine ⟨t, ?_⟩
      have ht2 : S.G + w * S.F = 2 * (2 ^ k * t) := by rw [ht]; ring
      generalize (2 : Int) ^ k * t = z at ht2 ⊢
      omega
    · rw [matstep_eta_nonneg S he0]; push_cast at he; omega

theorem matsteps_swp (k : Nat) (S : MatState) (hk : 1 ≤ k) (hF : S.F % 2 = 1)
    (hG : S.G % 2 = 1) (he : S.eta < 0) : matsteps k (swp S) = matsteps k S := by
  obtain ⟨j, rfl⟩ : ∃ j, k = j + 1 := ⟨k - 1, by omega⟩
  simp only [matsteps]
  rw [matstep_swp S hF hG he]

theorem ctz_go_le (n : Nat) : ∀ x, ctz_go n x ≤ n := by
  induction n with
  | zero => intro x; simp [ctz_go]
  | succ n ih =>
    intro x
    simp only [ctz_go]
    split
    · omega
    · have := ih (x / 2); omega

theorem ctz_go_low (n : Nat) : ∀ x j, j < ctz_go n x → x.testBit j = false := by
  induction n with
  | zero => intro x j h; simp [ctz_go] at h
  | succ n ih =>
    intro x j h
    simp only [ctz_go] at h
    split at h
    · omega
    · rename_i hx
      cases j with
      | zero =>
        rw [Nat.testBit_zero]
        simp; omega
      | succ j =>
        rw [Nat.testBit_succ]
        exact ih (x / 2) j (by omega)

theorem ctz_go_bit (n : Nat) : ∀ x, ctz_go n x < n → x.testBit (ctz_go n x) = true := by
  induction n with
  | zero => intro x h; omega
  | succ n ih =>
    intro x h
    simp only [ctz_go] at h ⊢
    split
    · rename_i hx
      rw [Nat.testBit_zero]
      simp [hx]
    · rename_i hx
      rw [if_neg hx] at h
      rw [Nat.testBit_succ]
      exact ih (x / 2) (by omega)

theorem sentinel_testBit (i j : Nat) (hi : i < 64) :
    (shl64 UINT64_MAX i).testBit j = (decide (i ≤ j) && decide (j < 64)) := by
  have e : UINT64_MAX = 2 ^ 64 - 1 := by norm_num [UINT64_MAX]
  have e2 : (18446744073709551616 : Nat) = 2 ^ 64 := by norm_num
  rw [shl64, e, e2, Nat.testBit_mod_two_pow, Nat.testBit_shiftLeft, Nat.testBit_two_pow_sub_one]
  by_cases h1 : i ≤ j <;> by_cases h2 : j < 64 <;> simp [h1, h2]
  omega

theorem low_bits_zero (g z : Nat) (h : ∀ j, j < z → g.testBit j = false) : g % 2 ^ z = 0 := by
  apply Nat.eq_of_testBit_eq
  intro j
  rw [Nat.testBit_mod_two_pow, Nat.zero_testBit]
  by_cases hj : j < z
  · simp [h j hj]
  · simp [hj]

theorem ctz_spec (g i : Nat) (hg : g < 18446744073709551616) (hi : i ≤ 62) :
    secp256k1_ctz64_var (g ||| shl64 UINT64_MAX i) ≤ i ∧
    g % 2 ^ (secp256k1_ctz64_var (g ||| shl64 UINT64_MAX i)) = 0 ∧
    (secp256k1_ctz64_var (g ||| shl64 UINT64_MAX i) < i →
      (g / 2 ^ (secp256k1_ctz64_var (g ||| shl64 UINT64_MAX i))) % 2 = 1) := by
  have hX : (g ||| shl64 UINT64_MAX i) % 18446744073709551616 = g ||| shl64 UINT64_MAX i := by
    apply Nat.mod_eq_of_lt
    have e2 : (18446744073709551616 : Nat) = 2 ^ 64 := by norm_num
    rw [e2] at hg ⊢
    apply Nat.or_lt_two_pow hg
    rw [shl64, e2]
    exact Nat.mod_lt _ (by norm_num)
  unfold secp256k1_ctz64_var
  rw [hX]
  generalize hz : ctz_go 64 (g ||| shl64 UINT64_MAX i) = z
  have hlow := ctz_go_low 64 (g ||| shl64 UINT64_MAX i)
  have hbit := ctz_go_bit 64 (g ||| shl64 UINT64_MAX i)
  rw [hz] at hlow hbit
  have hzi : z ≤ i := by
    by_contra hc
    have := hlow i (by omega)
    rw [Nat.testBit_or, sentinel_testBit i i (by omega)] at this
    simp at this
    omega
  refine ⟨hzi, ?_, ?_⟩
  · apply low_bits_zero
    intro j hj
    have := hlow j hj
    rw [Nat.testBit_or] at this
    simp at this
    exact this.1
  · intro hlt
    have := hbit (by omega)
    rw [Nat.testBit_or, sentinel_testBit i z (by omega)] at this
    have hzi' : ¬ (i ≤ z) := by omega
    simp [hzi'] at this
    rw [Nat.testBit_to_div_mod] at this
    simpa using this

theorem body_wf (s : DivState) : (divsteps_62_body s).WF := by
  simp only [divsteps_62_body]
  refine ⟨?_, ?_, ?_, ?_, ?_, ?_⟩ <;> dsimp only
  · unfold add64; omega
  · rw [Nat.shiftRight_eq_div_pow]; unfold add64; omega
  · unfold shl64; omega
  · unfold shl64; omega
  · unfold add64; omega
  · unfold add64; omega

theorem loop_even (z : Nat) : ∀ (s : DivState), s.WF → -4611686018427387904 + z < s.eta →
    s.eta < 4611686018427387904 → z ≤ 64 → s.g % 2 ^ z = 0 →
    divsteps_62_loop z s =
      { eta := s.eta - z, f := s.f, g := s.g / 2 ^ z,
        u := (s.u * 2 ^ z) % 18446744073709551616, v := (s.v * 2 ^ z) % 18446744073709551616,
        q := s.q, r := s.r } := by
  induction z with
  | zero =>
    intro s wf _ _ _ _
    obtain ⟨hf, hg, hu, hv, hq, hr⟩ := wf
    simp only [divsteps_62_loop]
    apply divState_ext <;> simp <;> omega
  | succ z ih =>
    intro s wf h0 h1 hz hg
    have hev : s.g % 2 = 0 := by
      have : 2 ∣ 2 ^ (z + 1) := Dvd.intro_left (2 ^ z) (by ring)
      have := Nat.mod_mod_of_dvd s.g this
      omega
    simp only [divsteps_62_loop]
    rw [body_even s wf (by omega) (by omega) hev]
    have hg' : s.g / 2 % 2 ^ z = 0 := by
      have : s.g % (2 * 2 ^ z) = 0 := by rw [← pow_succ']; exact hg
      rw [Nat.mod_mul] at this
      generalize s.g / 2 % 2 ^ z = t at this ⊢
      omega
    push_cast at h0
    rw [ih _ ?_ (by dsimp only; omega) (by dsimp only; omega) (by omega) hg']
    · apply divState_ext <;> dsimp only
      · push_cast; ring
      · rw [Nat.div_div_eq_div_mul, pow_succ']
      · rw [Nat.mod_mul_mod, pow_succ']; congr 1; ring
      · rw [Nat.mod_mul_mod, pow_succ']; congr 1; ring
    · obtain ⟨hf, hg2, hu, hv, hq, hr⟩ := wf
      refine ⟨?_, ?_, ?_, ?_, ?_, ?_⟩ <;> dsimp only <;> omega

set_option maxRecDepth 100000 in
theorem cancel6_zmod : ∀ x y : ZMod 64, x.val % 2 = 1 → y + x * (x * y * (x * x + 62)) = 0 := by
  decide!

set_option maxRecDepth 100000 in
theorem cancel4_zmod : ∀ x y : ZMod 16, x.val % 2 = 1 →
    y + x * ((0 - (x + 2 * (((x + 1).val &&& 4 : Nat) : ZMod 16))) * y) = 0 := by
  decide!

theorem cast_mod_word64 (x : Nat) :
    ((x % 18446744073709551616 : Nat) : ZMod 64) = (x : ZMod 64) := by
  rw [ZMod.natCast_eq_natCast_iff]
  have h : (64 : Nat) ∣ 18446744073709551616 := by norm_num
  exact (Nat.mod_mod_of_dvd x h : x % 18446744073709551616 % 64 = x % 64)

theorem cancel6 (f g : Nat) (hf : f % 2 = 1) :
    (g + f * mul64 (mul64 f g) (sub64 (mul64 f f) 2)) % 64 = 0 := by
  have key := cancel6_zmod (f : ZMod 64) (g : ZMod 64) (by
    rw [ZMod.val_natCast]; omega)
  apply Nat.mod_eq_zero_of_dvd
  rw [← ZMod.natCast_zmod_eq_zero_iff_dvd]
  have e : (18446744073709551614 : ZMod 64) = 62 := by decide
  simp only [mul64, sub64]
  push_cast [cast_mod_word64]
  rw [e]
  exact key

theorem cast_mod_word16 (x : Nat) :
    ((x % 18446744073709551616 : Nat) : ZMod 16) = (x : ZMod 16) := by
  rw [ZMod.natCast_eq_natCast_iff]
  have h : (16 : Nat) ∣ 18446744073709551616 := by norm_num
  exact (Nat.mod_mod_of_dvd x h : x % 18446744073709551616 % 16 = x % 16)

theorem cast_mod_word32 (x : Nat) : ((x % 4294967296 : Nat) : ZMod 16) = (x : ZMod 16) := by
  rw [ZMod.natCast_eq_natCast_iff]
  have h : (16 : Nat) ∣ 4294967296 := by norm_num
  exact (Nat.mod_mod_of_dvd x h : x % 4294967296 % 16 = x % 16)

theorem and4_mod (x : Nat) : x &&& 4 = (x % 16) &&& 4 := by
  apply Nat.eq_of_testBit_eq
  intro j
  have e16 : (16 : Nat) = 2 ^ 4 := by norm_num
  have e4 : (4 : Nat) = 2 ^ 2 := by norm_num
  rw [Nat.testBit_and, Nat.testBit_and, e16, Nat.testBit_mod_two_pow, e4, Nat.testBit_two_pow]
  by_cases h : 2 = j
  · subst h; simp
  · simp [h]

theorem cancel4 (f g : Nat) (hf : f % 2 = 1) :
    (g + f * mul64 ((4294967296 - (add64 f (shl64 (add64 f 1 &&& 4) 1)) % 4294967296)
      % 4294967296) g) % 16 = 0 := by
  have key := cancel4_zmod (f : ZMod 16) (g : ZMod 16) (by
    rw [ZMod.val_natCast]; omega)
  apply Nat.mod_eq_zero_of_dvd
  rw [← ZMod.natCast_zmod_eq_zero_iff_dvd]
  have hX : (add64 f 1 &&& 4) = (((f : ZMod 16) + 1).val &&& 4) := by
    have e1 : ((f : ZMod 16) + 1) = ((f + 1 : Nat) : ZMod 16) := by push_cast; rfl
    rw [and4_mod, e1, ZMod.val_natCast]
    unfold add64
    rw [Nat.mod_mod_of_dvd _ (by norm_num : 16 ∣ 18446744073709551616)]
  have ht : ((add64 f (shl64 (add64 f 1 &&& 4) 1) : Nat) : ZMod 16)
      = (f : ZMod 16) + 2 * (((((f : ZMod 16) + 1).val &&& 4 : Nat)) : ZMod 16) := by
    rw [hX]
    simp only [add64, shl64, Nat.shiftLeft_eq]
    push_cast [cast_mod_word16]
    ring
  have ha : (((4294967296 - (add64 f (shl64 (add64 f 1 &&& 4) 1)) % 4294967296)
      % 4294967296 : Nat) : ZMod 16)
      = 0 - ((f : ZMod 16) + 2 * (((((f : ZMod 16) + 1).val &&& 4 : Nat)) : ZMod 16)) := by
    rw [cast_mod_word32, Nat.cast_sub (le_of_lt (Nat.mod_lt _ (by norm_num))), cast_mod_word32,
      ht]
    have e : ((4294967296 : Nat) : ZMod 16) = 0 := by decide
    rw [e]
  simp only [mul64]
  push_cast [cast_mod_word16]
  rw [ha]
  exact key

theorem cancel_masked (f g w0 p q : Nat) (hp : p ≤ q) (h : (g + f * w0) % 2 ^ q = 0) :
    (g + f * (w0 % 2 ^ p)) % 2 ^ p = 0 := by
  have hd : 2 ^ p ∣ 2 ^ q := pow_dvd_pow 2 hp
  have h1 : (g + f * w0) % 2 ^ p = 0 := by
    have := Nat.mod_mod_of_dvd (g + f * w0) hd
    rw [h] at this
    simpa using this.symm
  have h2 : g + f * (w0 % 2 ^ p) ≡ g + f * w0 [MOD 2 ^ p] :=
    Nat.ModEq.add_left g (Nat.ModEq.mul_left f (Nat.mod_modEq w0 (2 ^ p)))
  rw [← h1]
  exact h2

set_option maxRecDepth 100000 in
theorem mask63 (L : Nat) (h1 : 1 ≤ L) (h2 : L ≤ 62) :
    (UINT64_MAX >>> (64 - L)) &&& 63 = 2 ^ (min L 6) - 1 := by
  unfold UINT64_MAX
  interval_cases L <;> decide

set_option maxRecDepth 100000 in
theorem mask15 (L : Nat) (h1 : 1 ≤ L) (h2 : L ≤ 62) :
    (UINT64_MAX >>> (64 - L)) &&& 15 = 2 ^ (min L 4) - 1 := by
  unfold UINT64_MAX
  interval_cases L <;> decide

theorem wrapI32_eq (x : Int) (h0 : -2147483648 ≤ x) (h1 : x < 2147483648) : wrapI32 x = x := by
  unfold wrapI32; omega

theorem and_pow_mask (x p : Nat) : x &&& (2 ^ p - 1) = x % 2 ^ p :=
  Nat.and_pow_two_sub_one_eq_mod x p

theorem mod_pow_small (x p : Nat) (hp : p ≤ 6) : x % 2 ^ p % 4294967296 = x % 2 ^ p := by
  apply Nat.mod_eq_of_lt
  have h1 : x % 2 ^ p < 2 ^ p := Nat.mod_lt _ (by positivity)
  have h2 : 2 ^ p ≤ 2 ^ 6 := Nat.pow_le_pow_right (by norm_num) hp
  omega

theorem var_cancel_swap (i : Nat) (s : DivState) (hi1 : 1 ≤ i) (hi : i ≤ 62)
    (h0 : -1000000 < s.eta) (h1 : s.eta < 0) (hg : s.g % 2 = 1) :
    ∃ p w : Nat, 1 ≤ p ∧ p ≤ i ∧ (p : Int) ≤ -s.eta + 1 ∧ w < 2 ^ p ∧
      (neg64 s.f + s.g * w) % 2 ^ p = 0 ∧
      divsteps_62_var_cancel { i := i, s := s } =
        { i := i,
          s := { eta := -s.eta, f := s.g, g := add64 (neg64 s.f) (mul64 s.g w),
                 u := s.q, v := s.r, q := add64 (neg64 s.u) (mul64 s.q w),
                 r := add64 (neg64 s.v) (mul64 s.r w) } } := by
  have he : subI64 0 s.eta = -s.eta := by
    unfold subI64; rw [wrapI64_eq _ (by omega) (by omega)]; ring
  have hw1 : wrapI32 (wrapI32 (-s.eta) + 1) = -s.eta + 1 := by
    rw [wrapI32_eq (-s.eta) (by omega) (by omega), wrapI32_eq _ (by omega) (by omega)]
  obtain ⟨L, hL⟩ : ∃ L : Nat, (L : Int) = if -s.eta + 1 > (i : Int) then (i : Int) else -s.eta + 1 := by
    split
    · exact ⟨i, rfl⟩
    · exact ⟨(-s.eta + 1).toNat, by omega⟩
  have hL1 : 1 ≤ L := by split at hL <;> omega
  have hL2 : L ≤ i := by split at hL <;> omega
  have hL3 : (L : Int) ≤ -s.eta + 1 := by split at hL <;> omega
  refine ⟨min L 6, mul64 (mul64 s.g (neg64 s.f)) (sub64 (mul64 s.g s.g) 2) % 2 ^ (min L 6),
    by omega, by omega, by omega, Nat.mod_lt _ (by positivity), ?_, ?_⟩
  · exact cancel_masked s.g (neg64 s.f) _ (min L 6) 6 (by omega) (cancel6 s.g (neg64 s.f) hg)
  · simp only [divsteps_62_var_cancel, if_pos h1, he, hw1]
    rw [← hL]
    have e64 : ((64 : Int) - (L : Int)).toNat = 64 - L := by omega
    rw [e64, mask63 L hL1 (by omega), and_pow_mask, mod_pow_small _ _ (by omega)]

theorem var_cancel_straight (i : Nat) (s : DivState) (hi1 : 1 ≤ i) (hi : i ≤ 62)
    (h0 : 0 ≤ s.eta) (h1 : s.eta < 1000000) (hf : s.f % 2 = 1) :
    ∃ p w : Nat, 1 ≤ p ∧ p ≤ i ∧ (p : Int) ≤ s.eta + 1 ∧ w < 2 ^ p ∧
      (s.g + s.f * w) % 2 ^ p = 0 ∧
      divsteps_62_var_cancel { i := i, s := s } =
        { i := i,
          s := { eta := s.eta, f := s.f, g := add64 s.g (mul64 s.f w),
                 u := s.u, v := s.v, q := add64 s.q (mul64 s.u w),
                 r := add64 s.r (mul64 s.v w) } } := by
  have hw1 : wrapI32 (wrapI32 s.eta + 1) = s.eta + 1 := by
    rw [wrapI32_eq s.eta (by omega) (by omega), wrapI32_eq _ (by omega) (by omega)]
  obtain ⟨L, hL⟩ : ∃ L : Nat, (L : Int) = if s.eta + 1 > (i : Int) then (i : Int) else s.eta + 1 := by
    split
    · exact ⟨i, rfl⟩
    · exact ⟨(s.eta + 1).toNat, by omega⟩
  have hL1 : 1 ≤ L := by split at hL <;> omega
  have hL2 : L ≤ i := by split at hL <;> omega
  have hL3 : (L : Int) ≤ s.eta + 1 := by split at hL <;> omega
  refine ⟨min L 4,
    mul64 ((4294967296 - (add64 s.f (shl64 (add64 s.f 1 &&& 4) 1)) % 4294967296) % 4294967296)
      s.g % 2 ^ (min L 4),
    by omega, by omega, by omega, Nat.mod_lt _ (by positivity), ?_, ?_⟩
  · exact cancel_masked s.f s.g _ (min L 4) 4 (by omega) (cancel4 s.f s.g hf)
  · have hneg : ¬ (s.eta < 0) := by omega
    simp only [divsteps_62_var_cancel, if_neg hneg, hw1]
    rw [← hL]
    have e64 : ((64 : Int) - (L : Int)).toNat = 64 - L := by omega
    rw [e64, mask15 L hL1 (by omega), and_pow_mask, mod_pow_small _ _ (by omega)]

theorem word_mul_add (q u w : Nat) (Q U : Int) (hq : (q : Int) = Q % 18446744073709551616)
    (hu : (u : Int) = U % 18446744073709551616) :
    ((add64 q (mul64 u w) : Nat) : Int) = (Q + w * U) % 18446744073709551616 := by
  unfold add64 mul64
  push_cast
  rw [hq, hu]
  have h : (Q % 18446744073709551616 + U % 18446744073709551616 * w % 18446744073709551616)
      ≡ Q + w * U [ZMOD 18446744073709551616] := by
    have h1 : U % 18446744073709551616 * w % 18446744073709551616 ≡ w * U
        [ZMOD 18446744073709551616] := by
      refine (Int.mod_modEq _ _).trans ?_
      rw [mul_comm]
      exact (Int.mod_modEq U _).mul_left w
    exact (Int.mod_modEq Q _).add h1
  exact h

theorem sim_addw {i : Nat} {s : DivState} {S : MatState} (hi : i ≤ 64) (h : Sim i s S)
    (w : Nat) :
    Sim i { eta := s.eta, f := s.f, g := add64 s.g (mul64 s.f w), u := s.u, v := s.v,
            q := add64 s.q (mul64 s.u w), r := add64 s.r (mul64 s.v w) } (addw w S) := by
  obtain ⟨wf, heta, hf, hg, hu, hv, hq, hr⟩ := h
  obtain ⟨wf1, wf2, wf3, wf4, wf5, wf6⟩ := id wf
  refine ⟨⟨wf1, ?_, wf3, wf4, ?_, ?_⟩, heta, hf, ?_, hu, hv, ?_, ?_⟩
  · dsimp only; unfold add64; omega
  · dsimp only; unfold add64; omega
  · dsimp only; unfold add64; omega
  · simp only [addw]
    have h1 : ((add64 s.g (mul64 s.f w) : Nat) : Int) ≡ (s.g : Int) + w * s.f [ZMOD 2 ^ i] := by
      apply modEq_word hi
      unfold add64 mul64
      push_cast
      have e : (w : Int) * s.f = s.f * w := by ring
      rw [e]
      generalize (s.f : Int) * w = z
      omega
    exact h1.trans (hg.add (hf.mul_left _))
  · exact word_mul_add s.q s.u w S.Q S.U hq hu
  · exact word_mul_add s.r s.v w S.R S.V hr hv

theorem sim_swp {i : Nat} {s : DivState} {S : MatState} (hi : i ≤ 64) (h : Sim i s S) :
    Sim i { eta := -s.eta, f := s.g, g := neg64 s.f, u := s.q, v := s.r,
            q := neg64 s.u, r := neg64 s.v } (swp S) := by
  obtain ⟨wf, heta, hf, hg, hu, hv, hq, hr⟩ := h
  obtain ⟨wf1, wf2, wf3, wf4, wf5, wf6⟩ := id wf
  refine ⟨⟨wf2, ?_, wf5, wf6, ?_, ?_⟩, ?_, hg, ?_, hq, hr, ?_, ?_⟩
  · dsimp only; unfold neg64; omega
  · dsimp only; unfold neg64; omega
  · dsimp only; unfold neg64; omega
  · simp only [swp]; omega
  · simp only [swp]
    have h1 : ((neg64 s.f : Nat) : Int) ≡ -(s.f : Int) [ZMOD 2 ^ i] := by
      apply modEq_word hi
      unfold neg64
      push_cast
      omega
    exact h1.trans hf.neg
  · simp only [swp]; unfold neg64; push_cast; omega
  · simp only [swp]; unfold neg64; push_cast; omega

theorem var_shift_eq (i : Nat) (s : DivState) (wf : s.WF) (hi : i ≤ 62)
    (h0 : -1000000 < s.eta) (h1 : s.eta < 1000000) :
    ∃ z : Nat, z ≤ i ∧ s.g % 2 ^ z = 0 ∧ (z < i → (s.g / 2 ^ z) % 2 = 1) ∧
      (divsteps_62_loop z s).g = s.g / 2 ^ z ∧
      divsteps_62_var_shift { i := i, s := s } =
        { i := ((i - z : Nat) : Int), s := divsteps_62_loop z s } := by
  obtain ⟨hz1, hz2, hz3⟩ := ctz_spec s.g i wf.g hi
  refine ⟨secp256k1_ctz64_var (s.g ||| shl64 UINT64_MAX i), hz1, hz2, hz3, ?_, ?_⟩
  · rw [loop_even _ s wf (by omega) (by omega) (by omega) hz2]
  simp only [divsteps_62_var_shift, Int.toNat_ofNat]
  generalize secp256k1_ctz64_var (s.g ||| shl64 UINT64_MAX i) = z at hz1 hz2 hz3 ⊢
  rw [loop_even z s wf (by omega) (by omega) (by omega) hz2]
  have e1 : wrapI32 ((i : Int) - (z : Int)) = ((i - z : Nat) : Int) := by
    rw [wrapI32_eq _ (by omega) (by omega)]; omega
  have e2 : subI64 s.eta (z : Int) = s.eta - z := by
    unfold subI64; rw [wrapI64_eq _ (by omega) (by omega)]
  rw [e1, e2]
  simp only [shl64, Nat.shiftLeft_eq, Nat.shiftRight_eq_div_pow]

theorem even_of_low_zero (g p z : Nat) (hg : g % 2 ^ p = 0) (hz : z < p) :
    (g / 2 ^ z) % 2 = 0 := by
  obtain ⟨t, ht⟩ := Nat.dvd_of_mod_eq_zero hg
  have e : 2 ^ p = 2 ^ z * (2 * 2 ^ (p - z - 1)) := by
    rw [← pow_succ', ← pow_add]; congr 1; omega
  rw [ht, e, Nat.mul_assoc, Nat.mul_div_cancel_left _ (by positivity), Nat.mul_assoc]
  exact Nat.mul_mod_right 2 _

theorem matsteps_F_odd (n : Nat) : ∀ (S : MatState), S.F % 2 = 1 → (matsteps n S).F % 2 = 1 := by
  induction n with
  | zero => intro S h; exact h
  | succ n ih => intro S h; exact ih _ (matstep_F_odd S h)

theorem pow_dvd_of_sim {i p : Nat} {a : Nat} {A : Int} (h : (a : Int) ≡ A [ZMOD 2 ^ i])
    (hp : p ≤ i) : ((2 : Int) ^ p ∣ A) ↔ a % 2 ^ p = 0 := by
  have h' := modEq_of_le h hp
  constructor
  · intro hd
    have h0 : A ≡ 0 [ZMOD 2 ^ p] := (Int.modEq_zero_iff_dvd).mpr hd
    have h1 := (h'.trans h0)
    have h2 : ((2 : Int) ^ p) ∣ (a : Int) := (Int.modEq_zero_iff_dvd).mp h1
    have h3 : (2 ^ p : Nat) ∣ a := by
      have : ((2 ^ p : Nat) : Int) ∣ (a : Int) := by push_cast; exact h2
      exact Int.natCast_dvd_natCast.mp this
    exact Nat.mod_eq_zero_of_dvd h3
  · intro ha
    have h3 : ((2 ^ p : Nat) : Int) ∣ (a : Int) :=
      Int.natCast_dvd_natCast.mpr (Nat.dvd_of_mod_eq_zero ha)
    push_cast at h3
    have h1 : (a : Int) ≡ 0 [ZMOD 2 ^ p] := (Int.modEq_zero_iff_dvd).mpr h3
    exact (Int.modEq_zero_iff_dvd).mp (h'.symm.trans h1)

theorem var_loop_sim (S0 : MatState) : ∀ (fuel i p : Nat) (s : DivState) (S' : MatState),
    1 ≤ i → i ≤ 62 → Sim i s S' → S'.F % 2 = 1 → p ≤ i → (2 : Int) ^ p ∣ S'.G →
    matsteps p S' = matsteps p (matsteps (62 - i) S0) →
    -(745 + ((62 - i : Nat) : Int)) ≤ S'.eta → S'.eta ≤ 745 + ((62 - i : Nat) : Int) →
    i + 1 ≤ fuel + min p 1 →
    ∃ st, divsteps_62_var_loop fuel { i := i, s := s } = some st ∧
      Sim 0 st.s (matsteps 62 S0) := by
  intro fuel
  induction fuel with
  | zero => intro i p s S' h1 _ _ _ _ _ _ _ _ hf; omega
  | succ fuel ih =>
    intro i p s S' hi1 hi hsim hF hp hd hmat he0 he1 hfuel
    have heta := hsim.eta
    obtain ⟨z, hz1, hz2, hz3, hzg, hshift⟩ :=
      var_shift_eq i s hsim.wf hi (by omega) (by omega)
    have hpz : p ≤ z := by
      by_contra hc
      have h1 := hz3 (by omega)
      have h2 := even_of_low_zero s.g p z ((pow_dvd_of_sim hsim.g hp).mp hd) (by omega)
      omega
    -- the state after the shift
    have hs1 : Sim (i - z) (divsteps_62_loop z s) (matsteps z S') := by
      have hsim' : Sim (i - z + z) s S' := by rw [Nat.sub_add_cancel hz1]; exact hsim
      exact loop_sim z (k := i - z) (745 + ((62 - i : Nat) : Int)) (by omega) hsim' hF he0 he1
        (by omega)
    have hS1 : matsteps z S' = matsteps (62 - (i - z)) S0 := by
      have e1 : z = p + (z - p) := by omega
      have e2 : 62 - (i - z) = (62 - i) + (p + (z - p)) := by omega
      rw [e2, matsteps_add (62 - i), ← e1]
      conv_lhs => rw [e1]
      conv_rhs => rw [e1]
      rw [matsteps_add p, matsteps_add p, hmat]
    have hF1 : (matsteps z S').F % 2 = 1 := matsteps_F_odd z S' hF
    have hb1 := matsteps_eta z S' _ he0 he1
    simp only [divsteps_62_var_loop]
    rw [hshift]
    by_cases hdone : i - z = 0
    · refine ⟨_, if_pos (by simp [hdone]), ?_⟩
      dsimp only
      rw [hdone] at hs1 hS1
      rw [← hS1]
      exact hs1
    · have hne : ¬ (((i - z : Nat) : Int) = 0) := by omega
      rw [if_neg hne]
      have hi1' : 1 ≤ i - z := by omega
      have hg1 : (divsteps_62_loop z s).g % 2 = 1 := by rw [hzg]; exact hz3 (by omega)
      have hsim1 : Sim ((i - z - 1) + 1) (divsteps_62_loop z s) (matsteps z S') := by
        rw [Nat.sub_add_cancel hi1']; exact hs1
      have hG1 : (matsteps z S').G % 2 = 1 := by
        have := modEq_parity hsim1.g; omega
      have hf1 : (divsteps_62_loop z s).f % 2 = 1 := by
        have := modEq_parity hsim1.f; omega
      have heta1 := hs1.eta
      by_cases hneg : (divsteps_62_loop z s).eta < 0
      · obtain ⟨p', w, hp1, hp2, hp3, hw, hcan, hceq⟩ :=
          var_cancel_swap (i - z) (divsteps_62_loop z s) hi1' (by omega) (by omega) hneg hg1
        rw [hceq]
        have hsw := sim_swp (by omega : i - z ≤ 64) hs1
        have hsa := sim_addw (by omega : i - z ≤ 64) hsw w
        have hFs : (swp (matsteps z S')).F % 2 = 1 := hG1
        have hdv : (2 : Int) ^ p' ∣ (addw w (swp (matsteps z S'))).G := by
          have hc : (((neg64 (divsteps_62_loop z s).f + (divsteps_62_loop z s).g * w : Nat)) : Int)
              ≡ (addw w (swp (matsteps z S'))).G [ZMOD 2 ^ (i - z)] := by
            simp only [addw]
            push_cast
            have := hsw.g.add (hsw.f.mul_left (w : Int))
            dsimp only at this
            rw [mul_comm ((divsteps_62_loop z s).g : Int) (w : Int)]
            exact this
          exact (pow_dvd_of_sim hc hp2).mpr hcan
        have hdv' : (2 : Int) ^ p' ∣ (swp (matsteps z S')).G + w * (swp (matsteps z S')).F := hdv
        refine ih (i - z) p' _ (addw w (swp (matsteps z S'))) hi1' (by omega) hsa hFs hp2 hdv
          ?_ ?_ ?_ (by omega)
        · rw [matsteps_addw p' (swp (matsteps z S')) w hFs (by omega) (by exact_mod_cast hw) hdv'
            (by simp only [swp]; omega),
            matsteps_swp p' (matsteps z S') hp1 hF1 hG1 (by omega), hS1]
        · simp only [addw, swp]; omega
        · simp only [addw, swp]; omega
      · obtain ⟨p', w, hp1, hp2, hp3, hw, hcan, hceq⟩ :=
          var_cancel_straight (i - z) (divsteps_62_loop z s) hi1' (by omega) (by omega)
            (by omega) hf1
        rw [hceq]
        have hsa := sim_addw (by omega : i - z ≤ 64) hs1 w
        have hdv : (2 : Int) ^ p' ∣ (addw w (matsteps z S')).G := by
          have hc : ((((divsteps_62_loop z s).g + (divsteps_62_loop z s).f * w : Nat)) : Int)
              ≡ (addw w (matsteps z S')).G [ZMOD 2 ^ (i - z)] := by
            simp only [addw]
            push_cast
            have := hs1.g.add (hs1.f.mul_left (w : Int))
            rw [mul_comm ((divsteps_62_loop z s).f : Int) (w : Int)]
            exact this
          exact (pow_dvd_of_sim hc hp2).mpr hcan
        have hdv' : (2 : Int) ^ p' ∣ (matsteps z S').G + w * (matsteps z S').F := hdv
        refine ih (i - z) p' _ (addw w (matsteps z S')) hi1' (by omega) hsa hF1 hp2 hdv
          ?_ ?_ ?_ (by omega)
        · rw [matsteps_addw p' (matsteps z S') w hF1 (by omega) (by exact_mod_cast hw) hdv'
            (by omega), hS1]
        · simp only [addw]; omega
        · simp only [addw]; omega

theorem sim_zero_unique {s s' : DivState} {S : MatState} (h : Sim 0 s S) (h' : Sim 0 s' S) :
    s.eta = s'.eta ∧ s.trans = s'.trans := by
  obtain ⟨_, e1, _, _, u1, v1, q1, r1⟩ := h
  obtain ⟨_, e2, _, _, u2, v2, q2, r2⟩ := h'
  have hu : s.u = s'.u := by omega
  have hv : s.v = s'.v := by omega
  have hq : s.q = s'.q := by omega
  have hr : s.r = s'.r := by omega
  refine ⟨by omega, ?_⟩
  simp only [DivState.trans, hu, hv, hq, hr]

theorem divsteps_62_var_eq (fuel : Nat) (eta : Int) (f0 g0 : Nat) (hfuel : 63 ≤ fuel)
    (h0 : -745 ≤ eta) (h1 : eta ≤ 745) (hf : f0 < 18446744073709551616)
    (hodd : f0 % 2 = 1) (hg : g0 < 18446744073709551616) :
    secp256k1_modinv64_divsteps_62_var fuel eta f0 g0 =
      some (secp256k1_modinv64_divsteps_62 eta f0 g0) := by
  have hFodd : (f0 : Int) % 2 = 1 := by omega
  have hinit := sim_init eta f0 g0 f0 g0 hf hg (Int.ModEq.refl _) (Int.ModEq.refl _)
  have hct := loop_sim 62 (k := 0) 745 (by norm_num) hinit hFodd h0 h1 (by norm_num)
  obtain ⟨st, hst, hsim⟩ := var_loop_sim (matinit eta f0 g0) fuel 62 0 _ (matinit eta f0 g0)
    (by norm_num) (by norm_num) hinit hFodd (by norm_num) (by simp) (by simp [matsteps])
    (by simp [matinit]; omega) (by simp [matinit]; omega) (by omega)
  obtain ⟨e1, e2⟩ := sim_zero_unique hsim hct
  simp only [Nat.cast_ofNat] at hst
  unfold secp256k1_modinv64_divsteps_62_var
  rw [hst]
  unfold secp256k1_modinv64_divsteps_62
  simp only [e1, e2]

/-- **C8.** For `eta` in `[-745, 745]`, an odd 64-bit word `f0` and a 64-bit word `g0`, the
loop of `divsteps_62_var` ends within 63 passes and the function returns the same final eta
and the same matrix `(u, v, q, r)` as `divsteps_62 (eta, f0, g0)`. -/
theorem divsteps_62_var_eq_divsteps_62 (eta : Int) (f0 g0 : Nat)
    (h0 : -745 ≤ eta) (h1 : eta ≤ 745) (hf : f0 < 2 ^ 64) (hodd : f0 % 2 = 1)
    (hg : g0 < 2 ^ 64) :
    ∀ fuel, 63 ≤ fuel →
      secp256k1_modinv64_divsteps_62_var fuel eta f0 g0 =
        some (secp256k1_modinv64_divsteps_62 eta f0 g0) := by
  intro fuel hfuel
  exact divsteps_62_var_eq fuel eta f0 g0 hfuel h0 h1 (by norm_num at hf; exact hf) hodd
    (by norm_num at hg; exact hg)

theorem divsteps_62_var_eq_divsteps_62_witness :
    (-745 ≤ (-1 : Int) ∧ (-1 : Int) ≤ 745 ∧ 7 < 2 ^ 64 ∧ 7 % 2 = 1 ∧ 4 < 2 ^ 64) ∧
    ∀ fuel, 63 ≤ fuel →
      secp256k1_modinv64_divsteps_62_var fuel (-1) 7 4 =
        some (secp256k1_modinv64_divsteps_62 (-1) 7 4) :=
  ⟨⟨by decide, by decide, by norm_num, by decide, by norm_num⟩,
    divsteps_62_var_eq_divsteps_62 (-1) 7 4 (by decide) (by decide) (by norm_num) (by decide)
      (by norm_num)⟩

/-! ## Limb arithmetic: `update_fg_62` -/

theorem toU64_M62 : toU64 M62 = 4611686018427387903 := by
  unfold toU64 M62; omega

theorem andI64_wrap_M62 (c : Int) : andI64 (wrapI64 c) M62 = c % 4611686018427387904 := by
  unfold andI64
  rw [toU64_M62, and_M62]
  unfold wrapI64 toI64 toU64
  split <;> split <;> omega

theorem andI64_M62 (c : Int) : andI64 c M62 = c % 4611686018427387904 := by
  unfold andI64
  rw [toU64_M62, and_M62]
  unfold toI64 toU64
  split <;> omega

theorem lin_bound (u v x y c B : Int)
    (hu : u + v ≤ c ∧ u - v ≤ c ∧ -u + v ≤ c ∧ -u - v ≤ c)
    (hx : -B ≤ x ∧ x ≤ B) (hy : -B ≤ y ∧ y ≤ B) :
    -(c * B) ≤ u * x + v * y ∧ u * x + v * y ≤ c * B := by
  obtain ⟨h1, h2, h3, h4⟩ := hu
  have hB : 0 ≤ B := by omega
  have habs : |u| + |v| ≤ c := by
    rcases abs_cases u with ⟨e1, _⟩ | ⟨e1, _⟩ <;> rcases abs_cases v with ⟨e2, _⟩ | ⟨e2, _⟩ <;>
      rw [e1, e2] <;> omega
  have hxa : |x| ≤ B := abs_le.mpr ⟨by omega, hx.2⟩
  have hya : |y| ≤ B := abs_le.mpr ⟨by omega, hy.2⟩
  have h : |u * x + v * y| ≤ c * B := by
    calc |u * x + v * y| ≤ |u * x| + |v * y| := abs_add _ _
      _ = |u| * |x| + |v| * |y| := by rw [abs_mul, abs_mul]
      _ ≤ |u| * B + |v| * B := by
        have := mul_le_mul_of_nonneg_left hxa (abs_nonneg u)
        have := mul_le_mul_of_nonneg_left hya (abs_nonneg v)
        omega
      _ = (|u| + |v|) * B := by ring
      _ ≤ c * B := mul_le_mul_of_nonneg_right habs hB
  have := abs_le.mp h
  exact ⟨this.1, this.2⟩

theorem carry_row_value (a0 a1 a2 a3 a4 : Int) :
    4611686018427387904 * (carry_row a0 a1 a2 a3 a4).value + a0 % 4611686018427387904
      = a0 + a1 * 4611686018427387904 + a2 * 21267647932558653966460912964485513216
        + a3 * 98079714615416886934934209737619787751599303819750539264
        + a4 * 452312848583266388373324160190187140051835877600158453279131187530910662656 := by
  simp only [carry_row, Signed62.value]
  omega

theorem carry_row_limbs (a0 a1 a2 a3 a4 : Int) :
    (0 ≤ (carry_row a0 a1 a2 a3 a4).v0 ∧ (carry_row a0 a1 a2 a3 a4).v0 < 4611686018427387904) ∧
    (0 ≤ (carry_row a0 a1 a2 a3 a4).v1 ∧ (carry_row a0 a1 a2 a3 a4).v1 < 4611686018427387904) ∧
    (0 ≤ (carry_row a0 a1 a2 a3 a4).v2 ∧ (carry_row a0 a1 a2 a3 a4).v2 < 4611686018427387904) ∧
    (0 ≤ (carry_row a0 a1 a2 a3 a4).v3 ∧ (carry_row a0 a1 a2 a3 a4).v3 < 4611686018427387904) := by
  simp only [carry_row]
  omega

theorem signed62_ext {a b : Signed62} (h0 : a.v0 = b.v0) (h1 : a.v1 = b.v1) (h2 : a.v2 = b.v2)
    (h3 : a.v3 = b.v3) (h4 : a.v4 = b.v4) : a = b := by
  cases a; cases b; simp_all

theorem acc_first (p q : Int)
    (hp : -21267647932558653966460912964485513216 ≤ p ∧ p ≤ 21267647932558653966460912964485513216)
    (hq : -21267647932558653966460912964485513216 ≤ q ∧ q ≤ 21267647932558653966460912964485513216) :
    wrapI128 (wrapI128 p + wrapI128 q) = p + q := by
  rw [wrapI128_eq p (by omega) (by omega), wrapI128_eq q (by omega) (by omega),
    wrapI128_eq _ (by omega) (by omega)]

theorem acc_step (c p q : Int)
    (hc : -85070591730234615865843651857942052864 ≤ c ∧ c ≤ 85070591730234615865843651857942052864)
    (hp : -21267647932558653966460912964485513216 ≤ p ∧ p ≤ 21267647932558653966460912964485513216)
    (hq : -21267647932558653966460912964485513216 ≤ q ∧ q ≤ 21267647932558653966460912964485513216) :
    wrapI128 (c + wrapI128 (wrapI128 p + wrapI128 q)) = c + (p + q) := by
  rw [acc_first p q hp hq, wrapI128_eq _ (by omega) (by omega)]

theorem fg_row_eq (u v : Int) (f g : Signed62)
    (hp0 : -21267647932558653966460912964485513216 ≤ u * f.v0 ∧ u * f.v0 ≤ 21267647932558653966460912964485513216)
    (hp1 : -21267647932558653966460912964485513216 ≤ u * f.v1 ∧ u * f.v1 ≤ 21267647932558653966460912964485513216)
    (hp2 : -21267647932558653966460912964485513216 ≤ u * f.v2 ∧ u * f.v2 ≤ 21267647932558653966460912964485513216)
    (hp3 : -21267647932558653966460912964485513216 ≤ u * f.v3 ∧ u * f.v3 ≤ 21267647932558653966460912964485513216)
    (hp4 : -21267647932558653966460912964485513216 ≤ u * f.v4 ∧ u * f.v4 ≤ 21267647932558653966460912964485513216)
    (hq0 : -21267647932558653966460912964485513216 ≤ v * g.v0 ∧ v * g.v0 ≤ 21267647932558653966460912964485513216)
    (hq1 : -21267647932558653966460912964485513216 ≤ v * g.v1 ∧ v * g.v1 ≤ 21267647932558653966460912964485513216)
    (hq2 : -21267647932558653966460912964485513216 ≤ v * g.v2 ∧ v * g.v2 ≤ 21267647932558653966460912964485513216)
    (hq3 : -21267647932558653966460912964485513216 ≤ v * g.v3 ∧ v * g.v3 ≤ 21267647932558653966460912964485513216)
    (hq4 : -21267647932558653966460912964485513216 ≤ v * g.v4 ∧ v * g.v4 ≤ 21267647932558653966460912964485513216)
    (htop : -9223372036854775808 ≤ (carry_row (u * f.v0 + v * g.v0) (u * f.v1 + v * g.v1)
        (u * f.v2 + v * g.v2) (u * f.v3 + v * g.v3) (u * f.v4 + v * g.v4)).v4 ∧
      (carry_row (u * f.v0 + v * g.v0) (u * f.v1 + v * g.v1)
        (u * f.v2 + v * g.v2) (u * f.v3 + v * g.v3) (u * f.v4 + v * g.v4)).v4
        < 9223372036854775808) :
    update_fg_62_row u v f g =
      carry_row (u * f.v0 + v * g.v0) (u * f.v1 + v * g.v1) (u * f.v2 + v * g.v2)
        (u * f.v3 + v * g.v3) (u * f.v4 + v * g.v4) := by
  simp only [carry_row] at htop
  simp only [update_fg_62_row, carry_row, sar62, andI64_wrap_M62]
  generalize u * f.v0 = p0 at *
  generalize u * f.v1 = p1 at *
  generalize u * f.v2 = p2 at *
  generalize u * f.v3 = p3 at *
  generalize u * f.v4 = p4 at *
  generalize v * g.v0 = q0 at *
  generalize v * g.v1 = q1 at *
  generalize v * g.v2 = q2 at *
  generalize v * g.v3 = q3 at *
  generalize v * g.v4 = q4 at *
  rw [acc_first p0 q0 hp0 hq0]
  rw [acc_step ((p0 + q0) / 4611686018427387904) p1 q1 (by omega) hp1 hq1]
  have hc1 : -85070591730234615865843651857942052864 ≤ (p0 + q0) / 4611686018427387904 + (p1 + q1) ∧ (p0 + q0) / 4611686018427387904 + (p1 + q1) ≤ 85070591730234615865843651857942052864 := by omega
  generalize (p0 + q0) / 4611686018427387904 + (p1 + q1) = c1 at *
  rw [acc_step (c1 / 4611686018427387904) p2 q2 (by omega) hp2 hq2]
  have hc2 : -85070591730234615865843651857942052864 ≤ c1 / 4611686018427387904 + (p2 + q2) ∧ c1 / 4611686018427387904 + (p2 + q2) ≤ 85070591730234615865843651857942052864 := by omega
  generalize c1 / 4611686018427387904 + (p2 + q2) = c2 at *
  rw [acc_step (c2 / 4611686018427387904) p3 q3 (by omega) hp3 hq3]
  have hc3 : -85070591730234615865843651857942052864 ≤ c2 / 4611686018427387904 + (p3 + q3) ∧ c2 / 4611686018427387904 + (p3 + q3) ≤ 85070591730234615865843651857942052864 := by omega
  generalize c2 / 4611686018427387904 + (p3 + q3) = c3 at *
  rw [acc_step (c3 / 4611686018427387904) p4 q4 (by omega) hp4 hq4]
  have hc4 : -85070591730234615865843651857942052864 ≤ c3 / 4611686018427387904 + (p4 + q4) ∧ c3 / 4611686018427387904 + (p4 + q4) ≤ 85070591730234615865843651857942052864 := by omega
  generalize c3 / 4611686018427387904 + (p4 + q4) = c4 at *
  rw [wrapI64_eq _ htop.1 htop.2]

theorem lin_bound_one (u v x c B : Int)
    (hu : u + v ≤ c ∧ u - v ≤ c ∧ -u + v ≤ c ∧ -u - v ≤ c)
    (hx : -B ≤ x ∧ x ≤ B) : -(c * B) ≤ u * x ∧ u * x ≤ c * B := by
  have h := lin_bound u 0 x 0 c B (by omega) hx (by omega)
  simpa using h

theorem lin_bound_two (u v y c B : Int)
    (hu : u + v ≤ c ∧ u - v ≤ c ∧ -u + v ≤ c ∧ -u - v ≤ c)
    (hy : -B ≤ y ∧ y ≤ B) : -(c * B) ≤ v * y ∧ v * y ≤ c * B := by
  have h := lin_bound 0 v 0 y c B (by omega) (by omega) hy
  simpa using h

theorem value_expand (u : Int) (f : Signed62) :
    u * f.value = u * f.v0 + (u * f.v1) * 4611686018427387904
      + (u * f.v2) * 21267647932558653966460912964485513216
      + (u * f.v3) * 98079714615416886934934209737619787751599303819750539264
      + (u * f.v4) * 452312848583266388373324160190187140051835877600158453279131187530910662656 := by
  simp only [Signed62.value]; ring

theorem fg_row_spec (u v : Int) (f g : Signed62)
    (hT : u + v ≤ 4611686018427387904 ∧ u - v ≤ 4611686018427387904 ∧
      -u + v ≤ 4611686018427387904 ∧ -u - v ≤ 4611686018427387904)
    (hf : f.LimbsIn) (hg : g.LimbsIn)
    (hval : -(2 ^ 318) ≤ u * f.value + v * g.value ∧ u * f.value + v * g.value ≤ 2 ^ 318) :
    update_fg_62_row u v f g =
      carry_row (u * f.v0 + v * g.v0) (u * f.v1 + v * g.v1) (u * f.v2 + v * g.v2)
        (u * f.v3 + v * g.v3) (u * f.v4 + v * g.v4) := by
  obtain ⟨f0, f1, f2, f3, f4⟩ := hf
  obtain ⟨g0, g1, g2, g3, g4⟩ := hg
  have hp0 := lin_bound_one u v f.v0 _ 4611686018427387904 hT (by omega)
  have hp1 := lin_bound_one u v f.v1 _ 4611686018427387904 hT (by omega)
  have hp2 := lin_bound_one u v f.v2 _ 4611686018427387904 hT (by omega)
  have hp3 := lin_bound_one u v f.v3 _ 4611686018427387904 hT (by omega)
  have hp4 := lin_bound_one u v f.v4 _ 4611686018427387904 hT (by omega)
  have hq0 := lin_bound_two u v g.v0 _ 4611686018427387904 hT (by omega)
  have hq1 := lin_bound_two u v g.v1 _ 4611686018427387904 hT (by omega)
  have hq2 := lin_bound_two u v g.v2 _ 4611686018427387904 hT (by omega)
  have hq3 := lin_bound_two u v g.v3 _ 4611686018427387904 hT (by omega)
  have hq4 := lin_bound_two u v g.v4 _ 4611686018427387904 hT (by omega)
  norm_num at hp0 hp1 hp2 hp3 hp4 hq0 hq1 hq2 hq3 hq4 hval
  apply fg_row_eq u v f g hp0 hp1 hp2 hp3 hp4 hq0 hq1 hq2 hq3 hq4
  have hv := carry_row_value (u * f.v0 + v * g.v0) (u * f.v1 + v * g.v1) (u * f.v2 + v * g.v2)
        (u * f.v3 + v * g.v3) (u * f.v4 + v * g.v4)
  have hl := carry_row_limbs (u * f.v0 + v * g.v0) (u * f.v1 + v * g.v1) (u * f.v2 + v * g.v2)
        (u * f.v3 + v * g.v3) (u * f.v4 + v * g.v4)
  rw [value_expand u f, value_expand v g] at hval
  generalize carry_row (u * f.v0 + v * g.v0) (u * f.v1 + v * g.v1) (u * f.v2 + v * g.v2)
        (u * f.v3 + v * g.v3) (u * f.v4 + v * g.v4) = o at hv hl ⊢
  simp only [Signed62.value] at hv
  generalize u * f.v0 = p0 at *
  generalize u * f.v1 = p1 at *
  generalize u * f.v2 = p2 at *
  generalize u * f.v3 = p3 at *
  generalize u * f.v4 = p4 at *
  generalize v * g.v0 = q0 at *
  generalize v * g.v1 = q1 at *
  generalize v * g.v2 = q2 at *
  generalize v * g.v3 = q3 at *
  generalize v * g.v4 = q4 at *
  omega

theorem value_modEq_limb (f : Signed62) : f.value ≡ ((toU64 f.v0 : Nat) : Int) [ZMOD 2 ^ 62] := by
  rw [Int.modEq_iff_dvd, toU64_cast]
  simp only [Signed62.value]
  norm_num
  omega

theorem limb_modEq_limb (x : Int) : x ≡ ((toU64 x : Nat) : Int) [ZMOD 2 ^ 62] := by
  rw [Int.modEq_iff_dvd, toU64_cast]
  norm_num
  omega

theorem toU64_odd (f : Signed62) (h : f.value % 2 = 1) : toU64 f.v0 % 2 = 1 := by
  have := toU64_cast f.v0
  simp only [Signed62.value] at h
  omega

/-- The properties of the matrix returned by `divsteps_62` that the callers rely on, for
integers `F`, `G` agreeing with the low limbs modulo `2^62`. -/
theorem divsteps_62_props (eta : Int) (f0 g0 : Nat) (F G : Int)
    (h0 : -745 ≤ eta) (h1 : eta ≤ 745) (hf : f0 < 18446744073709551616)
    (hg : g0 < 18446744073709551616) (hodd : f0 % 2 = 1)
    (hF : F ≡ f0 [ZMOD 2 ^ 62]) (hG : G ≡ g0 [ZMOD 2 ^ 62]) :
    (secp256k1_modinv64_divsteps_62 eta f0 g0).1 = (matsteps 62 (matinit eta F G)).eta ∧
    (secp256k1_modinv64_divsteps_62 eta f0 g0).2.u = (matsteps 62 (matinit eta F G)).U ∧
    (secp256k1_modinv64_divsteps_62 eta f0 g0).2.v = (matsteps 62 (matinit eta F G)).V ∧
    (secp256k1_modinv64_divsteps_62 eta f0 g0).2.q = (matsteps 62 (matinit eta F G)).Q ∧
    (secp256k1_modinv64_divsteps_62 eta f0 g0).2.r = (matsteps 62 (matinit eta F G)).R ∧
    MatInv F G 4611686018427387904 (matsteps 62 (matinit eta F G)) := by
  have hFodd : F % 2 = 1 := by
    have := modEq_parity (k := 61) hF
    omega
  rw [divsteps_62_eq eta f0 g0 F G h0 h1 hf hg hodd hF hG]
  have hi := matsteps_inv 62 (matinit_inv eta F G hFodd)
  norm_num at hi
  generalize matsteps 62 (matinit eta F G) = S at hi ⊢
  exact ⟨rfl, rfl, rfl, rfl, rfl, hi⟩

/-- The two facts about a row of `update_fg_62` when the matrix comes from `divsteps_62` on the
low limbs: the low 62 bits of the first accumulator are zero and `2^62` times the new value
is the row applied to the old values. -/
theorem fg_row_exact (u v : Int) (f g : Signed62) (X x : Int)
    (hT : u + v ≤ 4611686018427387904 ∧ u - v ≤ 4611686018427387904 ∧
      -u + v ≤ 4611686018427387904 ∧ -u - v ≤ 4611686018427387904)
    (hf : f.LimbsIn) (hg : g.LimbsIn)
    (hX : u * f.value + v * g.value = 4611686018427387904 * X)
    (hx : u * f.v0 + v * g.v0 = 4611686018427387904 * x)
    (hB : -(2 ^ 256) ≤ X ∧ X ≤ 2 ^ 256) :
    (update_fg_62_row u v f g).value = X ∧ (update_fg_62_row u v f g).LowNorm ∧
    andI64 (wrapI64 (wrapI128 (wrapI128 (u * f.v0) + wrapI128 (v * g.v0)))) M62 = 0 := by
  have hval : -(2 ^ 318) ≤ u * f.value + v * g.value ∧ u * f.value + v * g.value ≤ 2 ^ 318 := by
    rw [hX]; norm_num at hB ⊢; omega
  have hrow := fg_row_spec u v f g hT hf hg hval
  have hv := carry_row_value (u * f.v0 + v * g.v0) (u * f.v1 + v * g.v1) (u * f.v2 + v * g.v2)
        (u * f.v3 + v * g.v3) (u * f.v4 + v * g.v4)
  have hl := carry_row_limbs (u * f.v0 + v * g.v0) (u * f.v1 + v * g.v1) (u * f.v2 + v * g.v2)
        (u * f.v3 + v * g.v3) (u * f.v4 + v * g.v4)
  rw [← hrow] at hv hl
  have e1 := value_expand u f
  have e2 := value_expand v g
  have h0 : (u * f.v0 + v * g.v0) % 4611686018427387904 = 0 := by rw [hx]; omega
  refine ⟨?_, ⟨hl.1, hl.2.1, hl.2.2.1, hl.2.2.2⟩, ?_⟩
  · rw [h0] at hv
    have : 4611686018427387904 * (update_fg_62_row u v f g).value = 4611686018427387904 * X := by
      rw [← hX, e1, e2]; linear_combination hv
    omega
  · have hp := lin_bound_one u v f.v0 _ 4611686018427387904 hT
      (by have := hf.l0; omega : -4611686018427387904 ≤ f.v0 ∧ f.v0 ≤ 4611686018427387904)
    have hq := lin_bound_two u v g.v0 _ 4611686018427387904 hT
      (by have := hg.l0; omega : -4611686018427387904 ≤ g.v0 ∧ g.v0 ≤ 4611686018427387904)
    norm_num at hp hq
    rw [acc_first _ _ hp hq, andI64_wrap_M62]
    exact h0

theorem ofLimb_limbsIn (x : Int) (h0 : -4611686018427387904 < x) (h1 : x < 4611686018427387904) :
    (ofLimb x).LimbsIn := by
  refine ⟨⟨h0, h1⟩, ?_, ?_, ?_, ?_⟩ <;> simp [ofLimb]

theorem ofLimb_value (x : Int) : (ofLimb x).value = x := by
  simp [ofLimb, Signed62.value]


/-- **C10.** For `eta` in `[-745, 745]` and `f`, `g` with limbs in `(-2^62, 2^62)`, `value f` odd
and `|value f|, |value g| ≤ M < 2^256`: with `t = (u, v, q, r)` the matrix returned by
`divsteps_62 (eta, f.v[0], g.v[0])`, `update_fg_62` yields `(f', g')` with
`2^62 * value f' = u * value f + v * value g` and `2^62 * value g' = q * value f + r * value g`,
and the 62 low bits dropped from each first accumulator (`(int64_t)cf & M62`,
`(int64_t)cg & M62`) are zero. -/
theorem update_fg_62_exact (eta : Int) (f g : Signed62) (M : Int)
    (h0 : -745 ≤ eta) (h1 : eta ≤ 745) (hf : f.LimbsIn) (hg : g.LimbsIn)
    (hodd : f.value % 2 = 1) (hfM : |f.value| ≤ M) (hgM : |g.value| ≤ M) (hM : M < 2 ^ 256) :
    let t := (secp256k1_modinv64_divsteps_62 eta (toU64 f.v0) (toU64 g.v0)).2
    let fg := secp256k1_modinv64_update_fg_62 f g t
    2 ^ 62 * fg.1.value = t.u * f.value + t.v * g.value ∧
    2 ^ 62 * fg.2.value = t.q * f.value + t.r * g.value ∧
    andI64 (wrapI64 (wrapI128 (wrapI128 (t.u * f.v0) + wrapI128 (t.v * g.v0)))) M62 = 0 ∧
    andI64 (wrapI64 (wrapI128 (wrapI128 (t.q * f.v0) + wrapI128 (t.r * g.v0)))) M62 = 0 := by
  intro t fg
  have hodd0 := toU64_odd f hodd
  obtain ⟨_, eu, ev, eq, er, hi⟩ := divsteps_62_props eta (toU64 f.v0) (toU64 g.v0) f.value
    g.value h0 h1 (toU64_lt _) (toU64_lt _) hodd0 (value_modEq_limb f) (value_modEq_limb g)
  obtain ⟨_, eu0, ev0, eq0, er0, hi0⟩ := divsteps_62_props eta (toU64 f.v0) (toU64 g.v0) f.v0
    g.v0 h0 h1 (toU64_lt _) (toU64_lt _) hodd0 (limb_modEq_limb _) (limb_modEq_limb _)
  have hb := matsteps_FG_bound 62 (matinit eta f.value g.value) M (by
    have := abs_le.mp hfM; have := abs_le.mp hgM
    simp only [matinit]; omega)
  have hu : t.u = (matsteps 62 (matinit eta f.value g.value)).U := eu
  have hv : t.v = (matsteps 62 (matinit eta f.value g.value)).V := ev
  have hq : t.q = (matsteps 62 (matinit eta f.value g.value)).Q := eq
  have hr : t.r = (matsteps 62 (matinit eta f.value g.value)).R := er
  have hu0 : t.u = (matsteps 62 (matinit eta f.v0 g.v0)).U := eu0
  have hv0 : t.v = (matsteps 62 (matinit eta f.v0 g.v0)).V := ev0
  have hq0 : t.q = (matsteps 62 (matinit eta f.v0 g.v0)).Q := eq0
  have hr0 : t.r = (matsteps 62 (matinit eta f.v0 g.v0)).R := er0
  have hM' : M < 115792089237316195423570985008687907853269984665640564039457584007913129639936 := by
    norm_num at hM; exact hM
  have r1 := fg_row_exact t.u t.v f g _ _ (by rw [hu, hv]; exact hi.bU) hf hg
    (by rw [hu, hv]; exact hi.linF) (by rw [hu0, hv0]; exact hi0.linF)
    (by norm_num; omega)
  have r2 := fg_row_exact t.q t.r f g _ _ (by rw [hq, hr]; exact hi.bQ) hf hg
    (by rw [hq, hr]; exact hi.linG) (by rw [hq0, hr0]; exact hi0.linG)
    (by norm_num; omega)
  refine ⟨?_, ?_, r1.2.2, r2.2.2⟩
  · show 2 ^ 62 * (update_fg_62_row t.u t.v f g).value = _
    rw [r1.1, hu, hv, hi.linF]; norm_num
  · show 2 ^ 62 * (update_fg_62_row t.q t.r f g).value = _
    rw [r2.1, hq, hr, hi.linG]; norm_num

theorem update_fg_62_exact_witness :
    ((-745 : Int) ≤ -1 ∧ (-1 : Int) ≤ 745 ∧ (ofLimb 7).LimbsIn ∧ (ofLimb 4).LimbsIn ∧
      (ofLimb 7).value % 2 = 1 ∧ |(ofLimb 7).value| ≤ 7 ∧ |(ofLimb 4).value| ≤ 7 ∧
      (7 : Int) < 2 ^ 256) ∧
    (let t := (secp256k1_modinv64_divsteps_62 (-1) (toU64 (ofLimb 7).v0) (toU64 (ofLimb 4).v0)).2
     let fg := secp256k1_modinv64_update_fg_62 (ofLimb 7) (ofLimb 4) t
     2 ^ 62 * fg.1.value = t.u * (ofLimb 7).value + t.v * (ofLimb 4).value ∧
     2 ^ 62 * fg.2.value = t.q * (ofLimb 7).value + t.r * (ofLimb 4).value ∧
     andI64 (wrapI64 (wrapI128 (wrapI128 (t.u * (ofLimb 7).v0)
       + wrapI128 (t.v * (ofLimb 4).v0)))) M62 = 0 ∧
     andI64 (wrapI64 (wrapI128 (wrapI128 (t.q * (ofLimb 7).v0)
       + wrapI128 (t.r * (ofLimb 4).v0)))) M62 = 0) :=
  ⟨⟨by decide, by decide, ofLimb_limbsIn 7 (by decide) (by decide),
      ofLimb_limbsIn 4 (by decide) (by decide), by rw [ofLimb_value]; decide,
      by rw [ofLimb_value]; decide, by rw [ofLimb_value]; decide, by norm_num⟩,
    update_fg_62_exact (-1) (ofLimb 7) (ofLimb 4) 7 (by decide) (by decide)
      (ofLimb_limbsIn 7 (by decide) (by decide)) (ofLimb_limbsIn 4 (by decide) (by decide))
      (by rw [ofLimb_value]; decide) (by rw [ofLimb_value]; decide)
      (by rw [ofLimb_value]; decide) (by norm_num)⟩

/-! ## Limb arithmetic: `update_de_62` -/

theorem andI64_neg_one (u : Int) (h0 : -9223372036854775808 ≤ u) (h1 : u < 9223372036854775808) :
    andI64 u (-1) = u := by
  unfold andI64
  have e : toU64 (-1) = 18446744073709551615 := by unfold toU64; omega
  rw [e, and_mask, Nat.mod_eq_of_lt (toU64_lt u)]
  exact wrapI64_eq u h0 h1

theorem andI64_zero (u : Int) : andI64 u 0 = 0 := by
  unfold andI64
  have e : toU64 0 = 0 := by unfold toU64; omega
  rw [e, Nat.and_zero]
  rfl

theorem andI64_sign (u x : Int) (h0 : -9223372036854775808 ≤ u) (h1 : u < 9223372036854775808)
    (hx0 : -9223372036854775808 ≤ x) (hx1 : x < 9223372036854775808) :
    andI64 u (sar x 63) = if x < 0 then u else 0 := by
  rw [sar63 x hx0 hx1]
  split
  · exact andI64_neg_one u h0 h1
  · exact andI64_zero u

theorem de_md_spec (u v : Int) (d e : Signed62) (modinfo : ModInfo)
    (hT : u + v ≤ 4611686018427387904 ∧ u - v ≤ 4611686018427387904 ∧
      -u + v ≤ 4611686018427387904 ∧ -u - v ≤ 4611686018427387904)
    (hd : d.LimbsIn) (he : e.LimbsIn) :
    ((if d.v4 < 0 then u else 0) + (if e.v4 < 0 then v else 0)) - 4611686018427387904
        < de_md u v d e modinfo ∧
    de_md u v d e modinfo ≤ (if d.v4 < 0 then u else 0) + (if e.v4 < 0 then v else 0) ∧
    de_md u v d e modinfo ≡ -(modinfo.modulus_inv62 * (u * d.v0 + v * e.v0))
      [ZMOD 4611686018427387904] := by
  have hd4 := hd.l4
  have he4 := he.l4
  have hp := lin_bound_one u v d.v0 _ 4611686018427387904 hT
    (by have := hd.l0; omega : -4611686018427387904 ≤ d.v0 ∧ d.v0 ≤ 4611686018427387904)
  have hq := lin_bound_two u v e.v0 _ 4611686018427387904 hT
    (by have := he.l0; omega : -4611686018427387904 ≤ e.v0 ∧ e.v0 ≤ 4611686018427387904)
  norm_num at hp hq
  simp only [de_md]
  rw [andI64_sign u d.v4 (by omega) (by omega) (by omega) (by omega),
    andI64_sign v e.v4 (by omega) (by omega) (by omega) (by omega), acc_first _ _ hp hq]
  have hmd0 : addI64 (if d.v4 < 0 then u else 0) (if e.v4 < 0 then v else 0)
      = (if d.v4 < 0 then u else 0) + (if e.v4 < 0 then v else 0) := by
    unfold addI64
    apply wrapI64_eq <;> split <;> split <;> omega
  rw [hmd0]
  have hmr : -4611686018427387904 ≤ (if d.v4 < 0 then u else 0) + (if e.v4 < 0 then v else 0) ∧
      (if d.v4 < 0 then u else 0) + (if e.v4 < 0 then v else 0) ≤ 4611686018427387904 := by
    split <;> split <;> omega
  generalize (if d.v4 < 0 then u else 0) + (if e.v4 < 0 then v else 0) = md0 at hmr ⊢
  rw [toU64_M62, and_M62]
  unfold sub64 add64 mul64
  have hc := toU64_cast (u * d.v0 + v * e.v0)
  have hm := toU64_cast md0
  have hc' := toU64_lt (u * d.v0 + v * e.v0)
  have hm' := toU64_lt md0
  generalize toU64 (u * d.v0 + v * e.v0) = cw at hc hc' ⊢
  generalize toU64 md0 = mw at hm hm' ⊢
  have hprod : (modinfo.modulus_inv62 : Int) * cw ≡ modinfo.modulus_inv62 * (u * d.v0 + v * e.v0)
      [ZMOD 4611686018427387904] := by
    apply Int.ModEq.mul_left
    rw [Int.modEq_iff_dvd, hc]
    generalize u * d.v0 + v * e.v0 = c
    omega
  generalize u * d.v0 + v * e.v0 = c at hc hprod ⊢
  generalize hk : (modinfo.modulus_inv62 * cw % 18446744073709551616 + mw) % 18446744073709551616
    % 4611686018427387904 = k
  have hk1 : k < 4611686018427387904 := by omega
  have hk2 : (k : Int) ≡ modinfo.modulus_inv62 * cw + md0 [ZMOD 4611686018427387904] := by
    rw [← hk, Int.modEq_iff_dvd]
    push_cast
    generalize (modinfo.modulus_inv62 : Int) * cw = P
    omega
  have hval : toI64 ((mw % 18446744073709551616 +
      (18446744073709551616 - k % 18446744073709551616)) % 18446744073709551616) = md0 - k := by
    unfold toI64; split <;> omega
  rw [hval]
  refine ⟨by omega, by omega, ?_⟩
  have h3 : md0 - (k : Int) ≡ md0 - (modinfo.modulus_inv62 * c + md0) [ZMOD 4611686018427387904] :=
    (Int.ModEq.refl md0).sub (hk2.trans (hprod.add_right md0))
  have e : md0 - ((modinfo.modulus_inv62 : Int) * c + md0) = -(modinfo.modulus_inv62 * c) := by
    ring
  rw [e] at h3
  exact h3

theorem de_md_unfold (u v : Int) (d e : Signed62) (modinfo : ModInfo) :
    toI64 (sub64 (toU64 (addI64 (andI64 u (sar d.v4 63)) (andI64 v (sar e.v4 63))))
      (add64 (mul64 modinfo.modulus_inv62
          (toU64 (wrapI128 (wrapI128 (u * d.v0) + wrapI128 (v * e.v0)))))
        (toU64 (addI64 (andI64 u (sar d.v4 63)) (andI64 v (sar e.v4 63)))) &&& toU64 M62))
      = de_md u v d e modinfo := rfl

theorem acc_step3 (c p q m : Int)
    (hc : -1267650600228229401496703205376 ≤ c ∧ c ≤ 1267650600228229401496703205376)
    (hp : -21267647932558653966460912964485513216 ≤ p ∧ p ≤ 21267647932558653966460912964485513216)
    (hq : -21267647932558653966460912964485513216 ≤ q ∧ q ≤ 21267647932558653966460912964485513216)
    (hm : -42535295865117307932921825928971026432 ≤ m ∧ m ≤ 42535295865117307932921825928971026432) :
    wrapI128 (wrapI128 (c + wrapI128 (wrapI128 p + wrapI128 q)) + wrapI128 m) = c + (p + q + m) := by
  rw [acc_step c p q (by omega) hp hq, wrapI128_eq m (by omega) (by omega),
    wrapI128_eq _ (by omega) (by omega)]
  ring

theorem mul_bound (a b A B : Int) (ha : -A ≤ a ∧ a ≤ A) (hb : -B ≤ b ∧ b ≤ B) :
    -(A * B) ≤ a * b ∧ a * b ≤ A * B := by
  have h1 : |a| ≤ A := abs_le.mpr ha
  have h2 : |b| ≤ B := abs_le.mpr hb
  have hA : 0 ≤ A := le_trans (abs_nonneg a) h1
  have h : |a * b| ≤ A * B := by
    rw [abs_mul]
    exact mul_le_mul h1 h2 (abs_nonneg b) hA
  have := abs_le.mp h
  exact ⟨this.1, this.2⟩

/-- The row of `update_de_62` as a carry chain over the integers: every `int128_t`
operation is exact; only the final cast of the accumulator to `int64_t` remains. -/
theorem de_row_eq_wrap (u v : Int) (d e : Signed62) (modinfo : ModInfo)
    (hT : u + v ≤ 4611686018427387904 ∧ u - v ≤ 4611686018427387904 ∧
      -u + v ≤ 4611686018427387904 ∧ -u - v ≤ 4611686018427387904)
    (hd : d.LimbsIn) (he : e.LimbsIn) (hM : modinfo.modulus.Normalized) :
    update_de_62_row u v d e modinfo =
      { v0 := (carry_row
        (u * d.v0 + v * e.v0 + modinfo.modulus.v0 * de_md u v d e modinfo)
        (u * d.v1 + v * e.v1 + modinfo.modulus.v1 * de_md u v d e modinfo)
        (u * d.v2 + v * e.v2 + modinfo.modulus.v2 * de_md u v d e modinfo)
        (u * d.v3 + v * e.v3 + modinfo.modulus.v3 * de_md u v d e modinfo)
        (u * d.v4 + v * e.v4 + modinfo.modulus.v4 * de_md u v d e modinfo)).v0,
        v1 := (carry_row
        (u * d.v0 + v * e.v0 + modinfo.modulus.v0 * de_md u v d e modinfo)
        (u * d.v1 + v * e.v1 + modinfo.modulus.v1 * de_md u v d e modinfo)
        (u * d.v2 + v * e.v2 + modinfo.modulus.v2 * de_md u v d e modinfo)
        (u * d.v3 + v * e.v3 + modinfo.modulus.v3 * de_md u v d e modinfo)
        (u * d.v4 + v * e.v4 + modinfo.modulus.v4 * de_md u v d e modinfo)).v1,
        v2 := (carry_row
        (u * d.v0 + v * e.v0 + modinfo.modulus.v0 * de_md u v d e modinfo)
        (u * d.v1 + v * e.v1 + modinfo.modulus.v1 * de_md u v d e modinfo)
        (u * d.v2 + v * e.v2 + modinfo.modulus.v2 * de_md u v d e modinfo)
        (u * d.v3 + v * e.v3 + modinfo.modulus.v3 * de_md u v d e modinfo)
        (u * d.v4 + v * e.v4 + modinfo.modulus.v4 * de_md u v d e modinfo)).v2,
        v3 := (carry_row
        (u * d.v0 + v * e.v0 + modinfo.modulus.v0 * de_md u v d e modinfo)
        (u * d.v1 + v * e.v1 + modinfo.modulus.v1 * de_md u v d e modinfo)
        (u * d.v2 + v * e.v2 + modinfo.modulus.v2 * de_md u v d e modinfo)
        (u * d.v3 + v * e.v3 + modinfo.modulus.v3 * de_md u v d e modinfo)
        (u * d.v4 + v * e.v4 + modinfo.modulus.v4 * de_md u v d e modinfo)).v3,
        v4 := wrapI64 (carry_row
        (u * d.v0 + v * e.v0 + modinfo.modulus.v0 * de_md u v d e modinfo)
        (u * d.v1 + v * e.v1 + modinfo.modulus.v1 * de_md u v d e modinfo)
        (u * d.v2 + v * e.v2 + modinfo.modulus.v2 * de_md u v d e modinfo)
        (u * d.v3 + v * e.v3 + modinfo.modulus.v3 * de_md u v d e modinfo)
        (u * d.v4 + v * e.v4 + modinfo.modulus.v4 * de_md u v d e modinfo)).v4 } := by
  obtain ⟨hmd1, hmd2, -⟩ := de_md_spec u v d e modinfo hT hd he
  have hmdr : -9223372036854775808 ≤ de_md u v d e modinfo ∧
      de_md u v d e modinfo ≤ 9223372036854775808 := by
    constructor
    · have : -4611686018427387904 ≤ (if d.v4 < 0 then u else 0) + (if e.v4 < 0 then v else 0) := by
        split <;> split <;> omega
      omega
    · have : (if d.v4 < 0 then u else 0) + (if e.v4 < 0 then v else 0) ≤ 4611686018427387904 := by
        split <;> split <;> omega
      omega
  obtain ⟨d0, d1, d2, d3, d4⟩ := hd
  obtain ⟨e0, e1, e2, e3, e4⟩ := he
  obtain ⟨⟨m0, m1, m2, m3⟩, m4⟩ := hM
  have hp0 := lin_bound_one u v d.v0 _ 4611686018427387904 hT (by omega)
  have hp1 := lin_bound_one u v d.v1 _ 4611686018427387904 hT (by omega)
  have hp2 := lin_bound_one u v d.v2 _ 4611686018427387904 hT (by omega)
  have hp3 := lin_bound_one u v d.v3 _ 4611686018427387904 hT (by omega)
  have hp4 := lin_bound_one u v d.v4 _ 4611686018427387904 hT (by omega)
  have hq0 := lin_bound_two u v e.v0 _ 4611686018427387904 hT (by omega)
  have hq1 := lin_bound_two u v e.v1 _ 4611686018427387904 hT (by omega)
  have hq2 := lin_bound_two u v e.v2 _ 4611686018427387904 hT (by omega)
  have hq3 := lin_bound_two u v e.v3 _ 4611686018427387904 hT (by omega)
  have hq4 := lin_bound_two u v e.v4 _ 4611686018427387904 hT (by omega)
  have hm0 := mul_bound modinfo.modulus.v0 (de_md u v d e modinfo) 4611686018427387904
    9223372036854775808 (by omega) hmdr
  have hm1 := mul_bound modinfo.modulus.v1 (de_md u v d e modinfo) 4611686018427387904
    9223372036854775808 (by omega) hmdr
  have hm2 := mul_bound modinfo.modulus.v2 (de_md u v d e modinfo) 4611686018427387904
    9223372036854775808 (by omega) hmdr
  have hm3 := mul_bound modinfo.modulus.v3 (de_md u v d e modinfo) 4611686018427387904
    9223372036854775808 (by omega) hmdr
  have hm4 := mul_bound modinfo.modulus.v4 (de_md u v d e modinfo) 4611686018427387904
    9223372036854775808 (by omega) hmdr
  norm_num at hp0 hp1 hp2 hp3 hp4 hq0 hq1 hq2 hq3 hq4 hm0 hm1 hm2 hm3 hm4
  simp only [update_de_62_row, carry_row, sar62, andI64_wrap_M62, de_md_unfold]
  generalize de_md u v d e modinfo = md at *
  generalize u * d.v0 = p0 at *
  generalize u * d.v1 = p1 at *
  generalize u * d.v2 = p2 at *
  generalize u * d.v3 = p3 at *
  generalize u * d.v4 = p4 at *
  generalize v * e.v0 = q0 at *
  generalize v * e.v1 = q1 at *
  generalize v * e.v2 = q2 at *
  generalize v * e.v3 = q3 at *
  generalize v * e.v4 = q4 at *
  generalize modinfo.modulus.v0 * md = n0 at *
  generalize hn1 : modinfo.modulus.v1 * md = n1 at *
  generalize hn2 : modinfo.modulus.v2 * md = n2 at *
  generalize hn3 : modinfo.modulus.v3 * md = n3 at *
  generalize modinfo.modulus.v4 * md = n4 at *
  rw [acc_first p0 q0 hp0 hq0, wrapI128_eq n0 (by omega) (by omega),
    wrapI128_eq (p0 + q0 + n0) (by omega) (by omega)]
  have hc0 : -170141183460469231731687303715884105728 ≤ p0 + q0 + n0 ∧
      p0 + q0 + n0 < 170141183460469231731687303715884105728 := by omega
  generalize p0 + q0 + n0 = c0 at *
  have hs1 : (if modinfo.modulus.v1 ≠ 0 then
      wrapI128 (wrapI128 (c0 / 4611686018427387904 + wrapI128 (wrapI128 p1 + wrapI128 q1)) + wrapI128 n1)
      else wrapI128 (c0 / 4611686018427387904 + wrapI128 (wrapI128 p1 + wrapI128 q1))) = c0 / 4611686018427387904 + (p1 + q1 + n1) := by
    split
    · exact acc_step3 _ _ _ _ (by omega) hp1 hq1 hm1
    · rename_i hz
      have hz' : modinfo.modulus.v1 = 0 := by simpa using hz
      rw [hz', zero_mul] at hn1
      rw [acc_step _ _ _ (by omega) hp1 hq1, ← hn1]
      ring
  rw [hs1]
  clear hs1
  have hc1 : -170141183460469231731687303715884105728 ≤ c0 / 4611686018427387904 + (p1 + q1 + n1) ∧ c0 / 4611686018427387904 + (p1 + q1 + n1) < 170141183460469231731687303715884105728 := by omega
  generalize c0 / 4611686018427387904 + (p1 + q1 + n1) = c1 at *
  have hs2 : (if modinfo.modulus.v2 ≠ 0 then
      wrapI128 (wrapI128 (c1 / 4611686018427387904 + wrapI128 (wrapI128 p2 + wrapI128 q2)) + wrapI128 n2)
      else wrapI128 (c1 / 4611686018427387904 + wrapI128 (wrapI128 p2 + wrapI128 q2))) = c1 / 4611686018427387904 + (p2 + q2 + n2) := by
    split
    · exact acc_step3 _ _ _ _ (by omega) hp2 hq2 hm2
    · rename_i hz
      have hz' : modinfo.modulus.v2 = 0 := by simpa using hz
      rw [hz', zero_mul] at hn2
      rw [acc_step _ _ _ (by omega) hp2 hq2, ← hn2]
      ring
  rw [hs2]
  clear hs2
  have hc2 : -170141183460469231731687303715884105728 ≤ c1 / 4611686018427387904 + (p2 + q2 + n2) ∧ c1 / 4611686018427387904 + (p2 + q2 + n2) < 170141183460469231731687303715884105728 := by omega
  generalize c1 / 4611686018427387904 + (p2 + q2 + n2) = c2 at *
  have hs3 : (if modinfo.modulus.v3 ≠ 0 then
      wrapI128 (wrapI128 (c2 / 4611686018427387904 + wrapI128 (wrapI128 p3 + wrapI128 q3)) + wrapI128 n3)
      else wrapI128 (c2 / 4611686018427387904 + wrapI128 (wrapI128 p3 + wrapI128 q3))) = c2 / 4611686018427387904 + (p3 + q3 + n3) := by
    split
    · exact acc_step3 _ _ _ _ (by omega) hp3 hq3 hm3
    · rename_i hz
      have hz' : modinfo.modulus.v3 = 0 := by simpa using hz
      rw [hz', zero_mul] at hn3
      rw [acc_step _ _ _ (by omega) hp3 hq3, ← hn3]
      ring
  rw [hs3]
  clear hs3
  have hc3 : -170141183460469231731687303715884105728 ≤ c2 / 4611686018427387904 + (p3 + q3 + n3) ∧ c2 / 4611686018427387904 + (p3 + q3 + n3) < 170141183460469231731687303715884105728 := by omega
  generalize c2 / 4611686018427387904 + (p3 + q3 + n3) = c3 at *
  rw [acc_step3 (c3 / 4611686018427387904) p4 q4 n4 (by omega) hp4 hq4 hm4]

theorem de_row_eq (u v : Int) (d e : Signed62) (modinfo : ModInfo)
    (hT : u + v ≤ 4611686018427387904 ∧ u - v ≤ 4611686018427387904 ∧
      -u + v ≤ 4611686018427387904 ∧ -u - v ≤ 4611686018427387904)
    (hd : d.LimbsIn) (he : e.LimbsIn) (hM : modinfo.modulus.Normalized)
    (htop : -9223372036854775808 ≤ (carry_row
        (u * d.v0 + v * e.v0 + modinfo.modulus.v0 * de_md u v d e modinfo)
        (u * d.v1 + v * e.v1 + modinfo.modulus.v1 * de_md u v d e modinfo)
        (u * d.v2 + v * e.v2 + modinfo.modulus.v2 * de_md u v d e modinfo)
        (u * d.v3 + v * e.v3 + modinfo.modulus.v3 * de_md u v d e modinfo)
        (u * d.v4 + v * e.v4 + modinfo.modulus.v4 * de_md u v d e modinfo)).v4 ∧
      (carry_row
        (u * d.v0 + v * e.v0 + modinfo.modulus.v0 * de_md u v d e modinfo)
        (u * d.v1 + v * e.v1 + modinfo.modulus.v1 * de_md u v d e modinfo)
        (u * d.v2 + v * e.v2 + modinfo.modulus.v2 * de_md u v d e modinfo)
        (u * d.v3 + v * e.v3 + modinfo.modulus.v3 * de_md u v d e modinfo)
        (u * d.v4 + v * e.v4 + modinfo.modulus.v4 * de_md u v d e modinfo)).v4
        < 9223372036854775808) :
    update_de_62_row u v d e modinfo =
      carry_row
        (u * d.v0 + v * e.v0 + modinfo.modulus.v0 * de_md u v d e modinfo)
        (u * d.v1 + v * e.v1 + modinfo.modulus.v1 * de_md u v d e modinfo)
        (u * d.v2 + v * e.v2 + modinfo.modulus.v2 * de_md u v d e modinfo)
        (u * d.v3 + v * e.v3 + modinfo.modulus.v3 * de_md u v d e modinfo)
        (u * d.v4 + v * e.v4 + modinfo.modulus.v4 * de_md u v d e modinfo) := by
  rw [de_row_eq_wrap u v d e modinfo hT hd he hM, wrapI64_eq _ htop.1 htop.2]

theorem neg_of_top_neg (d : Signed62) (hd : d.LimbsIn) (h : d.v4 < 0) : d.value < 0 := by
  obtain ⟨d0, d1, d2, d3, d4⟩ := hd
  simp only [Signed62.value]
  omega

theorem nonneg_of_lowNorm (d : Signed62) (hd : d.LowNorm) (h : 0 ≤ d.v4) : 0 ≤ d.value := by
  obtain ⟨d0, d1, d2, d3⟩ := hd
  simp only [Signed62.value]
  omega

/-- The sum `u*D + v*E + M*md` that a row of `update_de_62` divides by `2^62` lies in
`[-(2^63 - 1)*M + 2^62, 2^62*(M - 1)]`. -/
theorem de_sum_bound (u v D E M md a b : Int)
    (hT : u + v ≤ 4611686018427387904 ∧ u - v ≤ 4611686018427387904 ∧
      -u + v ≤ 4611686018427387904 ∧ -u - v ≤ 4611686018427387904)
    (hD : -M < D + a * M ∧ D + a * M < M) (hE : -M < E + b * M ∧ E + b * M < M)
    (hmd1 : a * u + b * v - 4611686018427387904 < md) (hmd2 : md ≤ a * u + b * v) :
    -(4611686018427387904 * (M - 1)) - M * 4611686018427387903 ≤ u * D + v * E + M * md ∧
    u * D + v * E + M * md ≤ 4611686018427387904 * (M - 1) := by
  have hM : 0 < M := by omega
  have hl := lin_bound u v (D + a * M) (E + b * M) 4611686018427387904 (M - 1) hT
    (by omega) (by omega)
  have hk0 : 0 ≤ M * (a * u + b * v - md) := mul_nonneg hM.le (by omega)
  have hk1 : M * (a * u + b * v - md) ≤ M * 4611686018427387903 :=
    mul_le_mul_of_nonneg_left (by omega) hM.le
  have e : u * D + v * E + M * md
      = (u * (D + a * M) + v * (E + b * M)) - M * (a * u + b * v - md) := by ring
  rw [e]
  constructor <;> linarith [hl.1, hl.2]

theorem de_row_spec (u v : Int) (d e : Signed62) (modinfo : ModInfo)
    (hT : u + v ≤ 4611686018427387904 ∧ u - v ≤ 4611686018427387904 ∧
      -u + v ≤ 4611686018427387904 ∧ -u - v ≤ 4611686018427387904)
    (hd : d.LimbsIn) (he : e.LimbsIn) (hM : modinfo.modulus.Normalized)
    (hM2 : modinfo.modulus.value < 2 ^ 256)
    (hdv : -(2 * modinfo.modulus.value) < d.value ∧ d.value < modinfo.modulus.value)
    (hev : -(2 * modinfo.modulus.value) < e.value ∧ e.value < modinfo.modulus.value)
    (hds : 0 ≤ d.v4 → -modinfo.modulus.value < d.value)
    (hes : 0 ≤ e.v4 → -modinfo.modulus.value < e.value) :
    (update_de_62_row u v d e modinfo).LowNorm ∧
    (-4611686018427387904 < (update_de_62_row u v d e modinfo).v4 ∧
      (update_de_62_row u v d e modinfo).v4 < 4611686018427387904) ∧
    (-(2 * modinfo.modulus.value) < (update_de_62_row u v d e modinfo).value ∧
      (update_de_62_row u v d e modinfo).value < modinfo.modulus.value) ∧
    4611686018427387904 * (update_de_62_row u v d e modinfo).value
      + (u * d.v0 + v * e.v0 + modinfo.modulus.v0 * de_md u v d e modinfo) % 4611686018427387904
      = u * d.value + v * e.value + modinfo.modulus.value * de_md u v d e modinfo := by
  obtain ⟨hmd1, hmd2, -⟩ := de_md_spec u v d e modinfo hT hd he
  have hdn := neg_of_top_neg d hd
  have hen := neg_of_top_neg e he
  -- the sum bound
  have hsum := de_sum_bound u v d.value e.value modinfo.modulus.value (de_md u v d e modinfo)
    (if d.v4 < 0 then 1 else 0) (if e.v4 < 0 then 1 else 0) hT
    (by split <;> omega) (by split <;> omega)
    (by
      have e1 : (if d.v4 < 0 then (1 : Int) else 0) * u = if d.v4 < 0 then u else 0 := by
        split <;> simp
      have e2 : (if e.v4 < 0 then (1 : Int) else 0) * v = if e.v4 < 0 then v else 0 := by
        split <;> simp
      rw [e1, e2]; exact hmd1)
    (by
      have e1 : (if d.v4 < 0 then (1 : Int) else 0) * u = if d.v4 < 0 then u else 0 := by
        split <;> simp
      have e2 : (if e.v4 < 0 then (1 : Int) else 0) * v = if e.v4 < 0 then v else 0 := by
        split <;> simp
      rw [e1, e2]; exact hmd2)
  -- the carry chain
  have hv := carry_row_value
    (u * d.v0 + v * e.v0 + modinfo.modulus.v0 * de_md u v d e modinfo)
    (u * d.v1 + v * e.v1 + modinfo.modulus.v1 * de_md u v d e modinfo)
    (u * d.v2 + v * e.v2 + modinfo.modulus.v2 * de_md u v d e modinfo)
    (u * d.v3 + v * e.v3 + modinfo.modulus.v3 * de_md u v d e modinfo)
    (u * d.v4 + v * e.v4 + modinfo.modulus.v4 * de_md u v d e modinfo)
  have hl := carry_row_limbs
    (u * d.v0 + v * e.v0 + modinfo.modulus.v0 * de_md u v d e modinfo)
    (u * d.v1 + v * e.v1 + modinfo.modulus.v1 * de_md u v d e modinfo)
    (u * d.v2 + v * e.v2 + modinfo.modulus.v2 * de_md u v d e modinfo)
    (u * d.v3 + v * e.v3 + modinfo.modulus.v3 * de_md u v d e modinfo)
    (u * d.v4 + v * e.v4 + modinfo.modulus.v4 * de_md u v d e modinfo)
  have hrow := de_row_eq u v d e modinfo hT hd he hM
  generalize carry_row
    (u * d.v0 + v * e.v0 + modinfo.modulus.v0 * de_md u v d e modinfo)
    (u * d.v1 + v * e.v1 + modinfo.modulus.v1 * de_md u v d e modinfo)
    (u * d.v2 + v * e.v2 + modinfo.modulus.v2 * de_md u v d e modinfo)
    (u * d.v3 + v * e.v3 + modinfo.modulus.v3 * de_md u v d e modinfo)
    (u * d.v4 + v * e.v4 + modinfo.modulus.v4 * de_md u v d e modinfo) = o at hv hl hrow
  have hmod : 0 ≤ (u * d.v0 + v * e.v0 + modinfo.modulus.v0 * de_md u v d e modinfo)
      % 4611686018427387904 ∧
      (u * d.v0 + v * e.v0 + modinfo.modulus.v0 * de_md u v d e modinfo)
      % 4611686018427387904 < 4611686018427387904 := by omega
  have hS : 4611686018427387904 * o.value
      + (u * d.v0 + v * e.v0 + modinfo.modulus.v0 * de_md u v d e modinfo) % 4611686018427387904
      = u * d.value + v * e.value + modinfo.modulus.value * de_md u v d e modinfo := by
    rw [value_expand u d, value_expand v e, mul_comm modinfo.modulus.value,
      value_expand (de_md u v d e modinfo) modinfo.modulus]
    linear_combination hv
  generalize (u * d.v0 + v * e.v0 + modinfo.modulus.v0 * de_md u v d e modinfo)
      % 4611686018427387904 = r at hmod hS
  generalize u * d.value + v * e.value + modinfo.modulus.value * de_md u v d e modinfo = S
    at hsum hS
  have hM2' : modinfo.modulus.value
      < 115792089237316195423570985008687907853269984665640564039457584007913129639936 := by
    norm_num at hM2; exact hM2
  have hrange : -(2 * modinfo.modulus.value) < o.value ∧ o.value < modinfo.modulus.value := by
    omega
  have ho4 : -4611686018427387904 < o.v4 ∧ o.v4 < 4611686018427387904 := by
    have hov : o.value = o.v0 + o.v1 * 4611686018427387904
        + o.v2 * 21267647932558653966460912964485513216
        + o.v3 * 98079714615416886934934209737619787751599303819750539264
        + o.v4 * 452312848583266388373324160190187140051835877600158453279131187530910662656 := by
      simp only [Signed62.value]
    clear hrow
    omega
  rw [hrow (by omega)]
  exact ⟨⟨hl.1, hl.2.1, hl.2.2.1, hl.2.2.2⟩, ho4, hrange, hS⟩

theorem abs_sum_le (u v c : Int) (h : |u| + |v| ≤ c) :
    u + v ≤ c ∧ u - v ≤ c ∧ -u + v ≤ c ∧ -u - v ≤ c := by
  have h1 := le_abs_self u
  have h2 := neg_abs_le u
  have h3 := le_abs_self v
  have h4 := neg_abs_le v
  omega

theorem lowNorm_limbsIn (a : Signed62) (h : a.LowNorm)
    (h4 : -4611686018427387904 < a.v4 ∧ a.v4 < 4611686018427387904) : a.LimbsIn := by
  obtain ⟨h0, h1, h2, h3⟩ := h
  exact ⟨by omega, by omega, by omega, by omega, h4⟩

/-- The range of `update_de_62` on the inputs the two drivers pass, whose four low limbs are
masked. For a modulus with limbs in `[0, 2^62)` and `M < 2^256` (any
`modulus_inv62`), a matrix with `|u|+|v| ≤ 2^62` and `|q|+|r| ≤ 2^62`, and `d`, `e` whose
limbs lie in `(-2^62, 2^62)`, whose four low limbs lie in `[0, 2^62)` and whose values lie in
`(-2M, M)`: after `update_de_62` both `d` and `e` again have value in `(-2M, M)`, limbs in
`(-2^62, 2^62)` and four low limbs in `[0, 2^62)`. -/
theorem update_de_62_range (modinfo : ModInfo) (t : Trans2x2) (d e : Signed62)
    (hM : modinfo.modulus.Normalized) (hM2 : modinfo.modulus.value < 2 ^ 256)
    (hu : |t.u| + |t.v| ≤ 2 ^ 62) (hq : |t.q| + |t.r| ≤ 2 ^ 62)
    (hd : d.LimbsIn) (he : e.LimbsIn) (hdl : d.LowNorm) (hel : e.LowNorm)
    (hdv : -(2 * modinfo.modulus.value) < d.value ∧ d.value < modinfo.modulus.value)
    (hev : -(2 * modinfo.modulus.value) < e.value ∧ e.value < modinfo.modulus.value) :
    ((-(2 * modinfo.modulus.value) < (secp256k1_modinv64_update_de_62 d e t modinfo).1.value ∧
      (secp256k1_modinv64_update_de_62 d e t modinfo).1.value < modinfo.modulus.value) ∧
      (secp256k1_modinv64_update_de_62 d e t modinfo).1.LimbsIn ∧
      (secp256k1_modinv64_update_de_62 d e t modinfo).1.LowNorm) ∧
    ((-(2 * modinfo.modulus.value) < (secp256k1_modinv64_update_de_62 d e t modinfo).2.value ∧
      (secp256k1_modinv64_update_de_62 d e t modinfo).2.value < modinfo.modulus.value) ∧
      (secp256k1_modinv64_update_de_62 d e t modinfo).2.LimbsIn ∧
      (secp256k1_modinv64_update_de_62 d e t modinfo).2.LowNorm) := by
  have hds : 0 ≤ d.v4 → -modinfo.modulus.value < d.value := by
    intro h; have := nonneg_of_lowNorm d hdl h; omega
  have hes : 0 ≤ e.v4 → -modinfo.modulus.value < e.value := by
    intro h; have := nonneg_of_lowNorm e hel h; omega
  have r1 := de_row_spec t.u t.v d e modinfo (abs_sum_le _ _ _ (by norm_num at hu; exact hu))
    hd he hM hM2 hdv hev hds hes
  have r2 := de_row_spec t.q t.r d e modinfo (abs_sum_le _ _ _ (by norm_num at hq; exact hq))
    hd he hM hM2 hdv hev hds hes
  exact ⟨⟨r1.2.2.1, lowNorm_limbsIn _ r1.1 r1.2.1, r1.1⟩,
    ⟨r2.2.2.1, lowNorm_limbsIn _ r2.1 r2.2.1, r2.1⟩⟩

theorem ofLimb_lowNorm (x : Int) (h0 : 0 ≤ x) (h1 : x < 4611686018427387904) :
    (ofLimb x).LowNorm := by
  refine ⟨⟨h0, h1⟩, ?_, ?_, ?_⟩ <;> simp [ofLimb]

theorem ofLimb_normalized (x : Int) (h0 : 0 ≤ x) (h1 : x < 4611686018427387904) :
    (ofLimb x).Normalized :=
  ⟨ofLimb_lowNorm x h0 h1, by simp [ofLimb]⟩

theorem update_de_62_range_witness :
    (modinfo3.modulus.Normalized ∧ modinfo3.modulus.value < 2 ^ 256 ∧
      |trans_5_7_14.u| + |trans_5_7_14.v| ≤ 2 ^ 62 ∧
      |trans_5_7_14.q| + |trans_5_7_14.r| ≤ 2 ^ 62) ∧
    ((-(2 * modinfo3.modulus.value)
        < (secp256k1_modinv64_update_de_62 (ofLimb 2) (ofLimb 0) trans_5_7_14 modinfo3).1.value ∧
      (secp256k1_modinv64_update_de_62 (ofLimb 2) (ofLimb 0) trans_5_7_14 modinfo3).1.value
        < modinfo3.modulus.value) ∧
      (secp256k1_modinv64_update_de_62 (ofLimb 2) (ofLimb 0) trans_5_7_14 modinfo3).1.LimbsIn ∧
      (secp256k1_modinv64_update_de_62 (ofLimb 2) (ofLimb 0) trans_5_7_14 modinfo3).1.LowNorm) ∧
    ((-(2 * modinfo3.modulus.value)
        < (secp256k1_modinv64_update_de_62 (ofLimb 2) (ofLimb 0) trans_5_7_14 modinfo3).2.value ∧
      (secp256k1_modinv64_update_de_62 (ofLimb 2) (ofLimb 0) trans_5_7_14 modinfo3).2.value
        < modinfo3.modulus.value) ∧
      (secp256k1_modinv64_update_de_62 (ofLimb 2) (ofLimb 0) trans_5_7_14 modinfo3).2.LimbsIn ∧
      (secp256k1_modinv64_update_de_62 (ofLimb 2) (ofLimb 0) trans_5_7_14 modinfo3).2.LowNorm) :=
  have hM : modinfo3.modulus.Normalized := ofLimb_normalized 3 (by decide) (by decide)
  have hM2 : modinfo3.modulus.value < 2 ^ 256 := by norm_num [modinfo3, ofLimb_value]
  have hu : |trans_5_7_14.u| + |trans_5_7_14.v| ≤ 2 ^ 62 := by decide!
  have hq : |trans_5_7_14.q| + |trans_5_7_14.r| ≤ 2 ^ 62 := by decide!
  ⟨⟨hM, hM2, hu, hq⟩,
    update_de_62_range modinfo3 trans_5_7_14 (ofLimb 2) (ofLimb 0) hM hM2 hu hq
      (ofLimb_limbsIn _ (by decide) (by decide)) (ofLimb_limbsIn _ (by decide) (by decide))
      (ofLimb_lowNorm _ (by decide) (by decide)) (ofLimb_lowNorm _ (by decide) (by decide))
      (by decide!) (by decide!)⟩

/-! ## `normalize_62` -/

theorem normalize_62_phases (r : Signed62) (sign : Int) (modinfo : ModInfo) :
    secp256k1_modinv64_normalize_62 r sign modinfo =
      norm_propagate (norm_cond_add (norm_propagate
        (norm_negate (norm_cond_add r modinfo.modulus) sign)) modinfo.modulus) := rfl

theorem addI64_eq (a b : Int) (h0 : -9223372036854775808 ≤ a + b)
    (h1 : a + b < 9223372036854775808) : addI64 a b = a + b :=
  wrapI64_eq _ h0 h1

theorem cond_neg_eq (a s : Int) (ha0 : -9223372036854775808 < a) (ha1 : a < 9223372036854775808)
    (hs0 : -9223372036854775808 ≤ s) (hs1 : s < 9223372036854775808) :
    subI64 (xorI64 a (sar s 63)) (sar s 63) = if s < 0 then -a else a := by
  rw [sar63 s hs0 hs1]
  split
  · unfold subI64 xorI64
    have e : toU64 (-1) = 18446744073709551615 := by unfold toU64; omega
    rw [e, xor_mask _ (toU64_lt a)]
    have h := toU64_cast a
    have h' := toU64_lt a
    unfold wrapI64 toI64 toU64
    split <;> split <;> omega
  · unfold subI64 xorI64
    have e : toU64 0 = 0 := by unfold toU64; omega
    rw [e, Nat.xor_zero]
    have h := toU64_cast a
    have h' := toU64_lt a
    unfold wrapI64 toI64 toU64
    split <;> split <;> omega

theorem norm_cond_add_eq (r m : Signed62) (hm : m.Normalized)
    (h0 : -4611686018427387904 ≤ r.v0 ∧ r.v0 ≤ 4611686018427387904)
    (h1 : -4611686018427387904 ≤ r.v1 ∧ r.v1 ≤ 4611686018427387904)
    (h2 : -4611686018427387904 ≤ r.v2 ∧ r.v2 ≤ 4611686018427387904)
    (h3 : -4611686018427387904 ≤ r.v3 ∧ r.v3 ≤ 4611686018427387904)
    (h4 : -4611686018427387904 ≤ r.v4 ∧ r.v4 ≤ 4611686018427387904) :
    norm_cond_add r m =
      { v0 := r.v0 + (if r.v4 < 0 then m.v0 else 0), v1 := r.v1 + (if r.v4 < 0 then m.v1 else 0),
        v2 := r.v2 + (if r.v4 < 0 then m.v2 else 0), v3 := r.v3 + (if r.v4 < 0 then m.v3 else 0),
        v4 := r.v4 + (if r.v4 < 0 then m.v4 else 0) } := by
  obtain ⟨⟨m0, m1, m2, m3⟩, m4⟩ := hm
  simp only [norm_cond_add]
  rw [andI64_sign m.v0 r.v4 (by omega) (by omega) (by omega) (by omega),
    andI64_sign m.v1 r.v4 (by omega) (by omega) (by omega) (by omega),
    andI64_sign m.v2 r.v4 (by omega) (by omega) (by omega) (by omega),
    andI64_sign m.v3 r.v4 (by omega) (by omega) (by omega) (by omega),
    andI64_sign m.v4 r.v4 (by omega) (by omega) (by omega) (by omega)]
  rw [addI64_eq r.v0 _ (by split <;> omega) (by split <;> omega),
    addI64_eq r.v1 _ (by split <;> omega) (by split <;> omega),
    addI64_eq r.v2 _ (by split <;> omega) (by split <;> omega),
    addI64_eq r.v3 _ (by split <;> omega) (by split <;> omega),
    addI64_eq r.v4 _ (by split <;> omega) (by split <;> omega)]

theorem norm_negate_eq (r : Signed62) (s : Int)
    (hs0 : -9223372036854775808 ≤ s) (hs1 : s < 9223372036854775808)
    (h0 : -9223372036854775808 < r.v0 ∧ r.v0 < 9223372036854775808)
    (h1 : -9223372036854775808 < r.v1 ∧ r.v1 < 9223372036854775808)
    (h2 : -9223372036854775808 < r.v2 ∧ r.v2 < 9223372036854775808)
    (h3 : -9223372036854775808 < r.v3 ∧ r.v3 < 9223372036854775808)
    (h4 : -9223372036854775808 < r.v4 ∧ r.v4 < 9223372036854775808) :
    norm_negate r s =
      { v0 := if s < 0 then -r.v0 else r.v0, v1 := if s < 0 then -r.v1 else r.v1,
        v2 := if s < 0 then -r.v2 else r.v2, v3 := if s < 0 then -r.v3 else r.v3,
        v4 := if s < 0 then -r.v4 else r.v4 } := by
  simp only [norm_negate]
  rw [cond_neg_eq r.v0 s h0.1 h0.2 hs0 hs1, cond_neg_eq r.v1 s h1.1 h1.2 hs0 hs1,
    cond_neg_eq r.v2 s h2.1 h2.2 hs0 hs1, cond_neg_eq r.v3 s h3.1 h3.2 hs0 hs1,
    cond_neg_eq r.v4 s h4.1 h4.2 hs0 hs1]

theorem norm_propagate_eq (r : Signed62)
    (h0 : -9223372036854775808 ≤ r.v0 ∧ r.v0 < 9223372036854775808)
    (h1 : -9223372036854775806 ≤ r.v1 ∧ r.v1 ≤ 9223372036854775806)
    (h2 : -9223372036854775806 ≤ r.v2 ∧ r.v2 ≤ 9223372036854775806)
    (h3 : -9223372036854775806 ≤ r.v3 ∧ r.v3 ≤ 9223372036854775806)
    (h4 : -9223372036854775806 ≤ r.v4 ∧ r.v4 ≤ 9223372036854775806) :
    norm_propagate r =
      { v0 := r.v0 % 4611686018427387904,
        v1 := (r.v1 + r.v0 / 4611686018427387904) % 4611686018427387904,
        v2 := (r.v2 + (r.v1 + r.v0 / 4611686018427387904) / 4611686018427387904)
          % 4611686018427387904,
        v3 := (r.v3 + (r.v2 + (r.v1 + r.v0 / 4611686018427387904) / 4611686018427387904)
          / 4611686018427387904) % 4611686018427387904,
        v4 := r.v4 + (r.v3 + (r.v2 + (r.v1 + r.v0 / 4611686018427387904) / 4611686018427387904)
          / 4611686018427387904) / 4611686018427387904 } := by
  simp only [norm_propagate, sar62, andI64_M62]
  rw [addI64_eq r.v1 _ (by omega) (by omega)]
  rw [addI64_eq r.v2 _ (by omega) (by omega)]
  rw [addI64_eq r.v3 _ (by omega) (by omega)]
  rw [addI64_eq r.v4 _ (by omega) (by omega)]

theorem value_mk (a b c d e : Int) :
    ({ v0 := a, v1 := b, v2 := c, v3 := d, v4 := e } : Signed62).value
      = a + b * 4611686018427387904 + c * 21267647932558653966460912964485513216
        + d * 98079714615416886934934209737619787751599303819750539264
        + e * 452312848583266388373324160190187140051835877600158453279131187530910662656 := rfl

theorem value_def (a : Signed62) :
    a.value = a.v0 + a.v1 * 4611686018427387904 + a.v2 * 21267647932558653966460912964485513216
        + a.v3 * 98079714615416886934934209737619787751599303819750539264
        + a.v4 * 452312848583266388373324160190187140051835877600158453279131187530910662656 := rfl

/-- The first two blocks of `normalize_62`: for `r` in `(-2M, M)` whose sign is that of its
top limb, the result has value `±(r + [r < 0] M)` and limbs that the carry propagation can
take. -/
theorem norm_first (r m : Signed62) (s : Int) (hm : m.Normalized) (hr : r.LimbsIn)
    (hs0 : -9223372036854775808 ≤ s) (hs1 : s < 9223372036854775808) :
    (norm_negate (norm_cond_add r m) s).value
      = (if s < 0 then -1 else 1) * (r.value + (if r.v4 < 0 then m.value else 0)) ∧
    (-9223372036854775806 ≤ (norm_negate (norm_cond_add r m) s).v0 ∧
      (norm_negate (norm_cond_add r m) s).v0 ≤ 9223372036854775806) ∧
    (-9223372036854775806 ≤ (norm_negate (norm_cond_add r m) s).v1 ∧
      (norm_negate (norm_cond_add r m) s).v1 ≤ 9223372036854775806) ∧
    (-9223372036854775806 ≤ (norm_negate (norm_cond_add r m) s).v2 ∧
      (norm_negate (norm_cond_add r m) s).v2 ≤ 9223372036854775806) ∧
    (-9223372036854775806 ≤ (norm_negate (norm_cond_add r m) s).v3 ∧
      (norm_negate (norm_cond_add r m) s).v3 ≤ 9223372036854775806) ∧
    (-9223372036854775806 ≤ (norm_negate (norm_cond_add r m) s).v4 ∧
      (norm_negate (norm_cond_add r m) s).v4 ≤ 9223372036854775806) := by
  obtain ⟨r0, r1, r2, r3, r4⟩ := hr
  have hm' := hm
  obtain ⟨⟨m0, m1, m2, m3⟩, m4⟩ := hm'
  rw [norm_cond_add_eq r m hm (by omega) (by omega) (by omega) (by omega) (by omega)]
  rw [norm_negate_eq _ s hs0 hs1 (by dsimp only; split <;> omega)
    (by dsimp only; split <;> omega) (by dsimp only; split <;> omega)
    (by dsimp only; split <;> omega) (by dsimp only; split <;> omega)]
  simp only [value_mk]
  rw [value_def r, value_def m]
  by_cases hs : s < 0 <;> by_cases h4 : r.v4 < 0 <;> simp only [hs, h4, if_true, if_false] <;>
    omega

theorem norm_propagate_spec (r : Signed62)
    (h0 : -9223372036854775808 ≤ r.v0 ∧ r.v0 < 9223372036854775808)
    (h1 : -9223372036854775806 ≤ r.v1 ∧ r.v1 ≤ 9223372036854775806)
    (h2 : -9223372036854775806 ≤ r.v2 ∧ r.v2 ≤ 9223372036854775806)
    (h3 : -9223372036854775806 ≤ r.v3 ∧ r.v3 ≤ 9223372036854775806)
    (h4 : -9223372036854775806 ≤ r.v4 ∧ r.v4 ≤ 9223372036854775806) :
    (norm_propagate r).value = r.value ∧ (norm_propagate r).LowNorm := by
  rw [norm_propagate_eq r h0 h1 h2 h3 h4]
  refine ⟨?_, ⟨?_, ?_, ?_, ?_⟩⟩
  · rw [value_mk, value_def r]; omega
  · dsimp only; omega
  · dsimp only; omega
  · dsimp only; omega
  · dsimp only; omega

theorem top_limb_bound (a : Signed62) (hl : a.LowNorm) (B : Int)
    (hv : -B ≤ a.value ∧ a.value < B)
    (hB : B ≤ 115792089237316195423570985008687907853269984665640564039457584007913129639936) :
    -256 ≤ a.v4 ∧ a.v4 < 256 ∧ (a.v4 < 0 ↔ a.value < 0) := by
  obtain ⟨l0, l1, l2, l3⟩ := hl
  rw [value_def a] at hv ⊢
  omega

/-- The specification of `normalize_62` for inputs whose sign is that of the top limb. -/
theorem normalize_62_spec (r : Signed62) (s : Int) (modinfo : ModInfo)
    (hm : modinfo.modulus.Normalized) (hm2 : modinfo.modulus.value < 2 ^ 256)
    (hr : r.LimbsIn)
    (hrv : -(2 * modinfo.modulus.value) < r.value ∧ r.value < modinfo.modulus.value)
    (hsgn : 0 ≤ r.v4 → -modinfo.modulus.value < r.value)
    (hs0 : -9223372036854775808 ≤ s) (hs1 : s < 9223372036854775808) :
    (secp256k1_modinv64_normalize_62 r s modinfo).Normalized ∧
    (0 ≤ (secp256k1_modinv64_normalize_62 r s modinfo).value ∧
      (secp256k1_modinv64_normalize_62 r s modinfo).value < modinfo.modulus.value) ∧
    (secp256k1_modinv64_normalize_62 r s modinfo).value
      = (if s < 0 then -r.value else r.value) % modinfo.modulus.value := by
  have hm2' : modinfo.modulus.value
      < 115792089237316195423570985008687907853269984665640564039457584007913129639936 := by
    norm_num at hm2; exact hm2
  have hneg := neg_of_top_neg r hr
  rw [normalize_62_phases]
  obtain ⟨hv1, b0, b1, b2, b3, b4⟩ := norm_first r modinfo.modulus s hm hr hs0 hs1
  generalize norm_negate (norm_cond_add r modinfo.modulus) s = n at hv1 b0 b1 b2 b3 b4 ⊢
  obtain ⟨hv2, hl2⟩ := norm_propagate_spec n (by omega) b1 b2 b3 b4
  generalize norm_propagate n = p at hv2 hl2 ⊢
  -- the value after the first propagation lies in (-M, M)
  have hpv : -modinfo.modulus.value < p.value ∧ p.value < modinfo.modulus.value := by
    rw [hv2, hv1]
    by_cases hs : s < 0 <;> by_cases h4 : r.v4 < 0 <;>
      simp only [hs, h4, if_true, if_false] <;> omega
  obtain ⟨t1, t2, t3⟩ := top_limb_bound p hl2 modinfo.modulus.value ⟨by omega, hpv.2⟩ hm2'.le
  have hca := norm_cond_add_eq p modinfo.modulus hm (by have := hl2.l0; omega)
    (by have := hl2.l1; omega) (by have := hl2.l2; omega) (by have := hl2.l3; omega) (by omega)
  have hm' := hm
  obtain ⟨⟨m0, m1, m2, m3⟩, m4⟩ := hm'
  have hl2' := hl2
  obtain ⟨p0, p1, p2, p3⟩ := hl2'
  have hav : (norm_cond_add p modinfo.modulus).value
      = p.value + (if p.v4 < 0 then modinfo.modulus.value else 0) := by
    rw [hca, value_mk, value_def p, value_def modinfo.modulus]
    split <;> omega
  have ha0 : (norm_cond_add p modinfo.modulus).v0 = p.v0 + (if p.v4 < 0 then modinfo.modulus.v0 else 0) := by
    rw [hca]
  have ha1 : (norm_cond_add p modinfo.modulus).v1 = p.v1 + (if p.v4 < 0 then modinfo.modulus.v1 else 0) := by
    rw [hca]
  have ha2 : (norm_cond_add p modinfo.modulus).v2 = p.v2 + (if p.v4 < 0 then modinfo.modulus.v2 else 0) := by
    rw [hca]
  have ha3 : (norm_cond_add p modinfo.modulus).v3 = p.v3 + (if p.v4 < 0 then modinfo.modulus.v3 else 0) := by
    rw [hca]
  have ha4 : (norm_cond_add p modinfo.modulus).v4 = p.v4 + (if p.v4 < 0 then modinfo.modulus.v4 else 0) := by
    rw [hca]
  generalize norm_cond_add p modinfo.modulus = a at hav ha0 ha1 ha2 ha3 ha4 ⊢
  obtain ⟨hv3, hl3⟩ := norm_propagate_spec a (by rw [ha0]; split <;> omega)
    (by rw [ha1]; split <;> omega) (by rw [ha2]; split <;> omega)
    (by rw [ha3]; split <;> omega) (by rw [ha4]; split <;> omega)
  generalize norm_propagate a = o at hv3 hl3 ⊢
  have hov : 0 ≤ o.value ∧ o.value < modinfo.modulus.value := by
    rw [hv3, hav]
    split <;> omega
  obtain ⟨u1, u2, u3⟩ := top_limb_bound o hl3 modinfo.modulus.value ⟨by omega, hov.2⟩ hm2'.le
  refine ⟨⟨hl3, by omega, by omega⟩, hov, ?_⟩
  have hk : ∃ k : Int, o.value = (if s < 0 then -r.value else r.value) + modinfo.modulus.value * k := by
    rw [hv3, hav, hv2, hv1]
    by_cases hs : s < 0 <;> by_cases h4 : r.v4 < 0 <;> by_cases h5 : p.v4 < 0 <;>
      simp only [hs, h4, h5, if_true, if_false]
    · exact ⟨0, by ring⟩
    · exact ⟨-1, by ring⟩
    · exact ⟨1, by ring⟩
    · exact ⟨0, by ring⟩
    · exact ⟨2, by ring⟩
    · exact ⟨1, by ring⟩
    · exact ⟨1, by ring⟩
    · exact ⟨0, by ring⟩
  obtain ⟨k, hk⟩ := hk
  have h1 : o.value % modinfo.modulus.value = o.value := Int.emod_eq_of_lt hov.1 hov.2
  rw [← h1, hk, Int.add_mul_emod_self_left]

/-! ## The driver loops -/

theorem valid_pos (modinfo : ModInfo) (h : modinfo.Valid) : 0 < modinfo.modulus.value := by
  have := h.odd
  obtain ⟨⟨m0, m1, m2, m3⟩, m4⟩ := h.norm
  rw [value_def] at this ⊢
  omega

theorem lowNorm_top (a : Signed62) (hl : a.LowNorm) (B : Int) (hv : -B ≤ a.value ∧ a.value ≤ B)
    (hB : B < 2 ^ 256) : -4611686018427387904 < a.v4 ∧ a.v4 < 4611686018427387904 := by
  have hB' : B + 1 ≤ 115792089237316195423570985008687907853269984665640564039457584007913129639936 := by
    norm_num at hB; omega
  have := top_limb_bound a hl (B + 1) (by omega) hB'
  omega

theorem body_ok (modinfo : ModInfo) (hv : modinfo.Valid) (n : Nat) (hn : n ≤ 11)
    (s : InvState) (h : InvOK modinfo n s) : InvOK modinfo (n + 1) (modinv_body modinfo s) := by
  obtain ⟨dl, dt, dv, el, et, ev, fl, gl, fo, fv, gv, he⟩ := h
  have hd : s.d.LimbsIn := lowNorm_limbsIn _ dl dt
  have hee : s.e.LimbsIn := lowNorm_limbsIn _ el et
  have hf : s.f.LimbsIn := lowNorm_limbsIn _ fl (lowNorm_top _ fl _ fv hv.lt)
  have hg : s.g.LimbsIn := lowNorm_limbsIn _ gl (lowNorm_top _ gl _ gv hv.lt)
  have hodd0 := toU64_odd s.f fo
  obtain ⟨e0, eu, ev', eq, er, hi⟩ := divsteps_62_props s.eta (toU64 s.f.v0) (toU64 s.g.v0)
    s.f.value s.g.value (by omega) (by omega) (toU64_lt _) (toU64_lt _) hodd0
    (value_modEq_limb s.f) (value_modEq_limb s.g)
  obtain ⟨_, eu0, ev0, eq0, er0, hi0⟩ := divsteps_62_props s.eta (toU64 s.f.v0) (toU64 s.g.v0)
    s.f.v0 s.g.v0 (by omega) (by omega) (toU64_lt _) (toU64_lt _) hodd0
    (limb_modEq_limb _) (limb_modEq_limb _)
  have hb := matsteps_FG_bound 62 (matinit s.eta s.f.value s.g.value) modinfo.modulus.value
    (by simp only [matinit]; omega)
  have hem := matsteps_eta 62 (matinit s.eta s.f.value s.g.value) (1 + 62 * (n : Int))
    (by simp only [matinit]; omega) (by simp only [matinit]; omega)
  have hds : 0 ≤ s.d.v4 → -modinfo.modulus.value < s.d.value := by
    intro h; have := nonneg_of_lowNorm s.d dl h; have := valid_pos modinfo hv; omega
  have hes : 0 ≤ s.e.v4 → -modinfo.modulus.value < s.e.value := by
    intro h; have := nonneg_of_lowNorm s.e el h; have := valid_pos modinfo hv; omega
  generalize hT : (secp256k1_modinv64_divsteps_62 s.eta (toU64 s.f.v0) (toU64 s.g.v0)) = T
    at e0 eu ev' eq er eu0 ev0 eq0 er0
  have r1 := de_row_spec T.2.u T.2.v s.d s.e modinfo (by rw [eu, ev']; exact hi.bU)
    hd hee hv.norm hv.lt dv ev hds hes
  have r2 := de_row_spec T.2.q T.2.r s.d s.e modinfo (by rw [eq, er]; exact hi.bQ)
    hd hee hv.norm hv.lt dv ev hds hes
  have hlt := hv.lt
  have r3 := fg_row_exact T.2.u T.2.v s.f s.g _ _ (by rw [eu, ev']; exact hi.bU) hf hg
    (by rw [eu, ev']; exact hi.linF) (by rw [eu0, ev0]; exact hi0.linF)
    (by norm_num at hlt ⊢; omega)
  have r4 := fg_row_exact T.2.q T.2.r s.f s.g _ _ (by rw [eq, er]; exact hi.bQ) hf hg
    (by rw [eq, er]; exact hi.linG) (by rw [eq0, er0]; exact hi0.linG)
    (by norm_num at hlt ⊢; omega)
  have hbody : modinv_body modinfo s =
      { d := update_de_62_row T.2.u T.2.v s.d s.e modinfo,
        e := update_de_62_row T.2.q T.2.r s.d s.e modinfo,
        f := update_fg_62_row T.2.u T.2.v s.f s.g,
        g := update_fg_62_row T.2.q T.2.r s.f s.g, eta := T.1 } := by
    simp only [modinv_body, secp256k1_modinv64_update_de_62, secp256k1_modinv64_update_fg_62, hT]
  rw [hbody]
  refine ⟨r1.1, r1.2.1, r1.2.2.1, r2.1, r2.2.1, r2.2.2.1, r3.2.1, r4.2.1, ?_, ?_, ?_, ?_⟩
  · dsimp only; rw [r3.1]; exact hi.Fodd
  · dsimp only; rw [r3.1]; omega
  · dsimp only; rw [r4.1]; omega
  · dsimp only; rw [e0]; push_cast at hem ⊢; omega

theorem loop_ok (modinfo : ModInfo) (hv : modinfo.Valid) (k : Nat) : ∀ (n : Nat) (s : InvState),
    n + k ≤ 12 → InvOK modinfo n s → InvOK modinfo (n + k) (modinv_loop modinfo k s) := by
  induction k with
  | zero => intro n s _ h; exact h
  | succ k ih =>
    intro n s hn h
    simp only [modinv_loop]
    have := ih (n + 1) (modinv_body modinfo s) (by omega) (body_ok modinfo hv n (by omega) s h)
    rw [Nat.add_assoc, Nat.add_comm 1 k] at this
    exact this

theorem init_ok (modinfo : ModInfo) (hv : modinfo.Valid) (x : Signed62) (hx : x.Normalized)
    (hx0 : 0 ≤ x.value) (hx1 : x.value < modinfo.modulus.value)
    (hM : 1 < modinfo.modulus.value) : InvOK modinfo 0 (modinv_init x modinfo) := by
  refine ⟨?_, ?_, ?_, ?_, ?_, ?_, hv.norm.low, hx.low, hv.odd, ?_, ?_, ?_⟩
  · refine ⟨?_, ?_, ?_, ?_⟩ <;> simp [modinv_init]
  · simp [modinv_init]
  · simp only [modinv_init, value_mk]; omega
  · refine ⟨?_, ?_, ?_, ?_⟩ <;> simp [modinv_init]
  · simp [modinv_init]
  · simp only [modinv_init, value_mk]; omega
  · simp only [modinv_init]; omega
  · simp only [modinv_init]; omega
  · simp [modinv_init]

theorem matsteps_G_zero (n : Nat) : ∀ (S : MatState), S.G = 0 →
    matsteps n S = { eta := S.eta - n, F := S.F, G := 0, U := 2 ^ n * S.U, V := 2 ^ n * S.V,
                     Q := S.Q, R := S.R } := by
  induction n with
  | zero => intro S h; cases S; simp_all [matsteps]
  | succ n ih =>
    intro S h
    have c1 : ¬ (S.eta < 0 ∧ S.G % 2 = 1) := by rw [h]; omega
    have c2 : ¬ (S.G % 2 = 1) := by rw [h]; omega
    simp only [matsteps]
    rw [ih (matstep S) (by rw [matstep_G_even S (by omega), h]; rfl)]
    rw [matstep, if_neg c1, if_neg c2]
    simp only [MatState.mk.injEq]
    refine ⟨by push_cast; ring, trivial, trivial, by ring, by ring, trivial, trivial⟩

theorem divsteps_62_g_zero (eta : Int) (f0 : Nat) (h0 : -745 ≤ eta) (h1 : eta ≤ 745)
    (hf : f0 < 18446744073709551616) (hodd : f0 % 2 = 1) :
    secp256k1_modinv64_divsteps_62 eta f0 0 =
      (eta - 62, { u := 4611686018427387904, v := 0, q := 0, r := 1 }) := by
  rw [divsteps_62_eq eta f0 0 f0 0 h0 h1 hf (by norm_num) hodd (Int.ModEq.refl _)
    (by simp [Int.ModEq])]
  rw [matsteps_G_zero 62 _ rfl]
  simp [matinit]

theorem toU64_zero : toU64 0 = 0 := by unfold toU64; omega
theorem toI64_zero : toI64 0 = 0 := by unfold toI64; simp
theorem wrapI64_zero : wrapI64 0 = 0 := by unfold wrapI64; rw [toU64_zero, toI64_zero]
theorem wrapI128_zero : wrapI128 0 = 0 := by unfold wrapI128; omega
theorem sar_zero (k : Nat) : sar 0 k = 0 := by rw [sar_eq]; simp
theorem andI64_zero_left (a : Int) : andI64 0 a = 0 := by
  unfold andI64; rw [toU64_zero, Nat.zero_and, toI64_zero]
theorem addI64_zero : addI64 0 0 = 0 := by unfold addI64; simpa using wrapI64_zero
theorem mul64_zero (a : Nat) : mul64 a 0 = 0 := by unfold mul64; simp
theorem add64_zero : add64 0 0 = 0 := by unfold add64; simp
theorem sub64_zero : sub64 0 0 = 0 := by unfold sub64; simp

theorem de_row_zero (e : Signed62) (modinfo : ModInfo) :
    update_de_62_row 4611686018427387904 0 zero62 e modinfo = zero62 := by
  simp only [update_de_62_row, zero62, sar_zero, andI64_zero, andI64_zero_left, addI64_zero,
    mul_zero, zero_mul, wrapI128_zero, add_zero, toU64_zero, mul64_zero, add64_zero,
    Nat.zero_and, sub64_zero, toI64_zero, wrapI64_zero, ite_self]

theorem fg_row_keep (f : Signed62) (hf : f.Normalized) (hv : f.value < 2 ^ 256) :
    update_fg_62_row 4611686018427387904 0 f zero62 = f := by
  obtain ⟨⟨f0, f1, f2, f3⟩, f4⟩ := id hf
  have hfl : f.LimbsIn := ⟨by omega, by omega, by omega, by omega, by omega⟩
  have hz : zero62.LimbsIn := by refine ⟨?_, ?_, ?_, ?_, ?_⟩ <;> simp [zero62]
  have hval : -(2 ^ 318) ≤ 4611686018427387904 * f.value + 0 * zero62.value ∧
      4611686018427387904 * f.value + 0 * zero62.value ≤ 2 ^ 318 := by
    have := nonneg_of_lowNorm f hf.low f4.1
    norm_num at hv ⊢
    omega
  rw [fg_row_spec 4611686018427387904 0 f zero62 (by omega) hfl hz hval]
  apply signed62_ext <;> simp only [carry_row, zero62] <;> omega

theorem fg_row_zero (f : Signed62) :
    update_fg_62_row 0 1 f zero62 = zero62 := by
  simp only [update_fg_62_row, zero62, zero_mul, mul_zero, wrapI128_zero, add_zero, sar_zero,
    wrapI64_zero, andI64_zero_left]

theorem body_zero (modinfo : ModInfo) (hv : modinfo.Valid) (s : InvState)
    (hd : s.d = zero62) (hg : s.g = zero62) (hf : s.f = modinfo.modulus)
    (h0 : -745 ≤ s.eta) (h1 : s.eta ≤ 745) :
    (modinv_body modinfo s).d = zero62 ∧ (modinv_body modinfo s).g = zero62 ∧
    (modinv_body modinfo s).f = modinfo.modulus ∧ (modinv_body modinfo s).eta = s.eta - 62 := by
  have hT : secp256k1_modinv64_divsteps_62 s.eta (toU64 s.f.v0) (toU64 s.g.v0)
      = (s.eta - 62, { u := 4611686018427387904, v := 0, q := 0, r := 1 }) := by
    have e : toU64 s.g.v0 = 0 := by rw [hg]; exact toU64_zero
    rw [e]
    exact divsteps_62_g_zero s.eta _ h0 h1 (toU64_lt _) (toU64_odd s.f (by rw [hf]; exact hv.odd))
  simp only [modinv_body, secp256k1_modinv64_update_de_62, secp256k1_modinv64_update_fg_62, hT]
  rw [hd, hg, hf]
  exact ⟨de_row_zero _ _, fg_row_zero _, fg_row_keep _ hv.norm hv.lt, trivial⟩

theorem loop_zero (modinfo : ModInfo) (hv : modinfo.Valid) (k : Nat) : ∀ (n : Nat) (s : InvState),
    n + k ≤ 12 → s.d = zero62 → s.g = zero62 → s.f = modinfo.modulus →
    s.eta = -1 - 62 * (n : Int) →
    (modinv_loop modinfo k s).d = zero62 ∧ (modinv_loop modinfo k s).f = modinfo.modulus := by
  induction k with
  | zero => intro n s _ hd _ hf _; exact ⟨hd, hf⟩
  | succ k ih =>
    intro n s hn hd hg hf he
    obtain ⟨b1, b2, b3, b4⟩ := body_zero modinfo hv s hd hg hf (by omega) (by omega)
    simp only [modinv_loop]
    exact ih (n + 1) _ (by omega) b1 b2 b3 (by rw [b4, he]; push_cast; ring)

theorem normalize_zero (modinfo : ModInfo) (hv : modinfo.Valid) :
    secp256k1_modinv64_normalize_62 zero62 modinfo.modulus.v4 modinfo = zero62 := by
  have hpos := valid_pos modinfo hv
  have hz : zero62.LimbsIn := by refine ⟨?_, ?_, ?_, ?_, ?_⟩ <;> simp [zero62]
  have hzv : zero62.value = 0 := rfl
  have hm4 := hv.norm.l4
  obtain ⟨⟨⟨n0, n1, n2, n3⟩, n4⟩, hr, -⟩ := normalize_62_spec zero62 modinfo.modulus.v4 modinfo
    hv.norm hv.lt hz (by rw [hzv]; omega) (by intro _; rw [hzv]; omega) (by omega) (by omega)
  have hval : (secp256k1_modinv64_normalize_62 zero62 modinfo.modulus.v4 modinfo).value = 0 := by
    have := normalize_62_spec zero62 modinfo.modulus.v4 modinfo
      hv.norm hv.lt hz (by rw [hzv]; omega) (by intro _; rw [hzv]; omega) (by omega) (by omega)
    rw [this.2.2, hzv]
    split <;> simp
  rw [value_def] at hval
  generalize secp256k1_modinv64_normalize_62 zero62 modinfo.modulus.v4 modinfo = o at *
  have z0 : zero62.v0 = 0 := rfl
  have z1 : zero62.v1 = 0 := rfl
  have z2 : zero62.v2 = 0 := rfl
  have z3 : zero62.v3 = 0 := rfl
  have z4 : zero62.v4 = 0 := rfl
  apply signed62_ext <;> omega

theorem modinv_zero (modinfo : ModInfo) (hv : modinfo.Valid) :
    secp256k1_modinv64 zero62 modinfo = zero62 := by
  obtain ⟨h1, h2⟩ := loop_zero modinfo hv 12 0 (modinv_init zero62 modinfo) (by omega) rfl rfl rfl
    (by simp [modinv_init])
  simp only [secp256k1_modinv64]
  rw [h1, h2]
  exact normalize_zero modinfo hv

theorem var_done_zero : modinv_var_done zero62 = true := by decide

theorem var_loop_zero (modinfo : ModInfo) (hv : modinfo.Valid) (k m : Nat) (hk : 63 ≤ k)
    (s : InvState) (hd : s.d = zero62) (hg : s.g = zero62) (hf : s.f = modinfo.modulus)
    (h0 : -745 ≤ s.eta) (h1 : s.eta ≤ 745) :
    modinv_var_loop modinfo k (m + 1) s = some (modinv_body modinfo s) := by
  have hodd : toU64 s.f.v0 % 2 = 1 := toU64_odd _ (by rw [hf]; exact hv.odd)
  have hvar := divsteps_62_var_eq k s.eta (toU64 s.f.v0) (toU64 s.g.v0) hk h0 h1 (toU64_lt _)
    hodd (toU64_lt _)
  obtain ⟨b1, b2, b3, b4⟩ := body_zero modinfo hv s hd hg hf h0 h1
  have hdone : modinv_var_done (modinv_body modinfo s).g = true := by
    rw [b2]; exact var_done_zero
  simp only [modinv_var_loop, hvar]
  exact if_pos hdone

theorem modinv_var_zero (modinfo : ModInfo) (hv : modinfo.Valid) (n k : Nat) (hn : 1 ≤ n)
    (hk : 63 ≤ k) : secp256k1_modinv64_var n k zero62 modinfo = some zero62 := by
  obtain ⟨m, rfl⟩ : ∃ m, n = m + 1 := ⟨n - 1, by omega⟩
  have hl := var_loop_zero modinfo hv k m hk (modinv_init zero62 modinfo) rfl rfl rfl
    (by simp [modinv_init]) (by simp [modinv_init])
  obtain ⟨b1, b2, b3, b4⟩ := body_zero modinfo hv (modinv_init zero62 modinfo) rfl rfl rfl
    (by simp [modinv_init]) (by simp [modinv_init])
  simp only [secp256k1_modinv64_var, hl]
  rw [b1, b3, normalize_zero modinfo hv]

theorem eq_zero_of_value_zero (x : Signed62) (hx : x.Normalized) (h : x.value = 0) :
    x = zero62 := by
  obtain ⟨⟨x0, x1, x2, x3⟩, x4⟩ := hx
  rw [value_def] at h
  have z0 : zero62.v0 = 0 := rfl
  have z1 : zero62.v1 = 0 := rfl
  have z2 : zero62.v2 = 0 := rfl
  have z3 : zero62.v3 = 0 := rfl
  have z4 : zero62.v4 = 0 := rfl
  apply signed62_ext <;> omega

theorem zero62_normalized : zero62.Normalized := by
  refine ⟨⟨?_, ?_, ?_, ?_⟩, ?_⟩ <;> simp [zero62]

theorem modinv_unfold (x : Signed62) (modinfo : ModInfo) :
    secp256k1_modinv64 x modinfo =
      secp256k1_modinv64_normalize_62 (modinv_loop modinfo 12 (modinv_init x modinfo)).d
        (modinv_loop modinfo 12 (modinv_init x modinfo)).f.v4 modinfo := by
  simp only [secp256k1_modinv64]

/-- The state after the twelve passes of the constant-time driver satisfies the range
invariant, for a modulus above 1. -/
theorem modinv_final_ok (modinfo : ModInfo) (hv : modinfo.Valid) (x : Signed62)
    (hx : x.Normalized) (hx0 : 0 ≤ x.value) (hx1 : x.value < modinfo.modulus.value)
    (hM : 1 < modinfo.modulus.value) :
    InvOK modinfo 12 (modinv_loop modinfo 12 (modinv_init x modinfo)) := by
  have h := loop_ok modinfo hv 12 0 (modinv_init x modinfo) (by omega)
    (init_ok modinfo hv x hx hx0 hx1 hM)
  rw [Nat.zero_add] at h
  exact h

theorem final_normalize (modinfo : ModInfo) (hv : modinfo.Valid) (n : Nat) (s : InvState)
    (h : InvOK modinfo n s) :
    (secp256k1_modinv64_normalize_62 s.d s.f.v4 modinfo).Normalized ∧
    0 ≤ (secp256k1_modinv64_normalize_62 s.d s.f.v4 modinfo).value ∧
    (secp256k1_modinv64_normalize_62 s.d s.f.v4 modinfo).value < modinfo.modulus.value := by
  obtain ⟨dl, dt, dv, el, et, ev, fl, gl, fo, fv, gv, he⟩ := h
  have hpos := valid_pos modinfo hv
  have hft := lowNorm_top _ fl _ fv hv.lt
  have := normalize_62_spec s.d s.f.v4 modinfo hv.norm hv.lt
    (lowNorm_limbsIn _ dl dt) dv
    (by intro h; have := nonneg_of_lowNorm _ dl h; omega) (by omega) (by omega)
  exact ⟨this.1, this.2.1.1, this.2.1.2⟩

theorem zero62_value : zero62.value = 0 := by
  simp [zero62, Signed62.value]

theorem modinv_normalized (modinfo : ModInfo) (hv : modinfo.Valid) (x : Signed62)
    (hx : x.Normalized) (hx0 : 0 ≤ x.value) (hx1 : x.value < modinfo.modulus.value) :
    (secp256k1_modinv64 x modinfo).Normalized ∧
    0 ≤ (secp256k1_modinv64 x modinfo).value ∧
    (secp256k1_modinv64 x modinfo).value < modinfo.modulus.value := by
  by_cases hM : 1 < modinfo.modulus.value
  · rw [modinv_unfold]
    exact final_normalize modinfo hv 12 _ (modinv_final_ok modinfo hv x hx hx0 hx1 hM)
  · have hx' : x = zero62 := eq_zero_of_value_zero x hx (by omega)
    have hpos := valid_pos modinfo hv
    subst hx'
    rw [modinv_zero modinfo hv, zero62_value]
    exact ⟨zero62_normalized, le_refl _, hpos⟩

/-- **C3.** For a valid modulus descriptor (`M` odd, `0 < M < 2^256`, limbs in `[0, 2^62)`)
and `x` in `[0, M)` with limbs in `[0, 2^62)`, the output of `modinv` has every limb in
`[0, 2^62)` and value below `M`. -/
theorem modinv_output_range (modinfo : ModInfo) (x : Signed62)
    (hnorm : modinfo.modulus.Normalized) (hodd : modinfo.modulus.value % 2 = 1)
    (_hpos : 0 < modinfo.modulus.value) (hlt : modinfo.modulus.value < 2 ^ 256)
    (hx : x.Normalized) (hx0 : 0 ≤ x.value) (hx1 : x.value < modinfo.modulus.value) :
    (secp256k1_modinv64 x modinfo).Normalized ∧
    (secp256k1_modinv64 x modinfo).value < modinfo.modulus.value := by
  have h := modinv_normalized modinfo ⟨hnorm, hodd, hlt⟩ x hx hx0 hx1
  exact ⟨h.1, h.2.2⟩

theorem modinv_output_range_witness :
    (modinfo3.modulus.Normalized ∧ modinfo3.modulus.value % 2 = 1 ∧
      0 < modinfo3.modulus.value ∧ modinfo3.modulus.value < 2 ^ 256 ∧
      (ofLimb 2).Normalized ∧ 0 ≤ (ofLimb 2).value ∧
      (ofLimb 2).value < modinfo3.modulus.value) ∧
    (secp256k1_modinv64 (ofLimb 2) modinfo3).Normalized ∧
    (secp256k1_modinv64 (ofLimb 2) modinfo3).value < modinfo3.modulus.value :=
  have hM : modinfo3.modulus.Normalized := ofLimb_normalized 3 (by decide) (by decide)
  have hodd : modinfo3.modulus.value % 2 = 1 := by norm_num [modinfo3, ofLimb_value]
  have hpos : 0 < modinfo3.modulus.value := by norm_num [modinfo3, ofLimb_value]
  have hlt : modinfo3.modulus.value < 2 ^ 256 := by norm_num [modinfo3, ofLimb_value]
  have hx : (ofLimb 2).Normalized := ofLimb_normalized 2 (by decide) (by decide)
  have hx0 : 0 ≤ (ofLimb 2).value := by norm_num [ofLimb_value]
  have hx1 : (ofLimb 2).value < modinfo3.modulus.value := by
    norm_num [modinfo3, ofLimb_value]
  ⟨⟨hM, hodd, hpos, hlt, hx, hx0, hx1⟩,
    modinv_output_range modinfo3 (ofLimb 2) hM hodd hpos hlt hx hx0 hx1⟩

/-- **C4.** For a valid modulus descriptor (`M` odd, `0 < M < 2^256`, limbs in `[0, 2^62)`),
`modinv` applied to `x = 0` (all five limbs zero) returns `0` (all five limbs zero), and so
does `modinv_var`, whose loop ends after its first pass. -/
theorem modinv_of_zero (modinfo : ModInfo)
    (hnorm : modinfo.modulus.Normalized) (hodd : modinfo.modulus.value % 2 = 1)
    (_hpos : 0 < modinfo.modulus.value) (hlt : modinfo.modulus.value < 2 ^ 256) :
    secp256k1_modinv64 zero62 modinfo = zero62 ∧
    ∀ n k, 1 ≤ n → 63 ≤ k → secp256k1_modinv64_var n k zero62 modinfo = some zero62 :=
  ⟨modinv_zero modinfo ⟨hnorm, hodd, hlt⟩,
    fun n k hn hk => modinv_var_zero modinfo ⟨hnorm, hodd, hlt⟩ n k hn hk⟩

theorem modinv_of_zero_witness :
    (modinfo3.modulus.Normalized ∧ modinfo3.modulus.value % 2 = 1 ∧
      0 < modinfo3.modulus.value ∧ modinfo3.modulus.value < 2 ^ 256) ∧
    secp256k1_modinv64 zero62 modinfo3 = zero62 ∧
    ∀ n k, 1 ≤ n → 63 ≤ k → secp256k1_modinv64_var n k zero62 modinfo3 = some zero62 :=
  have hM : modinfo3.modulus.Normalized := ofLimb_normalized 3 (by decide) (by decide)
  have hodd : modinfo3.modulus.value % 2 = 1 := by norm_num [modinfo3, ofLimb_value]
  have hpos : 0 < modinfo3.modulus.value := by norm_num [modinfo3, ofLimb_value]
  have hlt : modinfo3.modulus.value < 2 ^ 256 := by norm_num [modinfo3, ofLimb_value]
  ⟨⟨hM, hodd, hpos, hlt⟩, modinv_of_zero modinfo3 hM hodd hpos hlt⟩

/-! ## The test vector `modinv(2, P)` -/

theorem secp256k1_P_value :
    secp256k1_P.value =
      115792089237316195423570985008687907853269984665640564039457584007908834671663 := by
  decide

theorem inv62_cases (inv62 : Nat) (h64 : inv62 < 18446744073709551616)
    (h : ((inv62 : Int) * 4611686014132419631) % 4611686018427387904 = 1) :
    inv62 = 2866531139136965327 ∨ inv62 = 7478217157564353231 ∨
    inv62 = 12089903175991741135 ∨ inv62 = 16701589194419129039 := by
  have h1 : (inv62 : Int) * 4611686014132419631 ≡ 1 [ZMOD 4611686018427387904] := by
    rw [Int.ModEq, h]; norm_num
  have h2 : (2866531139136965327 : Int) * 4611686014132419631 ≡ 1
      [ZMOD 4611686018427387904] := by
    rw [Int.ModEq]; norm_num
  have h3 : (inv62 : Int) ≡ 2866531139136965327 [ZMOD 4611686018427387904] := by
    calc (inv62 : Int) = inv62 * 1 := by ring
      _ ≡ inv62 * (2866531139136965327 * 4611686014132419631)
          [ZMOD 4611686018427387904] := h2.symm.mul_left _
      _ = (inv62 * 4611686014132419631) * 2866531139136965327 := by ring
      _ ≡ 1 * 2866531139136965327 [ZMOD 4611686018427387904] := h1.mul_right _
      _ = 2866531139136965327 := by ring
  have h4 : (inv62 : Int) % 4611686018427387904 = 2866531139136965327 := by
    rw [h3]; norm_num
  clear h h1 h2 h3
  have h5 := Int.emod_add_ediv (inv62 : Int) 4611686018427387904
  have h6 : (inv62 : Int) / 4611686018427387904 < 4 := by
    apply Int.ediv_lt_of_lt_mul (by norm_num); omega
  have h7 : 0 ≤ (inv62 : Int) / 4611686018427387904 := by
    apply Int.ediv_nonneg <;> omega
  generalize (inv62 : Int) / 4611686018427387904 = q at *
  have : q = 0 ∨ q = 1 ∨ q = 2 ∨ q = 3 := by omega
  rcases this with rfl | rfl | rfl | rfl
  · left; omega
  · right; left; omega
  · right; right; left; omega
  · right; right; right; omega

set_option maxRecDepth 100000 in
/-- **C5 (as stated).** With `modulus_inv62 * P[0] ≡ -1 (mod 2^62)`, as the descriptor
invariant of the specification reads, `modinv(2, P)` is not `(P + 1) / 2`: the product of
its value with 2 is not 1 modulo `P`. -/
theorem modinv_two_P_counterexample :
    (1745154879290422577 * secp256k1_P.v0) % 4611686018427387904 = 4611686018427387904 - 1 ∧
    (secp256k1_modinv64 (ofLimb 2) (modinfo_P 1745154879290422577)).value =
      81188187713771151339664374961085996573064295545520291676643898125109164831422 ∧
    (secp256k1_modinv64 (ofLimb 2) (modinfo_P 1745154879290422577)).value ≠
      (secp256k1_P.value + 1) / 2 ∧
    (2 * (secp256k1_modinv64 (ofLimb 2) (modinfo_P 1745154879290422577)).value)
      % secp256k1_P.value ≠ 1 := by
  decide!

set_option maxRecDepth 100000 in
/-- **C5 (amended).** With `M` the secp256k1 field prime `P = 2^256 - 2^32 - 977` in
normalized limbs and a 64-bit word `modulus_inv62` with
`modulus_inv62 * P[0] ≡ 1 (mod 2^62)`, `modinv(2, P)` has value
`(P + 1) / 2 = 0x7fffffffffffffffffffffffffffffffffffffffffffffffffffffff7ffffe18`. -/
theorem modinv_two_P (inv62 : Nat) (h64 : inv62 < 2 ^ 64)
    (h : (inv62 * secp256k1_P.v0) % 2 ^ 62 = 1) :
    (secp256k1_modinv64 (ofLimb 2) (modinfo_P inv62)).value = (secp256k1_P.value + 1) / 2 ∧
    (secp256k1_modinv64 (ofLimb 2) (modinfo_P inv62)).value =
      0x7fffffffffffffffffffffffffffffffffffffffffffffffffffffff7ffffe18 := by
  have h0 : secp256k1_P.v0 = 4611686014132419631 := rfl
  rw [h0] at h
  have hc := inv62_cases inv62 (by norm_num at h64; exact h64) (by
    norm_num at h; exact h)
  rcases hc with rfl | rfl | rfl | rfl <;> decide!

theorem modinv_two_P_witness :
    ((2866531139136965327 : Nat) < 2 ^ 64 ∧
      ((2866531139136965327 : Nat) * secp256k1_P.v0) % 2 ^ 62 = 1) ∧
    (secp256k1_modinv64 (ofLimb 2) (modinfo_P 2866531139136965327)).value
      = (secp256k1_P.value + 1) / 2 ∧
    (secp256k1_modinv64 (ofLimb 2) (modinfo_P 2866531139136965327)).value =
      0x7fffffffffffffffffffffffffffffffffffffffffffffffffffffff7ffffe18 :=
  have h64 : (2866531139136965327 : Nat) < 2 ^ 64 := by norm_num
  have h : ((2866531139136965327 : Nat) * secp256k1_P.v0) % 2 ^ 62 = 1 := by decide
  ⟨⟨h64, h⟩, modinv_two_P 2866531139136965327 h64 h⟩

/-- What one pass of the driver loop does to the values of `d, e, f, g` and to `eta`:
`(eta, f, g)` advance by 62 divsteps, and with the matrix `(u, v; q, r)` of these divsteps
(determinant `2^62`) the new `d` and `e` satisfy the carry-chain identities of `update_de_62`. -/
theorem body_rel (modinfo : ModInfo) (hv : modinfo.Valid) (n : Nat) (hn : n ≤ 11)
    (s : InvState) (h : InvOK modinfo n s) :
    ∃ u v q r md me : Int,
      ((modinv_body modinfo s).eta, (modinv_body modinfo s).f.value,
        (modinv_body modinfo s).g.value) = divsteps 62 (s.eta, s.f.value, s.g.value) ∧
      u * s.f.value + v * s.g.value = 4611686018427387904 * (modinv_body modinfo s).f.value ∧
      q * s.f.value + r * s.g.value = 4611686018427387904 * (modinv_body modinfo s).g.value ∧
      u * r - v * q = 4611686018427387904 ∧
      4611686018427387904 * (modinv_body modinfo s).d.value
        + (u * s.d.v0 + v * s.e.v0 + modinfo.modulus.v0 * md) % 4611686018427387904
        = u * s.d.value + v * s.e.value + modinfo.modulus.value * md ∧
      md ≡ -(modinfo.modulus_inv62 * (u * s.d.v0 + v * s.e.v0)) [ZMOD 4611686018427387904] ∧
      4611686018427387904 * (modinv_body modinfo s).e.value
        + (q * s.d.v0 + r * s.e.v0 + modinfo.modulus.v0 * me) % 4611686018427387904
        = q * s.d.value + r * s.e.value + modinfo.modulus.value * me ∧
      me ≡ -(modinfo.modulus_inv62 * (q * s.d.v0 + r * s.e.v0)) [ZMOD 4611686018427387904] := by
  obtain ⟨dl, dt, dv, el, et, ev, fl, gl, fo, fv, gv, he⟩ := h
  have hd : s.d.LimbsIn := lowNorm_limbsIn _ dl dt
  have hee : s.e.LimbsIn := lowNorm_limbsIn _ el et
  have hf : s.f.LimbsIn := lowNorm_limbsIn _ fl (lowNorm_top _ fl _ fv hv.lt)
  have hg : s.g.LimbsIn := lowNorm_limbsIn _ gl (lowNorm_top _ gl _ gv hv.lt)
  have hodd0 := toU64_odd s.f fo
  obtain ⟨e0, eu, ev', eq, er, hi⟩ := divsteps_62_props s.eta (toU64 s.f.v0) (toU64 s.g.v0)
    s.f.value s.g.value (by omega) (by omega) (toU64_lt _) (toU64_lt _) hodd0
    (value_modEq_limb s.f) (value_modEq_limb s.g)
  obtain ⟨_, eu0, ev0, eq0, er0, hi0⟩ := divsteps_62_props s.eta (toU64 s.f.v0) (toU64 s.g.v0)
    s.f.v0 s.g.v0 (by omega) (by omega) (toU64_lt _) (toU64_lt _) hodd0
    (limb_modEq_limb _) (limb_modEq_limb _)
  have hb := matsteps_FG_bound 62 (matinit s.eta s.f.value s.g.value) modinfo.modulus.value
    (by simp only [matinit]; omega)
  have hds : 0 ≤ s.d.v4 → -modinfo.modulus.value < s.d.value := by
    intro h; have := nonneg_of_lowNorm s.d dl h; have := valid_pos modinfo hv; omega
  have hes : 0 ≤ s.e.v4 → -modinfo.modulus.value < s.e.value := by
    intro h; have := nonneg_of_lowNorm s.e el h; have := valid_pos modinfo hv; omega
  have hproj : ((matsteps 62 (matinit s.eta s.f.value s.g.value)).eta,
      (matsteps 62 (matinit s.eta s.f.value s.g.value)).F,
      (matsteps 62 (matinit s.eta s.f.value s.g.value)).G)
      = divsteps 62 (s.eta, s.f.value, s.g.value) :=
    matsteps_proj 62 (matinit s.eta s.f.value s.g.value)
  generalize hT : (secp256k1_modinv64_divsteps_62 s.eta (toU64 s.f.v0) (toU64 s.g.v0)) = T
    at e0 eu ev' eq er eu0 ev0 eq0 er0
  have hTu : T.2.u + T.2.v ≤ 4611686018427387904 ∧ T.2.u - T.2.v ≤ 4611686018427387904 ∧
      -T.2.u + T.2.v ≤ 4611686018427387904 ∧ -T.2.u - T.2.v ≤ 4611686018427387904 := by
    rw [eu, ev']; exact hi.bU
  have hTq : T.2.q + T.2.r ≤ 4611686018427387904 ∧ T.2.q - T.2.r ≤ 4611686018427387904 ∧
      -T.2.q + T.2.r ≤ 4611686018427387904 ∧ -T.2.q - T.2.r ≤ 4611686018427387904 := by
    rw [eq, er]; exact hi.bQ
  have r1 := de_row_spec T.2.u T.2.v s.d s.e modinfo hTu hd hee hv.norm hv.lt dv ev hds hes
  have r2 := de_row_spec T.2.q T.2.r s.d s.e modinfo hTq hd hee hv.norm hv.lt dv ev hds hes
  have m1 := (de_md_spec T.2.u T.2.v s.d s.e modinfo hTu hd hee).2.2
  have m2 := (de_md_spec T.2.q T.2.r s.d s.e modinfo hTq hd hee).2.2
  have hlt := hv.lt
  have r3 := fg_row_exact T.2.u T.2.v s.f s.g _ _ hTu hf hg
    (by rw [eu, ev']; exact hi.linF) (by rw [eu0, ev0]; exact hi0.linF)
    (by norm_num at hlt ⊢; omega)
  have r4 := fg_row_exact T.2.q T.2.r s.f s.g _ _ hTq hf hg
    (by rw [eq, er]; exact hi.linG) (by rw [eq0, er0]; exact hi0.linG)
    (by norm_num at hlt ⊢; omega)
  have hbody : modinv_body modinfo s =
      { d := update_de_62_row T.2.u T.2.v s.d s.e modinfo,
        e := update_de_62_row T.2.q T.2.r s.d s.e modinfo,
        f := update_fg_62_row T.2.u T.2.v s.f s.g,
        g := update_fg_62_row T.2.q T.2.r s.f s.g, eta := T.1 } := by
    simp only [modinv_body, secp256k1_modinv64_update_de_62, secp256k1_modinv64_update_fg_62, hT]
  rw [hbody]
  dsimp only
  refine ⟨T.2.u, T.2.v, T.2.q, T.2.r, de_md T.2.u T.2.v s.d s.e modinfo,
    de_md T.2.q T.2.r s.d s.e modinfo, ?_, ?_, ?_, ?_, r1.2.2.2, m1, r2.2.2.2, m2⟩
  · rw [r3.1, r4.1, e0, ← hproj]
  · rw [r3.1, eu, ev']; exact hi.linF
  · rw [r4.1, eq, er]; exact hi.linG
  · rw [eu, ev', eq, er]; exact hi.det

/-! ## The arithmetic invariant of the driver -/

theorem divsteps_add (m n : Nat) (s : Int × Int × Int) :
    divsteps (m + n) s = divsteps n (divsteps m s) := by
  induction m generalizing s with
  | zero => simp [divsteps]
  | succ m ih => rw [Nat.succ_add]; simp only [divsteps]; exact ih _

theorem low_zero (a M0 c md : Int) (hinv : a * M0 ≡ 1 [ZMOD 4611686018427387904])
    (hmd : md ≡ -(a * c) [ZMOD 4611686018427387904]) :
    (c + M0 * md) % 4611686018427387904 = 0 := by
  have h1 : c + M0 * md ≡ c + M0 * -(a * c) [ZMOD 4611686018427387904] :=
    (hmd.mul_left M0).add_left c
  have h2 : c + M0 * -(a * c) = c * 1 - c * (a * M0) := by ring
  have h3 : c * 1 - c * (a * M0) ≡ c * 1 - c * 1 [ZMOD 4611686018427387904] :=
    (Int.ModEq.refl _).sub (hinv.mul_left c)
  rw [h2] at h1
  have h4 := h1.trans h3
  rw [sub_self] at h4
  exact h4

theorem odd_cancel (M a : Int) (hodd : M % 2 = 1) (h : M ∣ 4611686018427387904 * a) :
    M ∣ a := by
  have h2 : IsCoprime M 2 := ⟨1, -(M / 2), by omega⟩
  have h62 : IsCoprime M (2 ^ 62) := h2.pow_right
  norm_num at h62
  exact h62.dvd_of_dvd_mul_left h

theorem cong_step (M X u v D E F G d' f' md : Int) (hodd : M % 2 = 1)
    (hD : D * X ≡ F [ZMOD M]) (hE : E * X ≡ G [ZMOD M])
    (hf : u * F + v * G = 4611686018427387904 * f')
    (hd : 4611686018427387904 * d' = u * D + v * E + M * md) :
    d' * X ≡ f' [ZMOD M] := by
  obtain ⟨k1, hk1⟩ := Int.modEq_iff_dvd.1 hD
  obtain ⟨k2, hk2⟩ := Int.modEq_iff_dvd.1 hE
  apply Int.modEq_iff_dvd.2
  apply odd_cancel M _ hodd
  refine ⟨u * k1 + v * k2 - md * X, ?_⟩
  linear_combination u * hk1 + v * hk2 - hf - X * hd

theorem gcd_odd (F G : Int) (hodd : F % 2 = 1) : ((Int.gcd F G : Nat) : Int) % 2 = 1 := by
  obtain ⟨k, hk⟩ := Int.gcd_dvd_left (a := F) (b := G)
  rcases Int.emod_two_eq_zero_or_one ((Int.gcd F G : Nat) : Int) with h | h
  · exfalso
    obtain ⟨j, hj⟩ := Int.dvd_of_emod_eq_zero h
    rw [hj] at hk
    have : F = 2 * (j * k) := by rw [hk]; ring
    omega
  · exact h

theorem gcd_step (u v q r F G F' G' : Int) (hodd : F % 2 = 1)
    (h1 : u * F + v * G = 4611686018427387904 * F')
    (h2 : q * F + r * G = 4611686018427387904 * G')
    (hdet : u * r - v * q = 4611686018427387904) :
    Int.gcd F' G' = Int.gcd F G := by
  have hF : F = r * F' - v * G' := by
    have : (4611686018427387904 : Int) * F = 4611686018427387904 * (r * F' - v * G') := by
      linear_combination r * h1 - v * h2 - F * hdet
    exact Int.eq_of_mul_eq_mul_left (by norm_num) this
  have hG : G = u * G' - q * F' := by
    have : (4611686018427387904 : Int) * G = 4611686018427387904 * (u * G' - q * F') := by
      linear_combination u * h2 - q * h1 - G * hdet
    exact Int.eq_of_mul_eq_mul_left (by norm_num) this
  apply Nat.dvd_antisymm
  · apply Int.natCast_dvd_natCast.1
    apply Int.dvd_gcd
    · rw [hF]
      exact dvd_sub (Dvd.dvd.mul_left (Int.gcd_dvd_left) r) (Dvd.dvd.mul_left (Int.gcd_dvd_right) v)
    · rw [hG]
      exact dvd_sub (Dvd.dvd.mul_left (Int.gcd_dvd_right) u) (Dvd.dvd.mul_left (Int.gcd_dvd_left) q)
  · apply Int.natCast_dvd_natCast.1
    have ho := gcd_odd F G hodd
    apply Int.dvd_gcd
    · apply odd_cancel _ _ ho
      rw [← h1]
      exact dvd_add (Dvd.dvd.mul_left (Int.gcd_dvd_left) u) (Dvd.dvd.mul_left (Int.gcd_dvd_right) v)
    · apply odd_cancel _ _ ho
      rw [← h2]
      exact dvd_add (Dvd.dvd.mul_left (Int.gcd_dvd_left) q) (Dvd.dvd.mul_left (Int.gcd_dvd_right) r)

theorem body_cong (modinfo : ModInfo) (hv : modinfo.Valid)
    (hinv : (modinfo.modulus_inv62 : Int) * modinfo.modulus.v0 ≡ 1 [ZMOD 4611686018427387904])
    (x : Signed62) (n : Nat) (hn : n ≤ 11) (s : InvState) (h : InvOK modinfo n s)
    (hc : InvCong modinfo x n s) : InvCong modinfo x (n + 1) (modinv_body modinfo s) := by
  obtain ⟨u, v, q, r, md, me, hst, hf, hg, hdet, hd, hmd, he, hme⟩ :=
    body_rel modinfo hv n hn s h
  have z1 := low_zero _ _ _ _ hinv hmd
  have z2 := low_zero _ _ _ _ hinv hme
  rw [z1, add_zero] at hd
  rw [z2, add_zero] at he
  refine ⟨?_, ?_, ?_, ?_⟩
  · exact cong_step _ _ u v _ _ _ _ _ _ md hv.odd hc.d hc.e hf hd
  · exact cong_step _ _ q r _ _ _ _ _ _ me hv.odd hc.d hc.e hg he
  · rw [← hc.gcd]
    exact gcd_step u v q r _ _ _ _ h.f_odd hf hg hdet
  · rw [hst, hc.steps, ← divsteps_add]
    congr 1

theorem loop_cong (modinfo : ModInfo) (hv : modinfo.Valid)
    (hinv : (modinfo.modulus_inv62 : Int) * modinfo.modulus.v0 ≡ 1 [ZMOD 4611686018427387904])
    (x : Signed62) (k : Nat) : ∀ (n : Nat) (s : InvState),
    n + k ≤ 12 → InvOK modinfo n s → InvCong modinfo x n s →
    InvCong modinfo x (n + k) (modinv_loop modinfo k s) := by
  induction k with
  | zero => intro n s _ _ h; exact h
  | succ k ih =>
    intro n s hn h hc
    simp only [modinv_loop]
    have := ih (n + 1) (modinv_body modinfo s) (by omega) (body_ok modinfo hv n (by omega) s h)
      (body_cong modinfo hv hinv x n (by omega) s h hc)
    rw [Nat.add_assoc, Nat.add_comm 1 k] at this
    exact this

theorem init_cong (modinfo : ModInfo) (x : Signed62) :
    InvCong modinfo x 0 (modinv_init x modinfo) := by
  refine ⟨?_, ?_, ?_, ?_⟩
  · simp only [modinv_init, value_mk]
    apply Int.modEq_iff_dvd.2
    exact ⟨1, by ring⟩
  · simp only [modinv_init, value_mk]
    apply Int.modEq_iff_dvd.2
    exact ⟨0, by ring⟩
  · simp only [modinv_init]
  · simp only [modinv_init, Nat.mul_zero, divsteps]

theorem final_inverse (modinfo : ModInfo) (hv : modinfo.Valid) (x : Signed62) (s : InvState)
    (h : InvOK modinfo 12 s) (hc : InvCong modinfo x 12 s)
    (hM : 1 < modinfo.modulus.value) (hgcd : Int.gcd x.value modinfo.modulus.value = 1)
    (hg : s.g.value = 0) :
    (x.value * (secp256k1_modinv64_normalize_62 s.d s.f.v4 modinfo).value)
      % modinfo.modulus.value = 1 := by
  obtain ⟨dl, dt, dv, el, et, ev, fl, gl, fo, fv, gv, he⟩ := h
  have hft := lowNorm_top _ fl _ fv hv.lt
  have hn := (normalize_62_spec s.d s.f.v4 modinfo hv.norm hv.lt
    (lowNorm_limbsIn _ dl dt) dv
    (by intro h; have := nonneg_of_lowNorm _ dl h; omega) (by omega) (by omega)).2.2
  have hgc := hc.gcd
  rw [hg, Int.gcd_zero_right, Int.gcd_comm, hgcd] at hgc
  have hd := hc.d
  have hneg := neg_of_top_neg s.f (lowNorm_limbsIn _ fl hft)
  have hpos := nonneg_of_lowNorm s.f fl
  generalize secp256k1_modinv64_normalize_62 s.d s.f.v4 modinfo = y at hn ⊢
  generalize s.f.value = F at *
  generalize s.d.value = D at *
  generalize x.value = X at *
  generalize modinfo.modulus.value = M at *
  have h1 : (1 : Int) % M = 1 := Int.emod_eq_of_lt (by omega) hM
  have hF : F = 1 ∨ F = -1 := by omega
  rw [hn]
  rcases hF with rfl | rfl
  · have : ¬ s.f.v4 < 0 := by
      intro h; have := hneg h; omega
    rw [if_neg this]
    have e : X * (D % M) ≡ 1 [ZMOD M] :=
      calc X * (D % M) ≡ X * D [ZMOD M] := (Int.mod_modEq D M).mul_left X
        _ = D * X := by ring
        _ ≡ 1 [ZMOD M] := hd
    rw [Int.ModEq, h1] at e
    exact e
  · have : s.f.v4 < 0 := by
      by_contra h; have := hpos (by omega); omega
    rw [if_pos this]
    have e : X * (-D % M) ≡ 1 [ZMOD M] :=
      calc X * (-D % M) ≡ X * -D [ZMOD M] := (Int.mod_modEq (-D) M).mul_left X
        _ = -(D * X) := by ring
        _ ≡ -(-1) [ZMOD M] := hd.neg
        _ = 1 := by ring
    rw [Int.ModEq, h1] at e
    exact e

theorem steps_g (modinfo : ModInfo) (x : Signed62) (s : InvState)
    (hc : InvCong modinfo x 12 s) :
    s.g.value = (divsteps 744 (-1, modinfo.modulus.value, x.value)).2.2 := by
  have := hc.steps
  rw [show 62 * 12 = 744 from rfl] at this
  rw [← this]

/-! ## Correctness of `secp256k1_modinv64` -/

theorem secp256k1_P_normalized : secp256k1_P.Normalized := by
  refine ⟨⟨?_, ?_, ?_, ?_⟩, ?_⟩ <;> decide

set_option maxRecDepth 100000 in
/-- Two inputs on which the driver does not return an inverse, both under the contract as
the specification states it (`modulus_inv62 * M[0] ≡ -1 (mod 2^62)`). For the secp256k1 prime
`P` and `x = 3` the result `y` has `(x * y) mod P ≠ 1`, although `x` is invertible. For
`M = 9` and `x = 3`, which has no inverse modulo 9, `x ≠ 0` and `(x * y) mod M ≠ 1`. -/
theorem modinv_inverse_counterexample :
    ((modinfo_P 1745154879290422577).modulus.Normalized ∧
      (modinfo_P 1745154879290422577).modulus.value % 2 = 1 ∧
      0 < (modinfo_P 1745154879290422577).modulus.value ∧
      (modinfo_P 1745154879290422577).modulus.value < 2 ^ 256 ∧
      (((modinfo_P 1745154879290422577).modulus_inv62 : Int) *
        (modinfo_P 1745154879290422577).modulus.v0) % 2 ^ 62 = 2 ^ 62 - 1 ∧
      (ofLimb 3).Normalized ∧ 0 ≤ (ofLimb 3).value ∧
      (ofLimb 3).value < (modinfo_P 1745154879290422577).modulus.value ∧
      ¬ (((ofLimb 3).value = 0 ∧
            (secp256k1_modinv64 (ofLimb 3) (modinfo_P 1745154879290422577)).value = 0) ∨
          ((ofLimb 3).value *
            (secp256k1_modinv64 (ofLimb 3) (modinfo_P 1745154879290422577)).value)
            % (modinfo_P 1745154879290422577).modulus.value = 1)) ∧
    (modinfo9.modulus.Normalized ∧ modinfo9.modulus.value % 2 = 1 ∧
      0 < modinfo9.modulus.value ∧ modinfo9.modulus.value < 2 ^ 256 ∧
      ((modinfo9.modulus_inv62 : Int) * modinfo9.modulus.v0) % 2 ^ 62 = 2 ^ 62 - 1 ∧
      (ofLimb 3).Normalized ∧ 0 ≤ (ofLimb 3).value ∧
      (ofLimb 3).value < modinfo9.modulus.value ∧
      ¬ (((ofLimb 3).value = 0 ∧ (secp256k1_modinv64 (ofLimb 3) modinfo9).value = 0) ∨
          ((ofLimb 3).value * (secp256k1_modinv64 (ofLimb 3) modinfo9).value)
            % modinfo9.modulus.value = 1)) := by
  have hx : (ofLimb 3).Normalized := ofLimb_normalized 3 (by decide) (by decide)
  have h9 : (ofLimb 9).Normalized := ofLimb_normalized 9 (by decide) (by decide)
  refine ⟨⟨secp256k1_P_normalized, by decide!, by decide!, by decide!, by decide!, hx,
    by decide!, by decide!, by decide!⟩,
    ⟨h9, by decide!, by decide!, by decide!, by decide!, hx, by decide!, by decide!,
      by decide!⟩⟩

/-- Correctness of the driver relative to the convergence of the divsteps: for a modulus
descriptor with `M` odd, `0 < M < 2^256`, limbs in `[0, 2^62)` and
`modulus_inv62 * M[0] ≡ 1 (mod 2^62)`, and `x` in `[0, M)` with limbs in `[0, 2^62)`, either
`x = 0` and `modinv(x, M) = 0`, or, if `gcd(x, M) = 1` and 744 divsteps from
`(eta, f, g) = (-1, M, x)` reach `g = 0`, `(x * modinv(x, M)) mod M = 1`. That 744 divsteps
always suffice is not proved here. -/
theorem modinv_inverse (modinfo : ModInfo) (x : Signed62)
    (hnorm : modinfo.modulus.Normalized) (hodd : modinfo.modulus.value % 2 = 1)
    (_hpos : 0 < modinfo.modulus.value) (hlt : modinfo.modulus.value < 2 ^ 256)
    (hinv : ((modinfo.modulus_inv62 : Int) * modinfo.modulus.v0) % 2 ^ 62 = 1)
    (hx : x.Normalized) (hx0 : 0 ≤ x.value) (hx1 : x.value < modinfo.modulus.value)
    (hgcd : x.value ≠ 0 → Int.gcd x.value modinfo.modulus.value = 1)
    (hconv : x.value ≠ 0 → (divsteps 744 (-1, modinfo.modulus.value, x.value)).2.2 = 0) :
    (x = zero62 ∧ secp256k1_modinv64 x modinfo = zero62) ∨
    (x.value * (secp256k1_modinv64 x modinfo).value) % modinfo.modulus.value = 1 := by
  have hv : modinfo.Valid := ⟨hnorm, hodd, hlt⟩
  by_cases h0 : x.value = 0
  · left
    have hx' : x = zero62 := eq_zero_of_value_zero x hx h0
    subst hx'
    exact ⟨rfl, modinv_zero modinfo hv⟩
  · right
    have hM : 1 < modinfo.modulus.value := by omega
    have hinv' : (modinfo.modulus_inv62 : Int) * modinfo.modulus.v0 ≡ 1
        [ZMOD 4611686018427387904] := by
      rw [Int.ModEq]; norm_num at hinv ⊢; exact hinv
    have hok := modinv_final_ok modinfo hv x hx hx0 hx1 hM
    have hc := loop_cong modinfo hv hinv' x 12 0 (modinv_init x modinfo) (by omega)
      (init_ok modinfo hv x hx hx0 hx1 hM) (init_cong modinfo x)
    rw [Nat.zero_add] at hc
    rw [modinv_unfold]
    exact final_inverse modinfo hv x _ hok hc hM (hgcd h0)
      ((steps_g modinfo x _ hc).trans (hconv h0))

set_option maxRecDepth 100000 in
theorem modinv_inverse_witness :
    ((modinfo_P 2866531139136965327).modulus.Normalized ∧
      (modinfo_P 2866531139136965327).modulus.value % 2 = 1 ∧
      0 < (modinfo_P 2866531139136965327).modulus.value ∧
      (modinfo_P 2866531139136965327).modulus.value < 2 ^ 256 ∧
      (((modinfo_P 2866531139136965327).modulus_inv62 : Int) *
        (modinfo_P 2866531139136965327).modulus.v0) % 2 ^ 62 = 1 ∧
      (ofLimb 3).Normalized ∧ 0 ≤ (ofLimb 3).value ∧
      (ofLimb 3).value < (modinfo_P 2866531139136965327).modulus.value ∧
      Int.gcd (ofLimb 3).value (modinfo_P 2866531139136965327).modulus.value = 1 ∧
      (divsteps 744 (-1, (modinfo_P 2866531139136965327).modulus.value,
        (ofLimb 3).value)).2.2 = 0) ∧
    ((ofLimb 3 = zero62 ∧
        secp256k1_modinv64 (ofLimb 3) (modinfo_P 2866531139136965327) = zero62) ∨
      ((ofLimb 3).value *
        (secp256k1_modinv64 (ofLimb 3) (modinfo_P 2866531139136965327)).value)
        % (modinfo_P 2866531139136965327).modulus.value = 1) :=
  have hM : (modinfo_P 2866531139136965327).modulus.Normalized := secp256k1_P_normalized
  have hodd : (modinfo_P 2866531139136965327).modulus.value % 2 = 1 := by decide!
  have hpos : 0 < (modinfo_P 2866531139136965327).modulus.value := by decide!
  have hlt : (modinfo_P 2866531139136965327).modulus.value < 2 ^ 256 := by decide!
  have hinv : (((modinfo_P 2866531139136965327).modulus_inv62 : Int) *
      (modinfo_P 2866531139136965327).modulus.v0) % 2 ^ 62 = 1 := by decide!
  have hx : (ofLimb 3).Normalized := ofLimb_normalized 3 (by decide) (by decide)
  have hx0 : 0 ≤ (ofLimb 3).value := by decide!
  have hx1 : (ofLimb 3).value < (modinfo_P 2866531139136965327).modulus.value := by decide!
  have hgcd : Int.gcd (ofLimb 3).value (modinfo_P 2866531139136965327).modulus.value = 1 := by
    decide!
  have hconv : (divsteps 744 (-1, (modinfo_P 2866531139136965327).modulus.value,
      (ofLimb 3).value)).2.2 = 0 := by decide!
  ⟨⟨hM, hodd, hpos, hlt, hinv, hx, hx0, hx1, hgcd, hconv⟩,
    modinv_inverse (modinfo_P 2866531139136965327) (ofLimb 3) hM hodd hpos hlt hinv hx hx0 hx1
      (fun _ => hgcd) (fun _ => hconv)⟩

/-! ## Claims on `normalize_62` -/

/-- The range of `normalize_62` on inputs whose sign is that of their top limb, as it is for
every input the two drivers pass. For a valid modulus (`M` odd, `0 < M < 2^256`, limbs in
`[0, 2^62)`), a 64-bit sign word and `r` with limbs in `(-2^62, 2^62)` and value in `(-2M, M)` such that
the value exceeds `-M` whenever the top limb is non-negative (as it does when the low limbs
lie in `[0, 2^62)`): `normalize_62` leaves `r` with every limb in `[0, 2^62)` and
`0 ≤ value(r) < M`. -/
theorem normalize_62_range (modinfo : ModInfo) (sign : Int) (r : Signed62)
    (hnorm : modinfo.modulus.Normalized) (_hodd : modinfo.modulus.value % 2 = 1)
    (_hpos : 0 < modinfo.modulus.value) (hlt : modinfo.modulus.value < 2 ^ 256)
    (hs0 : -2 ^ 63 ≤ sign) (hs1 : sign < 2 ^ 63) (hr : r.LimbsIn)
    (hrv : -(2 * modinfo.modulus.value) < r.value ∧ r.value < modinfo.modulus.value)
    (hsgn : 0 ≤ r.v4 → -modinfo.modulus.value < r.value) :
    (secp256k1_modinv64_normalize_62 r sign modinfo).Normalized ∧
    0 ≤ (secp256k1_modinv64_normalize_62 r sign modinfo).value ∧
    (secp256k1_modinv64_normalize_62 r sign modinfo).value < modinfo.modulus.value := by
  have h := normalize_62_spec r sign modinfo hnorm hlt hr hrv hsgn
    (by norm_num at hs0 ⊢; exact hs0) (by norm_num at hs1 ⊢; exact hs1)
  exact ⟨h.1, h.2.1.1, h.2.1.2⟩

set_option maxRecDepth 100000 in
theorem normalize_62_range_witness :
    (modinfo3.modulus.Normalized ∧ modinfo3.modulus.value % 2 = 1 ∧
      0 < modinfo3.modulus.value ∧ modinfo3.modulus.value < 2 ^ 256 ∧
      (-2 ^ 63 : Int) ≤ -1 ∧ (-1 : Int) < 2 ^ 63 ∧ minus_four.LimbsIn ∧
      (-(2 * modinfo3.modulus.value) < minus_four.value ∧
        minus_four.value < modinfo3.modulus.value) ∧
      (0 ≤ minus_four.v4 → -modinfo3.modulus.value < minus_four.value)) ∧
    (secp256k1_modinv64_normalize_62 minus_four (-1) modinfo3).Normalized ∧
    0 ≤ (secp256k1_modinv64_normalize_62 minus_four (-1) modinfo3).value ∧
    (secp256k1_modinv64_normalize_62 minus_four (-1) modinfo3).value
      < modinfo3.modulus.value :=
  have hM : modinfo3.modulus.Normalized := ofLimb_normalized 3 (by decide) (by decide)
  have hodd : modinfo3.modulus.value % 2 = 1 := by decide!
  have hpos : 0 < modinfo3.modulus.value := by decide!
  have hlt : modinfo3.modulus.value < 2 ^ 256 := by decide!
  have hs0 : (-2 ^ 63 : Int) ≤ -1 := by norm_num
  have hs1 : (-1 : Int) < 2 ^ 63 := by norm_num
  have hr : minus_four.LimbsIn := ⟨by decide, by decide, by decide, by decide, by decide⟩
  have hrv : -(2 * modinfo3.modulus.value) < minus_four.value ∧
      minus_four.value < modinfo3.modulus.value := by decide!
  have hsgn : 0 ≤ minus_four.v4 → -modinfo3.modulus.value < minus_four.value := by decide!
  ⟨⟨hM, hodd, hpos, hlt, hs0, hs1, hr, hrv, hsgn⟩,
    normalize_62_range modinfo3 (-1) minus_four hM hodd hpos hlt hs0 hs1 hr hrv hsgn⟩

theorem xorI64_sign (a s : Int) (ha0 : -9223372036854775808 ≤ a) (ha1 : a < 9223372036854775808)
    (hs0 : -9223372036854775808 ≤ s) (hs1 : s < 9223372036854775808) :
    xorI64 a (sar s 63) = if s < 0 then -a - 1 else a := by
  rw [sar63 s hs0 hs1]
  split
  · unfold xorI64
    have e : toU64 (-1) = 18446744073709551615 := by unfold toU64; omega
    rw [e, xor_mask _ (toU64_lt a)]
    have h := toU64_cast a
    have h' := toU64_lt a
    unfold toI64
    split <;> omega
  · unfold xorI64
    have e : toU64 0 = 0 := by unfold toU64; omega
    rw [e, Nat.xor_zero]
    exact wrapI64_eq a ha0 ha1

theorem cond_add_ops_ok (r m : Signed62) (hm : m.Normalized)
    (h0 : -4611686018427387904 ≤ r.v0 ∧ r.v0 ≤ 4611686018427387904)
    (h1 : -4611686018427387904 ≤ r.v1 ∧ r.v1 ≤ 4611686018427387904)
    (h2 : -4611686018427387904 ≤ r.v2 ∧ r.v2 ≤ 4611686018427387904)
    (h3 : -4611686018427387904 ≤ r.v3 ∧ r.v3 ≤ 4611686018427387904)
    (h4 : -4611686018427387904 ≤ r.v4 ∧ r.v4 ≤ 4611686018427387904) :
    ∀ x ∈ norm_cond_add_ops r m, -9223372036854775808 ≤ x ∧ x < 9223372036854775808 := by
  obtain ⟨⟨m0, m1, m2, m3⟩, m4⟩ := hm
  simp only [norm_cond_add_ops]
  rw [andI64_sign m.v0 r.v4 (by omega) (by omega) (by omega) (by omega),
    andI64_sign m.v1 r.v4 (by omega) (by omega) (by omega) (by omega),
    andI64_sign m.v2 r.v4 (by omega) (by omega) (by omega) (by omega),
    andI64_sign m.v3 r.v4 (by omega) (by omega) (by omega) (by omega),
    andI64_sign m.v4 r.v4 (by omega) (by omega) (by omega) (by omega)]
  intro x hx
  simp only [List.mem_cons, List.mem_singleton, List.not_mem_nil, or_false] at hx
  rcases hx with rfl | rfl | rfl | rfl | rfl <;> split <;> omega

theorem negate_ops_ok (r : Signed62) (s : Int)
    (hs0 : -9223372036854775808 ≤ s) (hs1 : s < 9223372036854775808)
    (h0 : -9223372036854775808 < r.v0 ∧ r.v0 < 9223372036854775808)
    (h1 : -9223372036854775808 < r.v1 ∧ r.v1 < 9223372036854775808)
    (h2 : -9223372036854775808 < r.v2 ∧ r.v2 < 9223372036854775808)
    (h3 : -9223372036854775808 < r.v3 ∧ r.v3 < 9223372036854775808)
    (h4 : -9223372036854775808 < r.v4 ∧ r.v4 < 9223372036854775808) :
    ∀ x ∈ norm_negate_ops r s, -9223372036854775808 ≤ x ∧ x < 9223372036854775808 := by
  simp only [norm_negate_ops]
  rw [xorI64_sign r.v0 s (by omega) (by omega) hs0 hs1,
    xorI64_sign r.v1 s (by omega) (by omega) hs0 hs1,
    xorI64_sign r.v2 s (by omega) (by omega) hs0 hs1,
    xorI64_sign r.v3 s (by omega) (by omega) hs0 hs1,
    xorI64_sign r.v4 s (by omega) (by omega) hs0 hs1, sar63 s hs0 hs1]
  intro x hx
  simp only [List.mem_cons, List.mem_singleton, List.not_mem_nil, or_false] at hx
  rcases hx with rfl | rfl | rfl | rfl | rfl <;> split <;> omega

theorem propagate_ops_ok (r : Signed62)
    (h0 : -9223372036854775808 ≤ r.v0 ∧ r.v0 < 9223372036854775808)
    (h1 : -9223372036854775806 ≤ r.v1 ∧ r.v1 ≤ 9223372036854775806)
    (h2 : -9223372036854775806 ≤ r.v2 ∧ r.v2 ≤ 9223372036854775806)
    (h3 : -9223372036854775806 ≤ r.v3 ∧ r.v3 ≤ 9223372036854775806)
    (h4 : -9223372036854775806 ≤ r.v4 ∧ r.v4 ≤ 9223372036854775806) :
    ∀ x ∈ norm_propagate_ops r, -9223372036854775808 ≤ x ∧ x < 9223372036854775808 := by
  simp only [norm_propagate_ops, sar62]
  rw [addI64_eq r.v1 _ (by omega) (by omega)]
  rw [addI64_eq r.v2 _ (by omega) (by omega)]
  rw [addI64_eq r.v3 _ (by omega) (by omega)]
  intro x hx
  simp only [List.mem_cons, List.mem_singleton, List.not_mem_nil, or_false] at hx
  rcases hx with rfl | rfl | rfl | rfl <;> omega

theorem top_limb_bound2 (a : Signed62) (hl : a.LowNorm) (B : Int)
    (hv : -(2 * B) < a.value ∧ a.value < 2 * B)
    (hB : B ≤ 115792089237316195423570985008687907853269984665640564039457584007913129639936) :
    -512 ≤ a.v4 ∧ a.v4 < 512 := by
  obtain ⟨l0, l1, l2, l3⟩ := hl
  rw [value_def a] at hv
  omega

/-- The behaviour of `normalize_62` on every `r` with limbs in `(-2^62, 2^62)` and value in
`(-2M, M)`, whatever the sign of its top limb: the output value is `±r` plus a multiple of
`M`, and none of the 23 additions and subtractions leaves the range of `int64_t`. -/
theorem normalize_62_general (r : Signed62) (s : Int) (modinfo : ModInfo)
    (hm : modinfo.modulus.Normalized) (hm2 : modinfo.modulus.value < 2 ^ 256)
    (hr : r.LimbsIn)
    (hrv : -(2 * modinfo.modulus.value) < r.value ∧ r.value < modinfo.modulus.value)
    (hs0 : -9223372036854775808 ≤ s) (hs1 : s < 9223372036854775808) :
    (secp256k1_modinv64_normalize_62 r s modinfo).value
      ≡ (if s < 0 then -r.value else r.value) [ZMOD modinfo.modulus.value] ∧
    ∀ x ∈ normalize_62_ops r s modinfo,
      -9223372036854775808 ≤ x ∧ x < 9223372036854775808 := by
  have hm2' : modinfo.modulus.value
      < 115792089237316195423570985008687907853269984665640564039457584007913129639936 := by
    norm_num at hm2; exact hm2
  have hr' := hr
  obtain ⟨r0, r1, r2, r3, r4⟩ := hr'
  have hm' := hm
  obtain ⟨⟨m0, m1, m2, m3⟩, m4⟩ := hm'
  have hmpos : 0 ≤ modinfo.modulus.value := by rw [value_def]; omega
  -- first conditional addition
  have ops1 := cond_add_ops_ok r modinfo.modulus hm (by omega) (by omega) (by omega) (by omega)
    (by omega)
  have hae := norm_cond_add_eq r modinfo.modulus hm (by omega) (by omega) (by omega) (by omega)
    (by omega)
  have ops2 : ∀ x ∈ norm_negate_ops (norm_cond_add r modinfo.modulus) s,
      -9223372036854775808 ≤ x ∧ x < 9223372036854775808 := by
    rw [hae]
    exact negate_ops_ok _ s hs0 hs1 (by dsimp only; split <;> omega)
      (by dsimp only; split <;> omega) (by dsimp only; split <;> omega)
      (by dsimp only; split <;> omega) (by dsimp only; split <;> omega)
  obtain ⟨hv1, b0, b1, b2, b3, b4⟩ := norm_first r modinfo.modulus s hm hr hs0 hs1
  rw [normalize_62_phases]
  simp only [normalize_62_ops]
  generalize norm_negate (norm_cond_add r modinfo.modulus) s = n at hv1 b0 b1 b2 b3 b4 ⊢
  -- first carry propagation
  have ops3 := propagate_ops_ok n (by omega) b1 b2 b3 b4
  obtain ⟨hv2, hl2⟩ := norm_propagate_spec n (by omega) b1 b2 b3 b4
  generalize norm_propagate n = p at hv2 hl2 ⊢
  have hpv : -(2 * modinfo.modulus.value) < p.value ∧ p.value < 2 * modinfo.modulus.value := by
    rw [hv2, hv1]
    by_cases hs : s < 0 <;> by_cases h4 : r.v4 < 0 <;>
      simp only [hs, h4, if_true, if_false] <;> omega
  obtain ⟨t1, t2⟩ := top_limb_bound2 p hl2 modinfo.modulus.value hpv hm2'.le
  have hl2' := hl2
  obtain ⟨p0, p1, p2, p3⟩ := hl2'
  -- second conditional addition
  have ops4 := cond_add_ops_ok p modinfo.modulus hm (by omega) (by omega) (by omega) (by omega)
    (by omega)
  have hca := norm_cond_add_eq p modinfo.modulus hm (by omega) (by omega) (by omega) (by omega)
    (by omega)
  have hav : (norm_cond_add p modinfo.modulus).value
      = p.value + (if p.v4 < 0 then modinfo.modulus.value else 0) := by
    rw [hca, value_mk, value_def p, value_def modinfo.modulus]
    split <;> omega
  have ha0 : (norm_cond_add p modinfo.modulus).v0
      = p.v0 + (if p.v4 < 0 then modinfo.modulus.v0 else 0) := by rw [hca]
  have ha1 : (norm_cond_add p modinfo.modulus).v1
      = p.v1 + (if p.v4 < 0 then modinfo.modulus.v1 else 0) := by rw [hca]
  have ha2 : (norm_cond_add p modinfo.modulus).v2
      = p.v2 + (if p.v4 < 0 then modinfo.modulus.v2 else 0) := by rw [hca]
  have ha3 : (norm_cond_add p modinfo.modulus).v3
      = p.v3 + (if p.v4 < 0 then modinfo.modulus.v3 else 0) := by rw [hca]
  have ha4 : (norm_cond_add p modinfo.modulus).v4
      = p.v4 + (if p.v4 < 0 then modinfo.modulus.v4 else 0) := by rw [hca]
  generalize norm_cond_add p modinfo.modulus = a at hav ha0 ha1 ha2 ha3 ha4 ⊢
  -- second carry propagation
  have c0 : -9223372036854775808 ≤ a.v0 ∧ a.v0 < 9223372036854775808 := by
    rw [ha0]; split <;> omega
  have c1 : -9223372036854775806 ≤ a.v1 ∧ a.v1 ≤ 9223372036854775806 := by
    rw [ha1]; split <;> omega
  have c2 : -9223372036854775806 ≤ a.v2 ∧ a.v2 ≤ 9223372036854775806 := by
    rw [ha2]; split <;> omega
  have c3 : -9223372036854775806 ≤ a.v3 ∧ a.v3 ≤ 9223372036854775806 := by
    rw [ha3]; split <;> omega
  have c4 : -9223372036854775806 ≤ a.v4 ∧ a.v4 ≤ 9223372036854775806 := by
    rw [ha4]; split <;> omega
  have ops5 := propagate_ops_ok a c0 c1 c2 c3 c4
  obtain ⟨hv3, -⟩ := norm_propagate_spec a c0 c1 c2 c3 c4
  constructor
  · apply Int.modEq_iff_dvd.2
    rw [hv3, hav, hv2, hv1]
    by_cases hs : s < 0 <;> by_cases h4 : r.v4 < 0 <;> by_cases h5 : p.v4 < 0 <;>
      simp only [hs, h4, h5, if_true, if_false]
    · exact ⟨0, by ring⟩
    · exact ⟨1, by ring⟩
    · exact ⟨-1, by ring⟩
    · exact ⟨0, by ring⟩
    · exact ⟨-2, by ring⟩
    · exact ⟨-1, by ring⟩
    · exact ⟨-1, by ring⟩
    · exact ⟨0, by ring⟩
  · intro x hx
    simp only [List.mem_append] at hx
    rcases hx with (((hx | hx) | hx) | hx) | hx
    · exact ops1 x hx
    · exact ops2 x hx
    · exact ops3 x hx
    · exact ops4 x hx
    · exact ops5 x hx

theorem normalize_62_sign (r : Signed62) (s1 s2 : Int) (modinfo : ModInfo)
    (h10 : -9223372036854775808 ≤ s1) (h11 : s1 < 9223372036854775808)
    (h20 : -9223372036854775808 ≤ s2) (h21 : s2 < 9223372036854775808)
    (h : s1 < 0 ↔ s2 < 0) :
    secp256k1_modinv64_normalize_62 r s1 modinfo
      = secp256k1_modinv64_normalize_62 r s2 modinfo := by
  have e : sar s1 63 = sar s2 63 := by
    rw [sar63 s1 h10 h11, sar63 s2 h20 h21]
    by_cases h1 : s1 < 0
    · rw [if_pos h1, if_pos (h.1 h1)]
    · rw [if_neg h1, if_neg (fun h2 => h1 (h.2 h2))]
  simp only [secp256k1_modinv64_normalize_62, e]

/-- **C12.** For a valid modulus `M`, a 64-bit sign word and `r` with limbs in
`(-2^62, 2^62)` and value in `(-2M, M)`: the value output by `normalize_62` is congruent
modulo `M` to `-value(r)` when `sign < 0` and to `value(r)` otherwise; the exact result of
each of its `int64_t` additions and subtractions lies in `[-2^63, 2^63)`, so none
overflows; and a sign word with the same top bit gives the same output. -/
theorem normalize_62_congruent (modinfo : ModInfo) (sign : Int) (r : Signed62)
    (hnorm : modinfo.modulus.Normalized) (_hodd : modinfo.modulus.value % 2 = 1)
    (_hpos : 0 < modinfo.modulus.value) (hlt : modinfo.modulus.value < 2 ^ 256)
    (hs0 : -2 ^ 63 ≤ sign) (hs1 : sign < 2 ^ 63) (hr : r.LimbsIn)
    (hrv : -(2 * modinfo.modulus.value) < r.value ∧ r.value < modinfo.modulus.value) :
    (secp256k1_modinv64_normalize_62 r sign modinfo).value
      ≡ (if sign < 0 then -r.value else r.value) [ZMOD modinfo.modulus.value] ∧
    (∀ x ∈ normalize_62_ops r sign modinfo, -2 ^ 63 ≤ x ∧ x < 2 ^ 63) ∧
    (∀ sign2 : Int, -2 ^ 63 ≤ sign2 → sign2 < 2 ^ 63 → (sign2 < 0 ↔ sign < 0) →
      secp256k1_modinv64_normalize_62 r sign2 modinfo
        = secp256k1_modinv64_normalize_62 r sign modinfo) := by
  have h0 : -9223372036854775808 ≤ sign := by norm_num at hs0; exact hs0
  have h1 : sign < 9223372036854775808 := by norm_num at hs1; exact hs1
  obtain ⟨hc, hops⟩ := normalize_62_general r sign modinfo hnorm hlt hr hrv h0 h1
  refine ⟨hc, ?_, ?_⟩
  · intro x hx
    have := hops x hx
    norm_num
    exact this
  · intro sign2 g0 g1 hb
    exact normalize_62_sign r sign2 sign modinfo (by norm_num at g0; exact g0)
      (by norm_num at g1; exact g1) h0 h1 hb

set_option maxRecDepth 100000 in
theorem normalize_62_congruent_witness :
    (modinfo3.modulus.Normalized ∧ modinfo3.modulus.value % 2 = 1 ∧
      0 < modinfo3.modulus.value ∧ modinfo3.modulus.value < 2 ^ 256 ∧
      (-2 ^ 63 : Int) ≤ -5 ∧ (-5 : Int) < 2 ^ 63 ∧ (ofLimb (-4)).LimbsIn ∧
      (-(2 * modinfo3.modulus.value) < (ofLimb (-4)).value ∧
        (ofLimb (-4)).value < modinfo3.modulus.value)) ∧
    ((secp256k1_modinv64_normalize_62 (ofLimb (-4)) (-5) modinfo3).value
      ≡ (if (-5 : Int) < 0 then -(ofLimb (-4)).value else (ofLimb (-4)).value)
        [ZMOD modinfo3.modulus.value] ∧
    (∀ x ∈ normalize_62_ops (ofLimb (-4)) (-5) modinfo3, -2 ^ 63 ≤ x ∧ x < 2 ^ 63) ∧
    (∀ sign2 : Int, -2 ^ 63 ≤ sign2 → sign2 < 2 ^ 63 → (sign2 < 0 ↔ (-5 : Int) < 0) →
      secp256k1_modinv64_normalize_62 (ofLimb (-4)) sign2 modinfo3
        = secp256k1_modinv64_normalize_62 (ofLimb (-4)) (-5) modinfo3)) :=
  have hM : modinfo3.modulus.Normalized := ofLimb_normalized 3 (by decide) (by decide)
  have hodd : modinfo3.modulus.value % 2 = 1 := by decide!
  have hpos : 0 < modinfo3.modulus.value := by decide!
  have hlt : modinfo3.modulus.value < 2 ^ 256 := by decide!
  have hs0 : (-2 ^ 63 : Int) ≤ -5 := by norm_num
  have hs1 : (-5 : Int) < 2 ^ 63 := by norm_num
  have hr : (ofLimb (-4)).LimbsIn := ofLimb_limbsIn _ (by decide) (by decide)
  have hrv : -(2 * modinfo3.modulus.value) < (ofLimb (-4)).value ∧
      (ofLimb (-4)).value < modinfo3.modulus.value := by decide!
  ⟨⟨hM, hodd, hpos, hlt, hs0, hs1, hr, hrv⟩,
    normalize_62_congruent modinfo3 (-5) (ofLimb (-4)) hM hodd hpos hlt hs0 hs1 hr hrv⟩

/-! ## The correction step of `update_de_62` -/

theorem wrapI128_mod (x : Int) :
    wrapI128 x % 4611686018427387904 = x % 4611686018427387904 := by
  unfold wrapI128; omega

theorem de_cd_mod (u v : Int) (d e : Signed62) (modinfo : ModInfo) :
    andI64 (wrapI64 (de_cd u v d e modinfo)) M62 =
      (u * d.v0 + v * e.v0 + modinfo.modulus.v0 * de_md u v d e modinfo)
        % 4611686018427387904 := by
  rw [andI64_wrap_M62]
  unfold de_cd
  dsimp only
  generalize de_md u v d e modinfo = md
  generalize u * d.v0 = a
  generalize v * e.v0 = b
  generalize modinfo.modulus.v0 * md = c
  unfold wrapI128
  omega

set_option maxRecDepth 100000 in
/-- **C13 (as stated).** With the modulus 3, `modulus_inv62 = (2^62 - 1) / 3` (so that
`modulus_inv62 * M[0] ≡ -1 (mod 2^62)`), the matrix of `divsteps_62 (-1, 3, 1)`, `d = 0` and
`e = 1` (the first pass of `modinv (1, 3)`): after the correction step,
`ce + M[0] * me ≡ 6 (mod 2^62)`, not `0`. -/
theorem update_de_62_correction_counterexample :
    (((modinfo3.modulus_inv62 : Int) * modinfo3.modulus.v0) % 2 ^ 62 = 2 ^ 62 - 1 ∧
      modinfo3.modulus.Normalized ∧
      |trans_m1_3_1.u| + |trans_m1_3_1.v| ≤ 2 ^ 62 ∧
      |trans_m1_3_1.q| + |trans_m1_3_1.r| ≤ 2 ^ 62 ∧
      (ofLimb 0).LimbsIn ∧ (ofLimb 1).LimbsIn) ∧
    (trans_m1_3_1.q * (ofLimb 0).v0 + trans_m1_3_1.r * (ofLimb 1).v0
      + modinfo3.modulus.v0 * de_md trans_m1_3_1.q trans_m1_3_1.r (ofLimb 0) (ofLimb 1) modinfo3)
      % 2 ^ 62 = 6 ∧
    andI64 (wrapI64 (de_cd trans_m1_3_1.q trans_m1_3_1.r (ofLimb 0) (ofLimb 1) modinfo3)) M62
      = 6 := by
  refine ⟨⟨by decide!, ofLimb_normalized 3 (by decide) (by decide), by decide!, by decide!,
    ofLimb_limbsIn _ (by decide) (by decide), ofLimb_limbsIn _ (by decide) (by decide)⟩,
    by decide!, by decide!⟩

/-- **C13 (amended).** For a modulus descriptor with limbs in `[0, 2^62)` and
`modulus_inv62 * modulus.v[0] ≡ 1 (mod 2^62)`, a matrix with `|u|+|v| ≤ 2^62` and
`|q|+|r| ≤ 2^62`, and `d`, `e` with limbs in `(-2^62, 2^62)`: after the correction step of
`update_de_62`, `cd + M[0]*md ≡ 0 (mod 2^62)` with `cd = u*d[0] + v*e[0]`, and likewise
`ce + M[0]*me ≡ 0 (mod 2^62)` with `ce = q*d[0] + r*e[0]`; the 62 low bits of the two
accumulators, `(int64_t)cd & M62` and `(int64_t)ce & M62`, are zero. -/
theorem update_de_62_correction (modinfo : ModInfo) (t : Trans2x2) (d e : Signed62)
    (hinv : ((modinfo.modulus_inv62 : Int) * modinfo.modulus.v0) % 2 ^ 62 = 1)
    (_hM : modinfo.modulus.Normalized)
    (hu : |t.u| + |t.v| ≤ 2 ^ 62) (hq : |t.q| + |t.r| ≤ 2 ^ 62)
    (hd : d.LimbsIn) (he : e.LimbsIn) :
    (t.u * d.v0 + t.v * e.v0 + modinfo.modulus.v0 * de_md t.u t.v d e modinfo) % 2 ^ 62 = 0 ∧
    (t.q * d.v0 + t.r * e.v0 + modinfo.modulus.v0 * de_md t.q t.r d e modinfo) % 2 ^ 62 = 0 ∧
    andI64 (wrapI64 (de_cd t.u t.v d e modinfo)) M62 = 0 ∧
    andI64 (wrapI64 (de_cd t.q t.r d e modinfo)) M62 = 0 := by
  have hinv' : (modinfo.modulus_inv62 : Int) * modinfo.modulus.v0 ≡ 1
      [ZMOD 4611686018427387904] := by
    rw [Int.ModEq]; norm_num at hinv ⊢; exact hinv
  have m1 := (de_md_spec t.u t.v d e modinfo
    (abs_sum_le _ _ _ (by norm_num at hu; exact hu)) hd he).2.2
  have m2 := (de_md_spec t.q t.r d e modinfo
    (abs_sum_le _ _ _ (by norm_num at hq; exact hq)) hd he).2.2
  have z1 := low_zero _ _ _ _ hinv' m1
  have z2 := low_zero _ _ _ _ hinv' m2
  refine ⟨?_, ?_, ?_, ?_⟩
  · rw [show (2 : Int) ^ 62 = 4611686018427387904 by norm_num]; exact z1
  · rw [show (2 : Int) ^ 62 = 4611686018427387904 by norm_num]; exact z2
  · rw [de_cd_mod]; exact z1
  · rw [de_cd_mod]; exact z2

set_option maxRecDepth 100000 in
theorem update_de_62_correction_witness :
    (((modinfo3_inv.modulus_inv62 : Int) * modinfo3_inv.modulus.v0) % 2 ^ 62 = 1 ∧
      modinfo3_inv.modulus.Normalized ∧
      |trans_m1_3_1.u| + |trans_m1_3_1.v| ≤ 2 ^ 62 ∧
      |trans_m1_3_1.q| + |trans_m1_3_1.r| ≤ 2 ^ 62 ∧
      (ofLimb 0).LimbsIn ∧ (ofLimb 1).LimbsIn) ∧
    ((trans_m1_3_1.u * (ofLimb 0).v0 + trans_m1_3_1.v * (ofLimb 1).v0 + modinfo3_inv.modulus.v0
        * de_md trans_m1_3_1.u trans_m1_3_1.v (ofLimb 0) (ofLimb 1) modinfo3_inv) % 2 ^ 62 = 0 ∧
    (trans_m1_3_1.q * (ofLimb 0).v0 + trans_m1_3_1.r * (ofLimb 1).v0 + modinfo3_inv.modulus.v0
        * de_md trans_m1_3_1.q trans_m1_3_1.r (ofLimb 0) (ofLimb 1) modinfo3_inv) % 2 ^ 62 = 0 ∧
    andI64 (wrapI64 (de_cd trans_m1_3_1.u trans_m1_3_1.v (ofLimb 0) (ofLimb 1) modinfo3_inv))
      M62 = 0 ∧
    andI64 (wrapI64 (de_cd trans_m1_3_1.q trans_m1_3_1.r (ofLimb 0) (ofLimb 1) modinfo3_inv))
      M62 = 0) :=
  have hinv : ((modinfo3_inv.modulus_inv62 : Int) * modinfo3_inv.modulus.v0) % 2 ^ 62 = 1 := by
    decide!
  have hM : modinfo3_inv.modulus.Normalized := ofLimb_normalized 3 (by decide) (by decide)
  have hu : |trans_m1_3_1.u| + |trans_m1_3_1.v| ≤ 2 ^ 62 := by decide!
  have hq : |trans_m1_3_1.q| + |trans_m1_3_1.r| ≤ 2 ^ 62 := by decide!
  have hd : (ofLimb 0).LimbsIn := ofLimb_limbsIn _ (by decide) (by decide)
  have he : (ofLimb 1).LimbsIn := ofLimb_limbsIn _ (by decide) (by decide)
  ⟨⟨hinv, hM, hu, hq, hd, he⟩,
    update_de_62_correction modinfo3_inv trans_m1_3_1 (ofLimb 0) (ofLimb 1) hinv hM hu hq hd he⟩

/-! ## The matrix of `divsteps_62`: determinant and size -/

/-- The state of the `divsteps_62` loop after `i ≤ 62` passes: the signed reading of the four
accumulators is the integer matrix of `i` divsteps, which satisfies the invariant `MatInv`
for the power `2^i`. -/
theorem loop_matrix (eta : Int) (f0 g0 : Nat) (i : Nat) (hi : i ≤ 62)
    (h0 : -745 ≤ eta) (h1 : eta ≤ 745) (hf : f0 < 18446744073709551616)
    (hg : g0 < 18446744073709551616) (hodd : f0 % 2 = 1) :
    toI64 (divsteps_62_loop i (divsteps_init eta f0 g0)).u
      = (matsteps i (matinit eta f0 g0)).U ∧
    toI64 (divsteps_62_loop i (divsteps_init eta f0 g0)).v
      = (matsteps i (matinit eta f0 g0)).V ∧
    toI64 (divsteps_62_loop i (divsteps_init eta f0 g0)).q
      = (matsteps i (matinit eta f0 g0)).Q ∧
    toI64 (divsteps_62_loop i (divsteps_init eta f0 g0)).r
      = (matsteps i (matinit eta f0 g0)).R ∧
    MatInv f0 g0 (2 ^ i) (matsteps i (matinit eta f0 g0)) := by
  have hFodd : (f0 : Int) % 2 = 1 := by omega
  have hinit : Sim (62 - i + i) (divsteps_init eta f0 g0) (matinit eta f0 g0) := by
    rw [Nat.sub_add_cancel hi]
    exact sim_init eta f0 g0 f0 g0 hf hg (Int.ModEq.refl _) (Int.ModEq.refl _)
  have hs := loop_sim i (k := 62 - i) 745 (by omega) hinit hFodd h0 h1
    (by have : (i : Int) ≤ 62 := by exact_mod_cast hi
        omega)
  have hm := matsteps_inv i (matinit_inv eta f0 g0 hFodd)
  rw [mul_one] at hm
  have hp : (2 : Int) ^ i ≤ 4611686018427387904 := by
    have := pow_le_pow_right₀ (show (1 : Int) ≤ 2 by norm_num) hi
    norm_num at this
    exact this
  obtain ⟨_, _, _, _, hu, hv, hq, hr⟩ := hs
  have bU := hm.bU
  have bQ := hm.bQ
  refine ⟨toI64_of_emod _ _ hu (by omega) (by omega), toI64_of_emod _ _ hv (by omega) (by omega),
    toI64_of_emod _ _ hq (by omega) (by omega), toI64_of_emod _ _ hr (by omega) (by omega), hm⟩

theorem abs_sum_of_le (u v c : Int)
    (h : u + v ≤ c ∧ u - v ≤ c ∧ -u + v ≤ c ∧ -u - v ≤ c) : |u| + |v| ≤ c := by
  rcases abs_cases u with ⟨e1, _⟩ | ⟨e1, _⟩ <;> rcases abs_cases v with ⟨e2, _⟩ | ⟨e2, _⟩ <;>
    rw [e1, e2] <;> omega

/-- **C14.** For `eta` in `[-745, 745]`, an odd 64-bit word `f0` and a 64-bit word `g0`, the
matrix `(u, v, q, r)` returned by `divsteps_62` has determinant `u*r - v*q = 2^62` over the
integers (the entries being the `int64_t` casts of the unsigned accumulators). -/
theorem divsteps_62_det (eta : Int) (f0 g0 : Nat)
    (h0 : -745 ≤ eta) (h1 : eta ≤ 745) (hf : f0 < 2 ^ 64) (hodd : f0 % 2 = 1)
    (hg : g0 < 2 ^ 64) :
    (secp256k1_modinv64_divsteps_62 eta f0 g0).2.u * (secp256k1_modinv64_divsteps_62 eta f0 g0).2.r
      - (secp256k1_modinv64_divsteps_62 eta f0 g0).2.v
        * (secp256k1_modinv64_divsteps_62 eta f0 g0).2.q = 2 ^ 62 := by
  obtain ⟨_, eu, ev, eq, er, hi⟩ := divsteps_62_props eta f0 g0 f0 g0 h0 h1
    (by norm_num at hf; exact hf) (by norm_num at hg; exact hg) hodd
    (Int.ModEq.refl _) (Int.ModEq.refl _)
  rw [eu, ev, eq, er, hi.det]
  norm_num

set_option maxRecDepth 100000 in
theorem divsteps_62_det_witness :
    (-745 ≤ (5 : Int) ∧ (5 : Int) ≤ 745 ∧ 7 < 2 ^ 64 ∧ 7 % 2 = 1 ∧ 14 < 2 ^ 64) ∧
    (secp256k1_modinv64_divsteps_62 5 7 14).2.u * (secp256k1_modinv64_divsteps_62 5 7 14).2.r
      - (secp256k1_modinv64_divsteps_62 5 7 14).2.v
        * (secp256k1_modinv64_divsteps_62 5 7 14).2.q = 2 ^ 62 :=
  ⟨⟨by decide, by decide, by norm_num, by decide, by norm_num⟩,
    divsteps_62_det 5 7 14 (by decide) (by decide) (by norm_num) (by decide) (by norm_num)⟩

/-- **C15.** For `eta` in `[-745, 745]`, an odd 64-bit word `f0` and a 64-bit word `g0`: the
matrix returned by `divsteps_62` satisfies `|u| + |v| ≤ 2^62` and `|q| + |r| ≤ 2^62`; after
`i ≤ 62` loop passes the unsigned accumulators, read as signed, satisfy `|u| + |v| ≤ 2^i` and
`|q| + |r| ≤ 2^i`, and this signed reading is the exact integer matrix of `i` divsteps, so
the final cast to `int64_t` returns that matrix unchanged. -/
theorem divsteps_62_matrix_size (eta : Int) (f0 g0 : Nat)
    (h0 : -745 ≤ eta) (h1 : eta ≤ 745) (hf : f0 < 2 ^ 64) (hodd : f0 % 2 = 1)
    (hg : g0 < 2 ^ 64) :
    (|(secp256k1_modinv64_divsteps_62 eta f0 g0).2.u|
        + |(secp256k1_modinv64_divsteps_62 eta f0 g0).2.v| ≤ 2 ^ 62 ∧
      |(secp256k1_modinv64_divsteps_62 eta f0 g0).2.q|
        + |(secp256k1_modinv64_divsteps_62 eta f0 g0).2.r| ≤ 2 ^ 62) ∧
    (∀ i : Nat, i ≤ 62 →
      |toI64 (divsteps_62_loop i (divsteps_init eta f0 g0)).u|
        + |toI64 (divsteps_62_loop i (divsteps_init eta f0 g0)).v| ≤ 2 ^ i ∧
      |toI64 (divsteps_62_loop i (divsteps_init eta f0 g0)).q|
        + |toI64 (divsteps_62_loop i (divsteps_init eta f0 g0)).r| ≤ 2 ^ i ∧
      toI64 (divsteps_62_loop i (divsteps_init eta f0 g0)).u
        = (matsteps i (matinit eta f0 g0)).U ∧
      toI64 (divsteps_62_loop i (divsteps_init eta f0 g0)).v
        = (matsteps i (matinit eta f0 g0)).V ∧
      toI64 (divsteps_62_loop i (divsteps_init eta f0 g0)).q
        = (matsteps i (matinit eta f0 g0)).Q ∧
      toI64 (divsteps_62_loop i (divsteps_init eta f0 g0)).r
        = (matsteps i (matinit eta f0 g0)).R) ∧
    (secp256k1_modinv64_divsteps_62 eta f0 g0).2 =
      { u := (matsteps 62 (matinit eta f0 g0)).U, v := (matsteps 62 (matinit eta f0 g0)).V,
        q := (matsteps 62 (matinit eta f0 g0)).Q, r := (matsteps 62 (matinit eta f0 g0)).R } := by
  have hf' : f0 < 18446744073709551616 := by norm_num at hf; exact hf
  have hg' : g0 < 18446744073709551616 := by norm_num at hg; exact hg
  have hloop : ∀ i : Nat, i ≤ 62 →
      |toI64 (divsteps_62_loop i (divsteps_init eta f0 g0)).u|
        + |toI64 (divsteps_62_loop i (divsteps_init eta f0 g0)).v| ≤ 2 ^ i ∧
      |toI64 (divsteps_62_loop i (divsteps_init eta f0 g0)).q|
        + |toI64 (divsteps_62_loop i (divsteps_init eta f0 g0)).r| ≤ 2 ^ i ∧
      toI64 (divsteps_62_loop i (divsteps_init eta f0 g0)).u
        = (matsteps i (matinit eta f0 g0)).U ∧
      toI64 (divsteps_62_loop i (divsteps_init eta f0 g0)).v
        = (matsteps i (matinit eta f0 g0)).V ∧
      toI64 (divsteps_62_loop i (divsteps_init eta f0 g0)).q
        = (matsteps i (matinit eta f0 g0)).Q ∧
      toI64 (divsteps_62_loop i (divsteps_init eta f0 g0)).r
        = (matsteps i (matinit eta f0 g0)).R := by
    intro i hi
    obtain ⟨eu, ev, eq, er, hm⟩ := loop_matrix eta f0 g0 i hi h0 h1 hf' hg' hodd
    refine ⟨?_, ?_, eu, ev, eq, er⟩
    · rw [eu, ev]; exact abs_sum_of_le _ _ _ hm.bU
    · rw [eq, er]; exact abs_sum_of_le _ _ _ hm.bQ
  obtain ⟨b1, b2, -⟩ := hloop 62 (le_refl _)
  have e := divsteps_62_eq eta f0 g0 f0 g0 h0 h1 hf' hg' hodd (Int.ModEq.refl _)
    (Int.ModEq.refl _)
  refine ⟨⟨b1, b2⟩, hloop, ?_⟩
  rw [e]

set_option maxRecDepth 100000 in
theorem divsteps_62_matrix_size_witness :
    (-745 ≤ (-3 : Int) ∧ (-3 : Int) ≤ 745 ∧ 11 < 2 ^ 64 ∧ 11 % 2 = 1 ∧ 6 < 2 ^ 64) ∧
    ((|(secp256k1_modinv64_divsteps_62 (-3) 11 6).2.u|
        + |(secp256k1_modinv64_divsteps_62 (-3) 11 6).2.v| ≤ 2 ^ 62 ∧
      |(secp256k1_modinv64_divsteps_62 (-3) 11 6).2.q|
        + |(secp256k1_modinv64_divsteps_62 (-3) 11 6).2.r| ≤ 2 ^ 62) ∧
    (∀ i : Nat, i ≤ 62 →
      |toI64 (divsteps_62_loop i (divsteps_init (-3) 11 6)).u|
        + |toI64 (divsteps_62_loop i (divsteps_init (-3) 11 6)).v| ≤ 2 ^ i ∧
      |toI64 (divsteps_62_loop i (divsteps_init (-3) 11 6)).q|
        + |toI64 (divsteps_62_loop i (divsteps_init (-3) 11 6)).r| ≤ 2 ^ i ∧
      toI64 (divsteps_62_loop i (divsteps_init (-3) 11 6)).u
        = (matsteps i (matinit (-3) (11 : Nat) (6 : Nat))).U ∧
      toI64 (divsteps_62_loop i (divsteps_init (-3) 11 6)).v
        = (matsteps i (matinit (-3) (11 : Nat) (6 : Nat))).V ∧
      toI64 (divsteps_62_loop i (divsteps_init (-3) 11 6)).q
        = (matsteps i (matinit (-3) (11 : Nat) (6 : Nat))).Q ∧
      toI64 (divsteps_62_loop i (divsteps_init (-3) 11 6)).r
        = (matsteps i (matinit (-3) (11 : Nat) (6 : Nat))).R) ∧
    (secp256k1_modinv64_divsteps_62 (-3) 11 6).2 =
      { u := (matsteps 62 (matinit (-3) (11 : Nat) (6 : Nat))).U,
        v := (matsteps 62 (matinit (-3) (11 : Nat) (6 : Nat))).V,
        q := (matsteps 62 (matinit (-3) (11 : Nat) (6 : Nat))).Q,
        r := (matsteps 62 (matinit (-3) (11 : Nat) (6 : Nat))).R }) :=
  ⟨⟨by decide, by decide, by norm_num, by decide, by norm_num⟩,
    divsteps_62_matrix_size (-3) 11 6 (by decide) (by decide) (by norm_num) (by decide)
      (by norm_num)⟩

/-! ## The range of `f` and `g` in the driver -/

theorem matstep_FG_strict (S : MatState) (M : Int) (hF : S.F % 2 = 1)
    (h : -M < S.F ∧ S.F ≤ M ∧ -M < S.G ∧ S.G < M) :
    -M < (matstep S).F ∧ (matstep S).F ≤ M ∧ -M < (matstep S).G ∧ (matstep S).G < M := by
  unfold matstep
  split
  · dsimp only; omega
  · split
    · dsimp only; omega
    · dsimp only; omega

theorem matsteps_FG_strict (n : Nat) : ∀ (S : MatState) (M : Int), S.F % 2 = 1 →
    (-M < S.F ∧ S.F ≤ M ∧ -M < S.G ∧ S.G < M) →
    -M < (matsteps n S).F ∧ (matsteps n S).F ≤ M ∧
      -M < (matsteps n S).G ∧ (matsteps n S).G < M := by
  induction n with
  | zero => intro S M _ h; simpa [matsteps] using h
  | succ n ih =>
    intro S M hF h
    exact ih (matstep S) M (matstep_F_odd S hF) (matstep_FG_strict S M hF h)

theorem body_fg (modinfo : ModInfo) (hv : modinfo.Valid) (n : Nat) (hn : n ≤ 11)
    (s : InvState) (h : InvFG modinfo n s) : InvFG modinfo (n + 1) (modinv_body modinfo s) := by
  obtain ⟨fl, gl, fo, fv, gv, he⟩ := h
  have hf : s.f.LimbsIn :=
    lowNorm_limbsIn _ fl (lowNorm_top _ fl modinfo.modulus.value ⟨by omega, fv.2⟩ hv.lt)
  have hg : s.g.LimbsIn :=
    lowNorm_limbsIn _ gl (lowNorm_top _ gl modinfo.modulus.value ⟨by omega, by omega⟩ hv.lt)
  have hodd0 := toU64_odd s.f fo
  obtain ⟨e0, eu, ev', eq, er, hi⟩ := divsteps_62_props s.eta (toU64 s.f.v0) (toU64 s.g.v0)
    s.f.value s.g.value (by omega) (by omega) (toU64_lt _) (toU64_lt _) hodd0
    (value_modEq_limb s.f) (value_modEq_limb s.g)
  obtain ⟨_, eu0, ev0, eq0, er0, hi0⟩ := divsteps_62_props s.eta (toU64 s.f.v0) (toU64 s.g.v0)
    s.f.v0 s.g.v0 (by omega) (by omega) (toU64_lt _) (toU64_lt _) hodd0
    (limb_modEq_limb _) (limb_modEq_limb _)
  have hb := matsteps_FG_strict 62 (matinit s.eta s.f.value s.g.value) modinfo.modulus.value
    (by simp only [matinit]; exact fo) (by simp only [matinit]; omega)
  have hem := matsteps_eta 62 (matinit s.eta s.f.value s.g.value) (1 + 62 * (n : Int))
    (by simp only [matinit]; omega) (by simp only [matinit]; omega)
  generalize hT : (secp256k1_modinv64_divsteps_62 s.eta (toU64 s.f.v0) (toU64 s.g.v0)) = T
    at e0 eu ev' eq er eu0 ev0 eq0 er0
  have hlt := hv.lt
  have r3 := fg_row_exact T.2.u T.2.v s.f s.g _ _ (by rw [eu, ev']; exact hi.bU) hf hg
    (by rw [eu, ev']; exact hi.linF) (by rw [eu0, ev0]; exact hi0.linF)
    (by norm_num at hlt ⊢; omega)
  have r4 := fg_row_exact T.2.q T.2.r s.f s.g _ _ (by rw [eq, er]; exact hi.bQ) hf hg
    (by rw [eq, er]; exact hi.linG) (by rw [eq0, er0]; exact hi0.linG)
    (by norm_num at hlt ⊢; omega)
  have hbody : (modinv_body modinfo s).f = update_fg_62_row T.2.u T.2.v s.f s.g ∧
      (modinv_body modinfo s).g = update_fg_62_row T.2.q T.2.r s.f s.g ∧
      (modinv_body modinfo s).eta = T.1 := by
    simp only [modinv_body, secp256k1_modinv64_update_fg_62, hT, and_self]
  obtain ⟨bf, bg, be⟩ := hbody
  refine ⟨?_, ?_, ?_, ?_, ?_, ?_⟩
  · rw [bf]; exact r3.2.1
  · rw [bg]; exact r4.2.1
  · rw [bf, r3.1]; exact hi.Fodd
  · rw [bf, r3.1]; omega
  · rw [bg, r4.1]; omega
  · rw [be, e0]; push_cast at hem ⊢; omega

theorem loop_fg (modinfo : ModInfo) (hv : modinfo.Valid) (k : Nat) : ∀ (n : Nat) (s : InvState),
    n + k ≤ 12 → InvFG modinfo n s → InvFG modinfo (n + k) (modinv_loop modinfo k s) := by
  induction k with
  | zero => intro n s _ h; exact h
  | succ k ih =>
    intro n s hn h
    simp only [modinv_loop]
    have := ih (n + 1) (modinv_body modinfo s) (by omega) (body_fg modinfo hv n (by omega) s h)
    rw [Nat.add_assoc, Nat.add_comm 1 k] at this
    exact this

theorem init_fg (modinfo : ModInfo) (hv : modinfo.Valid) (x : Signed62) (hx : x.Normalized)
    (hx0 : 0 ≤ x.value) (hx1 : x.value < modinfo.modulus.value) :
    InvFG modinfo 0 (modinv_init x modinfo) := by
  have hpos := valid_pos modinfo hv
  refine ⟨hv.norm.low, hx.low, hv.odd, ?_, ?_, ?_⟩
  · simp only [modinv_init]; omega
  · simp only [modinv_init]; omega
  · simp [modinv_init]

/-- **C16.** For a valid modulus descriptor (`M` odd, `0 < M < 2^256`, limbs in `[0, 2^62)`)
and `x` in `[0, M)` with limbs in `[0, 2^62)`: in the initial state of `modinv` (`k = 0`) and
in the state after each of the 12 passes of its loop (`k = 1, ..., 12`),
`-M < value(f) ≤ M` and `-M < value(g) < M`. -/
theorem modinv_fg_range (modinfo : ModInfo) (x : Signed62)
    (hnorm : modinfo.modulus.Normalized) (hodd : modinfo.modulus.value % 2 = 1)
    (_hpos : 0 < modinfo.modulus.value) (hlt : modinfo.modulus.value < 2 ^ 256)
    (hx : x.Normalized) (hx0 : 0 ≤ x.value) (hx1 : x.value < modinfo.modulus.value)
    (k : Nat) (hk : k ≤ 12) :
    (-modinfo.modulus.value < (modinv_loop modinfo k (modinv_init x modinfo)).f.value ∧
      (modinv_loop modinfo k (modinv_init x modinfo)).f.value ≤ modinfo.modulus.value) ∧
    (-modinfo.modulus.value < (modinv_loop modinfo k (modinv_init x modinfo)).g.value ∧
      (modinv_loop modinfo k (modinv_init x modinfo)).g.value < modinfo.modulus.value) := by
  have hv : modinfo.Valid := ⟨hnorm, hodd, hlt⟩
  have h := loop_fg modinfo hv k 0 (modinv_init x modinfo) (by omega)
    (init_fg modinfo hv x hx hx0 hx1)
  exact ⟨h.f_val, h.g_val⟩

set_option maxRecDepth 100000 in
theorem modinv_fg_range_witness :
    ((modinfo_P 2866531139136965327).modulus.Normalized ∧
      (modinfo_P 2866531139136965327).modulus.value % 2 = 1 ∧
      0 < (modinfo_P 2866531139136965327).modulus.value ∧
      (modinfo_P 2866531139136965327).modulus.value < 2 ^ 256 ∧
      (ofLimb 3).Normalized ∧ 0 ≤ (ofLimb 3).value ∧
      (ofLimb 3).value < (modinfo_P 2866531139136965327).modulus.value ∧ 5 ≤ 12) ∧
    ((-(modinfo_P 2866531139136965327).modulus.value
        < (modinv_loop (modinfo_P 2866531139136965327) 5
            (modinv_init (ofLimb 3) (modinfo_P 2866531139136965327))).f.value ∧
      (modinv_loop (modinfo_P 2866531139136965327) 5
            (modinv_init (ofLimb 3) (modinfo_P 2866531139136965327))).f.value
        ≤ (modinfo_P 2866531139136965327).modulus.value) ∧
    (-(modinfo_P 2866531139136965327).modulus.value
        < (modinv_loop (modinfo_P 2866531139136965327) 5
            (modinv_init (ofLimb 3) (modinfo_P 2866531139136965327))).g.value ∧
      (modinv_loop (modinfo_P 2866531139136965327) 5
            (modinv_init (ofLimb 3) (modinfo_P 2866531139136965327))).g.value
        < (modinfo_P 2866531139136965327).modulus.value)) :=
  have hM : (modinfo_P 2866531139136965327).modulus.Normalized := secp256k1_P_normalized
  have hodd : (modinfo_P 2866531139136965327).modulus.value % 2 = 1 := by decide!
  have hpos : 0 < (modinfo_P 2866531139136965327).modulus.value := by decide!
  have hlt : (modinfo_P 2866531139136965327).modulus.value < 2 ^ 256 := by decide!
  have hx : (ofLimb 3).Normalized := ofLimb_normalized 3 (by decide) (by decide)
  have hx0 : 0 ≤ (ofLimb 3).value := by decide!
  have hx1 : (ofLimb 3).value < (modinfo_P 2866531139136965327).modulus.value := by decide!
  ⟨⟨hM, hodd, hpos, hlt, hx, hx0, hx1, by decide⟩,
    modinv_fg_range (modinfo_P 2866531139136965327) (ofLimb 3) hM hodd hpos hlt hx hx0 hx1 5
      (by decide)⟩

/-! ## The range of `eta` in the driver -/

theorem body_eta (s : DivState) (hs : s.WF) (h0 : -9223372036854775808 < s.eta)
    (h1 : s.eta < 9223372036854775808) :
    (divsteps_62_body s).eta = s.eta - 1 ∨ (divsteps_62_body s).eta = -s.eta - 1 := by
  rcases Nat.mod_two_eq_zero_or_one s.g with hg | hg
  · left; rw [body_even s hs h0 h1 hg]
  · by_cases he : s.eta < 0
    · right; rw [body_swap s hs h0 he hg]
    · left; rw [body_add s hs (by omega) h1 hg]

theorem loop_eta (n : Nat) : ∀ (s : DivState) (B : Int), s.WF → -B ≤ s.eta → s.eta ≤ B →
    B + n < 4611686018427387904 →
    -(B + n) ≤ (divsteps_62_loop n s).eta ∧ (divsteps_62_loop n s).eta ≤ B + n := by
  induction n with
  | zero => intro s B _ h0 h1 _; simp only [divsteps_62_loop]; push_cast; omega
  | succ n ih =>
    intro s B hs h0 h1 hB
    push_cast at hB
    simp only [divsteps_62_loop]
    have hb := body_eta s hs (by omega) (by omega)
    have := ih (divsteps_62_body s) (B + 1) (body_wf s) (by omega) (by omega) (by omega)
    push_cast
    omega

theorem init_wf (eta : Int) (a b : Int) : (divsteps_init eta (toU64 a) (toU64 b)).WF := by
  refine ⟨toU64_lt a, toU64_lt b, ?_, ?_, ?_, ?_⟩ <;> simp [divsteps_init]

theorem body_eta_driver (modinfo : ModInfo) (s : InvState) (B : Int) (h0 : -B ≤ s.eta)
    (h1 : s.eta ≤ B) (hB : B + 62 < 4611686018427387904) :
    -(B + 62) ≤ (modinv_body modinfo s).eta ∧ (modinv_body modinfo s).eta ≤ B + 62 := by
  have e : (modinv_body modinfo s).eta
      = (divsteps_62_loop 62 (divsteps_init s.eta (toU64 s.f.v0) (toU64 s.g.v0))).eta := rfl
  rw [e]
  have := loop_eta 62 _ B (init_wf s.eta s.f.v0 s.g.v0) h0 h1 (by push_cast; omega)
  push_cast at this
  exact this

theorem loop_eta_driver (modinfo : ModInfo) (k : Nat) : ∀ (n : Nat) (s : InvState),
    n + k ≤ 12 → -(1 + 62 * (n : Int)) ≤ s.eta → s.eta ≤ 1 + 62 * (n : Int) →
    -(1 + 62 * ((n + k : Nat) : Int)) ≤ (modinv_loop modinfo k s).eta ∧
      (modinv_loop modinfo k s).eta ≤ 1 + 62 * ((n + k : Nat) : Int) := by
  induction k with
  | zero => intro n s _ h0 h1; exact ⟨h0, h1⟩
  | succ k ih =>
    intro n s hn h0 h1
    simp only [modinv_loop]
    have hb := body_eta_driver modinfo s (1 + 62 * (n : Int)) h0 h1 (by omega)
    have := ih (n + 1) (modinv_body modinfo s) (by omega) (by push_cast; omega)
      (by push_cast; omega)
    rw [Nat.add_assoc, Nat.add_comm 1 k] at this
    exact this

/-- **C17.** In `modinv`, for every modulus descriptor and every input `x` (no condition on
either), the counter `eta`, initially `-1`, satisfies `-745 ≤ eta ≤ 745` after each of the
`12 * 62 = 744` passes of the `divsteps_62` loop: after `j ≤ 62` passes of the call in driver
pass `k < 12`, `|eta| ≤ 1 + 62 * k + j`. -/
theorem modinv_eta_range (modinfo : ModInfo) (x : Signed62) (k j : Nat) (hk : k < 12)
    (hj : j ≤ 62) :
    (-745 ≤ (divsteps_62_loop j (divsteps_init
        (modinv_loop modinfo k (modinv_init x modinfo)).eta
        (toU64 (modinv_loop modinfo k (modinv_init x modinfo)).f.v0)
        (toU64 (modinv_loop modinfo k (modinv_init x modinfo)).g.v0))).eta ∧
      (divsteps_62_loop j (divsteps_init
        (modinv_loop modinfo k (modinv_init x modinfo)).eta
        (toU64 (modinv_loop modinfo k (modinv_init x modinfo)).f.v0)
        (toU64 (modinv_loop modinfo k (modinv_init x modinfo)).g.v0))).eta ≤ 745) ∧
    |(divsteps_62_loop j (divsteps_init
        (modinv_loop modinfo k (modinv_init x modinfo)).eta
        (toU64 (modinv_loop modinfo k (modinv_init x modinfo)).f.v0)
        (toU64 (modinv_loop modinfo k (modinv_init x modinfo)).g.v0))).eta|
      ≤ 1 + 62 * (k : Int) + j := by
  have h := loop_eta_driver modinfo k 0 (modinv_init x modinfo) (by omega)
    (by simp [modinv_init]) (by simp [modinv_init])
  rw [Nat.zero_add] at h
  generalize modinv_loop modinfo k (modinv_init x modinfo) = s at h ⊢
  have hk' : (k : Int) ≤ 11 := by exact_mod_cast Nat.lt_succ_iff.mp hk
  have hj' : (j : Int) ≤ 62 := by exact_mod_cast hj
  have := loop_eta j _ (1 + 62 * (k : Int)) (init_wf s.eta s.f.v0 s.g.v0)
    (by simp only [divsteps_init]; exact h.1) (by simp only [divsteps_init]; exact h.2)
    (by omega)
  refine ⟨⟨by omega, by omega⟩, ?_⟩
  rw [abs_le]
  omega

set_option maxRecDepth 100000 in
theorem modinv_eta_range_witness :
    (3 < 12 ∧ 40 ≤ 62) ∧
    ((-745 ≤ (divsteps_62_loop 40 (divsteps_init
        (modinv_loop modinfo3 3 (modinv_init (ofLimb 2) modinfo3)).eta
        (toU64 (modinv_loop modinfo3 3 (modinv_init (ofLimb 2) modinfo3)).f.v0)
        (toU64 (modinv_loop modinfo3 3 (modinv_init (ofLimb 2) modinfo3)).g.v0))).eta ∧
      (divsteps_62_loop 40 (divsteps_init
        (modinv_loop modinfo3 3 (modinv_init (ofLimb 2) modinfo3)).eta
        (toU64 (modinv_loop modinfo3 3 (modinv_init (ofLimb 2) modinfo3)).f.v0)
        (toU64 (modinv_loop modinfo3 3 (modinv_init (ofLimb 2) modinfo3)).g.v0))).eta ≤ 745) ∧
    |(divsteps_62_loop 40 (divsteps_init
        (modinv_loop modinfo3 3 (modinv_init (ofLimb 2) modinfo3)).eta
        (toU64 (modinv_loop modinfo3 3 (modinv_init (ofLimb 2) modinfo3)).f.v0)
        (toU64 (modinv_loop modinfo3 3 (modinv_init (ofLimb 2) modinfo3)).g.v0))).eta|
      ≤ 1 + 62 * ((3 : Nat) : Int) + (40 : Nat)) :=
  ⟨⟨by decide, by decide⟩, modinv_eta_range modinfo3 (ofLimb 2) 3 40 (by decide) (by decide)⟩

/-! ## The cancellation step of `divsteps_62_var` -/

theorem add_mul_word (g f w p : Nat) (hp : p ≤ 64) (h : (g + f * w) % 2 ^ p = 0) :
    add64 g (mul64 f w) % 2 ^ p = 0 := by
  unfold add64 mul64
  have hd : 2 ^ p ∣ 18446744073709551616 := by
    have := pow_dvd_pow 2 hp
    norm_num at this
    exact this
  rw [Nat.mod_mod_of_dvd _ hd]
  have h2 : g + f * w % 18446744073709551616 ≡ g + f * w [MOD 2 ^ p] :=
    Nat.ModEq.add_left g ((Nat.mod_modEq _ _).of_dvd hd |>.trans (Nat.ModEq.refl _))
  rw [← h]
  exact h2

theorem var_cancel_swap_clears (i : Nat) (s : DivState) (hi1 : 1 ≤ i) (hi : i ≤ 62)
    (h0 : -1000000 < s.eta) (h1 : s.eta < 0) (hg : s.g % 2 = 1)
    (L : Nat) (hL : (L : Int) = if -s.eta + 1 > (i : Int) then (i : Int) else -s.eta + 1) :
    (UINT64_MAX >>> (64 - L)) &&& 63 = 2 ^ (min L 6) - 1 ∧
    (divsteps_62_var_cancel { i := i, s := s }).s.f = s.g ∧
    (divsteps_62_var_cancel { i := i, s := s }).s.g =
      add64 (neg64 s.f) (mul64 s.g
        ((mul64 (mul64 s.g (neg64 s.f)) (sub64 (mul64 s.g s.g) 2)
          &&& ((UINT64_MAX >>> (64 - L)) &&& 63)) % 4294967296)) ∧
    (divsteps_62_var_cancel { i := i, s := s }).s.g &&& ((UINT64_MAX >>> (64 - L)) &&& 63) = 0 := by
  have he : subI64 0 s.eta = -s.eta := by
    unfold subI64; rw [wrapI64_eq _ (by omega) (by omega)]; ring
  have hw1 : wrapI32 (wrapI32 (-s.eta) + 1) = -s.eta + 1 := by
    rw [wrapI32_eq (-s.eta) (by omega) (by omega), wrapI32_eq _ (by omega) (by omega)]
  have hL1 : 1 ≤ L := by split at hL <;> omega
  have hL2 : L ≤ 62 := by split at hL <;> omega
  have hm := mask63 L hL1 hL2
  have e64 : ((64 : Int) - (L : Int)).toNat = 64 - L := by omega
  have hgo : (divsteps_62_var_cancel { i := i, s := s }).s.g =
      add64 (neg64 s.f) (mul64 s.g
        ((mul64 (mul64 s.g (neg64 s.f)) (sub64 (mul64 s.g s.g) 2)
          &&& ((UINT64_MAX >>> (64 - L)) &&& 63)) % 4294967296)) := by
    simp only [divsteps_62_var_cancel, if_pos h1, he, hw1]
    rw [← hL, e64]
  refine ⟨hm, ?_, hgo, ?_⟩
  · simp only [divsteps_62_var_cancel, if_pos h1]
  · rw [hgo, hm, and_pow_mask, and_pow_mask, mod_pow_small _ _ (by omega)]
    apply add_mul_word _ _ _ _ (by omega)
    exact cancel_masked s.g (neg64 s.f) _ (min L 6) 6 (by omega) (cancel6 s.g (neg64 s.f) hg)

theorem var_cancel_straight_clears (i : Nat) (s : DivState) (hi1 : 1 ≤ i) (hi : i ≤ 62)
    (h0 : 0 ≤ s.eta) (h1 : s.eta < 1000000) (hf : s.f % 2 = 1)
    (L : Nat) (hL : (L : Int) = if s.eta + 1 > (i : Int) then (i : Int) else s.eta + 1) :
    (UINT64_MAX >>> (64 - L)) &&& 15 = 2 ^ (min L 4) - 1 ∧
    (divsteps_62_var_cancel { i := i, s := s }).s.f = s.f ∧
    (divsteps_62_var_cancel { i := i, s := s }).s.g =
      add64 s.g (mul64 s.f
        ((mul64 ((4294967296 - (add64 s.f (shl64 (add64 s.f 1 &&& 4) 1)) % 4294967296)
            % 4294967296) s.g
          &&& ((UINT64_MAX >>> (64 - L)) &&& 15)) % 4294967296)) ∧
    (divsteps_62_var_cancel { i := i, s := s }).s.g &&& ((UINT64_MAX >>> (64 - L)) &&& 15) = 0 := by
  have hw1 : wrapI32 (wrapI32 s.eta + 1) = s.eta + 1 := by
    rw [wrapI32_eq s.eta (by omega) (by omega), wrapI32_eq _ (by omega) (by omega)]
  have hL1 : 1 ≤ L := by split at hL <;> omega
  have hL2 : L ≤ 62 := by split at hL <;> omega
  have hm := mask15 L hL1 hL2
  have e64 : ((64 : Int) - (L : Int)).toNat = 64 - L := by omega
  have hneg : ¬ (s.eta < 0) := by omega
  have hgo : (divsteps_62_var_cancel { i := i, s := s }).s.g =
      add64 s.g (mul64 s.f
        ((mul64 ((4294967296 - (add64 s.f (shl64 (add64 s.f 1 &&& 4) 1)) % 4294967296)
            % 4294967296) s.g
          &&& ((UINT64_MAX >>> (64 - L)) &&& 15)) % 4294967296)) := by
    simp only [divsteps_62_var_cancel, if_neg hneg, hw1]
    rw [← hL, e64]
  refine ⟨hm, ?_, hgo, ?_⟩
  · simp only [divsteps_62_var_cancel, if_neg hneg]
  · rw [hgo, hm, and_pow_mask, and_pow_mask, mod_pow_small _ _ (by omega)]
    apply add_mul_word _ _ _ _ (by omega)
    exact cancel_masked s.f s.g _ (min L 4) 4 (by omega) (cancel4 s.f s.g hf)

/-- **C18.** In `divsteps_62_var`, at the cancellation step with `1 ≤ i ≤ 62` passes left and
`eta` in `[-745, 745]`, let `limit` be the value the code computes, `min (i, eta' + 1)` with
`eta'` the eta after the possible negation (every value in `[1, 62]` arises). In the swapped
branch (`eta < 0`, the new `f`, which is the old `g`, odd), with
`m = (UINT64_MAX >> (64 - limit)) & 63` and `w = (f*g*(f*f - 2)) & m`, the updated
`g + f*w` has `(g + f*w) & m = 0`. In the straight branch (`eta ≥ 0`, `f` odd), with
`m = (UINT64_MAX >> (64 - limit)) & 15` and `w = (-(f + (((f + 1) & 4) << 1)) * g) & m`
computed as a 32-bit word, the updated `g + f*w` has `(g + f*w) & m = 0`. The masks are
`2^min(limit, 6) - 1` and `2^min(limit, 4) - 1`: the bottom `min (limit, 6)` resp.
`min (limit, 4)` bits of `g` are cleared. -/
theorem divsteps_62_var_cancel_clears (i : Nat) (s : DivState) (limit : Nat)
    (hi1 : 1 ≤ i) (hi : i ≤ 62) (he0 : -745 ≤ s.eta) (he1 : s.eta ≤ 745) :
    (s.eta < 0 → s.g % 2 = 1 →
      (limit : Int) = (if -s.eta + 1 > (i : Int) then (i : Int) else -s.eta + 1) →
      (1 ≤ limit ∧ limit ≤ 62) ∧
      (UINT64_MAX >>> (64 - limit)) &&& 63 = 2 ^ (min limit 6) - 1 ∧
      (divsteps_62_var_cancel { i := i, s := s }).s.f = s.g ∧
      (divsteps_62_var_cancel { i := i, s := s }).s.g =
        add64 (neg64 s.f) (mul64 s.g
          ((mul64 (mul64 s.g (neg64 s.f)) (sub64 (mul64 s.g s.g) 2)
            &&& ((UINT64_MAX >>> (64 - limit)) &&& 63)) % 4294967296)) ∧
      (divsteps_62_var_cancel { i := i, s := s }).s.g
        &&& ((UINT64_MAX >>> (64 - limit)) &&& 63) = 0 ∧
      (divsteps_62_var_cancel { i := i, s := s }).s.g % 2 ^ (min limit 6) = 0) ∧
    (0 ≤ s.eta → s.f % 2 = 1 →
      (limit : Int) = (if s.eta + 1 > (i : Int) then (i : Int) else s.eta + 1) →
      (1 ≤ limit ∧ limit ≤ 62) ∧
      (UINT64_MAX >>> (64 - limit)) &&& 15 = 2 ^ (min limit 4) - 1 ∧
      (divsteps_62_var_cancel { i := i, s := s }).s.f = s.f ∧
      (divsteps_62_var_cancel { i := i, s := s }).s.g =
        add64 s.g (mul64 s.f
          ((mul64 ((4294967296 - (add64 s.f (shl64 (add64 s.f 1 &&& 4) 1)) % 4294967296)
              % 4294967296) s.g
            &&& ((UINT64_MAX >>> (64 - limit)) &&& 15)) % 4294967296)) ∧
      (divsteps_62_var_cancel { i := i, s := s }).s.g
        &&& ((UINT64_MAX >>> (64 - limit)) &&& 15) = 0 ∧
      (divsteps_62_var_cancel { i := i, s := s }).s.g % 2 ^ (min limit 4) = 0) := by
  constructor
  · intro h1 hg hL
    obtain ⟨a, b, c, d⟩ := var_cancel_swap_clears i s hi1 hi (by omega) h1 hg limit hL
    refine ⟨by split at hL <;> omega, a, b, c, d, ?_⟩
    rw [a, and_pow_mask] at d
    exact d
  · intro h0 hf hL
    obtain ⟨a, b, c, d⟩ := var_cancel_straight_clears i s hi1 hi h0 (by omega) hf limit hL
    refine ⟨by split at hL <;> omega, a, b, c, d, ?_⟩
    rw [a, and_pow_mask] at d
    exact d

set_option maxRecDepth 100000 in
theorem divsteps_62_var_cancel_clears_witness :
    ((1 ≤ 10 ∧ 10 ≤ 62 ∧ -745 ≤ var_state_swap.eta ∧ var_state_swap.eta ≤ 745) ∧
      var_state_swap.eta < 0 ∧ var_state_swap.g % 2 = 1 ∧
      ((4 : Nat) : Int) = (if -var_state_swap.eta + 1 > ((10 : Nat) : Int) then ((10 : Nat) : Int)
        else -var_state_swap.eta + 1)) ∧
    ((1 ≤ 4 ∧ 4 ≤ 62) ∧
      (UINT64_MAX >>> (64 - 4)) &&& 63 = 2 ^ (min 4 6) - 1 ∧
      (divsteps_62_var_cancel { i := (10 : Nat), s := var_state_swap }).s.f = var_state_swap.g ∧
      (divsteps_62_var_cancel { i := (10 : Nat), s := var_state_swap }).s.g =
        add64 (neg64 var_state_swap.f) (mul64 var_state_swap.g
          ((mul64 (mul64 var_state_swap.g (neg64 var_state_swap.f))
              (sub64 (mul64 var_state_swap.g var_state_swap.g) 2)
            &&& ((UINT64_MAX >>> (64 - 4)) &&& 63)) % 4294967296)) ∧
      (divsteps_62_var_cancel { i := (10 : Nat), s := var_state_swap }).s.g
        &&& ((UINT64_MAX >>> (64 - 4)) &&& 63) = 0 ∧
      (divsteps_62_var_cancel { i := (10 : Nat), s := var_state_swap }).s.g % 2 ^ (min 4 6) = 0) ∧
    ((0 ≤ var_state_straight.eta ∧ var_state_straight.f % 2 = 1 ∧
      ((3 : Nat) : Int) = (if var_state_straight.eta + 1 > ((10 : Nat) : Int)
        then ((10 : Nat) : Int) else var_state_straight.eta + 1)) ∧
      (divsteps_62_var_cancel { i := (10 : Nat), s := var_state_straight }).s.g
        &&& ((UINT64_MAX >>> (64 - 3)) &&& 15) = 0) :=
  have hs : (1 ≤ 10 ∧ 10 ≤ 62 ∧ -745 ≤ var_state_swap.eta ∧ var_state_swap.eta ≤ 745) := by
    decide
  have h1 : var_state_swap.eta < 0 := by decide
  have hg : var_state_swap.g % 2 = 1 := by decide
  have hL : ((4 : Nat) : Int) = (if -var_state_swap.eta + 1 > ((10 : Nat) : Int)
      then ((10 : Nat) : Int) else -var_state_swap.eta + 1) := by decide
  have h0 : 0 ≤ var_state_straight.eta := by decide
  have hf : var_state_straight.f % 2 = 1 := by decide
  have hL2 : ((3 : Nat) : Int) = (if var_state_straight.eta + 1 > ((10 : Nat) : Int)
      then ((10 : Nat) : Int) else var_state_straight.eta + 1) := by decide
  ⟨⟨hs, h1, hg, hL⟩,
    (divsteps_62_var_cancel_clears 10 var_state_swap 4 hs.1 hs.2.1 hs.2.2.1 hs.2.2.2).1 h1 hg hL,
    ⟨h0, hf, hL2⟩,
    ((divsteps_62_var_cancel_clears 10 var_state_straight 3 (by decide) (by decide) (by decide)
      (by decide)).2 h0 hf hL2).2.2.2.2.1⟩

/-! ## Termination of the `divsteps_62_var` loop -/

theorem var_shift_zeros (st : VarState) (h : VarOK st) :
    (var_zeros st : Int) ≤ st.i ∧
    (divsteps_62_var_shift st).i = st.i - var_zeros st ∧
    (divsteps_62_var_shift st).s.WF ∧
    (divsteps_62_var_shift st).s.f = st.s.f ∧
    (divsteps_62_var_shift st).s.eta = st.s.eta - var_zeros st ∧
    ((divsteps_62_var_shift st).i ≠ 0 → (divsteps_62_var_shift st).s.g % 2 = 1) ∧
    (st.s.g % 2 = 0 → 1 ≤ var_zeros st) := by
  obtain ⟨i1, i2, wf, fo, e0, e1⟩ := h
  obtain ⟨i, hi⟩ : ∃ i : Nat, st.i = (i : Int) := ⟨st.i.toNat, by omega⟩
  have hst : st = { i := (i : Int), s := st.s } := by
    cases st; simp only at hi; simp [hi]
  have hi62 : i ≤ 62 := by omega
  obtain ⟨hz1, hz2, hz3⟩ := ctz_spec st.s.g i wf.g hi62
  have hzz : var_zeros st = secp256k1_ctz64_var (st.s.g ||| shl64 UINT64_MAX i) := by
    unfold var_zeros; rw [hi, Int.toNat_ofNat]
  rw [← hzz] at hz1 hz2 hz3
  have hsh : divsteps_62_var_shift st =
      { i := ((i - var_zeros st : Nat) : Int), s := divsteps_62_loop (var_zeros st) st.s } := by
    have hle := loop_even (var_zeros st) st.s wf (by omega) (by omega) (by omega) hz2
    rw [hle]
    conv_lhs => rw [hst]
    simp only [divsteps_62_var_shift, Int.toNat_ofNat]
    rw [← hzz]
    have e1' : wrapI32 ((i : Int) - (var_zeros st : Int)) = ((i - var_zeros st : Nat) : Int) := by
      rw [wrapI32_eq _ (by omega) (by omega)]; omega
    have e2 : subI64 st.s.eta (var_zeros st : Int) = st.s.eta - var_zeros st := by
      unfold subI64; rw [wrapI64_eq _ (by omega) (by omega)]
    rw [e1', e2]
    simp only [shl64, Nat.shiftLeft_eq, Nat.shiftRight_eq_div_pow]
  have hle := loop_even (var_zeros st) st.s wf (by omega) (by omega) (by omega) hz2
  refine ⟨by omega, ?_, ?_, ?_, ?_, ?_, ?_⟩
  · rw [hsh]; dsimp only; omega
  · rw [hsh, hle]
    refine ⟨wf.f, ?_, ?_, ?_, wf.q, wf.r⟩
    · dsimp only
      exact lt_of_le_of_lt (Nat.div_le_self _ _) wf.g
    · dsimp only; omega
    · dsimp only; omega
  · rw [hsh, hle]
  · rw [hsh, hle]
  · rw [hsh]
    dsimp only
    intro hne
    rw [hle]
    dsimp only
    exact hz3 (by omega)
  · intro hev
    by_contra hc
    have hz0 : var_zeros st = 0 := by omega
    have := hz3 (by omega)
    rw [hz0] at this
    simp at this
    omega

theorem word_even (x p : Nat) (hp : 1 ≤ p) (h : x % 2 ^ p = 0) : x % 2 = 0 := by
  have := even_of_low_zero x p 0 h (by omega)
  simpa using this

theorem var_cancel_ok (st : VarState) (hi1 : 1 ≤ st.i) (hi2 : st.i ≤ 62) (wf : st.s.WF)
    (hg : st.s.g % 2 = 1) (hf : st.s.f % 2 = 1)
    (e0 : -(745 + (62 - st.i)) ≤ st.s.eta) (e1 : st.s.eta ≤ 745 + (62 - st.i)) :
    VarOK (divsteps_62_var_cancel st) ∧ (divsteps_62_var_cancel st).i = st.i ∧
    (divsteps_62_var_cancel st).s.g % 2 = 0 := by
  obtain ⟨i, hi⟩ : ∃ i : Nat, st.i = (i : Int) := ⟨st.i.toNat, by omega⟩
  have hst : st = { i := (i : Int), s := st.s } := by
    cases st; simp only at hi; simp [hi]
  have hi1' : 1 ≤ i := by omega
  have hi62 : i ≤ 62 := by omega
  by_cases hneg : st.s.eta < 0
  · obtain ⟨p, w, hp1, hp2, hp3, hw, hcan, hceq⟩ :=
      var_cancel_swap i st.s hi1' hi62 (by omega) hneg hg
    rw [hst, hceq]
    have hev := word_even _ p hp1 (add_mul_word _ _ _ p (by omega) hcan)
    refine ⟨⟨by dsimp only; omega, by dsimp only; omega, ?_, hg, by dsimp only; omega,
      by dsimp only; omega⟩, rfl, hev⟩
    refine ⟨wf.g, ?_, wf.q, wf.r, ?_, ?_⟩ <;> dsimp only <;> unfold add64 <;> omega
  · obtain ⟨p, w, hp1, hp2, hp3, hw, hcan, hceq⟩ :=
      var_cancel_straight i st.s hi1' hi62 (by omega) (by omega) hf
    rw [hst, hceq]
    have hev := word_even _ p hp1 (add_mul_word _ _ _ p (by omega) hcan)
    refine ⟨⟨by dsimp only; omega, by dsimp only; omega, ?_, hf, by dsimp only; omega,
      by dsimp only; omega⟩, rfl, hev⟩
    refine ⟨wf.f, ?_, wf.u, wf.v, ?_, ?_⟩ <;> dsimp only <;> unfold add64 <;> omega

/-- One full pass that does not leave the loop: the invariant holds again, `g` is even, and
`i` has dropped by `zeros`. -/
theorem var_pass_ok (st : VarState) (h : VarOK st)
    (hne : (divsteps_62_var_shift st).i ≠ 0) :
    VarOK (divsteps_62_var_cancel (divsteps_62_var_shift st)) ∧
    (divsteps_62_var_cancel (divsteps_62_var_shift st)).i = st.i - var_zeros st ∧
    (divsteps_62_var_cancel (divsteps_62_var_shift st)).s.g % 2 = 0 := by
  obtain ⟨z1, z2, z3, z4, z5, z6, z7⟩ := var_shift_zeros st h
  have hc := var_cancel_ok (divsteps_62_var_shift st) (by omega) (by have := h.i_hi; omega) z3
    (z6 hne) (by rw [z4]; exact h.f_odd)
    (by have := h.eta_lo; omega) (by have := h.eta_hi; omega)
  exact ⟨hc.1, by rw [hc.2.1, z2], hc.2.2⟩

theorem pass_start_inv (n : Nat) : ∀ (st0 st : VarState) (e : Int), VarOK st0 →
    (e = 0 ∨ (e = 1 ∧ st0.s.g % 2 = 0)) → var_pass_start n st0 = some st →
    VarOK st ∧ (1 ≤ n → st.s.g % 2 = 0) ∧ st.i + n ≤ st0.i + 1 - e := by
  induction n with
  | zero =>
    intro st0 st e h0 he hs
    simp only [var_pass_start, Option.some.injEq] at hs
    subst hs
    refine ⟨h0, by omega, ?_⟩
    push_cast
    omega
  | succ n ih =>
    intro st0 st e h0 he hs
    simp only [var_pass_start] at hs
    by_cases hz : (divsteps_62_var_shift st0).i = 0
    · rw [if_pos hz] at hs; exact absurd hs (by simp)
    · rw [if_neg hz] at hs
      obtain ⟨p1, p2, p3⟩ := var_pass_ok st0 h0 hz
      obtain ⟨q1, q2, q3⟩ := ih _ st 1 p1 (Or.inr ⟨rfl, p3⟩) hs
      have hz7 := (var_shift_zeros st0 h0).2.2.2.2.2.2
      refine ⟨q1, ?_, ?_⟩
      · intro _
        rcases Nat.eq_zero_or_pos n with hn | hn
        · subst hn
          simp only [var_pass_start, Option.some.injEq] at hs
          rw [← hs]; exact p3
        · exact q2 hn
      · push_cast
        rcases he with he | ⟨he, hg⟩
        · omega
        · have := hz7 hg
          omega

theorem var_loop_exit (fuel : Nat) : ∀ (st st' : VarState),
    divsteps_62_var_loop fuel st = some st' → st'.i = 0 := by
  induction fuel with
  | zero => intro st st' h; simp [divsteps_62_var_loop] at h
  | succ fuel ih =>
    intro st st' h
    simp only [divsteps_62_var_loop] at h
    by_cases hz : (divsteps_62_var_shift st).i = 0
    · rw [if_pos hz] at h
      simp only [Option.some.injEq] at h
      rw [← h]; exact hz
    · rw [if_neg hz] at h
      exact ih _ _ h

theorem var_init_ok (eta : Int) (f0 g0 : Nat) (h0 : -745 ≤ eta) (h1 : eta ≤ 745)
    (hf : f0 < 18446744073709551616) (hg : g0 < 18446744073709551616) (hodd : f0 % 2 = 1) :
    VarOK { i := 62, s := divsteps_init eta f0 g0 } := by
  refine ⟨by simp, by simp, ⟨hf, hg, ?_, ?_, ?_, ?_⟩, hodd, ?_, ?_⟩ <;>
    simp [divsteps_init] <;> omega

theorem pass_start_loop (n : Nat) : ∀ (st0 st : VarState) (k : Nat),
    var_pass_start n st0 = some st →
    divsteps_62_var_loop (n + k) st0 = divsteps_62_var_loop k st ∧
    var_pass_start (n + k) st0 = var_pass_start k st := by
  induction n with
  | zero =>
    intro st0 st k hs
    simp only [var_pass_start, Option.some.injEq] at hs
    subst hs
    simp
  | succ n ih =>
    intro st0 st k hs
    simp only [var_pass_start] at hs
    by_cases hz : (divsteps_62_var_shift st0).i = 0
    · rw [if_pos hz] at hs; exact absurd hs (by simp)
    · rw [if_neg hz] at hs
      obtain ⟨a, b⟩ := ih _ st k hs
      have e : n + 1 + k = (n + k) + 1 := by omega
      rw [e]
      simp only [divsteps_62_var_loop, var_pass_start, if_neg hz]
      exact ⟨a, b⟩

/-- **C19.** For `eta` in `[-745, 745]`, an odd 64-bit word `f0` and a 64-bit word `g0`, the
loop of `divsteps_62_var` terminates: with any bound of at least 63 passes it leaves through
`break`, and it leaves only with `i = 0`. At the start of every pass that is reached (at
most 63 of them) `1 ≤ i ≤ 62`; the trailing-zero count satisfies `0 ≤ zeros ≤ i`, so
`i - zeros` stays in `[0, 62]`; on every pass after the first `zeros ≥ 1`, so `i` strictly
decreases; when `i - zeros = 0` the loop leaves in this pass, otherwise it goes on with this
`i`. -/
theorem divsteps_62_var_terminates (eta : Int) (f0 g0 : Nat)
    (h0 : -745 ≤ eta) (h1 : eta ≤ 745) (hf : f0 < 2 ^ 64) (hodd : f0 % 2 = 1)
    (hg : g0 < 2 ^ 64) :
    (∀ fuel, 63 ≤ fuel → ∃ st,
      divsteps_62_var_loop fuel { i := 62, s := divsteps_init eta f0 g0 } = some st ∧
      st.i = 0) ∧
    (∀ fuel st st2, divsteps_62_var_loop fuel st = some st2 → st2.i = 0) ∧
    (∀ n st, var_pass_start n { i := 62, s := divsteps_init eta f0 g0 } = some st →
      n ≤ 62 ∧ (1 ≤ st.i ∧ st.i ≤ 62) ∧
      (0 ≤ (var_zeros st : Int) ∧ (var_zeros st : Int) ≤ st.i) ∧
      (divsteps_62_var_shift st).i = st.i - var_zeros st ∧
      (0 ≤ (divsteps_62_var_shift st).i ∧ (divsteps_62_var_shift st).i ≤ 62) ∧
      (1 ≤ n → (divsteps_62_var_shift st).i < st.i) ∧
      ((divsteps_62_var_shift st).i = 0 → ∀ k,
        divsteps_62_var_loop (n + (k + 1)) { i := 62, s := divsteps_init eta f0 g0 }
          = some (divsteps_62_var_shift st)) ∧
      ((divsteps_62_var_shift st).i ≠ 0 →
        var_pass_start (n + 1) { i := 62, s := divsteps_init eta f0 g0 }
          = some (divsteps_62_var_cancel (divsteps_62_var_shift st)) ∧
        (divsteps_62_var_cancel (divsteps_62_var_shift st)).i
          = (divsteps_62_var_shift st).i)) := by
  have hf' : f0 < 18446744073709551616 := by norm_num at hf; exact hf
  have hg' : g0 < 18446744073709551616 := by norm_num at hg; exact hg
  have hinit := var_init_ok eta f0 g0 h0 h1 hf' hg' hodd
  refine ⟨?_, fun fuel st st2 h => var_loop_exit fuel st st2 h, ?_⟩
  · intro fuel hfuel
    have he := divsteps_62_var_eq fuel eta f0 g0 hfuel h0 h1 hf' hodd hg'
    unfold secp256k1_modinv64_divsteps_62_var at he
    cases hl : divsteps_62_var_loop fuel { i := 62, s := divsteps_init eta f0 g0 } with
    | none => rw [hl] at he; simp at he
    | some st => exact ⟨st, rfl, var_loop_exit fuel _ st hl⟩
  · intro n st hs
    obtain ⟨ok, hev, hb⟩ := pass_start_inv n _ st 0 hinit (Or.inl rfl) hs
    obtain ⟨z1, z2, z3, z4, z5, z6, z7⟩ := var_shift_zeros st ok
    have hi1 := ok.i_lo
    have hi2 := ok.i_hi
    dsimp only at hb
    refine ⟨by omega, ⟨hi1, hi2⟩, ⟨by omega, z1⟩, z2, ⟨by omega, by omega⟩, ?_, ?_, ?_⟩
    · intro hn
      have := z7 (hev hn)
      omega
    · intro hz k
      rw [(pass_start_loop n _ st (k + 1) hs).1]
      simp only [divsteps_62_var_loop, if_pos hz]
    · intro hz
      rw [(pass_start_loop n _ st 1 hs).2]
      simp only [var_pass_start, if_neg hz]
      exact ⟨trivial, (var_pass_ok st ok hz).2.1.trans z2.symm⟩

set_option maxRecDepth 100000 in
theorem divsteps_62_var_terminates_witness :
    (-745 ≤ (-1 : Int) ∧ (-1 : Int) ≤ 745 ∧ 7 < 2 ^ 64 ∧ 7 % 2 = 1 ∧ 12 < 2 ^ 64) ∧
    ((∀ fuel, 63 ≤ fuel → ∃ st,
      divsteps_62_var_loop fuel { i := 62, s := divsteps_init (-1) 7 12 } = some st ∧
      st.i = 0) ∧
    (∀ fuel st st2, divsteps_62_var_loop fuel st = some st2 → st2.i = 0) ∧
    (∀ n st, var_pass_start n { i := 62, s := divsteps_init (-1) 7 12 } = some st →
      n ≤ 62 ∧ (1 ≤ st.i ∧ st.i ≤ 62) ∧
      (0 ≤ (var_zeros st : Int) ∧ (var_zeros st : Int) ≤ st.i) ∧
      (divsteps_62_var_shift st).i = st.i - var_zeros st ∧
      (0 ≤ (divsteps_62_var_shift st).i ∧ (divsteps_62_var_shift st).i ≤ 62) ∧
      (1 ≤ n → (divsteps_62_var_shift st).i < st.i) ∧
      ((divsteps_62_var_shift st).i = 0 → ∀ k,
        divsteps_62_var_loop (n + (k + 1)) { i := 62, s := divsteps_init (-1) 7 12 }
          = some (divsteps_62_var_shift st)) ∧
      ((divsteps_62_var_shift st).i ≠ 0 →
        var_pass_start (n + 1) { i := 62, s := divsteps_init (-1) 7 12 }
          = some (divsteps_62_var_cancel (divsteps_62_var_shift st)) ∧
        (divsteps_62_var_cancel (divsteps_62_var_shift st)).i
          = (divsteps_62_var_shift st).i))) :=
  ⟨⟨by decide, by decide, by norm_num, by decide, by norm_num⟩,
    divsteps_62_var_terminates (-1) 7 12 (by decide) (by decide) (by norm_num) (by decide)
      (by norm_num)⟩

/-! ## `update_de_62` does not overflow -/

theorem de_row_columns (u v : Int) (d e : Signed62) (modinfo : ModInfo) :
    update_de_62_row u v d e modinfo =
      (let md := de_md u v d e modinfo
       let c0 := de_cd u v d e modinfo
       let c1 := de_column (sar c0 62) (u * d.v1) (v * e.v1) (modinfo.modulus.v1 * md)
         (modinfo.modulus.v1 ≠ 0)
       let c2 := de_column (sar c1 62) (u * d.v2) (v * e.v2) (modinfo.modulus.v2 * md)
         (modinfo.modulus.v2 ≠ 0)
       let c3 := de_column (sar c2 62) (u * d.v3) (v * e.v3) (modinfo.modulus.v3 * md)
         (modinfo.modulus.v3 ≠ 0)
       let c4 := de_column (sar c3 62) (u * d.v4) (v * e.v4) (modinfo.modulus.v4 * md) True
       { v0 := andI64 (wrapI64 c1) M62, v1 := andI64 (wrapI64 c2) M62,
         v2 := andI64 (wrapI64 c3) M62, v3 := andI64 (wrapI64 c4) M62,
         v4 := wrapI64 (sar c4 62) }) := rfl

theorem de_column_ok (cd p q n : Int) (guard : Prop) [Decidable guard]
    (hc : -1267650600228229401496703205376 ≤ cd ∧ cd ≤ 1267650600228229401496703205376)
    (hp : -21267647932558653966460912964485513216 ≤ p ∧
      p ≤ 21267647932558653966460912964485513216)
    (hq : -21267647932558653966460912964485513216 ≤ q ∧
      q ≤ 21267647932558653966460912964485513216)
    (hn : -42535295865117307932921825928971026432 ≤ n ∧
      n ≤ 42535295865117307932921825928971026432)
    (hg : ¬ guard → n = 0) :
    de_column cd p q n guard = cd + (p + q + n) ∧
    ∀ x ∈ de_column_ops cd p q n guard,
      -170141183460469231731687303715884105728 ≤ x ∧
      x < 170141183460469231731687303715884105728 := by
  have e1 : wrapI128 p = p := wrapI128_eq p (by omega) (by omega)
  have e2 : wrapI128 q = q := wrapI128_eq q (by omega) (by omega)
  have e3 : wrapI128 (p + q) = p + q := wrapI128_eq _ (by omega) (by omega)
  have e4 : wrapI128 (cd + (p + q)) = cd + (p + q) := wrapI128_eq _ (by omega) (by omega)
  have e5 : wrapI128 n = n := wrapI128_eq n (by omega) (by omega)
  have e6 : wrapI128 (cd + (p + q) + n) = cd + (p + q) + n :=
    wrapI128_eq _ (by omega) (by omega)
  unfold de_column de_column_ops
  simp only [e1, e2, e3, e4, e5, e6]
  by_cases h : guard
  · simp only [if_pos h]
    refine ⟨by ring, ?_⟩
    intro x hx
    simp only [List.mem_append, List.mem_cons, List.mem_singleton, List.not_mem_nil,
      or_false] at hx
    rcases hx with (rfl | rfl | rfl | rfl) | (rfl | rfl) <;> omega
  · simp only [if_neg h]
    have := hg h
    refine ⟨by omega, ?_⟩
    intro x hx
    simp only [List.mem_append, List.mem_cons, List.mem_singleton, List.not_mem_nil,
      or_false] at hx
    rcases hx with rfl | rfl | rfl | rfl <;> omega

theorem de_md_range (u v : Int) (d e : Signed62) (modinfo : ModInfo)
    (hT : u + v ≤ 4611686018427387904 ∧ u - v ≤ 4611686018427387904 ∧
      -u + v ≤ 4611686018427387904 ∧ -u - v ≤ 4611686018427387904)
    (hd : d.LimbsIn) (he : e.LimbsIn) :
    -9223372036854775808 < de_md u v d e modinfo ∧
    de_md u v d e modinfo ≤ 4611686018427387904 := by
  obtain ⟨hmd1, hmd2, -⟩ := de_md_spec u v d e modinfo hT hd he
  constructor
  · have : -4611686018427387904 ≤ (if d.v4 < 0 then u else 0) + (if e.v4 < 0 then v else 0) := by
      split <;> split <;> omega
    omega
  · have : (if d.v4 < 0 then u else 0) + (if e.v4 < 0 then v else 0) ≤ 4611686018427387904 := by
      split <;> split <;> omega
    omega

theorem de_md_eq (u v : Int) (d e : Signed62) (modinfo : ModInfo)
    (hT : u + v ≤ 4611686018427387904 ∧ u - v ≤ 4611686018427387904 ∧
      -u + v ≤ 4611686018427387904 ∧ -u - v ≤ 4611686018427387904)
    (hd : d.LimbsIn) (he : e.LimbsIn) :
    de_md u v d e modinfo =
      (if d.v4 < 0 then u else 0) + (if e.v4 < 0 then v else 0)
        - ((modinfo.modulus_inv62 : Int) * (u * d.v0 + v * e.v0)
          + ((if d.v4 < 0 then u else 0) + (if e.v4 < 0 then v else 0))) % 4611686018427387904 := by
  obtain ⟨hmd1, hmd2, hmd3⟩ := de_md_spec u v d e modinfo hT hd he
  rw [Int.ModEq] at hmd3
  generalize (modinfo.modulus_inv62 : Int) * (u * d.v0 + v * e.v0) = P at hmd3 ⊢
  generalize (if d.v4 < 0 then u else 0) + (if e.v4 < 0 then v else 0) = md0 at hmd1 hmd2 ⊢
  generalize de_md u v d e modinfo = md at hmd1 hmd2 hmd3 ⊢
  omega

theorem de_md_ops_ok (u v : Int) (d e : Signed62) (modinfo : ModInfo)
    (hT : u + v ≤ 4611686018427387904 ∧ u - v ≤ 4611686018427387904 ∧
      -u + v ≤ 4611686018427387904 ∧ -u - v ≤ 4611686018427387904)
    (hd : d.LimbsIn) (he : e.LimbsIn) :
    ∀ x ∈ de_md_ops u v d e modinfo, -9223372036854775808 ≤ x ∧ x < 9223372036854775808 := by
  have hd4 := hd.l4
  have he4 := he.l4
  simp only [de_md_ops]
  rw [andI64_sign u d.v4 (by omega) (by omega) (by omega) (by omega),
    andI64_sign v e.v4 (by omega) (by omega) (by omega) (by omega)]
  have hmr : -4611686018427387904 ≤ (if d.v4 < 0 then u else 0) + (if e.v4 < 0 then v else 0) ∧
      (if d.v4 < 0 then u else 0) + (if e.v4 < 0 then v else 0) ≤ 4611686018427387904 := by
    split <;> split <;> omega
  have hmd0 : addI64 (if d.v4 < 0 then u else 0) (if e.v4 < 0 then v else 0)
      = (if d.v4 < 0 then u else 0) + (if e.v4 < 0 then v else 0) := by
    unfold addI64
    exact wrapI64_eq _ (by omega) (by omega)
  rw [hmd0, toU64_M62, and_M62]
  generalize (if d.v4 < 0 then u else 0) + (if e.v4 < 0 then v else 0) = md0 at hmr ⊢
  intro x hx
  simp only [List.mem_cons, List.mem_singleton, List.not_mem_nil, or_false] at hx
  rcases hx with rfl | rfl
  · omega
  · generalize add64 (mul64 modinfo.modulus_inv62
      (toU64 (wrapI128 (wrapI128 (u * d.v0) + wrapI128 (v * e.v0))))) (toU64 md0) = y
    omega

theorem de_row_ops_ok (u v : Int) (d e : Signed62) (modinfo : ModInfo)
    (hT : u + v ≤ 4611686018427387904 ∧ u - v ≤ 4611686018427387904 ∧
      -u + v ≤ 4611686018427387904 ∧ -u - v ≤ 4611686018427387904)
    (hd : d.LimbsIn) (he : e.LimbsIn) (hM : modinfo.modulus.Normalized) :
    ∀ x ∈ update_de_62_row_ops u v d e modinfo,
      -170141183460469231731687303715884105728 ≤ x ∧
      x < 170141183460469231731687303715884105728 := by
  obtain ⟨hmr1, hmr2⟩ := de_md_range u v d e modinfo hT hd he
  have hmdr : -9223372036854775808 ≤ de_md u v d e modinfo ∧
      de_md u v d e modinfo ≤ 9223372036854775808 := by omega
  obtain ⟨d0, d1, d2, d3, d4⟩ := hd
  obtain ⟨e0, e1, e2, e3, e4⟩ := he
  obtain ⟨⟨m0, m1, m2, m3⟩, m4⟩ := hM
  have hp0 := lin_bound_one u v d.v0 _ 4611686018427387904 hT (by omega)
  have hp1 := lin_bound_one u v d.v1 _ 4611686018427387904 hT (by omega)
  have hp2 := lin_bound_one u v d.v2 _ 4611686018427387904 hT (by omega)
  have hp3 := lin_bound_one u v d.v3 _ 4611686018427387904 hT (by omega)
  have hp4 := lin_bound_one u v d.v4 _ 4611686018427387904 hT (by omega)
  have hq0 := lin_bound_two u v e.v0 _ 4611686018427387904 hT (by omega)
  have hq1 := lin_bound_two u v e.v1 _ 4611686018427387904 hT (by omega)
  have hq2 := lin_bound_two u v e.v2 _ 4611686018427387904 hT (by omega)
  have hq3 := lin_bound_two u v e.v3 _ 4611686018427387904 hT (by omega)
  have hq4 := lin_bound_two u v e.v4 _ 4611686018427387904 hT (by omega)
  have hm0 := mul_bound modinfo.modulus.v0 (de_md u v d e modinfo) 4611686018427387904
    9223372036854775808 (by omega) hmdr
  have hm1 := mul_bound modinfo.modulus.v1 (de_md u v d e modinfo) 4611686018427387904
    9223372036854775808 (by omega) hmdr
  have hm2 := mul_bound modinfo.modulus.v2 (de_md u v d e modinfo) 4611686018427387904
    9223372036854775808 (by omega) hmdr
  have hm3 := mul_bound modinfo.modulus.v3 (de_md u v d e modinfo) 4611686018427387904
    9223372036854775808 (by omega) hmdr
  have hm4 := mul_bound modinfo.modulus.v4 (de_md u v d e modinfo) 4611686018427387904
    9223372036854775808 (by omega) hmdr
  norm_num at hp0 hp1 hp2 hp3 hp4 hq0 hq1 hq2 hq3 hq4 hm0 hm1 hm2 hm3 hm4
  have hg1 : ¬ (modinfo.modulus.v1 ≠ 0) → modinfo.modulus.v1 * de_md u v d e modinfo = 0 := by
    intro h; have : modinfo.modulus.v1 = 0 := by simpa using h
    rw [this, zero_mul]
  have hg2 : ¬ (modinfo.modulus.v2 ≠ 0) → modinfo.modulus.v2 * de_md u v d e modinfo = 0 := by
    intro h; have : modinfo.modulus.v2 = 0 := by simpa using h
    rw [this, zero_mul]
  have hg3 : ¬ (modinfo.modulus.v3 ≠ 0) → modinfo.modulus.v3 * de_md u v d e modinfo = 0 := by
    intro h; have : modinfo.modulus.v3 = 0 := by simpa using h
    rw [this, zero_mul]
  simp only [update_de_62_row_ops, sar62]
  generalize de_md u v d e modinfo = md at *
  generalize u * d.v0 = p0 at *
  generalize u * d.v1 = p1 at *
  generalize u * d.v2 = p2 at *
  generalize u * d.v3 = p3 at *
  generalize u * d.v4 = p4 at *
  generalize v * e.v0 = q0 at *
  generalize v * e.v1 = q1 at *
  generalize v * e.v2 = q2 at *
  generalize v * e.v3 = q3 at *
  generalize v * e.v4 = q4 at *
  generalize modinfo.modulus.v0 * md = n0 at *
  generalize modinfo.modulus.v1 * md = n1 at *
  generalize modinfo.modulus.v2 * md = n2 at *
  generalize modinfo.modulus.v3 * md = n3 at *
  generalize modinfo.modulus.v4 * md = n4 at *
  have f1 : wrapI128 p0 = p0 := wrapI128_eq p0 (by omega) (by omega)
  have f2 : wrapI128 q0 = q0 := wrapI128_eq q0 (by omega) (by omega)
  have f3 : wrapI128 (p0 + q0) = p0 + q0 := wrapI128_eq _ (by omega) (by omega)
  have f4 : wrapI128 n0 = n0 := wrapI128_eq n0 (by omega) (by omega)
  have f5 : wrapI128 (p0 + q0 + n0) = p0 + q0 + n0 := wrapI128_eq _ (by omega) (by omega)
  simp only [f1, f2, f3, f4, f5]
  have hc0 : -85070591730234615865843651857942052864 ≤ p0 + q0 + n0 ∧
      p0 + q0 + n0 ≤ 85070591730234615865843651857942052864 := by omega
  generalize p0 + q0 + n0 = c0 at hc0 ⊢
  obtain ⟨k1, o1⟩ := de_column_ok (c0 / 4611686018427387904) p1 q1 n1 (modinfo.modulus.v1 ≠ 0)
    (by omega) hp1 hq1 hm1 hg1
  rw [k1]
  have hc1 : -170141183460469231731687303715884105728 ≤ c0 / 4611686018427387904 + (p1 + q1 + n1)
      ∧ c0 / 4611686018427387904 + (p1 + q1 + n1) < 170141183460469231731687303715884105728 := by
    omega
  generalize c0 / 4611686018427387904 + (p1 + q1 + n1) = c1 at hc1 ⊢
  obtain ⟨k2, o2⟩ := de_column_ok (c1 / 4611686018427387904) p2 q2 n2 (modinfo.modulus.v2 ≠ 0)
    (by omega) hp2 hq2 hm2 hg2
  rw [k2]
  have hc2 : -170141183460469231731687303715884105728 ≤ c1 / 4611686018427387904 + (p2 + q2 + n2)
      ∧ c1 / 4611686018427387904 + (p2 + q2 + n2) < 170141183460469231731687303715884105728 := by
    omega
  generalize c1 / 4611686018427387904 + (p2 + q2 + n2) = c2 at hc2 ⊢
  obtain ⟨k3, o3⟩ := de_column_ok (c2 / 4611686018427387904) p3 q3 n3 (modinfo.modulus.v3 ≠ 0)
    (by omega) hp3 hq3 hm3 hg3
  rw [k3]
  have hc3 : -170141183460469231731687303715884105728 ≤ c2 / 4611686018427387904 + (p3 + q3 + n3)
      ∧ c2 / 4611686018427387904 + (p3 + q3 + n3) < 170141183460469231731687303715884105728 := by
    omega
  generalize c2 / 4611686018427387904 + (p3 + q3 + n3) = c3 at hc3 ⊢
  obtain ⟨-, o4⟩ := de_column_ok (c3 / 4611686018427387904) p4 q4 n4 True
    (by omega) hp4 hq4 hm4 (by simp)
  intro x hx
  simp only [List.mem_append] at hx
  rcases hx with (((hx | hx) | hx) | hx) | hx
  · simp only [List.mem_cons, List.mem_singleton, List.not_mem_nil, or_false] at hx
    rcases hx with rfl | rfl | rfl | rfl | rfl <;> omega
  · exact o1 x hx
  · exact o2 x hx
  · exact o3 x hx
  · exact o4 x hx

theorem de_sum_bound2 (u v D E M md a b B : Int)
    (hT : u + v ≤ 4611686018427387904 ∧ u - v ≤ 4611686018427387904 ∧
      -u + v ≤ 4611686018427387904 ∧ -u - v ≤ 4611686018427387904)
    (hM : 0 ≤ M ∧ M ≤ B)
    (hD : -B ≤ D + a * M ∧ D + a * M ≤ B) (hE : -B ≤ E + b * M ∧ E + b * M ≤ B)
    (hmd1 : a * u + b * v - 4611686018427387904 < md) (hmd2 : md ≤ a * u + b * v) :
    -(4611686018427387904 * B) - B * 4611686018427387903 ≤ u * D + v * E + M * md ∧
    u * D + v * E + M * md ≤ 4611686018427387904 * B := by
  have hl := lin_bound u v (D + a * M) (E + b * M) 4611686018427387904 B hT hD hE
  have hk0 : 0 ≤ M * (a * u + b * v - md) := mul_nonneg hM.1 (by omega)
  have hk1 : M * (a * u + b * v - md) ≤ B * 4611686018427387903 :=
    mul_le_mul hM.2 (by omega) (by omega) (by omega)
  have e : u * D + v * E + M * md
      = (u * (D + a * M) + v * (E + b * M)) - M * (a * u + b * v - md) := by ring
  rw [e]
  constructor <;> linarith [hl.1, hl.2]

/-- The last carry of a row of `update_de_62` fits `int64_t` under the limb bounds alone, so
the row is the carry chain over the integers. -/
theorem de_row_exact (u v : Int) (d e : Signed62) (modinfo : ModInfo)
    (hT : u + v ≤ 4611686018427387904 ∧ u - v ≤ 4611686018427387904 ∧
      -u + v ≤ 4611686018427387904 ∧ -u - v ≤ 4611686018427387904)
    (hd : d.LimbsIn) (he : e.LimbsIn) (hM : modinfo.modulus.Normalized) :
    update_de_62_row u v d e modinfo =
      carry_row
        (u * d.v0 + v * e.v0 + modinfo.modulus.v0 * de_md u v d e modinfo)
        (u * d.v1 + v * e.v1 + modinfo.modulus.v1 * de_md u v d e modinfo)
        (u * d.v2 + v * e.v2 + modinfo.modulus.v2 * de_md u v d e modinfo)
        (u * d.v3 + v * e.v3 + modinfo.modulus.v3 * de_md u v d e modinfo)
        (u * d.v4 + v * e.v4 + modinfo.modulus.v4 * de_md u v d e modinfo) := by
  obtain ⟨hmd1, hmd2, -⟩ := de_md_spec u v d e modinfo hT hd he
  have hdn := neg_of_top_neg d hd
  have hen := neg_of_top_neg e he
  have hMv : 0 ≤ modinfo.modulus.value ∧ modinfo.modulus.value
      ≤ 2085924839766513752338888384931203236916703635113918720651407820138886450957656787131798913023 := by
    obtain ⟨⟨m0, m1, m2, m3⟩, m4⟩ := hM
    rw [value_def]; omega
  have hDv : -2085924839766513752338888384931203236916703635113918720651407820138886450957656787131798913023
      ≤ d.value ∧ d.value
      ≤ 2085924839766513752338888384931203236916703635113918720651407820138886450957656787131798913023 := by
    obtain ⟨d0, d1, d2, d3, d4⟩ := hd
    rw [value_def]; omega
  have hEv : -2085924839766513752338888384931203236916703635113918720651407820138886450957656787131798913023
      ≤ e.value ∧ e.value
      ≤ 2085924839766513752338888384931203236916703635113918720651407820138886450957656787131798913023 := by
    obtain ⟨e0, e1, e2, e3, e4⟩ := he
    rw [value_def]; omega
  have hsum := de_sum_bound2 u v d.value e.value modinfo.modulus.value (de_md u v d e modinfo)
    (if d.v4 < 0 then 1 else 0) (if e.v4 < 0 then 1 else 0)
    2085924839766513752338888384931203236916703635113918720651407820138886450957656787131798913023
    hT hMv
    (by split
        · rename_i h; have := hdn h; omega
        · omega)
    (by split
        · rename_i h; have := hen h; omega
        · omega)
    (by
      have e1 : (if d.v4 < 0 then (1 : Int) else 0) * u = if d.v4 < 0 then u else 0 := by
        split <;> simp
      have e2 : (if e.v4 < 0 then (1 : Int) else 0) * v = if e.v4 < 0 then v else 0 := by
        split <;> simp
      rw [e1, e2]; exact hmd1)
    (by
      have e1 : (if d.v4 < 0 then (1 : Int) else 0) * u = if d.v4 < 0 then u else 0 := by
        split <;> simp
      have e2 : (if e.v4 < 0 then (1 : Int) else 0) * v = if e.v4 < 0 then v else 0 := by
        split <;> simp
      rw [e1, e2]; exact hmd2)
  have hv := carry_row_value
    (u * d.v0 + v * e.v0 + modinfo.modulus.v0 * de_md u v d e modinfo)
    (u * d.v1 + v * e.v1 + modinfo.modulus.v1 * de_md u v d e modinfo)
    (u * d.v2 + v * e.v2 + modinfo.modulus.v2 * de_md u v d e modinfo)
    (u * d.v3 + v * e.v3 + modinfo.modulus.v3 * de_md u v d e modinfo)
    (u * d.v4 + v * e.v4 + modinfo.modulus.v4 * de_md u v d e modinfo)
  have hl := carry_row_limbs
    (u * d.v0 + v * e.v0 + modinfo.modulus.v0 * de_md u v d e modinfo)
    (u * d.v1 + v * e.v1 + modinfo.modulus.v1 * de_md u v d e modinfo)
    (u * d.v2 + v * e.v2 + modinfo.modulus.v2 * de_md u v d e modinfo)
    (u * d.v3 + v * e.v3 + modinfo.modulus.v3 * de_md u v d e modinfo)
    (u * d.v4 + v * e.v4 + modinfo.modulus.v4 * de_md u v d e modinfo)
  have hrow := de_row_eq u v d e modinfo hT hd he hM
  generalize carry_row
    (u * d.v0 + v * e.v0 + modinfo.modulus.v0 * de_md u v d e modinfo)
    (u * d.v1 + v * e.v1 + modinfo.modulus.v1 * de_md u v d e modinfo)
    (u * d.v2 + v * e.v2 + modinfo.modulus.v2 * de_md u v d e modinfo)
    (u * d.v3 + v * e.v3 + modinfo.modulus.v3 * de_md u v d e modinfo)
    (u * d.v4 + v * e.v4 + modinfo.modulus.v4 * de_md u v d e modinfo) = o at hv hl hrow ⊢
  have hmod : 0 ≤ (u * d.v0 + v * e.v0 + modinfo.modulus.v0 * de_md u v d e modinfo)
      % 4611686018427387904 ∧
      (u * d.v0 + v * e.v0 + modinfo.modulus.v0 * de_md u v d e modinfo)
      % 4611686018427387904 < 4611686018427387904 := by omega
  have hS : 4611686018427387904 * o.value
      + (u * d.v0 + v * e.v0 + modinfo.modulus.v0 * de_md u v d e modinfo) % 4611686018427387904
      = u * d.value + v * e.value + modinfo.modulus.value * de_md u v d e modinfo := by
    rw [value_expand u d, value_expand v e, mul_comm modinfo.modulus.value,
      value_expand (de_md u v d e modinfo) modinfo.modulus]
    linear_combination hv
  generalize (u * d.v0 + v * e.v0 + modinfo.modulus.v0 * de_md u v d e modinfo)
      % 4611686018427387904 = r at hmod hS
  generalize u * d.value + v * e.value + modinfo.modulus.value * de_md u v d e modinfo = S
    at hsum hS
  have ho4 : -9223372036854775808 ≤ o.v4 ∧ o.v4 < 9223372036854775808 := by
    have hov := value_def o
    clear hrow hv
    omega
  exact hrow ho4

theorem de_row_int_eq (u v : Int) (d e : Signed62) (modinfo : ModInfo)
    (hT : u + v ≤ 4611686018427387904 ∧ u - v ≤ 4611686018427387904 ∧
      -u + v ≤ 4611686018427387904 ∧ -u - v ≤ 4611686018427387904)
    (hd : d.LimbsIn) (he : e.LimbsIn) (hM : modinfo.modulus.Normalized) :
    update_de_62_row u v d e modinfo = update_de_62_row_int u v d e modinfo := by
  rw [de_row_exact u v d e modinfo hT hd he hM]
  simp only [update_de_62_row_int]
  rw [← de_md_eq u v d e modinfo hT hd he]

/-- **C20.** For a call of `update_de_62` with `|u|+|v| ≤ 2^62`, `|q|+|r| ≤ 2^62`, every
limb of `d` and `e` in `(-2^62, 2^62)` and every limb of `M` in `[0, 2^62)` (any
`modulus_inv62`): the exact result of every `int128_t` multiplication and addition on the
accumulators `cd` and `ce` lies in `[-2^127, 2^127)`, the exact results of the two `int64_t`
operations on `md` and on `me` lie in `[-2^63, 2^63)`, and the function returns what the same
computation over unbounded integers returns; in particular the last carry of each
accumulator fits `int64_t`, so the final cast is exact too. -/
theorem update_de_62_no_overflow (modinfo : ModInfo) (t : Trans2x2) (d e : Signed62)
    (hM : modinfo.modulus.Normalized)
    (hu : |t.u| + |t.v| ≤ 2 ^ 62) (hq : |t.q| + |t.r| ≤ 2 ^ 62)
    (hd : d.LimbsIn) (he : e.LimbsIn) :
    (∀ x ∈ update_de_62_row_ops t.u t.v d e modinfo, -2 ^ 127 ≤ x ∧ x < 2 ^ 127) ∧
    (∀ x ∈ update_de_62_row_ops t.q t.r d e modinfo, -2 ^ 127 ≤ x ∧ x < 2 ^ 127) ∧
    (∀ x ∈ de_md_ops t.u t.v d e modinfo, -2 ^ 63 ≤ x ∧ x < 2 ^ 63) ∧
    (∀ x ∈ de_md_ops t.q t.r d e modinfo, -2 ^ 63 ≤ x ∧ x < 2 ^ 63) ∧
    secp256k1_modinv64_update_de_62 d e t modinfo =
      (update_de_62_row_int t.u t.v d e modinfo, update_de_62_row_int t.q t.r d e modinfo) := by
  have hT1 := abs_sum_le _ _ _ (by norm_num at hu; exact hu : |t.u| + |t.v| ≤ 4611686018427387904)
  have hT2 := abs_sum_le _ _ _ (by norm_num at hq; exact hq : |t.q| + |t.r| ≤ 4611686018427387904)
  refine ⟨?_, ?_, ?_, ?_, ?_⟩
  · intro x hx
    have := de_row_ops_ok t.u t.v d e modinfo hT1 hd he hM x hx
    norm_num; exact this
  · intro x hx
    have := de_row_ops_ok t.q t.r d e modinfo hT2 hd he hM x hx
    norm_num; exact this
  · intro x hx
    have := de_md_ops_ok t.u t.v d e modinfo hT1 hd he x hx
    norm_num; exact this
  · intro x hx
    have := de_md_ops_ok t.q t.r d e modinfo hT2 hd he x hx
    norm_num; exact this
  · simp only [secp256k1_modinv64_update_de_62]
    rw [de_row_int_eq t.u t.v d e modinfo hT1 hd he hM,
      de_row_int_eq t.q t.r d e modinfo hT2 hd he hM]

set_option maxRecDepth 100000 in
theorem update_de_62_no_overflow_witness :
    (modinfo3.modulus.Normalized ∧
      |trans_5_7_14.u| + |trans_5_7_14.v| ≤ 2 ^ 62 ∧
      |trans_5_7_14.q| + |trans_5_7_14.r| ≤ 2 ^ 62 ∧
      (ofLimb (-3)).LimbsIn ∧ (ofLimb 1).LimbsIn) ∧
    ((∀ x ∈ update_de_62_row_ops trans_5_7_14.u trans_5_7_14.v (ofLimb (-3)) (ofLimb 1) modinfo3, -2 ^ 127 ≤ x ∧ x < 2 ^ 127) ∧
    (∀ x ∈ update_de_62_row_ops trans_5_7_14.q trans_5_7_14.r (ofLimb (-3)) (ofLimb 1) modinfo3, -2 ^ 127 ≤ x ∧ x < 2 ^ 127) ∧
    (∀ x ∈ de_md_ops trans_5_7_14.u trans_5_7_14.v (ofLimb (-3)) (ofLimb 1) modinfo3, -2 ^ 63 ≤ x ∧ x < 2 ^ 63) ∧
    (∀ x ∈ de_md_ops trans_5_7_14.q trans_5_7_14.r (ofLimb (-3)) (ofLimb 1) modinfo3, -2 ^ 63 ≤ x ∧ x < 2 ^ 63) ∧
    secp256k1_modinv64_update_de_62 (ofLimb (-3)) (ofLimb 1) trans_5_7_14 modinfo3 =
      (update_de_62_row_int trans_5_7_14.u trans_5_7_14.v (ofLimb (-3)) (ofLimb 1) modinfo3, update_de_62_row_int trans_5_7_14.q trans_5_7_14.r (ofLimb (-3)) (ofLimb 1) modinfo3)) :=
  have hM : modinfo3.modulus.Normalized := ofLimb_normalized 3 (by decide) (by decide)
  have hu : |trans_5_7_14.u| + |trans_5_7_14.v| ≤ 2 ^ 62 := by decide!
  have hq : |trans_5_7_14.q| + |trans_5_7_14.r| ≤ 2 ^ 62 := by decide!
  have hd : (ofLimb (-3)).LimbsIn := ofLimb_limbsIn _ (by decide) (by decide)
  have he : (ofLimb 1).LimbsIn := ofLimb_limbsIn _ (by decide) (by decide)
  ⟨⟨hM, hu, hq, hd, he⟩,
    update_de_62_no_overflow modinfo3 trans_5_7_14 (ofLimb (-3)) (ofLimb 1) hM hu hq hd he⟩

/-! ## `normalize_62` on inputs with masked low limbs -/

/-- **C24.** For every valid modulus `M` (odd, `0 < M < 2^256`, limbs in `[0, 2^62)`), every
64-bit sign word and every `r` with value in `(-2M, M)` whose four low limbs lie in
`[0, 2^62)`: the sign of `value(r)` is the sign of `r.v[4]`, and `normalize_62` returns limbs
all in `[0, 2^62)` whose value is `value(r) mod M` when `sign ≥ 0` and `(-value(r)) mod M`
when `sign < 0`. -/
theorem normalize_62_of_low_norm (modinfo : ModInfo) (sign : Int) (r : Signed62)
    (hnorm : modinfo.modulus.Normalized) (_hodd : modinfo.modulus.value % 2 = 1)
    (_hpos : 0 < modinfo.modulus.value) (hlt : modinfo.modulus.value < 2 ^ 256)
    (hs0 : -2 ^ 63 ≤ sign) (hs1 : sign < 2 ^ 63) (hr : r.LowNorm)
    (hrv : -(2 * modinfo.modulus.value) < r.value ∧ r.value < modinfo.modulus.value) :
    (r.value < 0 ↔ r.v4 < 0) ∧
    (secp256k1_modinv64_normalize_62 r sign modinfo).Normalized ∧
    (0 ≤ sign → (secp256k1_modinv64_normalize_62 r sign modinfo).value
      = r.value % modinfo.modulus.value) ∧
    (sign < 0 → (secp256k1_modinv64_normalize_62 r sign modinfo).value
      = (-r.value) % modinfo.modulus.value) := by
  have hlt' : modinfo.modulus.value
      ≤ 115792089237316195423570985008687907853269984665640564039457584007913129639936 := by
    norm_num at hlt; omega
  have ht := top_limb_bound2 r hr modinfo.modulus.value ⟨hrv.1, by omega⟩ hlt'
  have hl : r.LimbsIn := lowNorm_limbsIn r hr ⟨by omega, by omega⟩
  have hneg := neg_of_top_neg r hl
  have hpos := nonneg_of_lowNorm r hr
  have h := normalize_62_spec r sign modinfo hnorm hlt hl hrv
    (by intro h0; have := hpos h0; omega)
    (by norm_num at hs0 ⊢; exact hs0) (by norm_num at hs1 ⊢; exact hs1)
  refine ⟨⟨?_, hneg⟩, h.1, ?_, ?_⟩
  · intro hv
    by_contra hc
    have := hpos (by omega)
    omega
  · intro hs
    rw [h.2.2, if_neg (by omega)]
  · intro hs
    rw [h.2.2, if_pos hs]

set_option maxRecDepth 100000 in
theorem normalize_62_of_low_norm_witness :
    (modinfo3.modulus.Normalized ∧ modinfo3.modulus.value % 2 = 1 ∧
      0 < modinfo3.modulus.value ∧ modinfo3.modulus.value < 2 ^ 256 ∧
      (-2 ^ 63 : Int) ≤ -1 ∧ (-1 : Int) < 2 ^ 63 ∧ minus_four.LowNorm ∧
      (-(2 * modinfo3.modulus.value) < minus_four.value ∧
        minus_four.value < modinfo3.modulus.value)) ∧
    ((minus_four.value < 0 ↔ minus_four.v4 < 0) ∧
    (secp256k1_modinv64_normalize_62 minus_four (-1) modinfo3).Normalized ∧
    ((0 : Int) ≤ -1 → (secp256k1_modinv64_normalize_62 minus_four (-1) modinfo3).value
      = minus_four.value % modinfo3.modulus.value) ∧
    ((-1 : Int) < 0 → (secp256k1_modinv64_normalize_62 minus_four (-1) modinfo3).value
      = (-minus_four.value) % modinfo3.modulus.value)) :=
  have hM : modinfo3.modulus.Normalized := ofLimb_normalized 3 (by decide) (by decide)
  have hodd : modinfo3.modulus.value % 2 = 1 := by decide!
  have hpos : 0 < modinfo3.modulus.value := by decide!
  have hlt : modinfo3.modulus.value < 2 ^ 256 := by decide!
  have hs0 : (-2 ^ 63 : Int) ≤ -1 := by norm_num
  have hs1 : (-1 : Int) < 2 ^ 63 := by norm_num
  have hr : minus_four.LowNorm := ⟨by decide, by decide, by decide, by decide⟩
  have hrv : -(2 * modinfo3.modulus.value) < minus_four.value ∧
      minus_four.value < modinfo3.modulus.value := by decide!
  ⟨⟨hM, hodd, hpos, hlt, hs0, hs1, hr, hrv⟩,
    normalize_62_of_low_norm modinfo3 (-1) minus_four hM hodd hpos hlt hs0 hs1 hr hrv⟩

/-! ## The exact division by `2^62` in `update_de_62` -/

theorem de_cd_low (u v : Int) (d e : Signed62) (modinfo : ModInfo) :
    de_cd u v d e modinfo % 4611686018427387904 =
      (u * d.v0 + v * e.v0 + modinfo.modulus.v0 * de_md u v d e modinfo)
        % 4611686018427387904 := by
  rw [← de_cd_mod, andI64_wrap_M62]

/-- A row of `update_de_62` under the contract `modulus_inv62 * M[0] ≡ 1 (mod 2^62)`: the
bits dropped by the first shift are zero and `2^62` times the new value is the row applied to
the old values plus `md` times the modulus. -/
theorem de_row_value (u v : Int) (d e : Signed62) (modinfo : ModInfo)
    (hinv : (modinfo.modulus_inv62 : Int) * modinfo.modulus.v0 ≡ 1 [ZMOD 4611686018427387904])
    (hT : u + v ≤ 4611686018427387904 ∧ u - v ≤ 4611686018427387904 ∧
      -u + v ≤ 4611686018427387904 ∧ -u - v ≤ 4611686018427387904)
    (hd : d.LimbsIn) (he : e.LimbsIn) (hM : modinfo.modulus.Normalized) :
    de_cd u v d e modinfo % 4611686018427387904 = 0 ∧
    4611686018427387904 * (update_de_62_row u v d e modinfo).value
      = u * d.value + v * e.value + modinfo.modulus.value * de_md u v d e modinfo := by
  have m1 := (de_md_spec u v d e modinfo hT hd he).2.2
  have z1 := low_zero _ _ _ _ hinv m1
  refine ⟨by rw [de_cd_low]; exact z1, ?_⟩
  rw [de_row_exact u v d e modinfo hT hd he hM]
  have hv := carry_row_value
    (u * d.v0 + v * e.v0 + modinfo.modulus.v0 * de_md u v d e modinfo)
    (u * d.v1 + v * e.v1 + modinfo.modulus.v1 * de_md u v d e modinfo)
    (u * d.v2 + v * e.v2 + modinfo.modulus.v2 * de_md u v d e modinfo)
    (u * d.v3 + v * e.v3 + modinfo.modulus.v3 * de_md u v d e modinfo)
    (u * d.v4 + v * e.v4 + modinfo.modulus.v4 * de_md u v d e modinfo)
  rw [z1, add_zero] at hv
  rw [hv, value_def d, value_def e, value_def modinfo.modulus]
  ring

/-- **C23.** For a modulus descriptor with limbs in `[0, 2^62)` and
`modulus_inv62 * M[0] ≡ 1 (mod 2^62)`, every matrix with `|u|+|v| ≤ 2^62` and
`|q|+|r| ≤ 2^62` and every `d`, `e` with limbs in `(-2^62, 2^62)`: the 62 bits that
`update_de_62` discards from `cd` and from `ce` are zero, the outputs satisfy
`2^62 * value(d') = u*value(d) + v*value(e) + value(M)*md` and
`2^62 * value(e') = q*value(d) + r*value(e) + value(M)*me` for the `md`, `me` it computed,
and hence `2^62 * d' ≡ u*d + v*e` and `2^62 * e' ≡ q*d + r*e (mod M)`. -/
theorem update_de_62_exact (modinfo : ModInfo) (t : Trans2x2) (d e : Signed62)
    (hinv : ((modinfo.modulus_inv62 : Int) * modinfo.modulus.v0) % 2 ^ 62 = 1)
    (hM : modinfo.modulus.Normalized)
    (hu : |t.u| + |t.v| ≤ 2 ^ 62) (hq : |t.q| + |t.r| ≤ 2 ^ 62)
    (hd : d.LimbsIn) (he : e.LimbsIn) :
    (de_cd t.u t.v d e modinfo % 2 ^ 62 = 0 ∧ de_cd t.q t.r d e modinfo % 2 ^ 62 = 0) ∧
    (2 ^ 62 * (secp256k1_modinv64_update_de_62 d e t modinfo).1.value
        = t.u * d.value + t.v * e.value + modinfo.modulus.value * de_md t.u t.v d e modinfo ∧
      2 ^ 62 * (secp256k1_modinv64_update_de_62 d e t modinfo).2.value
        = t.q * d.value + t.r * e.value + modinfo.modulus.value * de_md t.q t.r d e modinfo) ∧
    (2 ^ 62 * (secp256k1_modinv64_update_de_62 d e t modinfo).1.value
        ≡ t.u * d.value + t.v * e.value [ZMOD modinfo.modulus.value] ∧
      2 ^ 62 * (secp256k1_modinv64_update_de_62 d e t modinfo).2.value
        ≡ t.q * d.value + t.r * e.value [ZMOD modinfo.modulus.value]) := by
  have hinv' : (modinfo.modulus_inv62 : Int) * modinfo.modulus.v0 ≡ 1
      [ZMOD 4611686018427387904] := by
    rw [Int.ModEq]; norm_num at hinv ⊢; exact hinv
  have r1 := de_row_value t.u t.v d e modinfo hinv'
    (abs_sum_le _ _ _ (by norm_num at hu; exact hu)) hd he hM
  have r2 := de_row_value t.q t.r d e modinfo hinv'
    (abs_sum_le _ _ _ (by norm_num at hq; exact hq)) hd he hM
  simp only [secp256k1_modinv64_update_de_62]
  rw [show (2 : Int) ^ 62 = 4611686018427387904 by norm_num]
  refine ⟨⟨r1.1, r2.1⟩, ⟨r1.2, r2.2⟩, ?_, ?_⟩
  · rw [r1.2]
    exact Int.modEq_iff_dvd.2 ⟨-de_md t.u t.v d e modinfo, by ring⟩
  · rw [r2.2]
    exact Int.modEq_iff_dvd.2 ⟨-de_md t.q t.r d e modinfo, by ring⟩

set_option maxRecDepth 100000 in
theorem update_de_62_exact_witness :
    (((modinfo3_inv.modulus_inv62 : Int) * modinfo3_inv.modulus.v0) % 2 ^ 62 = 1 ∧
      modinfo3_inv.modulus.Normalized ∧
      |trans_5_7_14.u| + |trans_5_7_14.v| ≤ 2 ^ 62 ∧
      |trans_5_7_14.q| + |trans_5_7_14.r| ≤ 2 ^ 62 ∧
      (ofLimb (-3)).LimbsIn ∧ (ofLimb 1).LimbsIn) ∧
    ((de_cd trans_5_7_14.u trans_5_7_14.v (ofLimb (-3)) (ofLimb 1) modinfo3_inv % 2 ^ 62 = 0 ∧
      de_cd trans_5_7_14.q trans_5_7_14.r (ofLimb (-3)) (ofLimb 1) modinfo3_inv % 2 ^ 62 = 0) ∧
    (2 ^ 62 * (secp256k1_modinv64_update_de_62 (ofLimb (-3)) (ofLimb 1) trans_5_7_14
          modinfo3_inv).1.value
        = trans_5_7_14.u * (ofLimb (-3)).value + trans_5_7_14.v * (ofLimb 1).value
          + modinfo3_inv.modulus.value
            * de_md trans_5_7_14.u trans_5_7_14.v (ofLimb (-3)) (ofLimb 1) modinfo3_inv ∧
      2 ^ 62 * (secp256k1_modinv64_update_de_62 (ofLimb (-3)) (ofLimb 1) trans_5_7_14
          modinfo3_inv).2.value
        = trans_5_7_14.q * (ofLimb (-3)).value + trans_5_7_14.r * (ofLimb 1).value
          + modinfo3_inv.modulus.value
            * de_md trans_5_7_14.q trans_5_7_14.r (ofLimb (-3)) (ofLimb 1) modinfo3_inv) ∧
    (2 ^ 62 * (secp256k1_modinv64_update_de_62 (ofLimb (-3)) (ofLimb 1) trans_5_7_14
          modinfo3_inv).1.value
        ≡ trans_5_7_14.u * (ofLimb (-3)).value + trans_5_7_14.v * (ofLimb 1).value
          [ZMOD modinfo3_inv.modulus.value] ∧
      2 ^ 62 * (secp256k1_modinv64_update_de_62 (ofLimb (-3)) (ofLimb 1) trans_5_7_14
          modinfo3_inv).2.value
        ≡ trans_5_7_14.q * (ofLimb (-3)).value + trans_5_7_14.r * (ofLimb 1).value
          [ZMOD modinfo3_inv.modulus.value])) :=
  have hinv : ((modinfo3_inv.modulus_inv62 : Int) * modinfo3_inv.modulus.v0) % 2 ^ 62 = 1 := by
    decide!
  have hM : modinfo3_inv.modulus.Normalized := ofLimb_normalized 3 (by decide) (by decide)
  have hu : |trans_5_7_14.u| + |trans_5_7_14.v| ≤ 2 ^ 62 := by decide!
  have hq : |trans_5_7_14.q| + |trans_5_7_14.r| ≤ 2 ^ 62 := by decide!
  have hd : (ofLimb (-3)).LimbsIn := ofLimb_limbsIn _ (by decide) (by decide)
  have he : (ofLimb 1).LimbsIn := ofLimb_limbsIn _ (by decide) (by decide)
  ⟨⟨hinv, hM, hu, hq, hd, he⟩,
    update_de_62_exact modinfo3_inv trans_5_7_14 (ofLimb (-3)) (ofLimb 1) hinv hM hu hq hd he⟩

/-! ## The congruences `d * x ≡ f`, `e * x ≡ g` of the driver -/

/-- The final `normalize_62` of the driver when `f` has ended at `1` or `-1`: from
`d * x ≡ f (mod M)` the normalized `±d` is an inverse of `x`. -/
theorem final_of_unit (modinfo : ModInfo) (hv : modinfo.Valid) (x : Signed62) (s : InvState)
    (h : InvOK modinfo 12 s)
    (hd : s.d.value * x.value ≡ s.f.value [ZMOD modinfo.modulus.value])
    (hf : s.f.value = 1 ∨ s.f.value = -1) :
    x.value * (secp256k1_modinv64_normalize_62 s.d s.f.v4 modinfo).value
      ≡ 1 [ZMOD modinfo.modulus.value] := by
  obtain ⟨dl, dt, dv, el, et, ev, fl, gl, fo, fv, gv, he⟩ := h
  have hft := lowNorm_top _ fl _ fv hv.lt
  have hn := (normalize_62_spec s.d s.f.v4 modinfo hv.norm hv.lt
    (lowNorm_limbsIn _ dl dt) dv
    (by intro h; have := nonneg_of_lowNorm _ dl h; omega) (by omega) (by omega)).2.2
  have hneg := neg_of_top_neg s.f (lowNorm_limbsIn _ fl hft)
  have hpos := nonneg_of_lowNorm s.f fl
  generalize secp256k1_modinv64_normalize_62 s.d s.f.v4 modinfo = y at hn ⊢
  generalize s.f.value = F at *
  generalize s.d.value = D at *
  generalize x.value = X at *
  generalize modinfo.modulus.value = M at *
  rw [hn]
  rcases hf with rfl | rfl
  · have : ¬ s.f.v4 < 0 := by
      intro h; have := hneg h; omega
    rw [if_neg this]
    calc X * (D % M) ≡ X * D [ZMOD M] := (Int.mod_modEq D M).mul_left X
      _ = D * X := by ring
      _ ≡ 1 [ZMOD M] := hd
  · have : s.f.v4 < 0 := by
      by_contra h; have := hpos (by omega); omega
    rw [if_pos this]
    calc X * (-D % M) ≡ X * -D [ZMOD M] := (Int.mod_modEq (-D) M).mul_left X
      _ = -(D * X) := by ring
      _ ≡ -(-1) [ZMOD M] := hd.neg
      _ = 1 := by ring

theorem modEq_of_one (M a b : Int) (h : M = 1) : a ≡ b [ZMOD M] := by
  subst h
  rw [Int.ModEq, Int.emod_one, Int.emod_one]

/-- **C22.** For every modulus `M` that is odd, normalized, `0 < M < 2^256`, with
`modulus_inv62 * M[0] ≡ 1 (mod 2^62)`, and every `x` in `[0, M)` with limbs in `[0, 2^62)`:
the states of `modinv` satisfy `value(d) * x ≡ value(f)` and `value(e) * x ≡ value(g)`
`(mod M)` initially and after each of the 12 passes; and if the state after the 12th pass
has `value(g) = 0` and `value(f)` in `{1, -1}`, the returned `y` satisfies
`x * y ≡ 1 (mod M)`. -/
theorem modinv_congruences (modinfo : ModInfo) (x : Signed62)
    (hnorm : modinfo.modulus.Normalized) (hodd : modinfo.modulus.value % 2 = 1)
    (hpos : 0 < modinfo.modulus.value) (hlt : modinfo.modulus.value < 2 ^ 256)
    (hinv : ((modinfo.modulus_inv62 : Int) * modinfo.modulus.v0) % 2 ^ 62 = 1)
    (hx : x.Normalized) (hx0 : 0 ≤ x.value) (hx1 : x.value < modinfo.modulus.value) :
    (∀ n : Nat, n ≤ 12 →
      (modinv_loop modinfo n (modinv_init x modinfo)).d.value * x.value
        ≡ (modinv_loop modinfo n (modinv_init x modinfo)).f.value
          [ZMOD modinfo.modulus.value] ∧
      (modinv_loop modinfo n (modinv_init x modinfo)).e.value * x.value
        ≡ (modinv_loop modinfo n (modinv_init x modinfo)).g.value
          [ZMOD modinfo.modulus.value]) ∧
    ((modinv_loop modinfo 12 (modinv_init x modinfo)).g.value = 0 →
      ((modinv_loop modinfo 12 (modinv_init x modinfo)).f.value = 1 ∨
        (modinv_loop modinfo 12 (modinv_init x modinfo)).f.value = -1) →
      x.value * (secp256k1_modinv64 x modinfo).value ≡ 1 [ZMOD modinfo.modulus.value]) := by
  have hv : modinfo.Valid := ⟨hnorm, hodd, hlt⟩
  by_cases h1 : modinfo.modulus.value = 1
  · exact ⟨fun n _ => ⟨modEq_of_one _ _ _ h1, modEq_of_one _ _ _ h1⟩,
      fun _ _ => modEq_of_one _ _ _ h1⟩
  · have hM : 1 < modinfo.modulus.value := by omega
    have hinv' : (modinfo.modulus_inv62 : Int) * modinfo.modulus.v0 ≡ 1
        [ZMOD 4611686018427387904] := by
      rw [Int.ModEq]; norm_num at hinv ⊢; exact hinv
    have hc : ∀ n : Nat, n ≤ 12 →
        InvCong modinfo x n (modinv_loop modinfo n (modinv_init x modinfo)) := by
      intro n hn
      have := loop_cong modinfo hv hinv' x n 0 (modinv_init x modinfo) (by omega)
        (init_ok modinfo hv x hx hx0 hx1 hM) (init_cong modinfo x)
      rw [Nat.zero_add] at this
      exact this
    refine ⟨fun n hn => ⟨(hc n hn).d, (hc n hn).e⟩, ?_⟩
    intro _ hf
    have hok := modinv_final_ok modinfo hv x hx hx0 hx1 hM
    rw [modinv_unfold]
    exact final_of_unit modinfo hv x _ hok (hc 12 (le_refl _)).d hf

set_option maxRecDepth 100000 in
theorem modinv_congruences_witness :
    ((modinfo_P 2866531139136965327).modulus.Normalized ∧
      (modinfo_P 2866531139136965327).modulus.value % 2 = 1 ∧
      0 < (modinfo_P 2866531139136965327).modulus.value ∧
      (modinfo_P 2866531139136965327).modulus.value < 2 ^ 256 ∧
      (((modinfo_P 2866531139136965327).modulus_inv62 : Int) *
        (modinfo_P 2866531139136965327).modulus.v0) % 2 ^ 62 = 1 ∧
      (ofLimb 3).Normalized ∧ 0 ≤ (ofLimb 3).value ∧
      (ofLimb 3).value < (modinfo_P 2866531139136965327).modulus.value) ∧
    ((∀ n : Nat, n ≤ 12 →
      (modinv_loop (modinfo_P 2866531139136965327) n
          (modinv_init (ofLimb 3) (modinfo_P 2866531139136965327))).d.value * (ofLimb 3).value
        ≡ (modinv_loop (modinfo_P 2866531139136965327) n
          (modinv_init (ofLimb 3) (modinfo_P 2866531139136965327))).f.value
          [ZMOD (modinfo_P 2866531139136965327).modulus.value] ∧
      (modinv_loop (modinfo_P 2866531139136965327) n
          (modinv_init (ofLimb 3) (modinfo_P 2866531139136965327))).e.value * (ofLimb 3).value
        ≡ (modinv_loop (modinfo_P 2866531139136965327) n
          (modinv_init (ofLimb 3) (modinfo_P 2866531139136965327))).g.value
          [ZMOD (modinfo_P 2866531139136965327).modulus.value]) ∧
    ((modinv_loop (modinfo_P 2866531139136965327) 12
        (modinv_init (ofLimb 3) (modinfo_P 2866531139136965327))).g.value = 0 →
      ((modinv_loop (modinfo_P 2866531139136965327) 12
          (modinv_init (ofLimb 3) (modinfo_P 2866531139136965327))).f.value = 1 ∨
        (modinv_loop (modinfo_P 2866531139136965327) 12
          (modinv_init (ofLimb 3) (modinfo_P 2866531139136965327))).f.value = -1) →
      (ofLimb 3).value * (secp256k1_modinv64 (ofLimb 3) (modinfo_P 2866531139136965327)).value
        ≡ 1 [ZMOD (modinfo_P 2866531139136965327).modulus.value])) :=
  have hM : (modinfo_P 2866531139136965327).modulus.Normalized := secp256k1_P_normalized
  have hodd : (modinfo_P 2866531139136965327).modulus.value % 2 = 1 := by decide!
  have hpos : 0 < (modinfo_P 2866531139136965327).modulus.value := by decide!
  have hlt : (modinfo_P 2866531139136965327).modulus.value < 2 ^ 256 := by decide!
  have hinv : (((modinfo_P 2866531139136965327).modulus_inv62 : Int) *
      (modinfo_P 2866531139136965327).modulus.v0) % 2 ^ 62 = 1 := by decide!
  have hx : (ofLimb 3).Normalized := ofLimb_normalized 3 (by decide) (by decide)
  have hx0 : 0 ≤ (ofLimb 3).value := by decide!
  have hx1 : (ofLimb 3).value < (modinfo_P 2866531139136965327).modulus.value := by decide!
  ⟨⟨hM, hodd, hpos, hlt, hinv, hx, hx0, hx1⟩,
    modinv_congruences (modinfo_P 2866531139136965327) (ofLimb 3) hM hodd hpos hlt hinv hx hx0
      hx1⟩

/-! ## The range of `d` and `e` in the driver, for any input -/

/-- The parity of the low limb that a row of `update_fg_62` returns, for any row and any
limbs: it is the parity of bit 62 of `u * f + v * g`. -/
theorem fg_row_low (u v : Int) (f g : Signed62) :
    (update_fg_62_row u v f g).v0 % 2
      = ((u * f.value + v * g.value) / 4611686018427387904) % 2 := by
  have e : u * f.value + v * g.value = (u * f.v0 + v * g.v0) + 4611686018427387904 *
      ((u * f.v1 + v * g.v1) + 4611686018427387904 * ((u * f.v2 + v * g.v2)
        + 4611686018427387904 * ((u * f.v3 + v * g.v3)
          + 4611686018427387904 * (u * f.v4 + v * g.v4)))) := by
    rw [value_def, value_def]; ring
  rw [e]
  simp only [update_fg_62_row, andI64_wrap_M62, sar62]
  generalize (u * f.v2 + v * g.v2) + 4611686018427387904 * ((u * f.v3 + v * g.v3)
    + 4611686018427387904 * (u * f.v4 + v * g.v4)) = R
  generalize u * f.v0 = p0
  generalize v * g.v0 = q0
  generalize u * f.v1 = p1
  generalize v * g.v1 = q1
  unfold wrapI128
  omega

theorem body_de (modinfo : ModInfo) (hv : modinfo.Valid) (n : Nat) (hn : n ≤ 11)
    (s : InvState) (h : InvDE modinfo n s) : InvDE modinfo (n + 1) (modinv_body modinfo s) := by
  obtain ⟨dl, dt, dv, el, et, ev, fo, he⟩ := h
  have hd : s.d.LimbsIn := lowNorm_limbsIn _ dl dt
  have hee : s.e.LimbsIn := lowNorm_limbsIn _ el et
  obtain ⟨e0, eu, ev', eq, er, hi⟩ := divsteps_62_props s.eta (toU64 s.f.v0) (toU64 s.g.v0)
    s.f.value s.g.value (by omega) (by omega) (toU64_lt _) (toU64_lt _) fo
    (value_modEq_limb s.f) (value_modEq_limb s.g)
  have hem := matsteps_eta 62 (matinit s.eta s.f.value s.g.value) (1 + 62 * (n : Int))
    (by simp only [matinit]; omega) (by simp only [matinit]; omega)
  have hds : 0 ≤ s.d.v4 → -modinfo.modulus.value < s.d.value := by
    intro h; have := nonneg_of_lowNorm s.d dl h; have := valid_pos modinfo hv; omega
  have hes : 0 ≤ s.e.v4 → -modinfo.modulus.value < s.e.value := by
    intro h; have := nonneg_of_lowNorm s.e el h; have := valid_pos modinfo hv; omega
  generalize hT : (secp256k1_modinv64_divsteps_62 s.eta (toU64 s.f.v0) (toU64 s.g.v0)) = T
    at e0 eu ev' eq er
  have r1 := de_row_spec T.2.u T.2.v s.d s.e modinfo (by rw [eu, ev']; exact hi.bU)
    hd hee hv.norm hv.lt dv ev hds hes
  have r2 := de_row_spec T.2.q T.2.r s.d s.e modinfo (by rw [eq, er]; exact hi.bQ)
    hd hee hv.norm hv.lt dv ev hds hes
  have r3 := fg_row_low T.2.u T.2.v s.f s.g
  have hbody : modinv_body modinfo s =
      { d := update_de_62_row T.2.u T.2.v s.d s.e modinfo,
        e := update_de_62_row T.2.q T.2.r s.d s.e modinfo,
        f := update_fg_62_row T.2.u T.2.v s.f s.g,
        g := update_fg_62_row T.2.q T.2.r s.f s.g, eta := T.1 } := by
    simp only [modinv_body, secp256k1_modinv64_update_de_62, secp256k1_modinv64_update_fg_62, hT]
  rw [hbody]
  refine ⟨r1.1, r1.2.1, r1.2.2.1, r2.1, r2.2.1, r2.2.2.1, ?_, ?_⟩
  · dsimp only
    have r3' : (update_fg_62_row T.2.u T.2.v s.f s.g).v0 % 2 = 1 := by
      rw [r3, eu, ev', hi.linF, Int.mul_ediv_cancel_left _ (by norm_num)]
      exact hi.Fodd
    have hc := toU64_cast (update_fg_62_row T.2.u T.2.v s.f s.g).v0
    omega
  · dsimp only; rw [e0]; push_cast at hem ⊢; omega

theorem loop_de (modinfo : ModInfo) (hv : modinfo.Valid) (k : Nat) : ∀ (n : Nat) (s : InvState),
    n + k ≤ 12 → InvDE modinfo n s → InvDE modinfo (n + k) (modinv_loop modinfo k s) := by
  induction k with
  | zero => intro n s _ h; exact h
  | succ k ih =>
    intro n s hn h
    simp only [modinv_loop]
    have := ih (n + 1) (modinv_body modinfo s) (by omega) (body_de modinfo hv n (by omega) s h)
    rw [Nat.add_assoc, Nat.add_comm 1 k] at this
    exact this

theorem init_de (modinfo : ModInfo) (hv : modinfo.Valid) (x : Signed62)
    (hM : 1 < modinfo.modulus.value) : InvDE modinfo 0 (modinv_init x modinfo) := by
  refine ⟨?_, ?_, ?_, ?_, ?_, ?_, toU64_odd modinfo.modulus hv.odd, ?_⟩
  · refine ⟨?_, ?_, ?_, ?_⟩ <;> simp [modinv_init]
  · simp [modinv_init]
  · simp only [modinv_init, value_mk]; omega
  · refine ⟨?_, ?_, ?_, ?_⟩ <;> simp [modinv_init]
  · simp [modinv_init]
  · simp only [modinv_init, value_mk]; omega
  · simp [modinv_init]

/-- The range of `d` and `e` in the driver for a modulus above 1. For every modulus
descriptor with `M` odd, `1 < M < 2^256` and limbs
normalized (any `modulus_inv62`) and any input `x` (no condition on its limbs or value): in
the initial state of `modinv` (`d = 0`, `e = 1`) and in the state after each of the 12 calls
of `update_de_62`, `value(d)` and `value(e)` lie in `(-2M, M)`. -/
theorem modinv_de_range (modinfo : ModInfo) (x : Signed62) (n : Nat)
    (hnorm : modinfo.modulus.Normalized) (hodd : modinfo.modulus.value % 2 = 1)
    (hM : 1 < modinfo.modulus.value) (hlt : modinfo.modulus.value < 2 ^ 256)
    (hn : n ≤ 12) :
    (-(2 * modinfo.modulus.value) < (modinv_loop modinfo n (modinv_init x modinfo)).d.value ∧
      (modinv_loop modinfo n (modinv_init x modinfo)).d.value < modinfo.modulus.value) ∧
    (-(2 * modinfo.modulus.value) < (modinv_loop modinfo n (modinv_init x modinfo)).e.value ∧
      (modinv_loop modinfo n (modinv_init x modinfo)).e.value < modinfo.modulus.value) := by
  have hv : modinfo.Valid := ⟨hnorm, hodd, hlt⟩
  have h := loop_de modinfo hv n 0 (modinv_init x modinfo) (by omega) (init_de modinfo hv x hM)
  exact ⟨h.d_val, h.e_val⟩

set_option maxRecDepth 100000 in
theorem modinv_de_range_witness :
    (modinfo3_inv.modulus.Normalized ∧ modinfo3_inv.modulus.value % 2 = 1 ∧
      1 < modinfo3_inv.modulus.value ∧ modinfo3_inv.modulus.value < 2 ^ 256 ∧ 12 ≤ 12) ∧
    ((-(2 * modinfo3_inv.modulus.value)
        < (modinv_loop modinfo3_inv 12 (modinv_init minus_four modinfo3_inv)).d.value ∧
      (modinv_loop modinfo3_inv 12 (modinv_init minus_four modinfo3_inv)).d.value
        < modinfo3_inv.modulus.value) ∧
    (-(2 * modinfo3_inv.modulus.value)
        < (modinv_loop modinfo3_inv 12 (modinv_init minus_four modinfo3_inv)).e.value ∧
      (modinv_loop modinfo3_inv 12 (modinv_init minus_four modinfo3_inv)).e.value
        < modinfo3_inv.modulus.value)) :=
  have hM : modinfo3_inv.modulus.Normalized := ofLimb_normalized 3 (by decide) (by decide)
  have hodd : modinfo3_inv.modulus.value % 2 = 1 := by decide!
  have h1 : 1 < modinfo3_inv.modulus.value := by decide!
  have hlt : modinfo3_inv.modulus.value < 2 ^ 256 := by decide!
  ⟨⟨hM, hodd, h1, hlt, le_refl 12⟩,
    modinv_de_range modinfo3_inv minus_four 12 hM hodd h1 hlt (le_refl 12)⟩

/-! ## The deep embedding: frame properties -/

theorem loopRun_var_frame (c : Expr) (body : State → State) (x : Var)
    (h : ∀ st, (body st).var x = st.var x) :
    ∀ (n : Nat) (st : State), (loopRun c body n st).var x = st.var x := by
  intro n
  induction n with
  | zero => intro st; rfl
  | succ n ih =>
    intro st
    simp only [loopRun]
    split
    · rw [ih, h]
    · rfl

theorem run_var_frame (fuel : Nat) (x : Var) :
    ∀ (s : Stmt) (st : State), x ∉ s.assigns → (s.run fuel st).var x = st.var x := by
  intro s
  induction s with
  | skip => intro st _; rfl
  | assign y e =>
    intro st h
    simp only [Stmt.assigns, List.mem_singleton] at h
    simp only [Stmt.run, State.setVar, if_neg h]
  | store a i e => intro st _; rfl
  | seq s1 s2 ih1 ih2 =>
    intro st h
    simp only [Stmt.assigns, List.mem_append, not_or] at h
    simp only [Stmt.run]
    rw [ih2 _ h.2, ih1 _ h.1]
  | cond c s1 s2 ih1 ih2 =>
    intro st h
    simp only [Stmt.assigns, List.mem_append, not_or] at h
    simp only [Stmt.run]
    split
    · exact ih1 _ h.1
    · exact ih2 _ h.2
  | loop c body ih =>
    intro st h
    simp only [Stmt.assigns] at h
    simp only [Stmt.run]
    exact loopRun_var_frame c _ x (fun st => ih st h) fuel st

theorem loopRun_arr_frame (c : Expr) (body : State → State) (a : Arr)
    (h : ∀ st, (body st).arr a = st.arr a) :
    ∀ (n : Nat) (st : State), (loopRun c body n st).arr a = st.arr a := by
  intro n
  induction n with
  | zero => intro st; rfl
  | succ n ih =>
    intro st
    simp only [loopRun]
    split
    · rw [ih, h]
    · rfl

theorem run_arr_frame (fuel : Nat) (a : Arr) :
    ∀ (s : Stmt) (st : State), a ∉ s.stores → (s.run fuel st).arr a = st.arr a := by
  intro s
  induction s with
  | skip => intro st _; rfl
  | assign y e => intro st _; rfl
  | store b i e =>
    intro st h
    simp only [Stmt.stores, List.mem_singleton] at h
    simp only [Stmt.run, State.setArr]
    funext j
    rw [if_neg (fun hc => h hc.1)]
  | seq s1 s2 ih1 ih2 =>
    intro st h
    simp only [Stmt.stores, List.mem_append, not_or] at h
    simp only [Stmt.run]
    rw [ih2 _ h.2, ih1 _ h.1]
  | cond c s1 s2 ih1 ih2 =>
    intro st h
    simp only [Stmt.stores, List.mem_append, not_or] at h
    simp only [Stmt.run]
    split
    · exact ih1 _ h.1
    · exact ih2 _ h.2
  | loop c body ih =>
    intro st h
    simp only [Stmt.stores] at h
    simp only [Stmt.run]
    exact loopRun_arr_frame c _ a (fun st => ih st h) fuel st

/-! ## The deep embedding: leakage of loop-free statements -/

theorem litVal_eq (e : Expr) (k : Int) (h : e.litVal = some k) : e = Expr.lit k := by
  cases e <;> simp [Expr.litVal] at h
  rw [h]

theorem modulusLimb_eq (e : Expr) (k : Int) (h : e.modulusLimb = some k) :
    e = Expr.load Arr.modulus (Expr.lit k) := by
  cases e with
  | load a i =>
    cases a <;> simp [Expr.modulusLimb] at h
    rw [litVal_eq i k h]
  | lit n => simp [Expr.modulusLimb] at h
  | var x => simp [Expr.modulusLimb] at h
  | op1 o a => simp [Expr.modulusLimb] at h
  | op2 o a b => simp [Expr.modulusLimb] at h

theorem leak_static (st : State) : ∀ (e : Expr), e.static = true → e.leak st = e.staticLeak := by
  intro e
  induction e with
  | lit n => intro _; rfl
  | var x => intro _; rfl
  | load a i _ =>
    intro h
    simp only [Expr.static, Option.isSome_iff_exists] at h
    obtain ⟨k, hk⟩ := h
    have := litVal_eq i k hk
    subst this
    simp only [Expr.leak, Expr.staticLeak, Expr.litVal, Expr.val, List.nil_append]
  | op1 o a ih =>
    intro h
    simp only [Expr.static] at h
    simp only [Expr.leak, Expr.staticLeak, ih h]
  | op2 o a b iha ihb =>
    intro h
    simp only [Expr.static, Bool.and_eq_true] at h
    simp only [Expr.leak, Expr.staticLeak, iha h.1, ihb h.2]

theorem pub_stores : ∀ (s : Stmt), s.pub = true → Arr.modulus ∉ s.stores := by
  intro s
  induction s with
  | skip => intro _; simp [Stmt.stores]
  | assign y e => intro _; simp [Stmt.stores]
  | store b i e =>
    intro h
    simp only [Stmt.pub, Bool.and_eq_true, decide_eq_true_eq] at h
    simp only [Stmt.stores, List.mem_singleton]
    exact fun hc => h.1.1 hc.symm
  | seq s1 s2 ih1 ih2 =>
    intro h
    simp only [Stmt.pub, Bool.and_eq_true] at h
    simp only [Stmt.stores, List.mem_append, not_or]
    exact ⟨ih1 h.1, ih2 h.2⟩
  | cond c s1 s2 ih1 ih2 =>
    intro h
    simp only [Stmt.pub, Bool.and_eq_true] at h
    simp only [Stmt.stores, List.mem_append, not_or]
    exact ⟨ih1 h.1.2, ih2 h.2⟩
  | loop c body _ => intro h; simp [Stmt.pub] at h

/-- The leakage of a statement that satisfies `Stmt.pub` is a function of the limbs of the
modulus alone. -/
theorem leak_pub (fuel : Nat) (m : Int → Int) :
    ∀ (s : Stmt) (st : State), s.pub = true → st.arr Arr.modulus = m →
      s.leak fuel st = s.pubLeak m := by
  intro s
  induction s with
  | skip => intro st _ _; rfl
  | assign y e =>
    intro st h _
    simp only [Stmt.pub] at h
    simp only [Stmt.leak, Stmt.pubLeak, leak_static st e h]
  | store b i e =>
    intro st h _
    simp only [Stmt.pub, Bool.and_eq_true, decide_eq_true_eq, Option.isSome_iff_exists] at h
    obtain ⟨⟨_, k, hk⟩, he⟩ := h
    have := litVal_eq i k hk
    subst this
    simp only [Stmt.leak, Stmt.pubLeak, Expr.litVal, Expr.leak, Expr.val, List.nil_append,
      leak_static st e he]
  | seq s1 s2 ih1 ih2 =>
    intro st h hm
    simp only [Stmt.pub, Bool.and_eq_true] at h
    simp only [Stmt.leak, Stmt.pubLeak]
    rw [ih1 st h.1 hm, ih2 _ h.2 (by rw [run_arr_frame fuel _ s1 st (pub_stores s1 h.1)]; exact hm)]
  | cond c s1 s2 ih1 ih2 =>
    intro st h hm
    simp only [Stmt.pub, Bool.and_eq_true, Option.isSome_iff_exists] at h
    obtain ⟨⟨⟨k, hk⟩, h1⟩, h2⟩ := h
    have hc := modulusLimb_eq c k hk
    subst hc
    simp only [Stmt.leak, Stmt.pubLeak, Expr.modulusLimb, Expr.litVal, Expr.leak, Expr.val,
      List.nil_append, List.singleton_append, hm, ih1 st h1 hm, ih2 st h2 hm]
  | loop c body _ => intro st h; simp [Stmt.pub] at h

/-! ## The deep embedding: counted loops -/

theorem wrapI32_small (x : Int) (h0 : -2147483648 ≤ x) (h1 : x < 2147483648) :
    wrapI32 x = x := by
  unfold wrapI32; omega

theorem loop_test_val (cnt : Var) (n : Int) (st : State) :
    (Expr.op2 Op2.lt_int (Expr.var cnt) (Expr.lit n)).val st
      = if st.var cnt < n then 1 else 0 := rfl

theorem loop_test_leak (cnt : Var) (n : Int) (st : State) :
    (Expr.op2 Op2.lt_int (Expr.var cnt) (Expr.lit n)).leak st = [] := rfl

theorem loop_step_run (cnt : Var) (body : Stmt) (fuel : Nat) (st : State)
    (hcnt : cnt ∉ body.assigns) :
    (Stmt.seq body (Stmt.assign cnt (Expr.op2 Op2.add_int (Expr.var cnt) (Expr.lit 1)))).run
        fuel st
      = (body.run fuel st).setVar cnt (wrapI32 (st.var cnt + 1)) := by
  simp only [Stmt.run, Expr.val, Op2.val, run_var_frame fuel cnt body st hcnt]

theorem loop_step_leak (cnt : Var) (body : Stmt) (fuel : Nat) (st : State) :
    (Stmt.seq body (Stmt.assign cnt (Expr.op2 Op2.add_int (Expr.var cnt) (Expr.lit 1)))).leak
        fuel st
      = body.leak fuel st := by
  simp only [Stmt.leak, Expr.leak, List.append_nil]

theorem setVar_var_same (st : State) (x : Var) (v : Int) : (st.setVar x v).var x = v := by
  simp only [State.setVar, if_true]

/-- The invariant rule for the loop of `for (cnt = 0; cnt < n; ++cnt) body` with `r` passes
to go: if the body does not assign the counter and maps `P k` to `P (k + 1)`, the loop ends
in a state with `P n`, given more fuel than passes. -/
theorem loop_count_inv (cnt : Var) (n : Int) (N : Nat) (body : Stmt) (fuel : Nat)
    (P : Nat → State → Prop) (hN : n = (N : Int)) (hn2 : N < 2147483647)
    (hcnt : cnt ∉ body.assigns)
    (hset : ∀ k st v, P k st → P k (st.setVar cnt v))
    (hstep : ∀ k st, k < N → P k st → P (k + 1) (body.run fuel st)) :
    ∀ (r fuel' : Nat) (st : State), r < fuel' → r ≤ N → st.var cnt = (N : Int) - r →
      P (N - r) st →
      P N (loopRun (Expr.op2 Op2.lt_int (Expr.var cnt) (Expr.lit n))
        ((Stmt.seq body
          (Stmt.assign cnt (Expr.op2 Op2.add_int (Expr.var cnt) (Expr.lit 1)))).run fuel)
        fuel' st) := by
  intro r
  induction r with
  | zero =>
    intro fuel' st hf _ hv hP
    obtain ⟨f, rfl⟩ : ∃ f, fuel' = f + 1 := ⟨fuel' - 1, by omega⟩
    simp only [loopRun, loop_test_val, hN, hv]
    rw [if_neg (by simp)]
    simpa using hP
  | succ r ih =>
    intro fuel' st hf hr hv hP
    obtain ⟨f, rfl⟩ : ∃ f, fuel' = f + 1 := ⟨fuel' - 1, by omega⟩
    have hlt : st.var cnt < n := by rw [hv, hN]; push_cast; omega
    simp only [loopRun, loop_test_val, if_pos hlt]
    rw [if_pos (by decide), loop_step_run cnt body fuel st hcnt]
    have hw : wrapI32 (st.var cnt + 1) = (N : Int) - r := by
      rw [wrapI32_small _ (by rw [hv]; push_cast; omega) (by rw [hv]; push_cast; omega), hv]
      push_cast; omega
    apply ih f _ (by omega) (by omega)
    · rw [setVar_var_same, hw]
    · apply hset
      have := hstep (N - (r + 1)) st (by omega) hP
      rw [show N - (r + 1) + 1 = N - r by omega] at this
      exact this

/-- The state after `for (cnt = 0; cnt < n; ++cnt) body` satisfies `P n` when the state
before satisfies `P 0`, the body maps `P k` to `P (k + 1)` and does not assign the counter,
and `P` does not depend on the counter. -/
theorem forLoop_inv (cnt : Var) (n : Int) (N : Nat) (body : Stmt) (fuel : Nat)
    (P : Nat → State → Prop) (hN : n = (N : Int)) (hn2 : N < 2147483647) (hf : N < fuel)
    (hcnt : cnt ∉ body.assigns)
    (hset : ∀ k st v, P k st → P k (st.setVar cnt v))
    (hstep : ∀ k st, k < N → P k st → P (k + 1) (body.run fuel st))
    (st : State) (h : P 0 st) : P N ((forLoop cnt n body).run fuel st) := by
  simp only [forLoop, Stmt.run, Expr.val]
  apply loop_count_inv cnt n N body fuel P hN hn2 hcnt hset hstep N fuel _ hf (le_refl _)
  · rw [setVar_var_same]; simp
  · rw [Nat.sub_self]; exact hset 0 st 0 h

theorem loop_count_leak (cnt : Var) (n : Int) (N : Nat) (body : Stmt) (fuel : Nat)
    (T : List Obs) (I : State → Prop) (hN : n = (N : Int)) (hn2 : N < 2147483647)
    (hcnt : cnt ∉ body.assigns)
    (hset : ∀ st v, I st → I (st.setVar cnt v))
    (hbody : ∀ st, I st → body.leak fuel st = T ∧ I (body.run fuel st)) :
    ∀ (r fuel' : Nat) (st : State), r < fuel' → r ≤ N → st.var cnt = (N : Int) - r → I st →
      loopLeak (Expr.op2 Op2.lt_int (Expr.var cnt) (Expr.lit n))
        ((Stmt.seq body
          (Stmt.assign cnt (Expr.op2 Op2.add_int (Expr.var cnt) (Expr.lit 1)))).run fuel)
        ((Stmt.seq body
          (Stmt.assign cnt (Expr.op2 Op2.add_int (Expr.var cnt) (Expr.lit 1)))).leak fuel)
        fuel' st
      = repeat_trace r (Obs.branch true :: T) ++ [Obs.branch false] := by
  intro r
  induction r with
  | zero =>
    intro fuel' st hf _ hv _
    obtain ⟨f, rfl⟩ : ∃ f, fuel' = f + 1 := ⟨fuel' - 1, by omega⟩
    simp only [loopLeak, loop_test_val, loop_test_leak, hN, hv, repeat_trace, List.nil_append]
    rw [if_neg (by simp)]
  | succ r ih =>
    intro fuel' st hf hr hv hI
    obtain ⟨f, rfl⟩ : ∃ f, fuel' = f + 1 := ⟨fuel' - 1, by omega⟩
    have hlt : st.var cnt < n := by rw [hv, hN]; push_cast; omega
    simp only [loopLeak, loop_test_val, loop_test_leak, if_pos hlt, List.nil_append,
      repeat_trace]
    rw [if_pos (by decide), loop_step_run cnt body fuel st hcnt, loop_step_leak]
    have hw : wrapI32 (st.var cnt + 1) = (N : Int) - r := by
      rw [wrapI32_small _ (by rw [hv]; push_cast; omega) (by rw [hv]; push_cast; omega), hv]
      push_cast; omega
    obtain ⟨hT, hI'⟩ := hbody st hI
    rw [hT, ih f _ (by omega) (by omega) (by rw [setVar_var_same, hw]) (hset _ _ hI')]
    simp only [List.cons_append, List.append_assoc]

/-- The leakage of `for (cnt = 0; cnt < n; ++cnt) body` when every pass of the body leaks `T`:
`n` times a test that succeeds followed by `T`, then the test that fails. -/
theorem forLoop_leak (cnt : Var) (n : Int) (N : Nat) (body : Stmt) (fuel : Nat)
    (T : List Obs) (I : State → Prop) (hN : n = (N : Int)) (hn2 : N < 2147483647)
    (hf : N < fuel) (hcnt : cnt ∉ body.assigns)
    (hset : ∀ st v, I st → I (st.setVar cnt v))
    (hbody : ∀ st, I st → body.leak fuel st = T ∧ I (body.run fuel st))
    (st : State) (h : I st) :
    (forLoop cnt n body).leak fuel st
      = repeat_trace N (Obs.branch true :: T) ++ [Obs.branch false] := by
  simp only [forLoop, Stmt.leak, Stmt.run, Expr.leak, Expr.val, List.nil_append]
  apply loop_count_leak cnt n N body fuel T I hN hn2 hcnt hset hbody N fuel _ hf (le_refl _)
  · rw [setVar_var_same]; simp
  · exact hset st 0 h

theorem block_nil_run (fuel : Nat) (st : State) : (block []).run fuel st = st := rfl

theorem block_cons_run (fuel : Nat) (s : Stmt) (ss : List Stmt) (st : State) :
    (block (s :: ss)).run fuel st = (block ss).run fuel (s.run fuel st) := rfl

theorem block_cons_leak (fuel : Nat) (s : Stmt) (ss : List Stmt) (st : State) :
    (block (s :: ss)).leak fuel st = s.leak fuel st ++ (block ss).leak fuel (s.run fuel st) :=
  rfl

theorem block_nil_leak (fuel : Nat) (st : State) : (block []).leak fuel st = [] := rfl

/-! ## The leakage of the five functions -/

theorem leaksOnly_nil (fuel : Nat) (m : Int → Int) : LeaksOnly fuel m (block []) [] :=
  fun _ _ => rfl

theorem leaksOnly_cons (fuel : Nat) (m : Int → Int) (s : Stmt) (ss : List Stmt)
    (T1 T2 : List Obs) (h1 : LeaksOnly fuel m s T1) (hs : Arr.modulus ∉ s.stores)
    (h2 : LeaksOnly fuel m (block ss) T2) :
    LeaksOnly fuel m (block (s :: ss)) (T1 ++ T2) := by
  intro st hm
  rw [block_cons_leak, h1 st hm, h2 _ (by rw [run_arr_frame fuel _ s st hs]; exact hm)]

theorem leaksOnly_pub (fuel : Nat) (m : Int → Int) (s : Stmt) (h : s.pub = true) :
    LeaksOnly fuel m s (s.pubLeak m) :=
  fun st hm => leak_pub fuel m s st h hm

set_option maxRecDepth 100000 in
theorem divsteps_62_body_leak (fuel : Nat) (st : State) :
    divsteps_62_body_stmt.leak fuel st = [] := by
  have h := leak_pub fuel (st.arr Arr.modulus) divsteps_62_body_stmt st (by decide) rfl
  rw [h]
  rfl

set_option maxRecDepth 100000 in
/-- A call of `divsteps_62` leaks 62 loop tests that succeed and one that fails, whatever
the state. -/
theorem divsteps_62_leak (fuel : Nat) (hf : 63 ≤ fuel) (st : State) :
    divsteps_62_stmt.leak fuel st = divsteps_62_trace := by
  have hl : LeaksOnly fuel (st.arr Arr.modulus) (forLoop Var.ds_i 62 divsteps_62_body_stmt)
      (repeat_trace 62 [Obs.branch true] ++ [Obs.branch false]) := by
    intro st _
    exact forLoop_leak Var.ds_i 62 62 divsteps_62_body_stmt fuel [] (fun _ => True) rfl
      (by decide) (by omega) (by decide) (fun _ _ _ => trivial)
      (fun st _ => ⟨divsteps_62_body_leak fuel st, trivial⟩) st trivial
  have h := leaksOnly_cons fuel (st.arr Arr.modulus) _ _ _ _
    (leaksOnly_pub _ _ (.assign .ds_u (.lit 1)) (by decide)) (by decide)
    (leaksOnly_cons _ _ _ _ _ _
    (leaksOnly_pub _ _ (.assign .ds_v (.lit 0)) (by decide)) (by decide)
    (leaksOnly_cons _ _ _ _ _ _
    (leaksOnly_pub _ _ (.assign .ds_q (.lit 0)) (by decide)) (by decide)
    (leaksOnly_cons _ _ _ _ _ _
    (leaksOnly_pub _ _ (.assign .ds_r (.lit 1)) (by decide)) (by decide)
    (leaksOnly_cons _ _ _ _ _ _
    (leaksOnly_pub _ _ (.assign .ds_f (.var .ds_f0)) (by decide)) (by decide)
    (leaksOnly_cons _ _ _ _ _ _
    (leaksOnly_pub _ _ (.assign .ds_g (.var .ds_g0)) (by decide)) (by decide)
    (leaksOnly_cons _ _ _ _ _ _ hl (by decide)
    (leaksOnly_cons _ _ _ _ _ _
    (leaksOnly_pub _ _ (.assign .t_u (.op1 .i64_of_u64 (.var .ds_u))) (by decide)) (by decide)
    (leaksOnly_cons _ _ _ _ _ _
    (leaksOnly_pub _ _ (.assign .t_v (.op1 .i64_of_u64 (.var .ds_v))) (by decide)) (by decide)
    (leaksOnly_cons _ _ _ _ _ _
    (leaksOnly_pub _ _ (.assign .t_q (.op1 .i64_of_u64 (.var .ds_q))) (by decide)) (by decide)
    (leaksOnly_cons _ _ _ _ _ _
    (leaksOnly_pub _ _ (.assign .t_r (.op1 .i64_of_u64 (.var .ds_r))) (by decide)) (by decide)
    (leaksOnly_nil _ _)))))))))))
  exact (h st rfl).trans rfl

set_option maxRecDepth 100000 in
theorem update_de_62_leak (fuel : Nat) (m : Int → Int) :
    LeaksOnly fuel m update_de_62_stmt (update_de_62_trace m) := by
  intro st hm
  rw [leak_pub fuel m update_de_62_stmt st (by decide) hm]
  simp only [update_de_62_stmt, block, Stmt.pubLeak, Expr.staticLeak, Expr.litVal,
    Expr.modulusLimb, update_de_62_trace, List.append_assoc, List.cons_append,
    List.nil_append, List.append_nil]

set_option maxRecDepth 100000 in
theorem update_fg_62_leak (fuel : Nat) (m : Int → Int) :
    LeaksOnly fuel m update_fg_62_stmt update_fg_62_trace := by
  intro st hm
  rw [leak_pub fuel m update_fg_62_stmt st (by decide) hm]
  rfl

set_option maxRecDepth 100000 in
theorem modinv_init_leak (fuel : Nat) (m : Int → Int) :
    LeaksOnly fuel m modinv_init_stmt modinv_init_trace := by
  intro st hm
  rw [leak_pub fuel m modinv_init_stmt st (by decide) hm]
  rfl

set_option maxRecDepth 100000 in
theorem modinv_final_leak (fuel : Nat) (m : Int → Int) :
    LeaksOnly fuel m modinv_final_stmt modinv_final_trace := by
  intro st hm
  rw [leak_pub fuel m modinv_final_stmt st (by decide) hm]
  rfl

set_option maxRecDepth 100000 in
theorem modinv_pass_leak (fuel : Nat) (hf : 63 ≤ fuel) (m : Int → Int) :
    LeaksOnly fuel m modinv_pass_stmt (modinv_pass_trace m) := by
  have h := leaksOnly_cons fuel m _ _ _ _
    (leaksOnly_pub _ _ (.assign .ds_eta (.var .eta)) (by decide)) (by decide)
    (leaksOnly_cons _ _ _ _ _ _
    (leaksOnly_pub _ _ (.assign .ds_f0 (.op1 .u64_of (.load .f (.lit 0)))) (by decide))
    (by decide)
    (leaksOnly_cons _ _ _ _ _ _
    (leaksOnly_pub _ _ (.assign .ds_g0 (.op1 .u64_of (.load .g (.lit 0)))) (by decide))
    (by decide)
    (leaksOnly_cons _ _ _ _ _ _ (fun st _ => divsteps_62_leak fuel hf st) (by decide)
    (leaksOnly_cons _ _ _ _ _ _
    (leaksOnly_pub _ _ (.assign .eta (.var .ds_eta)) (by decide)) (by decide)
    (leaksOnly_cons _ _ _ _ _ _ (update_de_62_leak fuel m) (by decide)
    (leaksOnly_cons _ _ _ _ _ _ (update_fg_62_leak fuel m) (by decide)
    (leaksOnly_nil _ _)))))))
  intro st hm
  exact (h st hm).trans (by simp [Stmt.pubLeak, Expr.staticLeak, Expr.litVal, modinv_pass_trace])

set_option maxRecDepth 100000 in
/-- The leakage of `secp256k1_modinv64` is `modinv_trace` of the limbs of the modulus,
whatever the rest of the state is. -/
theorem modinv_leak (fuel : Nat) (hf : 63 ≤ fuel) (m : Int → Int) :
    LeaksOnly fuel m secp256k1_modinv64_stmt (modinv_trace m) := by
  have hloop : LeaksOnly fuel m (forLoop Var.i 12 modinv_pass_stmt)
      (repeat_trace 12 (Obs.branch true :: modinv_pass_trace m) ++ [Obs.branch false]) := by
    intro st hm
    exact forLoop_leak Var.i 12 12 modinv_pass_stmt fuel (modinv_pass_trace m)
      (fun st => st.arr Arr.modulus = m) rfl (by decide) (by omega) (by decide)
      (fun _ _ h => h)
      (fun st h => ⟨modinv_pass_leak fuel hf m st h,
        by show (Stmt.run fuel modinv_pass_stmt st).arr Arr.modulus = m
           rw [run_arr_frame fuel _ modinv_pass_stmt st (by decide)]; exact h⟩) st hm
  have h := leaksOnly_cons fuel m _ _ _ _ (modinv_init_leak fuel m) (by decide)
    (leaksOnly_cons _ _ _ _ _ _ hloop (by decide)
    (leaksOnly_cons _ _ _ _ _ _ (modinv_final_leak fuel m) (by decide) (leaksOnly_nil _ _)))
  intro st hm
  exact (h st hm).trans (by simp only [modinv_trace, List.append_nil, List.append_assoc])

/-! ## The deep embedding computes the functions of the shallow embedding -/

theorem setVar_var (st : State) (x y : Var) (v : Int) :
    (st.setVar x v).var y = if y = x then v else st.var y := rfl

theorem setVar_arr (st : State) (x : Var) (v : Int) : (st.setVar x v).arr = st.arr := rfl

theorem setArr_var (st : State) (a : Arr) (i v : Int) : (st.setArr a i v).var = st.var := rfl

theorem setArr_arr (st : State) (a b : Arr) (i j v : Int) :
    (st.setArr a i v).arr b j = if b = a ∧ j = i then v else st.arr b j := rfl

theorem ite_var (c : Prop) [Decidable c] (s1 s2 : State) (x : Var) :
    (if c then s1 else s2).var x = if c then s1.var x else s2.var x := by
  split <;> rfl

theorem ite_arr (c : Prop) [Decidable c] (s1 s2 : State) (a : Arr) (i : Int) :
    (if c then s1 else s2).arr a i = if c then s1.arr a i else s2.arr a i := by
  split <;> rfl

theorem toNat_ofNat_raw (n : Nat) : (Int.ofNat n).toNat = n := rfl

set_option maxRecDepth 1000000 in
set_option maxHeartbeats 4000000 in
/-- The program of `update_fg_62` leaves in `f` and `g` the two rows of the shallow
`update_fg_62`. -/
theorem update_fg_62_run (fuel : Nat) (st : State) :
    (update_fg_62_stmt.run fuel st).signed62 Arr.f
      = update_fg_62_row (st.var Var.t_u) (st.var Var.t_v) (st.signed62 Arr.f)
          (st.signed62 Arr.g) ∧
    (update_fg_62_stmt.run fuel st).signed62 Arr.g
      = update_fg_62_row (st.var Var.t_q) (st.var Var.t_r) (st.signed62 Arr.f)
          (st.signed62 Arr.g) := by
  simp only [update_fg_62_stmt, block, Stmt.run, Expr.val, Op1.val, Op2.val, State.signed62,
    setVar_var, setVar_arr, setArr_var, setArr_arr, reduceCtorEq, if_true, if_false,
    Int.reduceEq, and_true, and_false, true_and, false_and, eq_self_iff_true,
    update_fg_62_row, reduceIte, and_self]
  exact ⟨rfl, rfl⟩

set_option maxRecDepth 1000000 in
set_option maxHeartbeats 4000000 in
/-- The program of `update_de_62` leaves in `d` and `e` the two rows of the shallow
`update_de_62`. -/
theorem update_de_62_run (fuel : Nat) (st : State) :
    (update_de_62_stmt.run fuel st).signed62 Arr.d
      = update_de_62_row (st.var Var.t_u) (st.var Var.t_v) (st.signed62 Arr.d)
          (st.signed62 Arr.e) st.modinfo ∧
    (update_de_62_stmt.run fuel st).signed62 Arr.e
      = update_de_62_row (st.var Var.t_q) (st.var Var.t_r) (st.signed62 Arr.d)
          (st.signed62 Arr.e) st.modinfo := by
  simp only [update_de_62_stmt, block, Stmt.run, Expr.val, Op1.val, Op2.val, State.signed62,
    State.modinfo, setVar_var, setVar_arr, setArr_var, setArr_arr, reduceCtorEq, if_true,
    if_false, Int.reduceEq, and_true, and_false, true_and, false_and, eq_self_iff_true,
    update_de_62_row, reduceIte, and_self, ite_var, ite_arr, ite_self, toNat_ofNat_raw]
  exact ⟨rfl, rfl⟩

set_option maxRecDepth 1000000 in
set_option maxHeartbeats 4000000 in
/-- The statements after the loop of the driver leave in `*x` the result of the shallow
`normalize_62` on `d` with the sign word `f.v[4]`. -/
theorem modinv_final_run (fuel : Nat) (st : State) :
    (modinv_final_stmt.run fuel st).signed62 Arr.x
      = secp256k1_modinv64_normalize_62 (st.signed62 Arr.d) (st.arr Arr.f 4) st.modinfo := by
  simp only [modinv_final_stmt, normalize_62_stmt, block, Stmt.run, Expr.val, Op1.val, Op2.val,
    State.signed62, State.modinfo, setVar_var, setVar_arr, setArr_var, setArr_arr, reduceCtorEq,
    if_true, if_false, Int.reduceEq, and_true, and_false, true_and, false_and,
    eq_self_iff_true, secp256k1_modinv64_normalize_62, reduceIte, and_self]
  rfl

set_option maxRecDepth 1000000 in
set_option maxHeartbeats 4000000 in
/-- The declarations of the driver set up the initial values of the shallow driver. -/
theorem modinv_init_run (fuel : Nat) (st : State) :
    (modinv_init_stmt.run fuel st).invState = modinv_init (st.signed62 Arr.x) st.modinfo := by
  simp only [modinv_init_stmt, block, Stmt.run, Expr.val, Op1.val, Op2.val, State.invState,
    State.signed62, State.modinfo, setVar_var, setVar_arr, setArr_var, setArr_arr, reduceCtorEq,
    if_true, if_false, Int.reduceEq, and_true, and_false, true_and, false_and,
    eq_self_iff_true, modinv_init, reduceIte, and_self]

set_option maxRecDepth 1000000 in
set_option maxHeartbeats 4000000 in
/-- One pass of the body of the `divsteps_62` loop is `divsteps_62_body`. -/
theorem divsteps_62_body_run (fuel : Nat) (st : State) :
    (divsteps_62_body_stmt.run fuel st).divState = divsteps_62_body st.divState := by
  simp only [divsteps_62_body_stmt, block, Stmt.run, Expr.val, Op1.val, Op2.val,
    State.divState, setVar_var, setVar_arr, setArr_var, setArr_arr, reduceCtorEq, if_true,
    if_false, Int.reduceEq, and_true, and_false, true_and, false_and, eq_self_iff_true,
    divsteps_62_body, reduceIte, and_self, toNat_ofNat_raw]
  rfl

theorem divsteps_62_loop_succ (n : Nat) : ∀ s : DivState,
    divsteps_62_loop (n + 1) s = divsteps_62_body (divsteps_62_loop n s) := by
  induction n with
  | zero => intro s; rfl
  | succ n ih => intro s; rw [divsteps_62_loop, ih (divsteps_62_body s)]; rfl

theorem modinv_loop_succ (modinfo : ModInfo) (n : Nat) : ∀ s : InvState,
    modinv_loop modinfo (n + 1) s = modinv_body modinfo (modinv_loop modinfo n s) := by
  induction n with
  | zero => intro s; rfl
  | succ n ih => intro s; rw [modinv_loop, ih (modinv_body modinfo s)]; rfl

set_option maxRecDepth 100000 in
/-- The loop of `divsteps_62` is `divsteps_62_loop 62`. -/
theorem divsteps_62_for_run (fuel : Nat) (hf : 63 ≤ fuel) (st : State) :
    ((forLoop Var.ds_i 62 divsteps_62_body_stmt).run fuel st).divState
      = divsteps_62_loop 62 st.divState :=
  forLoop_inv Var.ds_i 62 62 divsteps_62_body_stmt fuel
    (fun k s => s.divState = divsteps_62_loop k st.divState) rfl (by decide) (by omega)
    (by decide) (fun _ _ _ h => h)
    (fun k s _ h => by
      show (divsteps_62_body_stmt.run fuel s).divState = _
      rw [divsteps_62_body_run, h, divsteps_62_loop_succ]) st rfl

theorem run_assign (fuel : Nat) (x : Var) (e : Expr) (st : State) :
    (Stmt.assign x e).run fuel st = st.setVar x (e.val st) := rfl

theorem signed62_congr (s1 s2 : State) (a : Arr) (h : s1.arr a = s2.arr a) :
    s1.signed62 a = s2.signed62 a := by
  simp only [State.signed62, h]

theorem modinfo_congr (s1 s2 : State) (h : s1.arr Arr.modulus = s2.arr Arr.modulus)
    (hv : s1.var Var.modulus_inv62 = s2.var Var.modulus_inv62) : s1.modinfo = s2.modinfo := by
  simp only [State.modinfo, State.signed62, h, hv]

set_option maxRecDepth 100000 in
/-- The program of `divsteps_62` returns the `eta` and the matrix of the shallow
`divsteps_62`. -/
theorem divsteps_62_run (fuel : Nat) (hf : 63 ≤ fuel) (st : State) :
    ((divsteps_62_stmt.run fuel st).var Var.ds_eta, (divsteps_62_stmt.run fuel st).trans)
      = secp256k1_modinv64_divsteps_62 (st.var Var.ds_eta) (st.var Var.ds_f0).toNat
          (st.var Var.ds_g0).toNat := by
  simp only [divsteps_62_stmt, block_cons_run, block_nil_run]
  have hl := divsteps_62_for_run fuel hf
    ((Stmt.assign Var.ds_g (Expr.var Var.ds_g0)).run fuel
      ((Stmt.assign Var.ds_f (Expr.var Var.ds_f0)).run fuel
        ((Stmt.assign Var.ds_r (Expr.lit 1)).run fuel
          ((Stmt.assign Var.ds_q (Expr.lit 0)).run fuel
            ((Stmt.assign Var.ds_v (Expr.lit 0)).run fuel
              ((Stmt.assign Var.ds_u (Expr.lit 1)).run fuel st))))))
  have hi : ((Stmt.assign Var.ds_g (Expr.var Var.ds_g0)).run fuel
      ((Stmt.assign Var.ds_f (Expr.var Var.ds_f0)).run fuel
        ((Stmt.assign Var.ds_r (Expr.lit 1)).run fuel
          ((Stmt.assign Var.ds_q (Expr.lit 0)).run fuel
            ((Stmt.assign Var.ds_v (Expr.lit 0)).run fuel
              ((Stmt.assign Var.ds_u (Expr.lit 1)).run fuel st)))))).divState
      = divsteps_init (st.var Var.ds_eta) (st.var Var.ds_f0).toNat (st.var Var.ds_g0).toNat := by
    simp only [run_assign, Expr.val, State.divState, setVar_var, reduceCtorEq, if_true,
      if_false, reduceIte, divsteps_init]
    rfl
  rw [hi] at hl
  generalize (forLoop Var.ds_i 62 divsteps_62_body_stmt).run fuel _ = sl at hl
  simp only [run_assign, Expr.val, Op1.val, State.trans, setVar_var, reduceCtorEq, if_true,
    if_false, reduceIte, secp256k1_modinv64_divsteps_62, DivState.trans, ← hl, State.divState]

set_option maxRecDepth 100000 in
/-- One pass of the loop of the driver is `modinv_body`, and leaves the modulus descriptor
as it is. -/
theorem modinv_pass_run (fuel : Nat) (hf : 63 ≤ fuel) (st : State) :
    (modinv_pass_stmt.run fuel st).invState = modinv_body st.modinfo st.invState ∧
    (modinv_pass_stmt.run fuel st).modinfo = st.modinfo := by
  constructor
  swap
  · exact modinfo_congr _ _ (run_arr_frame fuel _ modinv_pass_stmt st (by decide))
      (run_var_frame fuel _ modinv_pass_stmt st (by decide))
  simp only [modinv_pass_stmt, block_cons_run, block_nil_run]
  generalize h1 : (Stmt.assign Var.ds_g0 (Expr.op1 Op1.u64_of (Expr.load Arr.g (Expr.lit 0)))).run
    fuel ((Stmt.assign Var.ds_f0 (Expr.op1 Op1.u64_of (Expr.load Arr.f (Expr.lit 0)))).run fuel
      ((Stmt.assign Var.ds_eta (Expr.var Var.eta)).run fuel st)) = s1
  have a1 : s1.var Var.ds_eta = st.var Var.eta := by
    rw [← h1]; simp only [run_assign, Expr.val, setVar_var, reduceCtorEq, reduceIte]
  have a2 : (s1.var Var.ds_f0).toNat = toU64 (st.arr Arr.f 0) := by
    rw [← h1]
    simp only [run_assign, Expr.val, Op1.val, setVar_var, setVar_arr, reduceCtorEq, reduceIte,
      toNat_ofNat_raw]
  have a3 : (s1.var Var.ds_g0).toNat = toU64 (st.arr Arr.g 0) := by
    rw [← h1]
    simp only [run_assign, Expr.val, Op1.val, setVar_var, setVar_arr, reduceCtorEq, reduceIte,
      toNat_ofNat_raw]
  have a4 : s1.arr = st.arr := by
    rw [← h1]; simp only [run_assign, setVar_arr]
  have a5 : s1.var Var.modulus_inv62 = st.var Var.modulus_inv62 := by
    rw [← h1]; simp only [run_assign, Expr.val, setVar_var, reduceCtorEq, reduceIte]
  have b := divsteps_62_run fuel hf s1
  rw [a1, a2, a3] at b
  have b1 : ∀ a : Arr, (divsteps_62_stmt.run fuel s1).arr a = st.arr a := by
    intro a
    rw [run_arr_frame fuel a divsteps_62_stmt s1 (by simp [divsteps_62_stmt, block, forLoop,
      divsteps_62_body_stmt, Stmt.stores]), a4]
  have b2 : (divsteps_62_stmt.run fuel s1).var Var.modulus_inv62 = st.var Var.modulus_inv62 := by
    rw [run_var_frame fuel _ divsteps_62_stmt s1 (by decide), a5]
  generalize divsteps_62_stmt.run fuel s1 = s2 at b b1 b2
  generalize h3 : (Stmt.assign Var.eta (Expr.var Var.ds_eta)).run fuel s2 = s3
  have c1 : s3.var Var.eta = (secp256k1_modinv64_divsteps_62 (st.var Var.eta)
      (toU64 (st.arr Arr.f 0)) (toU64 (st.arr Arr.g 0))).1 := by
    rw [← b, ← h3]; simp only [run_assign, Expr.val, setVar_var, reduceIte]
  have c2 : s3.trans = (secp256k1_modinv64_divsteps_62 (st.var Var.eta)
      (toU64 (st.arr Arr.f 0)) (toU64 (st.arr Arr.g 0))).2 := by
    rw [← b, ← h3]
    simp only [run_assign, Expr.val, State.trans, setVar_var, reduceCtorEq, reduceIte]
  have c3 : ∀ a : Arr, s3.arr a = st.arr a := by
    intro a; rw [← h3]; simp only [run_assign, setVar_arr, b1]
  have c4 : s3.var Var.modulus_inv62 = st.var Var.modulus_inv62 := by
    rw [← h3]; simp only [run_assign, Expr.val, setVar_var, reduceCtorEq, reduceIte, b2]
  have d := update_de_62_run fuel s3
  have e := update_fg_62_run fuel (update_de_62_stmt.run fuel s3)
  have hm3 : s3.modinfo = st.modinfo := modinfo_congr _ _ (c3 _) c4
  have f1 : ∀ x : Var, x ∉ update_de_62_stmt.assigns →
      (update_de_62_stmt.run fuel s3).var x = s3.var x :=
    fun x hx => run_var_frame fuel x update_de_62_stmt s3 hx
  rw [f1 _ (by decide), f1 _ (by decide), f1 _ (by decide), f1 _ (by decide),
    signed62_congr _ s3 Arr.f (run_arr_frame fuel _ update_de_62_stmt s3 (by decide)),
    signed62_congr _ s3 Arr.g (run_arr_frame fuel _ update_de_62_stmt s3 (by decide))] at e
  have t1 : s3.var Var.t_u = s3.trans.u := rfl
  have t2 : s3.var Var.t_v = s3.trans.v := rfl
  have t3 : s3.var Var.t_q = s3.trans.q := rfl
  have t4 : s3.var Var.t_r = s3.trans.r := rfl
  rw [t1, t2, t3, t4, c2, signed62_congr s3 st Arr.f (c3 _),
    signed62_congr s3 st Arr.g (c3 _)] at e
  rw [t1, t2, t3, t4, c2, hm3, signed62_congr s3 st Arr.d (c3 _),
    signed62_congr s3 st Arr.e (c3 _)] at d
  generalize h4 : update_de_62_stmt.run fuel s3 = s4 at d e
  have g1 : (update_fg_62_stmt.run fuel s4).signed62 Arr.d = s4.signed62 Arr.d :=
    signed62_congr _ _ _ (run_arr_frame fuel _ update_fg_62_stmt s4 (by decide))
  have g2 : (update_fg_62_stmt.run fuel s4).signed62 Arr.e = s4.signed62 Arr.e :=
    signed62_congr _ _ _ (run_arr_frame fuel _ update_fg_62_stmt s4 (by decide))
  have g3 : (update_fg_62_stmt.run fuel s4).var Var.eta = s3.var Var.eta := by
    rw [run_var_frame fuel _ update_fg_62_stmt s4 (by decide), ← h4,
      run_var_frame fuel _ update_de_62_stmt s3 (by decide)]
  simp only [State.invState, modinv_body, secp256k1_modinv64_update_de_62,
    secp256k1_modinv64_update_fg_62, g1, g2, g3, d.1, d.2, e.1, e.2, c1]
  rfl

set_option maxRecDepth 100000 in
/-- The program of the driver leaves in `*x` what the shallow `secp256k1_modinv64` returns. -/
theorem modinv_run (fuel : Nat) (hf : 63 ≤ fuel) (st : State) :
    (secp256k1_modinv64_stmt.run fuel st).signed62 Arr.x
      = secp256k1_modinv64 (st.signed62 Arr.x) st.modinfo := by
  simp only [secp256k1_modinv64_stmt, block_cons_run, block_nil_run]
  have h1 := modinv_init_run fuel st
  have m1 : (modinv_init_stmt.run fuel st).modinfo = st.modinfo :=
    modinfo_congr _ _ (run_arr_frame fuel _ modinv_init_stmt st (by decide))
      (run_var_frame fuel _ modinv_init_stmt st (by decide))
  generalize modinv_init_stmt.run fuel st = s1 at h1 m1
  have h2 := forLoop_inv Var.i 12 12 modinv_pass_stmt fuel
    (fun k s => s.invState = modinv_loop st.modinfo k (modinv_init (st.signed62 Arr.x) st.modinfo)
      ∧ s.modinfo = st.modinfo) rfl (by decide) (by omega) (by decide)
    (fun _ _ _ h => h)
    (fun k s _ h => by
      obtain ⟨p1, p2⟩ := modinv_pass_run fuel hf s
      exact ⟨by rw [p1, h.1, h.2, modinv_loop_succ], by rw [p2, h.2]⟩) s1 ⟨h1, m1⟩
  generalize (forLoop Var.i 12 modinv_pass_stmt).run fuel s1 = s2 at h2
  rw [modinv_final_run, modinv_unfold, h2.2, ← h2.1]
  rfl

theorem modinv_state_signed62 (x : Signed62) (modinfo : ModInfo) :
    (modinv_state x modinfo).signed62 Arr.x = x := rfl

theorem modinv_state_modinfo (x : Signed62) (modinfo : ModInfo) :
    (modinv_state x modinfo).modinfo = modinfo := rfl

theorem modinv_state_modulus (x : Signed62) (modinfo : ModInfo) :
    (modinv_state x modinfo).arr Arr.modulus = modinfo.modulus.limb := rfl

/-- The leakage semantics sees a conditional on data: an `if` on a variable leaks differently
from two states in which the variable is zero and non-zero. -/
theorem cond_leak_depends (fuel : Nat) (x : Var) (s1 s2 : Stmt) (st1 st2 : State)
    (h1 : st1.var x = 0) (h2 : st2.var x ≠ 0) :
    (Stmt.cond (Expr.var x) s1 s2).leak fuel st1 ≠ (Stmt.cond (Expr.var x) s1 s2).leak fuel st2 := by
  simp only [Stmt.leak, Expr.leak, Expr.val, List.nil_append, h1, ne_eq, not_true_eq_false,
    decide_False, h2, not_false_eq_true, decide_True, if_false, if_true]
  intro h
  have := (List.cons.inj h).1
  exact absurd (Obs.branch.inj this) (by decide)

/-- The leakage semantics sees an index that is data: a read `a->v[x]` leaks the value of
`x`. -/
theorem load_leak_depends (fuel : Nat) (y x : Var) (a : Arr) (st : State) :
    (Stmt.assign y (Expr.load a (Expr.var x))).leak fuel st = [Obs.index a (st.var x)] := rfl

/-- **C6.** In the leakage semantics of the deep embedding (the outcome of every `if` and of
every loop test and the array and index of every array access, in program order), run with
fuel for at least 63 passes per loop: for a fixed modulus descriptor the leakage of
`secp256k1_modinv64` is the same for any two inputs `x1`, `x2`; it is `modinv_trace` of the
limbs of the modulus, that is the declarations, exactly 12 passes of the driver loop, each
with a call of `divsteps_62` that makes exactly 62 passes, and the final statements; the
program returns in `*x` what the shallow `secp256k1_modinv64` returns; `divsteps_62` leaks
62 successful loop tests and a failing one from every state; and one pass of the driver and
the whole driver leak the same from any two states that agree on the limbs of the modulus,
whatever `eta`, `f`, `g`, `d`, `e` and the other variables hold. -/
theorem modinv_constant_time (modinfo : ModInfo) (x1 x2 : Signed62) (fuel : Nat)
    (hf : 63 ≤ fuel) :
    secp256k1_modinv64_stmt.leak fuel (modinv_state x1 modinfo)
      = secp256k1_modinv64_stmt.leak fuel (modinv_state x2 modinfo) ∧
    secp256k1_modinv64_stmt.leak fuel (modinv_state x1 modinfo)
      = modinv_trace modinfo.modulus.limb ∧
    (secp256k1_modinv64_stmt.run fuel (modinv_state x1 modinfo)).signed62 Arr.x
      = secp256k1_modinv64 x1 modinfo ∧
    (∀ st : State, divsteps_62_stmt.leak fuel st
      = repeat_trace 62 [Obs.branch true] ++ [Obs.branch false]) ∧
    (∀ st1 st2 : State, st1.arr Arr.modulus = st2.arr Arr.modulus →
      modinv_pass_stmt.leak fuel st1 = modinv_pass_stmt.leak fuel st2 ∧
      secp256k1_modinv64_stmt.leak fuel st1 = secp256k1_modinv64_stmt.leak fuel st2) := by
  have h1 := modinv_leak fuel hf modinfo.modulus.limb (modinv_state x1 modinfo)
    (modinv_state_modulus x1 modinfo)
  have h2 := modinv_leak fuel hf modinfo.modulus.limb (modinv_state x2 modinfo)
    (modinv_state_modulus x2 modinfo)
  refine ⟨h1.trans h2.symm, h1, ?_, fun st => divsteps_62_leak fuel hf st, ?_⟩
  · have := modinv_run fuel hf (modinv_state x1 modinfo)
    rw [modinv_state_signed62, modinv_state_modinfo] at this
    exact this
  · intro st1 st2 h
    exact ⟨(modinv_pass_leak fuel hf _ st1 rfl).trans (modinv_pass_leak fuel hf _ st2 h.symm).symm,
      (modinv_leak fuel hf _ st1 rfl).trans (modinv_leak fuel hf _ st2 h.symm).symm⟩

theorem modinv_constant_time_witness :
    (63 ≤ 63) ∧
    (secp256k1_modinv64_stmt.leak 63 (modinv_state (ofLimb 3) (modinfo_P 2866531139136965327))
      = secp256k1_modinv64_stmt.leak 63
          (modinv_state (ofLimb 5) (modinfo_P 2866531139136965327)) ∧
    secp256k1_modinv64_stmt.leak 63 (modinv_state (ofLimb 3) (modinfo_P 2866531139136965327))
      = modinv_trace (modinfo_P 2866531139136965327).modulus.limb ∧
    (secp256k1_modinv64_stmt.run 63
        (modinv_state (ofLimb 3) (modinfo_P 2866531139136965327))).signed62 Arr.x
      = secp256k1_modinv64 (ofLimb 3) (modinfo_P 2866531139136965327) ∧
    (∀ st : State, divsteps_62_stmt.leak 63 st
      = repeat_trace 62 [Obs.branch true] ++ [Obs.branch false]) ∧
    (∀ st1 st2 : State, st1.arr Arr.modulus = st2.arr Arr.modulus →
      modinv_pass_stmt.leak 63 st1 = modinv_pass_stmt.leak 63 st2 ∧
      secp256k1_modinv64_stmt.leak 63 st1 = secp256k1_modinv64_stmt.leak 63 st2)) :=
  ⟨le_refl 63,
    modinv_constant_time (modinfo_P 2866531139136965327) (ofLimb 3) (ofLimb 5) 63 (le_refl 63)⟩

end Modinv64
